import Mathlib

/-! # Scene Fusion reconciler: a verification development

Shallow embedding of the property tree (`sfPropertyUtil`) and of the actor
manager (`sfActorManager`) of the Scene Fusion plugin, with the properties
stated in the specification proved about the embedded code.

Conventions.
* A property is a tagged variant `VALUE | LIST | DICTIONARY`.  A dictionary is
  an association list; a well formed dictionary has pairwise distinct keys.
* In-place mutation of a C++ object is modelled by returning the new value.
* Every mutating call made on a property (`SetValue`, `Set`, `Insert`,
  `Remove`, `AddRange`, `Resize`) is recorded in a log, in program order.
-/

namespace SceneFusion

/-! ## Property tree -/

/-- Payload of a value property (`ksMultiType`): a number, a string, or the
bytes of three floats (an `FVector` or an `FRotator`).  Floats are treated as
exact opaque numbers. -/
inductive ksMultiType where
  | int (n : Int)
  | str (s : String)
  | vec (x y z : Int)
  deriving DecidableEq, Repr

/-- Scalar payload of a value property. -/
abbrev Scalar := ksMultiType

/-- Field name of a dictionary property (`sfName`). -/
abbrev sfName := String

/-- Tagged variant `sfProperty`: value, list or dictionary, nested to any depth. -/
inductive sfProperty where
  | value (v : Scalar)
  | list (elems : List sfProperty)
  | dict (fields : List (sfName × sfProperty))

/-- The enum `sfProperty::Types` as far as `Copy` switches on it. -/
inductive PropertyType where
  | VALUE
  | LIST
  | DICTIONARY
  deriving DecidableEq, Repr

/-- Method `sfProperty::Type()`. -/
def sfProperty.Type_ : sfProperty → PropertyType
  | .value _ => .VALUE
  | .list _ => .LIST
  | .dict _ => .DICTIONARY

/-- Mutating calls that `Copy` can make on the destination property. -/
inductive Mutation where
  | SetValue
  | Set
  | Insert
  | Remove
  | AddRange
  | Resize
  deriving DecidableEq, Repr

/-- Method `sfDictionaryProperty::HasKey`. -/
def HasKey (d : List (sfName × sfProperty)) (k : sfName) : Bool :=
  d.any (fun p => p.1 == k)

/-- Method `sfDictionaryProperty::TryGet`: the property stored under `k`, if any. -/
def TryGet : List (sfName × sfProperty) → sfName → Option sfProperty
  | [], _ => none
  | (k', v) :: rest, k => if k' == k then some v else TryGet rest k

/-- Method `sfDictionaryProperty::Remove`. -/
def DictRemove (d : List (sfName × sfProperty)) (k : sfName) : List (sfName × sfProperty) :=
  d.filter (fun p => !(p.1 == k))

/-- Method `sfDictionaryProperty::Set`: overwrite the entry of `k`, or add one. -/
def DictSet : List (sfName × sfProperty) → sfName → sfProperty → List (sfName × sfProperty)
  | [], k, v => [(k, v)]
  | (k', v') :: rest, k, v =>
    if k' == k then (k', v) :: rest else (k', v') :: DictSet rest k v

mutual
/-- Method `sfProperty::Equals`: deep structural equality.  Values carry the
same scalar, lists have the same elements in the same order, dictionaries have
the same key set with equal values. -/
def Equals : sfProperty → sfProperty → Bool
  | .value a, .value b => a == b
  | .list xs, .list ys => EqualsList xs ys
  | .dict a, .dict b => b.all (fun p => HasKey a p.1) && EqualsFields a b
  | _, _ => false
/-- Element by element comparison of two lists. -/
def EqualsList : List sfProperty → List sfProperty → Bool
  | [], [] => true
  | x :: xs, y :: ys => Equals x y && EqualsList xs ys
  | _, _ => false
/-- Every field of the first dictionary is present, with an equal value, in the second. -/
def EqualsFields : List (sfName × sfProperty) → List (sfName × sfProperty) → Bool
  | [], _ => true
  | (k, v) :: rest, b =>
    (match TryGet b k with
     | some w => Equals v w
     | none => false) && EqualsFields rest b
end

/-- Outcome of `Copy`: the returned flag, the destination afterwards, and the
mutating calls made on it. -/
structure CopyResult where
  ok : Bool
  dest : sfProperty
  log : List Mutation

/-- State of the loop of `CopyList` once it has run. -/
structure ListLoop where
  dest : List sfProperty
  toAdd : List sfProperty
  log : List Mutation

/-- State of the second loop of `CopyDict` once it has run. -/
structure DictLoop where
  dest : List (sfName × sfProperty)
  log : List Mutation

/-- Method `sfListProperty::Get`; the callers check the index against `Size()`. -/
def Get (l : List sfProperty) (i : Nat) : sfProperty :=
  l.getD i (.value (.int 0))

/-- Tail of `sfPropertyUtil::CopyList` after its loop: the collected elements
are appended with `AddRange`, otherwise a longer destination is cut with `Resize`. -/
def CopyListFinish (srcSize : Nat) (r : ListLoop) : List sfProperty × List Mutation :=
  if 0 < r.toAdd.length then (r.dest ++ r.toAdd, r.log ++ [Mutation.AddRange])
  else if r.dest.length > srcSize then (r.dest.take srcSize, r.log ++ [Mutation.Resize])
  else (r.dest, r.log)

/-- First loop of `sfPropertyUtil::CopyDict`: the keys of `dest` that `src` lacks. -/
def KeysToRemove (dest src : List (sfName × sfProperty)) : List sfName :=
  (dest.filter (fun p => !(HasKey src p.1))).map (fun p => p.1)

mutual
/-- Function `sfPropertyUtil::Copy` on non-null arguments. -/
def Copy (dest : sfProperty) (src : sfProperty) : CopyResult :=
  match src with
  | .value s =>
    match dest with
    | .value d =>
      if !(Equals (.value d) (.value s)) then ⟨true, .value s, [Mutation.SetValue]⟩
      else ⟨true, .value d, []⟩
    | _ => ⟨false, dest, []⟩
  | .list s =>
    match dest with
    | .list d =>
      -- CopyList(destPtr->AsList(), srcPtr->AsList())
      let r := CopyListFinish s.length (CopyListLoop s 0 d [])
      ⟨true, .list r.1, r.2⟩
    | _ => ⟨false, dest, []⟩
  | .dict s =>
    match dest with
    | .dict d =>
      -- CopyDict(destPtr->AsDict(), srcPtr->AsDict())
      let toRemove := KeysToRemove d s
      let r := CopyDictLoop s (toRemove.foldl DictRemove d)
      ⟨true, .dict r.dest, toRemove.map (fun _ => Mutation.Remove) ++ r.log⟩
    | _ => ⟨false, dest, []⟩
termination_by structural src
/-- The `for` loop of `sfPropertyUtil::CopyList`, entered at index `i` with the
source elements `src[i], src[i+1], ...` still to visit. -/
def CopyListLoop (src : List sfProperty) (i : Nat) (dest : List sfProperty)
    (toAdd : List sfProperty) : ListLoop :=
  match src with
  | [] => ⟨dest, toAdd, []⟩
  | e :: rest =>
    if dest.length ≤ i then
      CopyListLoop rest (i + 1) dest (toAdd ++ [e])
    else if Equals e (Get dest i) then
      CopyListLoop rest (i + 1) dest toAdd
    else if decide (dest.length > i + 1) && Equals e (Get dest (i + 1)) then
      let r := CopyListLoop rest (i + 1) (dest.eraseIdx i) toAdd
      ⟨r.dest, r.toAdd, Mutation.Remove :: r.log⟩
    else if (match rest with
             | e' :: _ => Equals (Get dest i) e'
             | [] => false) then
      let r := CopyListSkip rest (i + 1) (dest.insertIdx i e) toAdd
      ⟨r.dest, r.toAdd, Mutation.Insert :: r.log⟩
    else
      let c := Copy (Get dest i) e
      if !c.ok then
        let r := CopyListLoop rest (i + 1) (dest.set i e) toAdd
        ⟨r.dest, r.toAdd, c.log ++ Mutation.Set :: r.log⟩
      else
        let r := CopyListLoop rest (i + 1) (dest.set i c.dest) toAdd
        ⟨r.dest, r.toAdd, c.log ++ r.log⟩
termination_by structural src
/-- The extra `i++` of the insertion branch: the source element at index `i`
is passed over and the loop goes on at `i + 1`. -/
def CopyListSkip (src : List sfProperty) (i : Nat) (dest : List sfProperty)
    (toAdd : List sfProperty) : ListLoop :=
  match src with
  | [] => ⟨dest, toAdd, []⟩
  | _ :: rest => CopyListLoop rest (i + 1) dest toAdd
termination_by structural src
/-- The loop of `sfPropertyUtil::CopyDict` over the fields of the source. -/
def CopyDictLoop (src : List (sfName × sfProperty)) (dest : List (sfName × sfProperty)) :
    DictLoop :=
  match src with
  | [] => ⟨dest, []⟩
  | (k, v) :: rest =>
    match TryGet dest k with
    | none =>
      let r := CopyDictLoop rest (DictSet dest k v)
      ⟨r.dest, Mutation.Set :: r.log⟩
    | some dv =>
      let c := Copy dv v
      if !c.ok then
        let r := CopyDictLoop rest (DictSet dest k v)
        ⟨r.dest, c.log ++ Mutation.Set :: r.log⟩
      else
        let r := CopyDictLoop rest (DictSet dest k c.dest)
        ⟨r.dest, c.log ++ r.log⟩
termination_by structural src
end

/-- Function `sfPropertyUtil::Copy` with its null guard: a null pointer is `none`. -/
def CopyPtr (destPtr srcPtr : Option sfProperty) : Bool × Option sfProperty × List Mutation :=
  match destPtr, srcPtr with
  | some d, some s => let r := Copy d s; (r.ok, some r.dest, r.log)
  | _, _ => (false, destPtr, [])

/-- Distinct keys: the representation invariant of a dictionary. -/
def DistinctKeys : List (sfName × sfProperty) → Bool
  | [] => true
  | (k, _) :: rest => !(HasKey rest k) && DistinctKeys rest

mutual
/-- Well formed property: every dictionary in it, at any depth, has distinct keys. -/
def WellFormed : sfProperty → Bool
  | .value _ => true
  | .list xs => WellFormedList xs
  | .dict kvs => DistinctKeys kvs && WellFormedFields kvs
/-- Every element of the list is well formed. -/
def WellFormedList : List sfProperty → Bool
  | [] => true
  | x :: xs => WellFormed x && WellFormedList xs
/-- Every field value of the dictionary is well formed. -/
def WellFormedFields : List (sfName × sfProperty) → Bool
  | [] => true
  | (_, v) :: rest => WellFormed v && WellFormedFields rest
end

/-- What the element-wise recursive call must deliver for the list loop to be right. -/
def CopyGood (e : sfProperty) : Prop :=
  ∀ d : sfProperty, WellFormed d = true → (Copy d e).ok = true →
    Equals (Copy d e).dest e = true ∧ WellFormed (Copy d e).dest = true

/-! ## Inbound list insertion (`OnListAdd`) -/

/-- The container kinds `OnListAdd` tries in turn. -/
inductive UPropertyKind where
  | Array
  | Set
  | Map
  | Other
  deriving DecidableEq, Repr

/-- An `sfUPropertyInstance`: the property found by reflection and its data.
The data of an array property is the list of its elements. -/
structure sfUPropertyInstance (α : Type) where
  IsValid : Bool
  Property : UPropertyKind
  Data : List α

/-- Method `FScriptArrayHelper::InsertValues(index, count)`: `count` default
constructed elements are inserted before position `index`. -/
def InsertValues {α : Type} (array : List α) (index count : Nat) (dflt : α) : List α :=
  array.take index ++ List.replicate count dflt ++ array.drop index

/-- The `for` loop of `ArrayInsert`, with `n` iterations left at index `i`:
`SetValue(array[i], listPtr->Get(i))`.  `SetValue` assigns the element (a type
handler that converts exactly) and does nothing for a null property. -/
def ArrayInsertLoop {α : Type} (list : List α) : Nat → Nat → List α → List α
  | 0, _, array => array
  | n + 1, i, array =>
    ArrayInsertLoop list n (i + 1)
      (match list[i]? with
       | some v => array.set i v
       | none => array)

/-- Function `sfActorManager::ArrayInsert`. -/
def ArrayInsert {α : Type} (uprop : sfUPropertyInstance α) (list : List α)
    (index count : Nat) (dflt : α) : Bool × sfUPropertyInstance α :=
  if uprop.Property ≠ UPropertyKind.Array then (false, uprop)
  else
    (true, { uprop with
      Data := ArrayInsertLoop list count index (InsertValues uprop.Data index count dflt) })

/-- Function `sfActorManager::OnListAdd`, as far as arrays go.  `actor` is the
entry of the list's container object in `m_objectToActorMap`, `uprop` what
`FindUProperty` finds on that actor.  Sets and maps (`SetInsert`, `MapInsert`)
are outside this embedding: such a property comes back as `none`. -/
def OnListAdd {α : Type} (actor : Option Nat) (uprop : sfUPropertyInstance α)
    (list : List α) (index count : Nat) (dflt : α) : Option (sfUPropertyInstance α) :=
  match actor with
  | none => some uprop
  | some _ =>
    if !uprop.IsValid then some uprop
    else
      let r := ArrayInsert uprop list index count dflt
      if r.1 then some r.2 else none

/-! ## Lock state reporting (`InvokeOnLockStateChange`) -/

/-- The enum `sfActorManager::LockType`. -/
inductive LockType where
  | NotSynced
  | Unlocked
  | PartiallyLocked
  | FullyLocked
  deriving DecidableEq, Repr

/-- The branches of `sfActorManager::InvokeOnLockStateChange` on the answers of
`objPtr->IsFullyLocked()` and `objPtr->IsPartiallyLocked()`. -/
def LockTypeOf (isFullyLocked isPartiallyLocked : Bool) : LockType :=
  if isFullyLocked then LockType.FullyLocked
  else if isPartiallyLocked then LockType.PartiallyLocked
  else LockType.Unlocked

/-- A replicated object as the lock queries see it: whether it is the target of
a lock, the lock owner, and its children. -/
inductive LockedObject where
  | node (fullyLocked : Bool) (lockOwner : Option Nat) (children : List LockedObject)

/-- Method `sfObject::IsFullyLocked`. -/
def LockedObject.IsFullyLocked : LockedObject → Bool
  | .node f _ _ => f

/-- Method `sfObject::LockOwner`. -/
def LockedObject.LockOwner : LockedObject → Option Nat
  | .node _ o _ => o

mutual
/-- The proper descendants of an object. -/
def LockedObject.Descendants : LockedObject → List LockedObject
  | .node _ _ cs => LockedObject.DescendantsOfList cs
/-- The objects of a list together with their descendants. -/
def LockedObject.DescendantsOfList : List LockedObject → List LockedObject
  | [] => []
  | c :: cs => c :: (LockedObject.Descendants c ++ LockedObject.DescendantsOfList cs)
end

/-- Modelled from the spec: `sfObject::IsPartiallyLocked` is library code that is
not in the repository.  The spec gives `PartiallyLocked` as "some descendant is
locked, not this object". -/
def LockedObject.IsPartiallyLocked (o : LockedObject) : Bool :=
  !o.IsFullyLocked && o.Descendants.any LockedObject.IsFullyLocked

/-- Function `sfActorManager::InvokeOnLockStateChange`: the lock type and the
lock owner passed to the `OnLockStateChange` delegate. -/
def InvokeOnLockStateChange (o : LockedObject) : LockType × Option Nat :=
  (LockTypeOf o.IsFullyLocked o.IsPartiallyLocked, o.LockOwner)

/-! ## Actor manager: host scene, replicated objects, manager state

Pointers are identities: an actor, an object and a level are numbers.  The
host scene (Unreal) and the replicated object library are parts of the state.
Calls that leave the process (session requests, tree and property mutations,
the lock state delegate) are also appended to `trace`, in program order. -/

/-- An `AActor*`. -/
abbrev AActor := Nat

/-- An `sfObject::SPtr`. -/
abbrev sfObject := Nat

/-- A `ULevel*`. -/
abbrev ULevel := Nat

/-- A `UProperty*`, identified by `GetName()`. -/
abbrev UProperty := String

/-- An `FVector` or an `FRotator`: three floats, treated as exact numbers. -/
structure FVector where
  X : Int
  Y : Int
  Z : Int
  deriving DecidableEq, Repr

/-- Object type tags (`sfType`). -/
inductive sfType where
  | Actor
  | Avatar
  | Level
  | LevelLock
  deriving DecidableEq, Repr

namespace sfProp
/-- Constant `sfProp::Name`. -/
def Name : sfName := "#name"
/-- Constant `sfProp::Class`. -/
def Class : sfName := "#class"
/-- Constant `sfProp::Label`. -/
def Label : sfName := "#label"
/-- Constant `sfProp::Folder`. -/
def Folder : sfName := "#folder"
/-- Constant `sfProp::Location`. -/
def Location : sfName := "#location"
/-- Constant `sfProp::Rotation`. -/
def Rotation : sfName := "#rotation"
/-- Constant `sfProp::Scale`. -/
def Scale : sfName := "#scale"
/-- Constant `sfProp::Mesh`. -/
def Mesh : sfName := "#mesh"
/-- Constant `sfProp::Materials`. -/
def Materials : sfName := "#materials"
/-- Constant `sfProp::Template`. -/
def Template : sfName := "#template"
/-- Constant `sfProp::IsPersistentLevel`. -/
def IsPersistentLevel : sfName := "#isPersistent"
end sfProp

/-- Functions `sfPropertyUtil::FromVector` and `FromRotator`. -/
def FromVector (v : FVector) : sfProperty := .value (.vec v.X v.Y v.Z)

/-- Functions `sfPropertyUtil::ToVector` and `ToRotator`; on a property that
does not hold three floats the C++ reads foreign bytes, here zero. -/
def ToVector : sfProperty → FVector
  | .value (.vec x y z) => ⟨x, y, z⟩
  | _ => ⟨0, 0, 0⟩

/-- Function `sfPropertyUtil::FromString`. -/
def FromString (s : String) : sfProperty := .value (.str s)

/-- Function `sfPropertyUtil::ToString`. -/
def ToString : sfProperty → String
  | .value (.str s) => s
  | _ => ""

/-- Method `sfDictionaryProperty::Get`.  A missing key gives a null pointer: the
converters of `FromProperty` (`ToVector`, `ToRotator`) test it and give the zero
vector, while `sfPropertyUtil::ToString` and the member `ToString` dereference it;
the value returned here for a missing key reads as the zero vector, and the
dereference is recorded apart by `ManagerState.DerefGet`. -/
def DictGet (d : List (sfName × sfProperty)) (k : sfName) : sfProperty :=
  (TryGet d k).getD (.value (.int 0))

/-- The root scene component of an actor. -/
structure USceneComponent where
  RelativeLocation : FVector
  RelativeRotation : FVector
  RelativeScale3D : FVector
  deriving DecidableEq, Repr

/-- What the casts to `AStaticMeshActor`, `ASkeletalMeshActor` and `AEmitter` give. -/
inductive ActorKind where
  | StaticMesh
  | SkeletalMesh
  | Emitter
  | Other
  deriving DecidableEq, Repr

/-- A mesh component: the path of its mesh (`none` for a null mesh) and the
paths of its materials as `GetMaterials()` lists them. -/
structure MeshComponent where
  Mesh : Option String
  Materials : List (Option String)
  deriving DecidableEq, Repr

/-- A particle system component: the path of its template, if it has one. -/
structure ParticleSystemComponent where
  Template : Option String
  deriving DecidableEq, Repr

/-- The part of an `AActor` that the manager reads and writes. -/
structure ActorData where
  Name : String
  /-- The class name, or for a blueprint class the name of its outer. -/
  Class : String
  ActorLabel : String
  FolderPath : String
  RootComponent : Option USceneComponent
  AttachParentActor : Option AActor
  Level : ULevel
  IsPendingKill : Bool
  /-- Whether `GetOutermost() == GetTransientPackage()`. -/
  InTransientPackage : Bool
  bHiddenEdLayer : Bool
  IsEditable : Bool
  IsListedInSceneOutliner : Bool
  HasTransientFlag : Bool
  IsABuilderBrush : Bool
  IsWorldSettings : Bool
  IsBrush : Bool
  Kind : ActorKind
  MeshComponent : Option MeshComponent
  ParticleSystemComponent : Option ParticleSystemComponent
  deriving DecidableEq, Repr

/-- An actor as `SpawnActor` leaves it before any field is set. -/
def ActorData.blank : ActorData :=
  { Name := "", Class := "", ActorLabel := "", FolderPath := "", RootComponent := none,
    AttachParentActor := none, Level := 0, IsPendingKill := false,
    InTransientPackage := false, bHiddenEdLayer := false, IsEditable := true,
    IsListedInSceneOutliner := true, HasTransientFlag := false, IsABuilderBrush := false,
    IsWorldSettings := false, IsBrush := false, Kind := ActorKind.Other,
    MeshComponent := none, ParticleSystemComponent := none }

/-- A streaming level (`ULevelStreaming`): the location and the yaw of its
`LevelTransform` and its folder path. -/
structure ULevelStreaming where
  Location : FVector
  Yaw : Int
  FolderPath : String
  deriving DecidableEq, Repr

/-- What the level manager reads of a `ULevel`. -/
structure LevelData where
  /-- Whether `GetOutermost() == GetTransientPackage()`: the buffer level. -/
  InTransientPackage : Bool
  /-- The name of the outermost package, `GetOutermost()->GetName()`. -/
  Path : String
  /-- The result of `FLevelUtils::FindStreamingLevel(levelPtr)`. -/
  StreamingLevel : Option ULevelStreaming
  deriving DecidableEq, Repr

/-- A level outside the transient package, without path and streaming level. -/
def LevelData.blank : LevelData :=
  { InTransientPackage := false, Path := "", StreamingLevel := none }

/-- The host scene. -/
structure HostScene where
  actor : AActor → ActorData
  /-- Every actor object, alive or pending kill, in iteration order. -/
  allActors : List AActor
  /-- The editor selection. -/
  selection : List AActor
  /-- Actors at or above this number do not exist yet; `SpawnActor` takes it. -/
  nextActor : AActor
  /-- Class lookup (`FindObject<UClass>`, `LoadObject<UBlueprint>`): the class
  default actor of a class name or blueprint path, if it resolves. -/
  findClass : String → Option ActorData
  /-- Asset lookup (`LoadObject`): whether the path resolves. -/
  assetExists : String → Bool
  /-- The material slots a mesh brings: its default materials. -/
  meshMaterials : String → List (Option String)
  /-- The name the host gives an actor when its label is set (`SetActorLabel`
  renames the actor). -/
  nameForLabel : AActor → String → String
  /-- Whether `FActorFolders::IsAvailable()`. -/
  foldersAvailable : Bool
  /-- The name `SpawnActor` gives a new actor. -/
  spawnName : AActor → String
  /-- The world's persistent level. -/
  PersistentLevel : ULevel
  /-- The name `sfActorUtil::Rename` ends with: the wanted name with random
  digits appended until it is free. -/
  availableName : String → String
  /-- The relative transform an actor gets when it is attached or detached with
  `KeepWorldTransform`, from its new parent and its old relative transform. -/
  keepWorldTransform : AActor → Option AActor → USceneComponent → USceneComponent
  /-- The levels of the world as `GetLevelIterator` visits them. -/
  levels : List ULevel := []
  /-- What the level manager reads of each level. -/
  level : ULevel → LevelData := fun _ => LevelData.blank
  /-- The world scale `GetActorScale()` of an actor with the given root
  component; for an actor without attach parent it is the relative scale. -/
  actorScale : AActor → USceneComponent → FVector := fun _ r => r.RelativeScale3D
  /-- The root component of an actor after `SetActorScale3D` has set its world
  scale. -/
  setActorScale : AActor → FVector → USceneComponent → USceneComponent :=
    fun _ v r => { r with RelativeScale3D := v }

/-- A replicated object. -/
structure ObjectData where
  Type_ : sfType
  /-- The root dictionary `Property()->AsDict()`. -/
  Property : List (sfName × sfProperty)
  Parent : Option sfObject
  Children : List sfObject
  IsFullyLocked : Bool
  IsPartiallyLocked : Bool
  LockOwner : Option Nat
  IsSyncing : Bool

/-- Method `sfObject::IsLocked`: locked fully or partially by another user. -/
def ObjectData.IsLocked (o : ObjectData) : Bool :=
  o.IsFullyLocked || o.IsPartiallyLocked

/-- An object as `sfObject::Create(type, properties)` makes it. -/
def ObjectData.create (t : sfType) (props : List (sfName × sfProperty)) : ObjectData :=
  { Type_ := t, Property := props, Parent := none, Children := [], IsFullyLocked := false,
    IsPartiallyLocked := false, LockOwner := none, IsSyncing := false }

/-- Calls that leave the manager. -/
inductive Effect where
  /-- Session call `Create(objects, parent, index)`. -/
  | Create (objects : List sfObject) (parent : sfObject) (index : Nat)
  /-- Session call `Create(object)` of an object without a parent. -/
  | CreateRoot (obj : sfObject)
  /-- Session call `Delete(object)`. -/
  | Delete (obj : sfObject)
  | RequestLock (obj : sfObject)
  | ReleaseLock (obj : sfObject)
  | LeaveSession
  | AddChild (parent child : sfObject)
  | Detach (obj : sfObject)
  /-- A `Set(key, value)` on the root dictionary of an object. -/
  | PropertySet (obj : sfObject) (key : sfName)
  /-- The delegate `OnLockStateChange`. -/
  | OnLockStateChange (actor : AActor) (lockType : LockType) (owner : Option Nat)
  /-- The handler `OnCreate(object, 0)` was run. -/
  | OnCreate (obj : sfObject)
  /-- Host call `FActorFolders::DeleteFolder`. -/
  | DeleteFolder (path : String)
  /-- Host call `GEditor->RebuildAlteredBSP`. -/
  | RebuildAlteredBSP
  deriving DecidableEq, Repr

/-- State of the actor manager with the collaborators it calls. -/
structure ManagerState where
  host : HostScene
  objects : sfObject → ObjectData
  /-- Objects at or above this number do not exist yet; `sfObject::Create` takes it. -/
  nextObject : sfObject
  m_actorToObjectMap : AActor → Option sfObject
  m_objectToActorMap : sfObject → Option AActor
  m_uploadList : List AActor
  m_propertyChangeMap : List (AActor × List UProperty)
  m_recreateQueue : List sfObject
  m_syncLabelQueue : List AActor
  m_revertFolderQueue : List AActor
  m_syncParentList : List AActor
  m_foldersToCheck : List String
  m_selectedActors : List (AActor × sfObject)
  m_movingActors : Bool
  /-- Seconds until BSP is rebuilt; negative when no rebuild is pending. -/
  m_bspRebuildDelay : Rat
  /-- The level manager's `m_levelToObjectMap`. -/
  m_levelToObjectMap : ULevel → Option sfObject
  /-- The level manager's `m_objectToLevelMap`. -/
  m_objectToLevelMap : sfObject → Option ULevel
  /-- The level manager's `m_levelsToUpload`. -/
  m_levelsToUpload : List ULevel
  /-- The level manager's `m_lockObject`. -/
  m_lockObject : Option sfObject
  /-- The flag `SceneFusion::IsSessionCreator`. -/
  IsSessionCreator : Bool
  /-- A null pointer was dereferenced; the C++ is undefined from there on. -/
  fault : Bool
  trace : List Effect

/-! ## Replicated object library -/

/-- The state with the data of one object replaced. -/
def ManagerState.setObject (s : ManagerState) (o : sfObject) (d : ObjectData) : ManagerState :=
  { s with objects := Function.update s.objects o d }

/-- The state with the data of one actor replaced. -/
def ManagerState.setActor (s : ManagerState) (a : AActor) (d : ActorData) : ManagerState :=
  { s with host := { s.host with actor := Function.update s.host.actor a d } }

/-- The state with one more call in the trace. -/
def ManagerState.emit (s : ManagerState) (e : Effect) : ManagerState :=
  { s with trace := s.trace ++ [e] }

/-- Modelled from the spec: part of the model of `sfObject::InsertChild`.  The
ancestors of an object, nearest first, following at most `fuel` parent links; `none` when the chain does not end within `fuel` links. -/
def AncestorChain (objects : sfObject → ObjectData) : Nat → sfObject → Option (List sfObject)
  | 0, o => if (objects o).Parent.isNone then some [] else none
  | fuel + 1, o =>
    match (objects o).Parent with
    | none => some []
    | some p => (AncestorChain objects fuel p).map (fun l => p :: l)

/-- Modelled from the spec: part of the model of `sfObject::InsertChild`.
Whether `child` may become a child of `parent` without breaking the forest:
both are among the `n` objects that exist, `parent` is not `child` and does not
lie below it. -/
def CanAttach (objects : sfObject → ObjectData) (n : Nat) (parent child : sfObject) : Bool :=
  decide (parent < n) && decide (child < n) &&
    match AncestorChain objects n parent with
    | none => false
    | some l => child != parent && !(l.contains child)

/-- Modelled from the spec: `sfObject::Detach` is library code that is not in the
repository.  The object leaves its parent's children list and has no parent. -/
def TreeDetach (objects : sfObject → ObjectData) (o : sfObject) : sfObject → ObjectData :=
  match (objects o).Parent with
  | none => objects
  | some p =>
    let t := Function.update objects p { objects p with Children := (objects p).Children.erase o }
    Function.update t o { t o with Parent := none }

/-- Modelled from the spec: `sfObject::InsertChild` is library code that is not in
the repository.  The spec keeps the object graph a rooted forest in which a
child is in exactly one children list, the one of its parent pointer: the child
leaves its old parent and enters the list of the new one at `index` (at the end
when the index lies past the end), and a call that would put an object below
itself changes nothing.  `n` is the number of objects that exist. -/
def TreeInsertChild (objects : sfObject → ObjectData) (n : Nat) (parent : sfObject)
    (index : Nat) (child : sfObject) : sfObject → ObjectData :=
  if CanAttach objects n parent child then
    let t := TreeDetach objects child
    let t := Function.update t parent
      { t parent with
        Children := (t parent).Children.insertIdx (min index (t parent).Children.length) child }
    Function.update t child { t child with Parent := some parent }
  else objects

/-- Modelled from the spec: `sfObject::AddChild`, an insertion at the end of the
children list (see `TreeInsertChild`). -/
def TreeAddChild (objects : sfObject → ObjectData) (n : Nat) (parent child : sfObject) :
    sfObject → ObjectData :=
  TreeInsertChild objects n parent ((TreeDetach objects child parent).Children.length) child

/-- Call `parentPtr->AddChild(childPtr)`. -/
def ManagerState.AddChild (s : ManagerState) (parent child : sfObject) : ManagerState :=
  { s with objects := TreeAddChild s.objects s.nextObject parent child,
           trace := s.trace ++ [Effect.AddChild parent child] }

/-- Call `objPtr->Detach()`. -/
def ManagerState.Detach (s : ManagerState) (o : sfObject) : ManagerState :=
  { s with objects := TreeDetach s.objects o, trace := s.trace ++ [Effect.Detach o] }

/-- Modelled from the spec: `sfSession::Create(objects, parent, index)` is
transport code that is not in the repository.  The objects become children of
`parent`, the first at `index`, the others after it in order. -/
def ManagerState.SessionCreate (s : ManagerState) (objs : List sfObject) (parent : sfObject)
    (index : Nat) : ManagerState :=
  { s with
    objects := (objs.foldl
      (fun (acc : (sfObject → ObjectData) × Nat) o =>
        (TreeInsertChild acc.1 s.nextObject parent acc.2 o, acc.2 + 1))
      (s.objects, index)).1,
    trace := s.trace ++ [Effect.Create objs parent index] }

/-- Modelled from the spec: `sfSession::Delete(object)` is transport code that is
not in the repository.  The object is destroyed: it leaves the tree. -/
def ManagerState.SessionDelete (s : ManagerState) (o : sfObject) : ManagerState :=
  { s with objects := TreeDetach s.objects o, trace := s.trace ++ [Effect.Delete o] }

/-- Call `propertiesPtr->Set(key, value)` on the root dictionary of an object. -/
def ManagerState.PropertySet (s : ManagerState) (o : sfObject) (key : sfName)
    (value : sfProperty) : ManagerState :=
  { s with
    objects := Function.update s.objects o
      { s.objects o with Property := DictSet (s.objects o).Property key value },
    trace := s.trace ++ [Effect.PropertySet o key] }

/-- Call `sfObject::Create(type, properties)`: a new object without a parent. -/
def ManagerState.CreateSfObject (s : ManagerState) (t : sfType)
    (props : List (sfName × sfProperty)) : ManagerState × sfObject :=
  ({ s with objects := Function.update s.objects s.nextObject (ObjectData.create t props),
            nextObject := s.nextObject + 1 }, s.nextObject)

/-! ## Level manager, as far as the actor manager calls it -/

/-- Function `sfLevelManager::RequestLock`. -/
def LevelManager_RequestLock (s : ManagerState) : ManagerState :=
  let s1 :=
    if s.m_lockObject.isNone && s.IsSessionCreator then
      let r := s.CreateSfObject sfType.LevelLock []
      { r.1 with m_lockObject := some r.2, trace := r.1.trace ++ [Effect.CreateRoot r.2] }
    else s
  match s1.m_lockObject with
  | some l => s1.emit (Effect.RequestLock l)
  | none => s1

/-- Function `sfLevelManager::GetOrCreateLevelObject` on a non-null level. -/
def GetOrCreateLevelObject (s : ManagerState) (level : ULevel) : ManagerState × Option sfObject :=
  match s.m_levelToObjectMap level with
  | some o => (s, some o)
  | none =>
    let s1 := LevelManager_RequestLock s
    ({ s1 with m_levelsToUpload :=
        if s1.m_levelsToUpload.contains level then s1.m_levelsToUpload
        else s1.m_levelsToUpload ++ [level] }, none)

/-! ## Host scene calls -/

/-- The world's actors as `TActorIterator` visits them: those not pending kill. -/
def HostScene.WorldActors (h : HostScene) : List AActor :=
  h.allActors.filter (fun a => !(h.actor a).IsPendingKill)

/-- The array `levelPtr->Actors`. -/
def HostScene.LevelActors (h : HostScene) (level : ULevel) : List AActor :=
  h.allActors.filter (fun a => (h.actor a).Level == level)

/-- Method `AActor::GetAttachedActors`. -/
def HostScene.GetAttachedActors (h : HostScene) (a : AActor) : List AActor :=
  h.WorldActors.filter (fun c => (h.actor c).AttachParentActor == some a)

/-- Method `AActor::IsSelected`. -/
def HostScene.IsSelected (h : HostScene) (a : AActor) : Bool :=
  h.selection.contains a

/-- Function `sfActorUtil::FindActorWithNameInLevel`; the actor may be deleted. -/
def FindActorWithNameInLevel (h : HostScene) (level : ULevel) (name : String) : Option AActor :=
  h.allActors.find? (fun a => (h.actor a).Level == level && (h.actor a).Name == name)

/-- Function `sfActorManager::IsSyncable` on a non-null actor. -/
def IsSyncable (d : ActorData) : Bool :=
  !d.bHiddenEdLayer && d.IsEditable && d.IsListedInSceneOutliner && !d.IsPendingKill &&
    !d.HasTransientFlag && !d.IsABuilderBrush && !d.IsWorldSettings

/-- Method `AActor::SetActorRelativeLocation`; without a root component nothing is set. -/
def SetActorRelativeLocation (s : ManagerState) (a : AActor) (v : FVector) : ManagerState :=
  match (s.host.actor a).RootComponent with
  | none => s
  | some r => s.setActor a { s.host.actor a with RootComponent := some { r with RelativeLocation := v } }

/-- Method `AActor::SetActorRelativeRotation`. -/
def SetActorRelativeRotation (s : ManagerState) (a : AActor) (v : FVector) : ManagerState :=
  match (s.host.actor a).RootComponent with
  | none => s
  | some r => s.setActor a { s.host.actor a with RootComponent := some { r with RelativeRotation := v } }

/-- Method `AActor::SetActorRelativeScale3D`. -/
def SetActorRelativeScale3D (s : ManagerState) (a : AActor) (v : FVector) : ManagerState :=
  match (s.host.actor a).RootComponent with
  | none => s
  | some r => s.setActor a { s.host.actor a with RootComponent := some { r with RelativeScale3D := v } }

/-- Method `AActor::SetFolderPath`. -/
def SetFolderPath (s : ManagerState) (a : AActor) (folder : String) : ManagerState :=
  s.setActor a { s.host.actor a with FolderPath := folder }

/-- Method `AActor::SetActorLabel`: the label is set and the host renames the actor. -/
def SetActorLabel (s : ManagerState) (a : AActor) (label : String) : ManagerState :=
  s.setActor a { s.host.actor a with ActorLabel := label, Name := s.host.nameForLabel a label }

/-- Method `AActor::AttachToActor` with `KeepRelativeTransform`; the host is
taken to accept the attachment. -/
def AttachToActor (s : ManagerState) (a parent : AActor) : ManagerState :=
  s.setActor a { s.host.actor a with AttachParentActor := some parent }

/-- Method `AActor::DetachFromActor` with `KeepRelativeTransform`. -/
def DetachFromActor (s : ManagerState) (a : AActor) : ManagerState :=
  s.setActor a { s.host.actor a with AttachParentActor := none }

/-- Method `AActor::AttachToActor` with `KeepWorldTransform`. -/
def AttachToActorKeepWorld (s : ManagerState) (a parent : AActor) : ManagerState :=
  s.setActor a { s.host.actor a with
    AttachParentActor := some parent,
    RootComponent := (s.host.actor a).RootComponent.map (s.host.keepWorldTransform a (some parent)) }

/-- Method `AActor::DetachFromActor` with `KeepWorldTransform`. -/
def DetachFromActorKeepWorld (s : ManagerState) (a : AActor) : ManagerState :=
  s.setActor a { s.host.actor a with
    AttachParentActor := none,
    RootComponent := (s.host.actor a).RootComponent.map (s.host.keepWorldTransform a none) }

/-- Method `UWorld::EditorDestroyActor` with the delete handler removed: the actor
is pending kill, leaves the selection, and its attached actors are detached. -/
def EditorDestroyActor (s : ManagerState) (a : AActor) : ManagerState :=
  { s with host := { s.host with
      actor := fun x =>
        if x = a then { s.host.actor a with IsPendingKill := true }
        else if (s.host.actor x).AttachParentActor = some a then
          { s.host.actor x with AttachParentActor := none }
        else s.host.actor x,
      selection := s.host.selection.erase a } }

/-- Function `sfActorUtil::Rename`: the name, with random digits appended until
it is free. -/
def Rename (s : ManagerState) (a : AActor) (name : String) : ManagerState :=
  s.setActor a { s.host.actor a with Name := s.host.availableName name }

/-- Function `sfActorUtil::TryRename`. -/
def TryRename (s : ManagerState) (a : AActor) (name : String) : ManagerState :=
  match FindActorWithNameInLevel s.host (s.host.actor a).Level name with
  | some current =>
    if current = a then s
    else if (s.host.actor current).IsPendingKill then
      -- rename the deleted actor so that its name can be reused
      let s1 := Rename s current (name ++ " (deleted)")
      if (FindActorWithNameInLevel s1.host (s1.host.actor a).Level name).isNone then
        s1.setActor a { s1.host.actor a with Name := name }
      else s1
    else s
  | none => s.setActor a { s.host.actor a with Name := name }

/-! ## Actor manager: the small handlers -/

/-- Entry of an actor in `m_selectedActors`. -/
def SelectedFind (m : List (AActor × sfObject)) (a : AActor) : Option sfObject :=
  (m.find? (fun p => p.1 == a)).map (fun p => p.2)

/-- Assignment `m_selectedActors[actor] = object`. -/
def SelectedSet (m : List (AActor × sfObject)) (a : AActor) (o : sfObject) :
    List (AActor × sfObject) :=
  if m.any (fun p => p.1 == a) then m.map (fun p => if p.1 == a then (a, o) else p)
  else m ++ [(a, o)]

/-- Call `m_selectedActors.erase(actor)`. -/
def SelectedErase (m : List (AActor × sfObject)) (a : AActor) : List (AActor × sfObject) :=
  m.filter (fun p => !(p.1 == a))

/-- Function `sfActorManager::InvokeOnLockStateChange(objPtr, actorPtr)`. -/
def ManagerState.InvokeOnLockStateChange (s : ManagerState) (o : sfObject) (a : AActor) :
    ManagerState :=
  s.emit (Effect.OnLockStateChange a
    (LockTypeOf (s.objects o).IsFullyLocked (s.objects o).IsPartiallyLocked)
    (s.objects o).LockOwner)

/-- The dereference of the pointer that `Get(key)` returns, as in
`sfPropertyUtil::ToString(propertiesPtr->Get(key))` and
`propertiesPtr->Get(key)->ToString()`: for a key that the dictionary does not
hold the pointer is null and the read is a fault. -/
def ManagerState.DerefGet (s : ManagerState) (props : List (sfName × sfProperty))
    (key : sfName) : ManagerState :=
  if (TryGet props key).isNone then { s with fault := true } else s

/-- The chain `propertiesPtr->Get(key)->AsList()` with a call on the list it
returns: a fault when the dictionary does not hold the key, since `Get` gives a
null pointer, and when the entry is not a list, since `AsList` gives one. -/
def ManagerState.DerefList (s : ManagerState) (props : List (sfName × sfProperty))
    (key : sfName) : ManagerState :=
  match TryGet props key with
  | some (.list _) => s
  | _ => { s with fault := true }

/-- Function `sfActorManager::LogNoParentErrorAndDisconnect`: the error message
reads the name of the object with `Get(sfProp::Name)->ToString()`, then the
session is left. -/
def LogNoParentErrorAndDisconnect (s : ManagerState) (o : sfObject) : ManagerState :=
  (s.DerefGet (s.objects o).Property sfProp.Name).emit Effect.LeaveSession

/-- Function `sfActorManager::SendTransformUpdate`. -/
def SendTransformUpdate (s : ManagerState) (a : AActor) (o : sfObject) : ManagerState :=
  match (s.host.actor a).RootComponent with
  | none => s
  | some root =>
    let s1 :=
      if (match TryGet (s.objects o).Property sfProp.Location with
          | none => true
          | some old => decide (root.RelativeLocation ≠ ToVector old)) then
        s.PropertySet o sfProp.Location (FromVector root.RelativeLocation)
      else s
    let s2 :=
      if (match TryGet (s1.objects o).Property sfProp.Rotation with
          | none => true
          | some old => decide (root.RelativeRotation ≠ ToVector old)) then
        s1.PropertySet o sfProp.Rotation (FromVector root.RelativeRotation)
      else s1
    if (match TryGet (s2.objects o).Property sfProp.Scale with
        | none => true
        | some old => decide (root.RelativeScale3D ≠ ToVector old)) then
      s2.PropertySet o sfProp.Scale (FromVector root.RelativeScale3D)
    else s2

/-- Function `sfActorManager::ApplyServerTransform`. -/
def ApplyServerTransform (s : ManagerState) (a : AActor) (o : sfObject) : ManagerState :=
  let props := (s.objects o).Property
  match TryGet props sfProp.Location with
  | none => s
  | some location =>
    let s1 := SetActorRelativeLocation s a (ToVector location)
    let s2 := SetActorRelativeRotation s1 a (ToVector (DictGet props sfProp.Rotation))
    SetActorRelativeScale3D s2 a (ToVector (DictGet props sfProp.Scale))

/-- Function `sfActorManager::DetachIfParentIsLevel`; the callers have checked
that the object has a parent. -/
def DetachIfParentIsLevel (s : ManagerState) (o : sfObject) (a : AActor) : ManagerState × Bool :=
  match (s.objects o).Parent with
  | none => ({ s with fault := true }, false)
  | some p =>
    if (s.objects p).Type_ = sfType.Level then (DetachFromActor s a, true)
    else (s, false)

/-- The part of `SyncParent` after the local parent of the actor has been
resolved to the object `parentPtr`. -/
def SyncParentResolved (s1 : ManagerState) (a : AActor) (o : sfObject)
    (parentPtr : Option sfObject) : ManagerState :=
  if parentPtr = (s1.objects o).Parent then s1
  else if (s1.objects o).IsLocked ||
      (match parentPtr with
       | some p => (s1.objects p).IsFullyLocked
       | none => false) then
    match (s1.objects o).Parent with
    | none => if (s1.objects o).IsSyncing then LogNoParentErrorAndDisconnect s1 o else s1
    | some p =>
      let d := DetachIfParentIsLevel s1 o a
      if d.2 then ApplyServerTransform d.1 a o
      else
        match d.1.m_objectToActorMap p with
        | none => d.1
        | some parentActor => ApplyServerTransform (AttachToActor d.1 a parentActor) a o
  else
    match parentPtr with
    | none => SendTransformUpdate (s1.Detach o) a o
    | some p => SendTransformUpdate (s1.AddChild p o) a o

/-- Function `sfActorManager::SyncParent`. -/
def SyncParent (s : ManagerState) (a : AActor) (objPtr : Option sfObject) : ManagerState :=
  match objPtr with
  | none => s
  | some o =>
    let r : ManagerState × Option sfObject :=
      match (s.host.actor a).AttachParentActor with
      | some parentActor => (s, s.m_actorToObjectMap parentActor)
      | none => GetOrCreateLevelObject s (s.host.actor a).Level
    SyncParentResolved r.1 a o r.2

/-- Function `sfActorManager::OnAttachDetach`: `m_syncParentList.AddUnique`. -/
def OnAttachDetach (s : ManagerState) (a : AActor) : ManagerState :=
  if s.m_syncParentList.contains a then s
  else { s with m_syncParentList := s.m_syncParentList ++ [a] }

/-- The set insertion `m_propertyChangeMap.FindOrAdd(actor).emplace(property)`. -/
def PropertyChangeAdd : List (AActor × List UProperty) → AActor → UProperty →
    List (AActor × List UProperty)
  | [], a, p => [(a, [p])]
  | (a', ps) :: rest, a, p =>
    if a' = a then (a', if ps.contains p then ps else ps ++ [p]) :: rest
    else (a', ps) :: PropertyChangeAdd rest a p

/-- Function `sfActorManager::OnUPropertyChange`.  `actor` is the result of the
cast of the changed object to `AActor`, `memberProperty` is `ev.MemberProperty`. -/
def OnUPropertyChange (s : ManagerState) (actor : Option AActor)
    (memberProperty : Option UProperty) : ManagerState :=
  match memberProperty with
  | none => s
  | some prop =>
    match actor with
    | none => s
    | some a =>
      if (s.host.actor a).InTransientPackage then s
      else { s with m_propertyChangeMap := PropertyChangeAdd s.m_propertyChangeMap a prop }

/-! ## Actor manager: outgoing changes and selection -/

/-- The body of the inner loop of `SendPropertyChanges` for one queued property. -/
def SendPropertyChange (s : ManagerState) (a : AActor) (prop : UProperty) : ManagerState :=
  match s.m_actorToObjectMap a with
  | none => s
  | some o =>
    match (match (s.host.actor a).RootComponent with
           | some root =>
             if prop = "RelativeLocation" then
               some (s.PropertySet o sfProp.Location (FromVector root.RelativeLocation))
             else if prop = "RelativeRotation" then
               some (s.PropertySet o sfProp.Rotation (FromVector root.RelativeRotation))
             else if prop = "RelativeScale3D" then
               some (s.PropertySet o sfProp.Scale (FromVector root.RelativeScale3D))
             else none
           | none => none) with
    | some s1 => s1
    | none =>
      if prop = "ActorLabel" then { s with m_syncLabelQueue := s.m_syncLabelQueue ++ [a] }
      else s

/-- Function `sfActorManager::SendPropertyChanges` (with `SYNC_ACTOR_PROPERTIES`
set to 0, as the source has it). -/
def SendPropertyChanges (s : ManagerState) : ManagerState :=
  let s1 := s.m_propertyChangeMap.foldl
    (fun acc pair =>
      if (acc.host.actor pair.1).IsPendingKill then acc
      else pair.2.foldl (fun acc2 prop => SendPropertyChange acc2 pair.1 prop) acc)
    s
  { s1 with m_propertyChangeMap := [] }

/-- Function `sfActorManager::UpdateSelection`. -/
def UpdateSelection (s : ManagerState) : ManagerState :=
  let s1 := s.m_selectedActors.foldl
    (fun acc pair =>
      let acc1 := if acc.m_movingActors then SendTransformUpdate acc pair.1 pair.2 else acc
      if !(acc1.host.IsSelected pair.1) then
        { (acc1.emit (Effect.ReleaseLock pair.2)) with
          m_selectedActors := SelectedErase acc1.m_selectedActors pair.1 }
      else acc1)
    s
  s1.host.selection.foldl
    (fun acc a =>
      if (SelectedFind acc.m_selectedActors a).isSome then acc
      else
        match acc.m_actorToObjectMap a with
        | some o =>
          { (acc.emit (Effect.RequestLock o)) with
            m_selectedActors := SelectedSet acc.m_selectedActors a o }
        | none => acc)
    s1

/-- Function `sfActorManager::SyncLabelAndName` on a bound actor.  The label and
the name of a locked object, and the name of an unlocked one, are read without a
test of the pointer. -/
def SyncLabelAndName (s : ManagerState) (a : AActor) (o : sfObject) : ManagerState :=
  if (s.objects o).IsLocked then
    let s1 := SetActorLabel (s.DerefGet (s.objects o).Property sfProp.Label) a
      (ToString (DictGet (s.objects o).Property sfProp.Label))
    TryRename (s1.DerefGet (s.objects o).Property sfProp.Name) a
      (ToString (DictGet (s.objects o).Property sfProp.Name))
  else
    let s1 := s.PropertySet o sfProp.Label (FromString (s.host.actor a).ActorLabel)
    let s2 := s1.DerefGet (s1.objects o).Property sfProp.Name
    if ToString (DictGet (s1.objects o).Property sfProp.Name) ≠ (s1.host.actor a).Name then
      s2.PropertySet o sfProp.Name (FromString (s1.host.actor a).Name)
    else s2

/-- The label loop of `Tick`: the queue `m_syncLabelQueue` is drained. -/
def SyncLabels (s : ManagerState) : ManagerState :=
  let s1 := s.m_syncLabelQueue.foldl
    (fun acc a =>
      match acc.m_actorToObjectMap a with
      | none => acc
      | some o => SyncLabelAndName acc a o)
    s
  { s1 with m_syncLabelQueue := [] }

/-- Function `sfActorManager::RevertLockedFolders`.  The folder is read without a
test of the pointer. -/
def RevertLockedFolders (s : ManagerState) : ManagerState :=
  let s1 := s.m_revertFolderQueue.foldl
    (fun acc a =>
      match acc.m_actorToObjectMap a with
      | none => acc
      | some o =>
        SetFolderPath (acc.DerefGet (acc.objects o).Property sfProp.Folder) a
          (ToString (DictGet (acc.objects o).Property sfProp.Folder)))
    s
  { s1 with m_revertFolderQueue := [] }

/-! ## Actor manager: deletion -/

/-- The `while` loop of `OnActorDeleted`: as long as the object has a child, its
first child is put under the level object.  `n` bounds the iterations; the
callers pass the number of children. -/
def ReparentChildrenToLevel : Nat → ManagerState → sfObject → sfObject → ManagerState
  | 0, s, _, _ => s
  | n + 1, s, o, levelObj =>
    match (s.objects o).Children with
    | [] => s
    | child :: _ =>
      let s1 := s.AddChild levelObj child
      let s2 :=
        match s1.m_objectToActorMap child with
        | some childActor => SendTransformUpdate s1 childActor child
        | none => s1
      ReparentChildrenToLevel n s2 o levelObj

/-- Function `sfActorManager::OnActorDeleted`. -/
def OnActorDeleted (s : ManagerState) (a : AActor) : ManagerState :=
  if (s.host.actor a).InTransientPackage then s
  else
    let s1 :=
      match s.m_actorToObjectMap a with
      | none => s
      | some o =>
        -- m_actorToObjectMap.RemoveAndCopyValue(actorPtr, objPtr)
        let s1 := { s with m_actorToObjectMap := Function.update s.m_actorToObjectMap a none }
        let s2 := s1.emit (Effect.ReleaseLock o)
        let s3 := { s2 with m_objectToActorMap := Function.update s2.m_objectToActorMap o none }
        if (s3.objects o).IsLocked then
          { s3 with m_recreateQueue := s3.m_recreateQueue ++ [o] }
        else
          let r := GetOrCreateLevelObject s3 (s3.host.actor a).Level
          let s4 :=
            match (r.1.objects o).Children, r.2 with
            | [], _ => r.1
            | _ :: _, some levelObj =>
              ReparentChildrenToLevel (r.1.objects o).Children.length r.1 o levelObj
            | _ :: _, none => { r.1 with fault := true }
          s4.SessionDelete o
    { s1 with
      m_selectedActors := SelectedErase s1.m_selectedActors a,
      m_propertyChangeMap := s1.m_propertyChangeMap.filter (fun p => !(p.1 == a)),
      m_uploadList := s1.m_uploadList.filter (fun x => !(x == a)) }

/-- Function `sfActorManager::OnDelete`. -/
def OnDelete (s : ManagerState) (o : sfObject) : ManagerState :=
  match s.m_objectToActorMap o with
  | none => s
  | some a =>
    let s0 := { s with m_objectToActorMap := Function.update s.m_objectToActorMap o none }
    let s1 := if (s0.host.actor a).IsBrush then { s0 with m_bspRebuildDelay := 2 } else s0
    let s2 := EditorDestroyActor s1 a
    { s2 with m_actorToObjectMap := Function.update s2.m_actorToObjectMap a none }

/-- Function `sfActorManager::OnRemoveLevel`. -/
def OnRemoveLevel (s : ManagerState) (level : ULevel) : ManagerState :=
  (s.host.LevelActors level).foldl
    (fun acc a =>
      match acc.m_actorToObjectMap a with
      | none => acc
      | some o =>
        let s1 := { acc with m_actorToObjectMap := Function.update acc.m_actorToObjectMap a none }
        let s2 := s1.emit (Effect.ReleaseLock o)
        { s2 with
          m_objectToActorMap := Function.update s2.m_objectToActorMap o none,
          m_selectedActors := SelectedErase s2.m_selectedActors a,
          m_uploadList := s2.m_uploadList.filter (fun x => !(x == a)) })
    s

/-- Function `sfActorManager::CleanUp`, as far as the maps and queues go (the
lock decorations and materials of the host are not part of the state). -/
def CleanUp (s : ManagerState) : ManagerState :=
  { s with
    m_actorToObjectMap := fun _ => none,
    m_objectToActorMap := fun _ => none,
    m_uploadList := [],
    m_propertyChangeMap := [],
    m_recreateQueue := [],
    m_syncLabelQueue := [],
    m_revertFolderQueue := [],
    m_syncParentList := [],
    m_foldersToCheck := [],
    m_selectedActors := [] }

/-! ## Actor manager: upload -/

/-- Function `sfActorManager::CreateStaticMeshProperties` and its twin
`CreateSkeletalMeshProperties`, after the cast has succeeded. -/
def CreateMeshProperties (s : ManagerState) (a : AActor) (o : sfObject) : ManagerState :=
  match (s.host.actor a).MeshComponent with
  | none => s
  | some c =>
    let s1 := s.PropertySet o sfProp.Mesh (FromString (c.Mesh.getD ""))
    s1.PropertySet o sfProp.Materials
      (.list (c.Materials.map (fun m => FromString (m.getD ""))))

/-- Function `sfActorManager::CreateEmitterProperties`, after the cast has succeeded. -/
def CreateEmitterProperties (s : ManagerState) (a : AActor) (o : sfObject) : ManagerState :=
  match (s.host.actor a).ParticleSystemComponent with
  | some ⟨some path⟩ => s.PropertySet o sfProp.Template (FromString path)
  | _ => s

/-- The chain `CreateStaticMeshProperties(..) || CreateSkeletalMeshProperties(..) ||
CreateEmitterProperties(..)`: the first cast that succeeds decides. -/
def CreateTypeProperties (s : ManagerState) (a : AActor) (o : sfObject) : ManagerState :=
  match (s.host.actor a).Kind with
  | ActorKind.StaticMesh => CreateMeshProperties s a o
  | ActorKind.SkeletalMesh => CreateMeshProperties s a o
  | ActorKind.Emitter => CreateEmitterProperties s a o
  | ActorKind.Other => s

/-- Function `sfActorManager::CreateObject`.  `fuel` bounds the depth of the
attachment hierarchy below the actor. -/
def CreateObject : Nat → ManagerState → AActor → ManagerState × Option sfObject
  | 0, s, _ => (s, none)
  | fuel + 1, s, a =>
    match s.m_actorToObjectMap a with
    | some _ => (s, none)
    | none =>
      let r := s.CreateSfObject sfType.Actor []
      let o := r.2
      let s1 :=
        if r.1.host.IsSelected a then
          { (r.1.emit (Effect.RequestLock o)) with
            m_selectedActors := SelectedSet r.1.m_selectedActors a o }
        else r.1
      let d := s1.host.actor a
      let s2 := s1.PropertySet o sfProp.Name (FromString d.Name)
      let s3 := s2.PropertySet o sfProp.Class (FromString d.Class)
      let s4 := s3.PropertySet o sfProp.Label (FromString d.ActorLabel)
      let s5 := s4.PropertySet o sfProp.Folder (FromString d.FolderPath)
      let s6 :=
        match d.RootComponent with
        | some root =>
          ((s5.PropertySet o sfProp.Location (FromVector root.RelativeLocation)).PropertySet o
            sfProp.Rotation (FromVector root.RelativeRotation)).PropertySet o
            sfProp.Scale (FromVector root.RelativeScale3D)
        | none => s5
      let s7 := CreateTypeProperties s6 a o
      let s8 := (s7.host.GetAttachedActors a).foldl
        (fun acc child =>
          let c := CreateObject fuel acc child
          match c.2 with
          | some childObj => c.1.AddChild o childObj
          | none => c.1)
        s7
      let s9 := { s8 with
        m_actorToObjectMap := Function.update s8.m_actorToObjectMap a (some o),
        m_objectToActorMap := Function.update s8.m_objectToActorMap o (some a) }
      (s9.InvokeOnLockStateChange o a, some o)

/-- The body of `FindAndAttachChildren` for one object of the traversal. -/
def AttachChildrenOf (s : ManagerState) (current : sfObject) : ManagerState :=
  match s.m_objectToActorMap current with
  | none => s
  | some actor =>
    (s.host.GetAttachedActors actor).foldl
      (fun acc child =>
        match acc.m_actorToObjectMap child with
        | some childObj =>
          if (acc.objects childObj).Parent ≠ some current then
            SendTransformUpdate (acc.AddChild current childObj) child childObj
          else acc
        | none => acc)
      s

/-- The traversal `SelfAndDescendants()` of `FindAndAttachChildren`, depth first
from `current`; `fuel` bounds the depth. -/
def FindAndAttachChildrenFrom : Nat → ManagerState → sfObject → ManagerState
  | 0, s, _ => s
  | fuel + 1, s, current =>
    let s1 := AttachChildrenOf s current
    (s1.objects current).Children.foldl
      (fun acc child => FindAndAttachChildrenFrom fuel acc child) s1

/-- Function `sfActorManager::FindAndAttachChildren`. -/
def FindAndAttachChildren (fuel : Nat) (s : ManagerState) (objs : List sfObject) :
    ManagerState :=
  objs.foldl (fun acc o => FindAndAttachChildrenFrom fuel acc o) s

/-- The local variables of `UploadActors` next to the manager state. -/
structure UploadLoop where
  s : ManagerState
  objects : List sfObject
  parentPtr : Option sfObject

/-- The request `m_sessionPtr->Create(objects, parentPtr, 0)` followed by
`FindAndAttachChildren(objects)`; a null parent is a fault. -/
def FlushUpload (fuel : Nat) (s : ManagerState) (objs : List sfObject)
    (parentPtr : Option sfObject) : ManagerState :=
  match parentPtr with
  | some p => FindAndAttachChildren fuel (s.SessionCreate objs p 0) objs
  | none => FindAndAttachChildren fuel { s with fault := true } objs

/-- The body of the loop of `UploadActors` for one actor. -/
def UploadActor (fuel : Nat) (l : UploadLoop) (a : AActor) : UploadLoop :=
  if !(IsSyncable (l.s.host.actor a)) then l
  else
    let parentActor := (l.s.host.actor a).AttachParentActor
    let r : ManagerState × Option sfObject :=
      match parentActor with
      | none => GetOrCreateLevelObject l.s (l.s.host.actor a).Level
      | some pa => (l.s, l.s.m_actorToObjectMap pa)
    match r.2 with
    | none => { l with s := r.1 }
    | some cur =>
      let r2 : ManagerState × Option sfObject :=
        if (r.1.objects cur).IsFullyLocked then
          -- the warning reads parentActorPtr->GetName(): a null parent actor is a fault
          let s1 := if parentActor.isNone then { r.1 with fault := true } else r.1
          GetOrCreateLevelObject (DetachFromActorKeepWorld s1 a) (s1.host.actor a).Level
        else (r.1, some cur)
      let currentParentPtr := r2.2
      let parentPtr := if l.parentPtr.isNone then currentParentPtr else l.parentPtr
      let l1 : UploadLoop :=
        if currentParentPtr ≠ parentPtr then
          if 0 < l.objects.length then
            { s := FlushUpload fuel r2.1 l.objects parentPtr, objects := [],
              parentPtr := currentParentPtr }
          else { s := r2.1, objects := l.objects, parentPtr := currentParentPtr }
        else { s := r2.1, objects := l.objects, parentPtr := parentPtr }
      let c := CreateObject fuel l1.s a
      match c.2 with
      | some o => { l1 with s := c.1, objects := l1.objects ++ [o] }
      | none => { l1 with s := c.1 }

/-- Function `sfActorManager::UploadActors`. -/
def UploadActors (fuel : Nat) (s : ManagerState) (actors : List AActor) : ManagerState :=
  let l := actors.foldl (UploadActor fuel) { s := s, objects := [], parentPtr := none }
  if 0 < l.objects.length then FlushUpload fuel l.s l.objects l.parentPtr else l.s

/-! ## Actor manager: download -/

/-- Function `sfActorManager::ApplyStaticMeshProperties` and its twin
`ApplySkeletalMeshProperties`, after the cast has succeeded.  A path that does
not resolve loads as a null asset. -/
def ApplyMeshProperties (s : ManagerState) (a : AActor) (props : List (sfName × sfProperty)) :
    ManagerState :=
  match (s.host.actor a).MeshComponent, TryGet props sfProp.Mesh with
  | some _, some meshProp =>
    let path := ToString meshProp
    -- SetStaticMesh(nullptr) or SetStaticMesh(LoadObject(path))
    let mesh : Option String :=
      if path.isEmpty then none else if s.host.assetExists path then some path else none
    let slots : List (Option String) :=
      match mesh with
      | some m => s.host.meshMaterials m
      | none => []
    let materialsPtr : List sfProperty :=
      match DictGet props sfProp.Materials with
      | .list l => l
      | _ => []
    let numMaterials := min slots.length materialsPtr.length
    let materials := (List.range numMaterials).foldl
      (fun (acc : List (Option String)) i =>
        let p := ToString (Get materialsPtr i)
        acc.set i (if p.isEmpty then none else if s.host.assetExists p then some p else none))
      slots
    -- the list of materials is read without a test of the pointer
    (s.DerefList props sfProp.Materials).setActor a { s.host.actor a with
      MeshComponent := some { Mesh := mesh, Materials := materials } }
  | _, _ => s

/-- Function `sfActorManager::ApplyEmitterProperties`, after the cast has succeeded. -/
def ApplyEmitterProperties (s : ManagerState) (a : AActor) (props : List (sfName × sfProperty)) :
    ManagerState :=
  match (s.host.actor a).ParticleSystemComponent, TryGet props sfProp.Template with
  | some _, some templateProp =>
    let path := ToString templateProp
    s.setActor a { s.host.actor a with
      ParticleSystemComponent :=
        some ⟨if s.host.assetExists path then some path else none⟩ }
  | _, _ => s

/-- The chain `ApplyStaticMeshProperties(..) || ApplySkeletalMeshProperties(..) ||
ApplyEmitterProperties(..)`. -/
def ApplyTypeProperties (s : ManagerState) (a : AActor) (props : List (sfName × sfProperty)) :
    ManagerState :=
  match (s.host.actor a).Kind with
  | ActorKind.StaticMesh => ApplyMeshProperties s a props
  | ActorKind.SkeletalMesh => ApplyMeshProperties s a props
  | ActorKind.Emitter => ApplyEmitterProperties s a props
  | ActorKind.Other => s

/-- Method `UWorld::SpawnActor` with the add handler removed: a new actor of the
class, in the level, at the location and rotation. -/
def SpawnActor (s : ManagerState) (cdo : ActorData) (level : ULevel)
    (location rotation : FVector) : ManagerState × AActor :=
  let a := s.host.nextActor
  let d : ActorData :=
    { cdo with
      Name := s.host.spawnName a, Level := level, AttachParentActor := none,
      IsPendingKill := false,
      RootComponent := cdo.RootComponent.map
        (fun r => { r with RelativeLocation := location, RelativeRotation := rotation }) }
  ({ s with host := { s.host with
      actor := Function.update s.host.actor a d,
      allActors := s.host.allActors ++ [a],
      nextActor := a + 1 } }, a)

/-- The lookup at the start of `InitializeActor`: the actor of the level that has
the name of the object, or none when that actor is pending kill (it is renamed
out of the way) or is bound to an object already. -/
def FindActorToReuse (s : ManagerState) (level : ULevel) (name : String) :
    ManagerState × Option AActor :=
  match FindActorWithNameInLevel s.host level name with
  | none => (s, none)
  | some a =>
    if (s.host.actor a).IsPendingKill then (Rename s a (name ++ " (deleted)"), none)
    else if (s.m_actorToObjectMap a).isSome then (s, none)
    else (s, some a)

/-- The branch `if (actorPtr == nullptr) … else …` of `InitializeActor`.  Without
an actor to reuse the class name is read, without a test of the pointer, and an
actor of the class is spawned; when the class is not found `InitializeActor`
returns null.  An actor to reuse is detached, its object is locked when the actor
is selected, and a brush sets the rebuild delay. -/
def SpawnOrReuseActor (s : ManagerState) (o : sfObject) (level : ULevel)
    (props : List (sfName × sfProperty)) (actorPtr : Option AActor)
    (location rotation : FVector) : ManagerState × Option AActor :=
  match actorPtr with
  | none =>
    let c := s.DerefGet props sfProp.Class
    match c.host.findClass (ToString (DictGet props sfProp.Class)) with
    | none => (c, none)
    | some cdo =>
      let r := SpawnActor c cdo level location rotation
      (r.1, some r.2)
  | some a =>
    -- detach from the parent to avoid loops when the children are attached
    let s1 := DetachFromActor s a
    let s2 :=
      if s1.host.IsSelected a then
        { (s1.emit (Effect.RequestLock o)) with
          m_selectedActors := SelectedSet s1.m_selectedActors a o }
      else s1
    let s3 :=
      if (s2.host.actor a).IsBrush then { s2 with m_bspRebuildDelay := 2 } else s2
    (s3, some a)

/-- The part of `InitializeActor` between the branch on `actorPtr` and the loop
over the children: the transform, the folder and the label (both read without a
test of the pointer), the name, the mesh or emitter properties, the two map
entries and the lock notifications. -/
def ApplyAndBind (s : ManagerState) (o : sfObject) (a : AActor)
    (props : List (sfName × sfProperty)) (name : String) (location rotation scale : FVector) :
    ManagerState :=
  let s1 := SetActorRelativeLocation s a location
  let s2 := SetActorRelativeRotation s1 a rotation
  let s3 := SetActorRelativeScale3D s2 a scale
  let s4 := SetFolderPath (s3.DerefGet props sfProp.Folder) a
    (ToString (DictGet props sfProp.Folder))
  let label := ToString (DictGet props sfProp.Label)
  let s5 := s4.DerefGet props sfProp.Label
  let s6 := if label ≠ (s5.host.actor a).ActorLabel then SetActorLabel s5 a label else s5
  let s7 := TryRename s6 a name
  let s8 := ApplyTypeProperties s7 a props
  let s9 := { s8 with
    m_actorToObjectMap := Function.update s8.m_actorToObjectMap a (some o),
    m_objectToActorMap := Function.update s8.m_objectToActorMap o (some a) }
  -- OnLock(objPtr) on the object just bound
  let s10 := if (s9.objects o).IsLocked then s9.InvokeOnLockStateChange o a else s9
  s10.InvokeOnLockStateChange o a

/-- Function `sfActorManager::InitializeActor`.  `fuel` bounds the depth of the
object tree below the object.  The name is read without a test of the pointer. -/
def InitializeActor : Nat → ManagerState → sfObject → ULevel → ManagerState × Option AActor
  | 0, s, _, _ => (s, none)
  | fuel + 1, s, o, level =>
    let props := (s.objects o).Property
    let name := ToString (DictGet props sfProp.Name)
    let found := FindActorToReuse (s.DerefGet props sfProp.Name) level name
    let hasLocation := (TryGet props sfProp.Location).isSome
    let location : FVector :=
      if hasLocation then ToVector (DictGet props sfProp.Location) else ⟨0, 0, 0⟩
    let rotation : FVector :=
      if hasLocation then ToVector (DictGet props sfProp.Rotation) else ⟨0, 0, 0⟩
    let scale : FVector :=
      if hasLocation then ToVector (DictGet props sfProp.Scale) else ⟨1, 1, 1⟩
    let made := SpawnOrReuseActor found.1 o level props found.2 location rotation
    match made.2 with
    | none => (made.1, none)
    | some a =>
      let s11 := ApplyAndBind made.1 o a props name location rotation scale
      let s12 := (s11.objects o).Children.foldl
        (fun acc child =>
          let r : ManagerState × Option AActor :=
            match acc.m_objectToActorMap child with
            | some childActor =>
              let cp := (acc.objects child).Property
              let t1 := SetActorRelativeLocation acc childActor
                (ToVector (DictGet cp sfProp.Location))
              let t2 := SetActorRelativeRotation t1 childActor
                (ToVector (DictGet cp sfProp.Rotation))
              (SetActorRelativeScale3D t2 childActor (ToVector (DictGet cp sfProp.Scale)),
                some childActor)
            | none => InitializeActor fuel acc child level
          match r.2 with
          | some childActor => AttachToActor r.1 childActor a
          | none => r.1)
        s11
      (s12, some a)

/-- The loop `while (levelObjectPtr->Parent() != nullptr)` of `OnCreate`: the
root above an object; `fuel` bounds the number of links followed. -/
def RootAbove (objects : sfObject → ObjectData) : Nat → sfObject → sfObject
  | 0, o => o
  | fuel + 1, o =>
    match (objects o).Parent with
    | none => o
    | some p => RootAbove objects fuel p

/-- Function `sfLevelManager::FindLevelByObject`. -/
def FindLevelByObject (s : ManagerState) (levelObject : sfObject) : Option ULevel :=
  if (s.objects levelObject).Type_ ≠ sfType.Level then none
  else s.m_objectToLevelMap levelObject

/-- Function `sfActorManager::OnCreate`. -/
def OnCreate (fuel : Nat) (s : ManagerState) (o : sfObject) : ManagerState :=
  let s := s.emit (Effect.OnCreate o)
  match (s.objects o).Parent with
  | none => LogNoParentErrorAndDisconnect s o
  | some parent =>
    let levelObject := RootAbove s.objects fuel parent
    let found := FindLevelByObject s levelObject
    -- the warning for a level that is not found reads the name of the root object
    let s : ManagerState :=
      if found.isNone && (TryGet (s.objects levelObject).Property sfProp.Name).isNone then
        { s with fault := true }
      else s
    let level := found.getD s.host.PersistentLevel
    let r := InitializeActor fuel s o level
    match r.2 with
    | none => r.1
    | some a =>
      let d := DetachIfParentIsLevel r.1 o a
      if d.2 then d.1
      else
        match d.1.m_objectToActorMap parent with
        | some parentActor => AttachToActor d.1 a parentActor
        | none => d.1

/-- Function `sfActorManager::RecreateLockedActors`. -/
def RecreateLockedActors (fuel : Nat) (s : ManagerState) : ManagerState :=
  let s1 := s.m_recreateQueue.foldl
    (fun acc o =>
      if (acc.m_objectToActorMap o).isNone then OnCreate fuel acc o else acc)
    s
  { s1 with m_recreateQueue := [] }

/-! ## Actor manager: undo and redo of a detach, folders, BSP, tick -/

/-- Function `sfActorManager::SyncFolder` on a bound actor.  The folder of the
object is read without a test of the pointer. -/
def SyncFolder (s : ManagerState) (a : AActor) (o : sfObject) : ManagerState :=
  let newFolder := (s.host.actor a).FolderPath
  let s := s.DerefGet (s.objects o).Property sfProp.Folder
  if newFolder ≠ ToString (DictGet (s.objects o).Property sfProp.Folder) then
    if (s.objects o).IsLocked then
      { s with m_revertFolderQueue := s.m_revertFolderQueue ++ [a] }
    else s.PropertySet o sfProp.Folder (FromString newFolder)
  else s

/-- Function `sfActorManager::OnRedoDetach`. -/
def OnRedoDetach (s : ManagerState) (a : AActor) (objPtr : Option sfObject) : ManagerState :=
  match objPtr with
  | none => s
  | some o =>
    let r := (s.objects o).Children.foldl
      (fun (acc : ManagerState × List (sfObject × AActor)) childObj =>
        match acc.1.m_objectToActorMap childObj with
        | some childActor =>
          if (acc.1.host.actor childActor).AttachParentActor.isNone then
            let r1 : ManagerState × List (sfObject × AActor) :=
              if (acc.1.objects childObj).IsLocked then
                (AttachToActorKeepWorld acc.1 childActor a, acc.2)
              else (acc.1, acc.2 ++ [(childObj, childActor)])
            -- detaching may change the folder
            (SyncFolder r1.1 childActor childObj, r1.2)
          else acc
        | none => acc)
      (s, [])
    r.2.foldl (fun acc pair => SendTransformUpdate (acc.Detach pair.1) pair.2 pair.1) r.1

/-- Function `FActorFolders::PathIsChildOf` of the host: the child path begins
with the parent path and a slash. -/
def PathIsChildOf (child parent : String) : Bool :=
  (parent.toList ++ ['/']).isPrefixOf child.toList

/-- The inner loop of `DeleteEmptyFolders` for one actor folder: from the last
index down, the first queued folder that is the folder or lies above it is
removed from the queue, and the loop breaks. -/
def RemoveFirstMatchFromEnd (folders : List String) (folder : String) : List String :=
  match (List.range folders.length).reverse.find?
      (fun i => folder == folders.getD i "" || PathIsChildOf folder (folders.getD i "")) with
  | some i => folders.eraseIdx i
  | none => folders

/-- Function `sfActorManager::DeleteEmptyFolders`. -/
def DeleteEmptyFolders (s : ManagerState) : ManagerState :=
  if 0 < s.m_foldersToCheck.length && s.host.foldersAvailable then
    let remaining := s.host.WorldActors.foldl
      (fun (acc : List String) a =>
        if 0 < acc.length then RemoveFirstMatchFromEnd acc (s.host.actor a).FolderPath
        else acc)
      s.m_foldersToCheck
    { s with trace := s.trace ++ remaining.map Effect.DeleteFolder, m_foldersToCheck := [] }
  else s

/-- Function `sfActorManager::RebuildBSPIfNeeded`. -/
def RebuildBSPIfNeeded (s : ManagerState) (deltaTime : Rat) : ManagerState :=
  if 0 ≤ s.m_bspRebuildDelay then
    let s1 := { s with m_bspRebuildDelay := s.m_bspRebuildDelay - deltaTime }
    if s1.m_bspRebuildDelay < 0 then s1.emit Effect.RebuildAlteredBSP else s1
  else s

/-- The parent loop of `Tick`: `SyncParent` for every bound actor of
`m_syncParentList`, then the list is emptied. -/
def SyncParents (s : ManagerState) : ManagerState :=
  let s1 := s.m_syncParentList.foldl
    (fun acc a =>
      match acc.m_actorToObjectMap a with
      | some o => SyncParent acc a (some o)
      | none => acc)
    s
  { s1 with m_syncParentList := [] }

/-- Function `sfActorManager::Tick`.  `fuel` bounds the depth of the actor and
object hierarchies that the upload and the recreation walk. -/
def Tick (fuel : Nat) (s : ManagerState) (deltaTime : Rat) : ManagerState :=
  -- create server objects for actors in the upload list
  let s1 :=
    if 0 < s.m_uploadList.length then
      { (UploadActors fuel s s.m_uploadList) with m_uploadList := [] }
    else s
  -- check for selection changes and request locks/unlocks
  let s2 := UpdateSelection s1
  -- RehashProperties touches no part of this state
  -- send property changes to the server
  let s3 := SendPropertyChanges s2
  -- send label/name changes or reset them to server values
  let s4 := SyncLabels s3
  -- revert folders to server values
  let s5 := if s4.m_revertFolderQueue.isEmpty then s4 else RevertLockedFolders s4
  -- recreate actors that were deleted while locked
  let s6 := RecreateLockedActors fuel s5
  -- send parent changes or reset them to server values
  let s7 := SyncParents s6
  -- delete folders that became empty
  let s8 := if 0 < s7.m_foldersToCheck.length then DeleteEmptyFolders s7 else s7
  RebuildBSPIfNeeded s8 deltaTime

/-- A state with nothing in it: no actors, no objects, empty maps and queues.
The concrete states of the examples are built from it. -/
def ManagerState.empty : ManagerState :=
  { host :=
      { actor := fun _ => ActorData.blank, allActors := [], selection := [], nextActor := 0,
        findClass := fun _ => none, assetExists := fun _ => false,
        meshMaterials := fun _ => [], nameForLabel := fun _ l => l,
        foldersAvailable := true, spawnName := fun _ => "", PersistentLevel := 0,
        availableName := fun n => n, keepWorldTransform := fun _ _ r => r },
    objects := fun _ => ObjectData.create sfType.Actor [],
    nextObject := 0,
    m_actorToObjectMap := fun _ => none,
    m_objectToActorMap := fun _ => none,
    m_uploadList := [], m_propertyChangeMap := [], m_recreateQueue := [],
    m_syncLabelQueue := [], m_revertFolderQueue := [], m_syncParentList := [],
    m_foldersToCheck := [], m_selectedActors := [], m_movingActors := false,
    m_bspRebuildDelay := -1,
    m_levelToObjectMap := fun _ => none, m_objectToLevelMap := fun _ => none,
    m_levelsToUpload := [], m_lockObject := none, IsSessionCreator := false,
    fault := false, trace := [] }

/-- The binding invariant: the two maps are inverse to each other, the actors
and objects that do not exist yet are not bound, and the host lists only
actors that exist. -/
structure BindingInv (s : ManagerState) : Prop where
  bij : ∀ a o, s.m_actorToObjectMap a = some o ↔ s.m_objectToActorMap o = some a
  freshObject : ∀ o, s.nextObject ≤ o → s.m_objectToActorMap o = none
  freshActor : ∀ a, s.host.nextActor ≤ a → s.m_actorToObjectMap a = none
  actorsExist : ∀ a ∈ s.host.allActors, a < s.host.nextActor

/-- The step from `s` to `t` leaves both binding maps and the list of actors
alone and takes back no allocation. -/
structure SameBinding (s t : ManagerState) : Prop where
  a2o : t.m_actorToObjectMap = s.m_actorToObjectMap
  o2a : t.m_objectToActorMap = s.m_objectToActorMap
  nextObject : s.nextObject ≤ t.nextObject
  nextActor : s.host.nextActor ≤ t.host.nextActor
  allActors : t.host.allActors = s.host.allActors

/-- The attachment relation of the host: `c` is attached to `p`. -/
def HostScene.Attached (h : HostScene) (p c : AActor) : Prop :=
  c ∈ h.GetAttachedActors p

/-- The attachment hierarchy of the host has no cycle. -/
def HostAcyclic (h : HostScene) : Prop :=
  ∀ a, ¬ Relation.TransGen h.Attached a a

/-- The step from `s` to `t` leaves the host alone, takes back no object, keeps
the binding of every object that existed, and keeps the binding of every actor
outside `S`. -/
structure BindingFrame (S : AActor → Prop) (s t : ManagerState) : Prop where
  host : t.host = s.host
  nextObject : s.nextObject ≤ t.nextObject
  o2a : ∀ o, o < s.nextObject → t.m_objectToActorMap o = s.m_objectToActorMap o
  a2o : ∀ x, ¬ S x → t.m_actorToObjectMap x = s.m_actorToObjectMap x

/-- State `s7` is `s` after one object was allocated: the host and the binding
maps are those of `s`. -/
structure Allocated (s s7 : ManagerState) : Prop where
  host : s7.host = s.host
  a2o : s7.m_actorToObjectMap = s.m_actorToObjectMap
  o2a : s7.m_objectToActorMap = s.m_objectToActorMap
  nextObject : s7.nextObject = s.nextObject + 1

/-- What `CreateObject` does to the binding maps, from `s` to `t`, for actor `a`. -/
def CreateObjectSpec (s : ManagerState) (a : AActor) (t : ManagerState) : Prop :=
  BindingFrame (Relation.ReflTransGen s.host.Attached a) s t ∧
    (BindingInv s → HostAcyclic s.host → a < s.host.nextActor → BindingInv t)

/-- Every entry of a children list is an object that exists. -/
def ChildrenExist (s : ManagerState) : Prop :=
  ∀ p c, c ∈ (s.objects p).Children → c < s.nextObject

/-- The step from `s` to `t` changes the host's actors only: the objects, the
binding maps and the allocation counters stay. -/
structure HostOnly (s t : ManagerState) : Prop where
  objects : t.objects = s.objects
  nextObject : t.nextObject = s.nextObject
  a2o : t.m_actorToObjectMap = s.m_actorToObjectMap
  o2a : t.m_objectToActorMap = s.m_objectToActorMap
  nextActor : t.host.nextActor = s.host.nextActor
  allActors : t.host.allActors = s.host.allActors

/-- State `t` has the objects of `s` and meets the binding invariant. -/
structure InitInv (s t : ManagerState) : Prop where
  objects : t.objects = s.objects
  nextObject : t.nextObject = s.nextObject
  inv : BindingInv t

/-- State `t` is as `InitInv` says, and in it neither actor `a` nor object `o` is
bound and the actor exists. -/
structure Ready (s : ManagerState) (o : sfObject) (a : AActor) (t : ManagerState) : Prop where
  init : InitInv s t
  a2o : t.m_actorToObjectMap a = none
  o2a : t.m_objectToActorMap o = none
  actorExists : a < t.host.nextActor

/-- The operations of the actor manager that add or remove bindings. -/
inductive ManagerOp where
  | CreateObject (a : AActor)
  | OnCreate (o : sfObject)
  | OnActorDeleted (a : AActor)
  | OnDelete (o : sfObject)
  | OnRemoveLevel (level : ULevel)
  | CleanUp

/-- The state after an operation; `fuel` bounds the depth of the recursion of
`CreateObject` and `OnCreate`. -/
def ManagerOp.run (fuel : Nat) (s : ManagerState) : ManagerOp → ManagerState
  | ManagerOp.CreateObject a => (SceneFusion.CreateObject fuel s a).1
  | ManagerOp.OnCreate o => SceneFusion.OnCreate fuel s o
  | ManagerOp.OnActorDeleted a => SceneFusion.OnActorDeleted s a
  | ManagerOp.OnDelete o => SceneFusion.OnDelete s o
  | ManagerOp.OnRemoveLevel level => SceneFusion.OnRemoveLevel s level
  | ManagerOp.CleanUp => SceneFusion.CleanUp s

/-- What an operation takes for granted about its argument: `CreateObject` gets
an actor that exists, in a host whose attachment hierarchy has no cycle;
`OnCreate` gets an object that exists and is not bound yet, in a tree whose
children lists name objects that exist. -/
def ManagerOp.Pre (s : ManagerState) : ManagerOp → Prop
  | ManagerOp.CreateObject a => a < s.host.nextActor ∧ HostAcyclic s.host
  | ManagerOp.OnCreate o =>
    o < s.nextObject ∧ s.m_objectToActorMap o = none ∧ ChildrenExist s
  | _ => True

/-- Example state of C4: actors 1 and 2 in level 0, actor 1 bound to object 5,
whose parent is the level object 0 and whose dictionary holds the four strings
that `InitializeActor` reads; every class name resolves. -/
def C4_state : ManagerState :=
  { ManagerState.empty with
    host := { ManagerState.empty.host with
      actor := fun a =>
        if a = 1 then { ActorData.blank with Name := "Cube", Class := "StaticMeshActor" }
        else if a = 2 then { ActorData.blank with Name := "Lamp", Class := "PointLight" }
        else ActorData.blank,
      allActors := [1, 2], nextActor := 3,
      findClass := fun c => some { ActorData.blank with Class := c } },
    objects := fun o =>
      if o = 0 then { ObjectData.create sfType.Level [] with Children := [5] }
      else if o = 5 then
        { ObjectData.create sfType.Actor
            [(sfProp.Name, FromString "Cube"), (sfProp.Class, FromString "StaticMeshActor"),
              (sfProp.Label, FromString "Cube"), (sfProp.Folder, FromString "")] with
          Parent := some 0 }
      else ObjectData.create sfType.Actor [],
    nextObject := 6,
    m_actorToObjectMap := fun a => if a = 1 then some 5 else none,
    m_objectToActorMap := fun o => if o = 5 then some 1 else none,
    m_levelToObjectMap := fun l => if l = 0 then some 0 else none,
    m_objectToLevelMap := fun o => if o = 0 then some 0 else none }

/-- The parent relation of the object store: `p` is the parent pointer of `c`. -/
def ParentOf (objects : sfObject → ObjectData) (c p : sfObject) : Prop :=
  (objects c).Parent = some p

/-- The invariant of the replicated tree, for the store `objects` with `n`
objects allocated: a child of `p` has `p` as its parent pointer, an object with
parent pointer `p` is in the children list of `p`, no children list names an
object twice, no object lies above itself, and the objects that are not
allocated yet have no parent and no children. -/
structure TreeInv (objects : sfObject → ObjectData) (n : Nat) : Prop where
  parentOfChild : ∀ p c, c ∈ (objects p).Children → (objects c).Parent = some p
  childOfParent : ∀ p c, (objects c).Parent = some p → c ∈ (objects p).Children
  nodup : ∀ p, (objects p).Children.Nodup
  acyclic : ∀ o, ¬ Relation.TransGen (ParentOf objects) o o
  fresh : ∀ o, n ≤ o → (objects o).Parent = none ∧ (objects o).Children = []

/-- The tree invariant of a manager state. -/
def TreeOK (s : ManagerState) : Prop := TreeInv s.objects s.nextObject

/-- The reconciler operations that change the replicated tree. -/
inductive TreeOp where
  | CreateObject (a : AActor)
  | UploadActors (actors : List AActor)
  | FindAndAttachChildren (objs : List sfObject)
  | SyncParent (a : AActor) (objPtr : Option sfObject)
  | OnActorDeleted (a : AActor)
  | OnRedoDetach (a : AActor) (objPtr : Option sfObject)

/-- The state after a tree operation; `fuel` bounds the depth of the recursion. -/
def TreeOp.run (fuel : Nat) (s : ManagerState) : TreeOp → ManagerState
  | TreeOp.CreateObject a => (SceneFusion.CreateObject fuel s a).1
  | TreeOp.UploadActors actors => SceneFusion.UploadActors fuel s actors
  | TreeOp.FindAndAttachChildren objs => SceneFusion.FindAndAttachChildren fuel s objs
  | TreeOp.SyncParent a objPtr => SceneFusion.SyncParent s a objPtr
  | TreeOp.OnActorDeleted a => SceneFusion.OnActorDeleted s a
  | TreeOp.OnRedoDetach a objPtr => SceneFusion.OnRedoDetach s a objPtr

/-- The state after a sequence of tree operations. -/
def TreeOp.runAll (fuel : Nat) (s : ManagerState) (ops : List TreeOp) : ManagerState :=
  ops.foldl (TreeOp.run fuel) s

/-- The three transform fields of an actor that the manager syncs. -/
inductive TransformField where
  | Location
  | Rotation
  | Scale
  deriving DecidableEq

/-- The key of a transform field in the property dictionary of the object. -/
def TransformField.key : TransformField → sfName
  | TransformField.Location => sfProp.Location
  | TransformField.Rotation => sfProp.Rotation
  | TransformField.Scale => sfProp.Scale

/-- The value of a transform field on a root component. -/
def TransformField.value (root : USceneComponent) : TransformField → FVector
  | TransformField.Location => root.RelativeLocation
  | TransformField.Rotation => root.RelativeRotation
  | TransformField.Scale => root.RelativeScale3D

/-- From `s` to `t` the trace grows, and when `P` holds it grows by calls that are
no `Set` of the field `F` on the dictionary of object `o`. -/
def NoSetOf (P : Prop) (o : sfObject) (F : TransformField) (s t : ManagerState) : Prop :=
  ∃ extra, t.trace = s.trace ++ extra ∧ (P → ∀ e ∈ extra, e ≠ Effect.PropertySet o F.key)

/-- A step from `s` to `t` that stays apart from the pair of actor `a` and object
`o`: the binding maps, the tracked selection, the pending changes and the upload
list are as they were, nothing is taken back, the actor keeps its root component
and its deletion flag, and when `P` holds the value stored for the field `F` of
the object stays and no `Set` of that field is issued. -/
structure Apart (P : Prop) (a : AActor) (o : sfObject) (F : TransformField)
    (s t : ManagerState) : Prop where
  a2o : t.m_actorToObjectMap = s.m_actorToObjectMap
  o2a : t.m_objectToActorMap = s.m_objectToActorMap
  selected : t.m_selectedActors = s.m_selectedActors
  changeMap : t.m_propertyChangeMap = s.m_propertyChangeMap
  uploadList : t.m_uploadList = s.m_uploadList
  nextObject : s.nextObject ≤ t.nextObject
  nextActor : s.host.nextActor ≤ t.host.nextActor
  root : a < s.host.nextActor →
    (t.host.actor a).RootComponent = (s.host.actor a).RootComponent
  alive : a < s.host.nextActor →
    (t.host.actor a).IsPendingKill = (s.host.actor a).IsPendingKill
  stored : P → o < s.nextObject →
    TryGet (t.objects o).Property F.key = TryGet (s.objects o).Property F.key
  trace : NoSetOf P o F s t

/-- Example state of C5 with other work queued: actor 1, with a root component
at (2, 0, 0), is bound to object 5, which lies below the object 0 of level 0 and
stores the location (1, 0, 0); the actor is selected and tracked while actors are
being moved, it is on the label queue and on the parent list, and a change of its
label is pending. -/
def C5_busy_state : ManagerState :=
  { ManagerState.empty with
    host := { ManagerState.empty.host with
      actor := fun a =>
        if a = 1 then
          { ActorData.blank with
            Name := "Cube", Class := "StaticMeshActor", ActorLabel := "Cube",
            RootComponent := some
              { RelativeLocation := ⟨2, 0, 0⟩, RelativeRotation := ⟨0, 0, 0⟩,
                RelativeScale3D := ⟨1, 1, 1⟩ } }
        else ActorData.blank,
      allActors := [1], nextActor := 2, selection := [1] },
    objects := fun o =>
      if o = 0 then
        { ObjectData.create sfType.Level [(sfProp.Name, FromString "/Game/Map")] with
          Children := [5] }
      else if o = 5 then
        { ObjectData.create sfType.Actor
            [(sfProp.Name, FromString "Cube"), (sfProp.Class, FromString "StaticMeshActor"),
              (sfProp.Label, FromString "Cube"), (sfProp.Folder, FromString ""),
              (sfProp.Location, FromVector ⟨1, 0, 0⟩), (sfProp.Rotation, FromVector ⟨0, 0, 0⟩),
              (sfProp.Scale, FromVector ⟨1, 1, 1⟩)] with
          Parent := some 0 }
      else ObjectData.create sfType.Actor [],
    nextObject := 6,
    m_actorToObjectMap := fun a => if a = 1 then some 5 else none,
    m_objectToActorMap := fun o => if o = 5 then some 1 else none,
    m_levelToObjectMap := fun l => if l = 0 then some 0 else none,
    m_objectToLevelMap := fun o => if o = 0 then some 0 else none,
    m_selectedActors := [(1, 5)],
    m_movingActors := true,
    m_syncLabelQueue := [1],
    m_syncParentList := [1],
    m_propertyChangeMap := [(1, ["ActorLabel"])] }

/-- The dictionary that `CreateObject` fills for an actor, entry by entry in the
order of the `Set` calls. -/
def ActorProperties (d : ActorData) : List (sfName × sfProperty) :=
  let p0 := DictSet (DictSet (DictSet (DictSet [] sfProp.Name (FromString d.Name))
    sfProp.Class (FromString d.Class)) sfProp.Label (FromString d.ActorLabel))
    sfProp.Folder (FromString d.FolderPath)
  let p1 :=
    match d.RootComponent with
    | some root =>
      DictSet (DictSet (DictSet p0 sfProp.Location (FromVector root.RelativeLocation))
        sfProp.Rotation (FromVector root.RelativeRotation))
        sfProp.Scale (FromVector root.RelativeScale3D)
    | none => p0
  let mesh :=
    match d.MeshComponent with
    | none => p1
    | some c =>
      DictSet (DictSet p1 sfProp.Mesh (FromString (c.Mesh.getD ""))) sfProp.Materials
        (.list (c.Materials.map (fun m => FromString (m.getD ""))))
  match d.Kind with
  | ActorKind.StaticMesh => mesh
  | ActorKind.SkeletalMesh => mesh
  | ActorKind.Emitter =>
    match d.ParticleSystemComponent with
    | some ⟨some path⟩ => DictSet p1 sfProp.Template (FromString path)
    | _ => p1
  | ActorKind.Other => p1

/-- The step from `s` to `t` keeps the property dictionary of every object that
exists in `s` and leaves the host alone. -/
structure PropFrame (s t : ManagerState) : Prop where
  host : t.host = s.host
  nextObject : s.nextObject ≤ t.nextObject
  props : ∀ x, x < s.nextObject → (t.objects x).Property = (s.objects x).Property

/-- The host after `SpawnActor` has made actor `b` and the manager has brought
its data to `d`. -/
def HostWith (h : HostScene) (b : AActor) (d : ActorData) : HostScene :=
  { h with
    actor := Function.update h.actor b d,
    allActors := h.allActors ++ [b],
    nextActor := b + 1 }

/-- The fields of an actor that the manager syncs: name, class, label, folder,
the relative transform, for a mesh actor the mesh component, for an emitter the
particle system component. -/
def SyncedFields (d : ActorData) :
    String × String × String × String × Option USceneComponent × Option MeshComponent ×
      Option ParticleSystemComponent :=
  (d.Name, d.Class, d.ActorLabel, d.FolderPath, d.RootComponent,
    (match d.Kind with
     | ActorKind.StaticMesh => d.MeshComponent
     | ActorKind.SkeletalMesh => d.MeshComponent
     | _ => none),
    (match d.Kind with
     | ActorKind.Emitter => d.ParticleSystemComponent
     | _ => none))

/-- The assets of a mesh component load in the host, and the component has one
material per slot of its mesh. -/
structure MeshResolves (h : HostScene) (c : MeshComponent) : Prop where
  mesh : ∀ m, c.Mesh = some m → m ≠ "" ∧ h.assetExists m = true
  slots : (match c.Mesh with
    | some m => (h.meshMaterials m).length
    | none => 0) = c.Materials.length
  materials : ∀ q, some q ∈ c.Materials → q ≠ "" ∧ h.assetExists q = true

/-- What the round trip of actor data `d` into the state `t` takes for granted:
the name is free in the level, the class resolves to a class default actor
`cdo` of the same class, kind and components, and the assets of `d` load. -/
structure RoundTripReady (t : ManagerState) (level : ULevel) (d cdo : ActorData) : Prop where
  hostValid : ∀ x ∈ t.host.allActors, x < t.host.nextActor
  nameFree : FindActorWithNameInLevel t.host level d.Name = none
  classResolves : t.host.findClass d.Class = some cdo
  cdoClass : cdo.Class = d.Class
  cdoKind : cdo.Kind = d.Kind
  cdoRoot : cdo.RootComponent.isSome = d.RootComponent.isSome
  mesh : d.Kind = ActorKind.StaticMesh ∨ d.Kind = ActorKind.SkeletalMesh →
    ∃ c, d.MeshComponent = some c ∧ cdo.MeshComponent.isSome = true ∧ MeshResolves t.host c
  emitter : d.Kind = ActorKind.Emitter →
    ∃ path, d.ParticleSystemComponent = some ⟨some path⟩ ∧
      cdo.ParticleSystemComponent.isSome = true ∧ t.host.assetExists path = true

/-- Example actor of C10: a static mesh actor with one material. -/
def C10_actor : ActorData :=
  { ActorData.blank with
    Name := "Cube", Class := "StaticMeshActor", ActorLabel := "Crate", FolderPath := "Props",
    RootComponent := some ⟨⟨1, 2, 3⟩, ⟨0, 90, 0⟩, ⟨2, 2, 2⟩⟩,
    Kind := ActorKind.StaticMesh,
    MeshComponent := some ⟨some "/Game/Cube", [some "/Game/Wood"]⟩ }

/-- Example class default of C10: what the class `StaticMeshActor` spawns. -/
def C10_cdo : ActorData :=
  { ActorData.blank with
    Class := "StaticMeshActor",
    RootComponent := some ⟨⟨0, 0, 0⟩, ⟨0, 0, 0⟩, ⟨1, 1, 1⟩⟩,
    Kind := ActorKind.StaticMesh,
    MeshComponent := some ⟨none, []⟩ }

/-- Example sending state of C10: actor 0 is `C10_actor` and is not bound. -/
def C10_sender : ManagerState :=
  { ManagerState.empty with
    host := { ManagerState.empty.host with
      actor := fun a => if a = 0 then C10_actor else ActorData.blank,
      allActors := [0], nextActor := 1 } }

/-- Example receiving state of C10: no actors; object 0 holds the dictionary that
`CreateObject` made in `C10_sender`; the assets load; the class resolves when
`classKnown` is set. -/
def C10_receiver (classKnown : Bool) : ManagerState :=
  { ManagerState.empty with
    host := { ManagerState.empty.host with
      findClass := fun c => if classKnown && c == "StaticMeshActor" then some C10_cdo else none,
      assetExists := fun p => p == "/Game/Cube" || p == "/Game/Wood",
      meshMaterials := fun m => if m == "/Game/Cube" then [none] else [],
      spawnName := fun _ => "StaticMeshActor_0" },
    objects := fun _ =>
      ObjectData.create sfType.Actor
        ((CreateObject 1 C10_sender 0).1.objects C10_sender.nextObject).Property,
    nextObject := 1 }

/-! ## Event dispatcher (`sfObjectEventDispatcher`) -/

/-- A valid `TSharedPtr<IObjectManager>`, identified by a number. -/
abbrev ManagerId := Nat

/-- The eleven event kinds of the session. -/
inductive EventKind where
  | Create
  | Delete
  | Lock
  | Unlock
  | LockOwnerChange
  | DirectLockChange
  | ParentChange
  | PropertyChange
  | DictionaryRemove
  | ListAdd
  | ListRemove
  deriving DecidableEq, Repr

/-- What the dispatcher reads of an `sfObject`: its identity and `Type()`. -/
structure EventObject where
  id : sfObject
  Type_ : sfName
  deriving DecidableEq, Repr

/-- What the dispatcher reads of an `sfProperty`: `GetPath()` and
`GetContainerObject()`, which is null for a property outside every object. -/
structure EventProperty where
  path : String
  container : Option EventObject
  deriving DecidableEq, Repr

/-- An event of the session with the arguments its handler receives. -/
inductive InboundEvent where
  | Create (obj : EventObject) (childIndex : Int)
  | Delete (obj : EventObject)
  | Lock (obj : EventObject)
  | Unlock (obj : EventObject)
  | LockOwnerChange (obj : EventObject)
  | DirectLockChange (obj : EventObject)
  | ParentChange (obj : EventObject) (childIndex : Int)
  | PropertyChange (prop : EventProperty)
  | DictionaryRemove (dict : EventProperty) (name : sfName)
  | ListAdd (list : EventProperty) (index count : Int)
  | ListRemove (list : EventProperty) (index count : Int)
  deriving DecidableEq, Repr

/-- The virtual functions of `IObjectManager` with their arguments. -/
inductive ManagerCall where
  | Initialize
  | CleanUp
  | OnCreate (obj : EventObject) (childIndex : Int)
  | OnDelete (obj : EventObject)
  | OnLock (obj : EventObject)
  | OnUnlock (obj : EventObject)
  | OnLockOwnerChange (obj : EventObject)
  | OnDirectLockChange (obj : EventObject)
  | OnParentChange (obj : EventObject) (childIndex : Int)
  | OnPropertyChange (prop : EventProperty)
  | OnRemoveField (dict : EventProperty) (name : sfName)
  | OnListAdd (list : EventProperty) (index count : Int)
  | OnListRemove (list : EventProperty) (index count : Int)
  deriving DecidableEq, Repr

/-- Calls that leave the dispatcher. -/
inductive DispatcherEffect where
  /-- Session call `RegisterOn...Handler`. -/
  | RegisterHandler (kind : EventKind)
  /-- Session call `UnregisterOn...Handler`. -/
  | UnregisterHandler (kind : EventKind)
  /-- A virtual call on a registered manager. -/
  | Call (manager : ManagerId) (call : ManagerCall)
  /-- Call `KS::Log::Error`. -/
  | LogError (message : String)
  deriving DecidableEq, Repr

/-- The dispatcher: the active flag, the registry `m_managers` (an entry may hold
a null pointer) and, per event kind, whether a handler is registered with the
session. -/
structure sfObjectEventDispatcher where
  m_active : Bool
  m_managers : List (sfName × Option ManagerId)
  /-- The session's handler list, as far as this dispatcher filled it. -/
  handlers : List EventKind
  /-- A null pointer was dereferenced; the C++ is undefined from there on. -/
  fault : Bool
  trace : List DispatcherEffect
  deriving DecidableEq, Repr

/-- The dispatcher with one more call in the trace. -/
def sfObjectEventDispatcher.emit (d : sfObjectEventDispatcher) (e : DispatcherEffect) :
    sfObjectEventDispatcher :=
  { d with trace := d.trace ++ [e] }

/-- Lookup `m_managers.find(type)`. -/
def sfObjectEventDispatcher.find (d : sfObjectEventDispatcher) (type : sfName) :
    Option (Option ManagerId) :=
  (d.m_managers.find? (fun p => p.1 == type)).map (fun p => p.2)

/-- Function `sfObjectEventDispatcher::Register`: `m_managers[objectType] = managerPtr`. -/
def sfObjectEventDispatcher.Register (d : sfObjectEventDispatcher) (objectType : sfName)
    (managerPtr : Option ManagerId) : sfObjectEventDispatcher :=
  { d with m_managers :=
      if d.m_managers.any (fun p => p.1 == objectType) then
        d.m_managers.map (fun p => if p.1 == objectType then (objectType, managerPtr) else p)
      else d.m_managers ++ [(objectType, managerPtr)] }

/-- Function `sfObjectEventDispatcher::GetManager`; `objPtr->Type()` on a null
pointer is a fault. -/
def sfObjectEventDispatcher.GetManager (d : sfObjectEventDispatcher)
    (objPtr : Option EventObject) : sfObjectEventDispatcher × Option ManagerId :=
  match objPtr with
  | none => ({ d with fault := true }, none)
  | some obj =>
    match d.find obj.Type_ with
    | none => (d.emit (.LogError ("Unknown object type '" ++ obj.Type_ ++ "'.")), none)
    | some managerPtr => (d, managerPtr)

/-- The common shape of the eleven handlers: `GetManager`, then the call on the
manager if the pointer is valid. -/
def sfObjectEventDispatcher.CallManager (d : sfObjectEventDispatcher)
    (objPtr : Option EventObject) (call : ManagerCall) : sfObjectEventDispatcher :=
  let r := d.GetManager objPtr
  match r.2 with
  | some manager => r.1.emit (.Call manager call)
  | none => r.1

/-- The handlers that `Initialize` registers with the session (lines 35-131),
one per event kind. -/
def sfObjectEventDispatcher.HandleEvent (d : sfObjectEventDispatcher) :
    InboundEvent → sfObjectEventDispatcher
  | .Create obj childIndex => d.CallManager (some obj) (.OnCreate obj childIndex)
  | .Delete obj => d.CallManager (some obj) (.OnDelete obj)
  | .Lock obj => d.CallManager (some obj) (.OnLock obj)
  | .Unlock obj => d.CallManager (some obj) (.OnUnlock obj)
  | .LockOwnerChange obj => d.CallManager (some obj) (.OnLockOwnerChange obj)
  | .DirectLockChange obj => d.CallManager (some obj) (.OnDirectLockChange obj)
  | .ParentChange obj childIndex => d.CallManager (some obj) (.OnParentChange obj childIndex)
  | .PropertyChange prop =>
    match prop.container with
    | none => d.emit (.LogError ("Container object is null. Property path: " ++ prop.path))
    | some obj => d.CallManager (some obj) (.OnPropertyChange prop)
  | .DictionaryRemove dict name => d.CallManager dict.container (.OnRemoveField dict name)
  | .ListAdd list index count => d.CallManager list.container (.OnListAdd list index count)
  | .ListRemove list index count =>
    d.CallManager list.container (.OnListRemove list index count)

/-- The event kinds in the order in which `Initialize` registers their handlers
and `CleanUp` unregisters them. -/
def EventKind.all : List EventKind :=
  [.Create, .Delete, .Lock, .Unlock, .LockOwnerChange, .DirectLockChange, .ParentChange,
    .PropertyChange, .DictionaryRemove, .ListAdd, .ListRemove]

/-- The loop `for (auto iter : m_managers) iter.second->...()`; a null entry is a
fault. -/
def sfObjectEventDispatcher.CallAll (d : sfObjectEventDispatcher) (call : ManagerCall) :
    sfObjectEventDispatcher :=
  d.m_managers.foldl
    (fun acc p =>
      match p.2 with
      | some manager => acc.emit (.Call manager call)
      | none => { acc with fault := true })
    d

/-- Function `sfObjectEventDispatcher::Initialize`. -/
def sfObjectEventDispatcher.Initialize (d : sfObjectEventDispatcher) :
    sfObjectEventDispatcher :=
  if d.m_active then d
  else
    let d1 := { d with m_active := true }
    let d2 := EventKind.all.foldl
      (fun acc k => { (acc.emit (.RegisterHandler k)) with handlers := acc.handlers ++ [k] }) d1
    d2.CallAll .Initialize

/-- Function `sfObjectEventDispatcher::CleanUp`. -/
def sfObjectEventDispatcher.CleanUp (d : sfObjectEventDispatcher) : sfObjectEventDispatcher :=
  if !d.m_active then d
  else
    let d1 := { d with m_active := false }
    let d2 := EventKind.all.foldl
      (fun acc k =>
        { (acc.emit (.UnregisterHandler k)) with handlers := acc.handlers.filter (fun x => x != k) })
      d1
    d2.CallAll .CleanUp

/-- The affected object of an event: the object itself, or the container object
of the property, dictionary or list. -/
def InboundEvent.object : InboundEvent → Option EventObject
  | .Create obj _ => some obj
  | .Delete obj => some obj
  | .Lock obj => some obj
  | .Unlock obj => some obj
  | .LockOwnerChange obj => some obj
  | .DirectLockChange obj => some obj
  | .ParentChange obj _ => some obj
  | .PropertyChange prop => prop.container
  | .DictionaryRemove dict _ => dict.container
  | .ListAdd list _ _ => list.container
  | .ListRemove list _ _ => list.container

/-- The handler of `IObjectManager` that the interface documents for an event,
with the arguments of the event. -/
def InboundEvent.handler : InboundEvent → ManagerCall
  | .Create obj childIndex => .OnCreate obj childIndex
  | .Delete obj => .OnDelete obj
  | .Lock obj => .OnLock obj
  | .Unlock obj => .OnUnlock obj
  | .LockOwnerChange obj => .OnLockOwnerChange obj
  | .DirectLockChange obj => .OnDirectLockChange obj
  | .ParentChange obj childIndex => .OnParentChange obj childIndex
  | .PropertyChange prop => .OnPropertyChange prop
  | .DictionaryRemove dict name => .OnRemoveField dict name
  | .ListAdd list index count => .OnListAdd list index count
  | .ListRemove list index count => .OnListRemove list index count

/-- Example dispatcher of C11 to C13: managers 1 and 2 are registered for the
types `Actor` and `Level`. -/
def C11_dispatcher (active : Bool) : sfObjectEventDispatcher :=
  { m_active := active, m_managers := [("Actor", some 1), ("Level", some 2)],
    handlers := if active then EventKind.all else [], fault := false, trace := [] }

/-! ## Editable-object predicate -/

/-- What `CanEdit` reads of a `TWeakObjectPtr<UObject>`. -/
inductive UObjectRef where
  /-- The weak pointer is no longer valid. -/
  | stale
  /-- The object is an actor. -/
  | actor (a : AActor)
  /-- The object is an actor component; `outer` is its `GetOuter()` when that is
  an actor. -/
  | component (outer : Option AActor)
  /-- Any other object. -/
  | other
  deriving DecidableEq, Repr

/-- The actor that `CanEdit` checks for a queried object: the object itself, or
the outer of a component. -/
def UObjectRef.actorPtr : UObjectRef → Option AActor
  | .stale => none
  | .actor a => some a
  | .component outer => outer
  | .other => none

/-- The loop of `CanEdit` over the queried objects. -/
def CanEditLoop (s : ManagerState) : List UObjectRef → Bool
  | [] => true
  | objPtr :: rest =>
    match objPtr.actorPtr with
    | some a =>
      match SelectedFind s.m_selectedActors a with
      | some o => if (s.objects o).IsLocked then false else CanEditLoop s rest
      | none => CanEditLoop s rest
    | none => CanEditLoop s rest

/-- Function `sfActorManager::CanEdit`. -/
def CanEdit (s : ManagerState) (objects : List UObjectRef) : Bool :=
  if s.m_selectedActors.length = 0 then true else CanEditLoop s objects

/-- Example state of C14: actor 1 is bound to object 5, which another user has
locked fully; the actor is in `m_selectedActors` when `tracked` is set. -/
def C14_state (tracked : Bool) : ManagerState :=
  { ManagerState.empty with
    host := { ManagerState.empty.host with
      actor := fun a => if a = 1 then { ActorData.blank with Name := "Cube" } else ActorData.blank,
      allActors := [1], nextActor := 2 },
    objects := fun o =>
      if o = 5 then
        { ObjectData.create sfType.Actor [] with IsFullyLocked := true, LockOwner := some 7 }
      else ObjectData.create sfType.Actor [],
    nextObject := 6,
    m_actorToObjectMap := fun a => if a = 1 then some 5 else none,
    m_objectToActorMap := fun o => if o = 5 then some 1 else none,
    m_selectedActors := if tracked then [(1, 5)] else [] }

/-- The body of the first loop of `UpdateSelection`, for one entry of
`m_selectedActors`. -/
def UpdateSelectionRelease (acc : ManagerState) (pair : AActor × sfObject) : ManagerState :=
  let acc1 := if acc.m_movingActors then SendTransformUpdate acc pair.1 pair.2 else acc
  if !(acc1.host.IsSelected pair.1) then
    { (acc1.emit (Effect.ReleaseLock pair.2)) with
      m_selectedActors := SelectedErase acc1.m_selectedActors pair.1 }
  else acc1

/-- The body of the second loop of `UpdateSelection`, for one selected actor. -/
def UpdateSelectionRequest (acc : ManagerState) (a : AActor) : ManagerState :=
  if (SelectedFind acc.m_selectedActors a).isSome then acc
  else
    match acc.m_actorToObjectMap a with
    | some o =>
      { (acc.emit (Effect.RequestLock o)) with
        m_selectedActors := SelectedSet acc.m_selectedActors a o }
    | none => acc

/-- The lock requests and releases among the calls of a trace. -/
def LockCalls (tr : List Effect) : List Effect :=
  tr.filter (fun e =>
    match e with
    | Effect.RequestLock _ => true
    | Effect.ReleaseLock _ => true
    | _ => false)

/-- The step from `s` to `t` leaves the selection bookkeeping alone: the host,
the binding of actors, the tracked selection and the moving flag stay, and the
trace grows by calls that are no lock request and no lock release. -/
structure SelFrame (s t : ManagerState) : Prop where
  host : t.host = s.host
  a2o : t.m_actorToObjectMap = s.m_actorToObjectMap
  selected : t.m_selectedActors = s.m_selectedActors
  moving : t.m_movingActors = s.m_movingActors
  trace : ∃ extra, t.trace = s.trace ++ extra ∧ LockCalls extra = []

/-- The entries that the second loop of `UpdateSelection` adds for the actors
`l`, given the tracked selection `m` and the binding `a2o`: one for each actor
that is not tracked and is bound. -/
def NewlyTracked (m : List (AActor × sfObject)) (a2o : AActor → Option sfObject)
    (l : List AActor) : List (AActor × sfObject) :=
  l.filterMap (fun a =>
    if (SelectedFind m a).isSome then none else (a2o a).map (fun o => (a, o)))

/-- Example state of C15: actors 1 and 2 are tracked with the objects 5 and 6;
the host selection is 2, 3, 4, of which 3 is bound to object 7 and 4 is not
bound. -/
def C15_state : ManagerState :=
  { ManagerState.empty with
    host := { ManagerState.empty.host with
      allActors := [1, 2, 3, 4], nextActor := 5, selection := [2, 3, 4] },
    nextObject := 8,
    m_actorToObjectMap := fun a =>
      if a = 1 then some 5 else if a = 2 then some 6 else if a = 3 then some 7 else none,
    m_objectToActorMap := fun o =>
      if o = 5 then some 1 else if o = 6 then some 2 else if o = 7 then some 3 else none,
    m_selectedActors := [(1, 5), (2, 6)] }

/-- The calls of a trace other than a `Set` on a property dictionary. -/
def StructCalls (tr : List Effect) : List Effect :=
  tr.filter (fun e =>
    match e with
    | Effect.PropertySet _ _ => false
    | _ => true)

/-- The step from `s` to `t` keeps every link of the replicated tree, the
binding maps and the fault flag; the trace grows by `Set` calls only. -/
structure LinkFrame (s t : ManagerState) : Prop where
  nextObject : t.nextObject = s.nextObject
  parent : ∀ x, (t.objects x).Parent = (s.objects x).Parent
  children : ∀ x, (t.objects x).Children = (s.objects x).Children
  a2o : t.m_actorToObjectMap = s.m_actorToObjectMap
  o2a : t.m_objectToActorMap = s.m_objectToActorMap
  fault : t.fault = s.fault
  trace : ∃ extra, t.trace = s.trace ++ extra ∧ StructCalls extra = []

/-- Example state of C16: actor 1 is bound to the unlocked object 5, a child of
the level object 4 of level 0; the objects 6 and 7, bound to the actors 2 and 3,
are the children of object 5.  Actor 1 is in the transient package when
`transient` is set. -/
def C16_state (transient : Bool) : ManagerState :=
  { ManagerState.empty with
    host := { ManagerState.empty.host with
      actor := fun a =>
        if a = 1 then { ActorData.blank with Name := "Table", InTransientPackage := transient }
        else ActorData.blank,
      allActors := [1, 2, 3], nextActor := 4 },
    objects := fun o =>
      if o = 4 then { ObjectData.create sfType.Level [] with Children := [5] }
      else if o = 5 then
        { ObjectData.create sfType.Actor [] with Parent := some 4, Children := [6, 7] }
      else if o = 6 then { ObjectData.create sfType.Actor [] with Parent := some 5 }
      else if o = 7 then { ObjectData.create sfType.Actor [] with Parent := some 5 }
      else ObjectData.create sfType.Actor [],
    nextObject := 8,
    m_actorToObjectMap := fun a =>
      if a = 1 then some 5 else if a = 2 then some 6 else if a = 3 then some 7 else none,
    m_objectToActorMap := fun o =>
      if o = 5 then some 1 else if o = 6 then some 2 else if o = 7 then some 3 else none,
    m_levelToObjectMap := fun l => if l = 0 then some 4 else none,
    m_objectToLevelMap := fun o => if o = 4 then some 0 else none }

/-- Example state of C17: actor 1, in level 1, is attached to actor 2 of level 0;
actor 2 is bound to object 5, which another user has locked fully; level 0 has
the level object 4, level 1 has no level object yet. -/
def C17_state : ManagerState :=
  { ManagerState.empty with
    host := { ManagerState.empty.host with
      actor := fun a =>
        if a = 1 then
          { ActorData.blank with Name := "Lamp", Level := 1, AttachParentActor := some 2 }
        else if a = 2 then { ActorData.blank with Name := "Table" }
        else ActorData.blank,
      allActors := [1, 2], nextActor := 3 },
    objects := fun o =>
      if o = 4 then { ObjectData.create sfType.Level [] with Children := [5] }
      else if o = 5 then
        { ObjectData.create sfType.Actor [] with
          Parent := some 4, IsFullyLocked := true, LockOwner := some 7 }
      else ObjectData.create sfType.Actor [],
    nextObject := 6,
    m_actorToObjectMap := fun a => if a = 2 then some 5 else none,
    m_objectToActorMap := fun o => if o = 5 then some 2 else none,
    m_levelToObjectMap := fun l => if l = 0 then some 4 else none,
    m_objectToLevelMap := fun o => if o = 4 then some 0 else none }

/-- Example state of C18: actor 1 of level 0 has no attach parent and is not
bound; the level object 4 of level 0 is locked fully by another user. -/
def C18_state : ManagerState :=
  { ManagerState.empty with
    host := { ManagerState.empty.host with
      actor := fun a =>
        if a = 1 then { ActorData.blank with Name := "Lamp" } else ActorData.blank,
      allActors := [1], nextActor := 2 },
    objects := fun o =>
      if o = 4 then
        { ObjectData.create sfType.Level [] with IsFullyLocked := true, LockOwner := some 7 }
      else ObjectData.create sfType.Actor [],
    nextObject := 5,
    m_levelToObjectMap := fun l => if l = 0 then some 4 else none,
    m_objectToLevelMap := fun o => if o = 4 then some 0 else none }

/-! ## Level manager: upload of levels -/

/-- Call `sfValueProperty::Create(bool)`; the value is stored as a number. -/
def FromBool (b : Bool) : sfProperty := .value (.int (if b then 1 else 0))

/-- Call `m_levelsToUpload.emplace(levelPtr)` on the set of queued levels. -/
def LevelsEmplace (q : List ULevel) (level : ULevel) : List ULevel :=
  if q.contains level then q else q ++ [level]

/-- Function `sfLevelManager::OnAddLevelToWorld`. -/
def OnAddLevelToWorld (s : ManagerState) (newLevelPtr : ULevel) : ManagerState :=
  let s1 := LevelManager_RequestLock s
  { s1 with m_levelsToUpload := LevelsEmplace s1.m_levelsToUpload newLevelPtr }

/-- Function `sfLevelManager::Initialize`, as far as it touches the session and
the upload queue; `m_initialized` is passed in and returned.  The registration
of the host event handlers is left out. -/
def LevelManager_Initialize (s : ManagerState) (m_initialized : Bool) : ManagerState × Bool :=
  if m_initialized then (s, true)
  else if s.IsSessionCreator then
    let s1 := LevelManager_RequestLock s
    let q := LevelsEmplace s1.m_levelsToUpload s1.host.PersistentLevel
    let q2 := (s1.host.levels.filter (fun l => !(l == s1.host.PersistentLevel))).foldl
      LevelsEmplace q
    ({ s1 with m_levelsToUpload := q2 }, true)
  else (s, true)

/-- Function `sfLevelManager::UploadLevel`, called from the loop over
`m_levelsToUpload` in `OnDirectLockChange`.  For a streaming level it calls
`GetOrCreateLevelObject` on the persistent level, which puts that level into the
set that the loop is iterating when it is neither bound nor queued; the C++
leaves open what the loop does then, which is recorded as a fault. -/
def UploadLevel (fuel : Nat) (s : ManagerState) (levelPtr : ULevel) : ManagerState :=
  if (s.host.level levelPtr).InTransientPackage then s
  else
    let r := s.CreateSfObject sfType.Level []
    let levelObjectPtr := r.2
    let isPersistent := levelPtr == s.host.PersistentLevel
    let s1 := r.1.PropertySet levelObjectPtr sfProp.Name
      (FromString (s.host.level levelPtr).Path)
    let s2 := s1.PropertySet levelObjectPtr sfProp.IsPersistentLevel (FromBool isPersistent)
    let s3 :=
      if !isPersistent then
        let g := (GetOrCreateLevelObject s2 s2.host.PersistentLevel).1
        let g1 : ManagerState :=
          if (s2.m_levelToObjectMap s2.host.PersistentLevel).isNone &&
              !(s2.m_levelsToUpload.contains s2.host.PersistentLevel) then
            { g with fault := true }
          else g
        match (g1.host.level levelPtr).StreamingLevel with
        | some streamingLevel =>
          ((g1.PropertySet levelObjectPtr sfProp.Location
            (FromVector streamingLevel.Location)).PropertySet levelObjectPtr sfProp.Rotation
            (.value (.int streamingLevel.Yaw))).PropertySet levelObjectPtr sfProp.Folder
            (FromString streamingLevel.FolderPath)
        | none => g1
      else s2
    let s4 := (s3.host.LevelActors levelPtr).foldl
      (fun acc actorPtr =>
        if IsSyncable (acc.host.actor actorPtr) &&
            (acc.host.actor actorPtr).AttachParentActor.isNone then
          let c := CreateObject fuel acc actorPtr
          match c.2 with
          | some objPtr => c.1.AddChild levelObjectPtr objPtr
          | none => c.1
        else acc)
      s3
    let s5 := { s4 with
      m_levelToObjectMap := Function.update s4.m_levelToObjectMap levelPtr (some levelObjectPtr),
      m_objectToLevelMap := Function.update s4.m_objectToLevelMap levelObjectPtr (some levelPtr) }
    s5.emit (Effect.CreateRoot levelObjectPtr)

/-- The body of the loop of `OnDirectLockChange` for one queued level. -/
def UploadIfUnbound (fuel : Nat) (acc : ManagerState) (levelPtr : ULevel) : ManagerState :=
  if (acc.m_levelToObjectMap levelPtr).isNone then UploadLevel fuel acc levelPtr else acc

/-- Function `sfLevelManager::OnDirectLockChange`; `localUser` is
`m_sessionPtr->LocalUser()`.  A null `m_lockObject` at the release is a fault. -/
def LevelManager_OnDirectLockChange (fuel : Nat) (s : ManagerState) (localUser : Nat)
    (objPtr : sfObject) : ManagerState :=
  if (s.objects objPtr).Type_ = sfType.LevelLock ∧
      (s.objects objPtr).LockOwner = some localUser then
    let s1 := s.m_levelsToUpload.foldl (UploadIfUnbound fuel) s
    let s2 := { s1 with m_levelsToUpload := [] }
    match s2.m_lockObject with
    | some lockObject => s2.emit (Effect.ReleaseLock lockObject)
    | none => { s2 with fault := true }
  else s

/-- The step from `s` to `t` leaves the level manager and the host alone. -/
structure LevelFrame (s t : ManagerState) : Prop where
  host : t.host = s.host
  levelMap : t.m_levelToObjectMap = s.m_levelToObjectMap
  toUpload : t.m_levelsToUpload = s.m_levelsToUpload
  lockObject : t.m_lockObject = s.m_lockObject
  fault : t.fault = s.fault
  nextObject : s.nextObject ≤ t.nextObject

/-- State `t` is `s` after the upload of `level`: the level is bound to the object
made first, which is `s.nextObject`; the queue, the lock object, the host and the
fault flag are those of `s`. -/
structure Uploaded (s : ManagerState) (level : ULevel) (t : ManagerState) : Prop where
  host : t.host = s.host
  levelMap : t.m_levelToObjectMap =
    Function.update s.m_levelToObjectMap level (some s.nextObject)
  toUpload : t.m_levelsToUpload = s.m_levelsToUpload
  lockObject : t.m_lockObject = s.m_lockObject
  fault : t.fault = s.fault

/-- The step from `s` to `t` uploads no level: the level maps stay, no level
leaves the queue, and the trace grows only by lock requests and by the creation
of an object of type `LevelLock`. -/
structure QueuesOnly (s t : ManagerState) : Prop where
  levelMap : t.m_levelToObjectMap = s.m_levelToObjectMap
  objectMap : t.m_objectToLevelMap = s.m_objectToLevelMap
  queue : ∀ x ∈ s.m_levelsToUpload, x ∈ t.m_levelsToUpload
  trace : ∃ extra, t.trace = s.trace ++ extra ∧
    ∀ e ∈ extra, (∃ o, e = Effect.RequestLock o) ∨
      (∃ o, e = Effect.CreateRoot o ∧ (t.objects o).Type_ = sfType.LevelLock)

/-- Example state of C19: the persistent level 0 and the streaming level 2 are
queued for upload, together with level 3 when `buffer` is set, which is the
buffer level in the transient package; actor 1 is in level 0 and actor 2 in
level 2; the lock object 9 is held by the local user 1. -/
def C19_state (buffer : Bool) : ManagerState :=
  { ManagerState.empty with
    host := { ManagerState.empty.host with
      actor := fun a =>
        if a = 1 then { ActorData.blank with Name := "Cube" }
        else if a = 2 then { ActorData.blank with Name := "Lamp", Level := 2 }
        else ActorData.blank,
      allActors := [1, 2], nextActor := 3,
      levels := [0, 2],
      level := fun l =>
        if l = 0 then { LevelData.blank with Path := "/Game/Main" }
        else if l = 2 then
          { LevelData.blank with
            Path := "/Game/Cellar", StreamingLevel := some ⟨⟨0, 0, 100⟩, 90, "Rooms"⟩ }
        else if l = 3 then { LevelData.blank with InTransientPackage := true }
        else LevelData.blank },
    objects := fun o =>
      if o = 9 then { ObjectData.create sfType.LevelLock [] with LockOwner := some 1 }
      else ObjectData.create sfType.Actor [],
    nextObject := 10,
    m_levelsToUpload := if buffer then [0, 2, 3] else [0, 2],
    m_lockObject := some 9 }

/-- The dictionary of an actor object of C23: the name, and the folder and the
transform that the actors of `C23_state` have. -/
def C23_properties (name : String) : List (sfName × sfProperty) :=
  [(sfProp.Name, FromString name), (sfProp.Label, FromString ""),
    (sfProp.Folder, FromString ""), (sfProp.Location, FromVector ⟨0, 0, 0⟩),
    (sfProp.Rotation, FromVector ⟨0, 0, 0⟩), (sfProp.Scale, FromVector ⟨1, 1, 1⟩)]

/-- Example state of C23: level 0 is bound to the level object 0; actor 1 is
bound to object 1 below the level object, actor 2 to object 2 below object 1.
The host has just redone the detach of actor 2, which has no attach parent. -/
def C23_state : ManagerState :=
  { ManagerState.empty with
    host := { ManagerState.empty.host with
      actor := fun a =>
        if a = 1 then
          { ActorData.blank with Name := "Table",
                                 RootComponent := some ⟨⟨0, 0, 0⟩, ⟨0, 0, 0⟩, ⟨1, 1, 1⟩⟩ }
        else if a = 2 then
          { ActorData.blank with Name := "Lamp",
                                 RootComponent := some ⟨⟨0, 0, 0⟩, ⟨0, 0, 0⟩, ⟨1, 1, 1⟩⟩ }
        else ActorData.blank,
      allActors := [1, 2], nextActor := 3 },
    objects := fun o =>
      if o = 0 then
        { ObjectData.create sfType.Level [(sfProp.Name, FromString "/Game/Main")] with
          Children := [1] }
      else if o = 1 then
        { ObjectData.create sfType.Actor (C23_properties "Table") with
          Parent := some 0, Children := [2] }
      else if o = 2 then
        { ObjectData.create sfType.Actor (C23_properties "Lamp") with Parent := some 1 }
      else ObjectData.create sfType.Actor [],
    nextObject := 3,
    m_actorToObjectMap := fun a => if a = 1 then some 1 else if a = 2 then some 2 else none,
    m_objectToActorMap := fun o => if o = 1 then some 1 else if o = 2 then some 2 else none,
    m_levelToObjectMap := fun l => if l = 0 then some 0 else none,
    m_objectToLevelMap := fun o => if o = 0 then some 0 else none }

/-- Example state of C28: the state of C19 with the streaming level 2 ahead of
the persistent level 0 in the iteration order of the queued set. -/
def C28_state : ManagerState :=
  { C19_state false with m_levelsToUpload := [2, 0] }

/-- Every entry of `m_selectedActors` is a binding of `m_actorToObjectMap`. -/
def SelectedBound (s : ManagerState) : Prop :=
  ∀ p ∈ s.m_selectedActors, s.m_actorToObjectMap p.1 = some p.2

/-- Example state of C29: actor 1 is bound to object 5, is selected, and is
tracked in `m_selectedActors`. -/
def C29_state : ManagerState :=
  { ManagerState.empty with
    host := { ManagerState.empty.host with
      actor := fun a => if a = 1 then { ActorData.blank with Name := "Cube" } else ActorData.blank,
      allActors := [1], selection := [1], nextActor := 2 },
    nextObject := 6,
    m_actorToObjectMap := fun a => if a = 1 then some 5 else none,
    m_objectToActorMap := fun o => if o = 5 then some 1 else none,
    m_selectedActors := [(1, 5)] }

/-- A call that `SendPropertyChanges` makes for a queued property: the `Set` of a
value on the property dictionary of an object, or the entry of an actor in
`m_syncLabelQueue`. -/
inductive QueuedCall where
  | Set (o : sfObject) (key : sfName) (value : sfProperty)
  | Enqueue (a : AActor)

/-- The state after a call of `SendPropertyChanges`. -/
def QueuedCall.run (s : ManagerState) : QueuedCall → ManagerState
  | QueuedCall.Set o key value => s.PropertySet o key value
  | QueuedCall.Enqueue a => { s with m_syncLabelQueue := s.m_syncLabelQueue ++ [a] }

/-- The calls that one queued property of an actor causes in
`SendPropertyChanges`, read off the state in which the function starts: for a
bound actor with a root component a transform property is set to the value that
the actor has, whatever the dictionary stores; `ActorLabel` puts a bound actor
on the label queue; any other property, and any property of an actor that is
not bound, causes no call. -/
def QueuedCalls (s : ManagerState) (a : AActor) (prop : UProperty) : List QueuedCall :=
  match s.m_actorToObjectMap a, (s.host.actor a).RootComponent with
  | none, _ => []
  | some o, some root =>
    if prop = "RelativeLocation" then
      [QueuedCall.Set o sfProp.Location (FromVector root.RelativeLocation)]
    else if prop = "RelativeRotation" then
      [QueuedCall.Set o sfProp.Rotation (FromVector root.RelativeRotation)]
    else if prop = "RelativeScale3D" then
      [QueuedCall.Set o sfProp.Scale (FromVector root.RelativeScale3D)]
    else if prop = "ActorLabel" then [QueuedCall.Enqueue a]
    else []
  | some _, none => if prop = "ActorLabel" then [QueuedCall.Enqueue a] else []

/-- The calls that the queue of `SendPropertyChanges` causes: those of the queued
properties of every actor that is not pending kill, in queue order. -/
def AllQueuedCalls (s : ManagerState) : List QueuedCall :=
  (s.m_propertyChangeMap.map
    (fun pair =>
      if (s.host.actor pair.1).IsPendingKill then []
      else (pair.2.map (QueuedCalls s pair.1)).flatten)).flatten

/-- The actors that a list of calls puts on the label queue. -/
def EnqueuedActors (calls : List QueuedCall) : List AActor :=
  calls.filterMap (fun c => match c with
    | QueuedCall.Enqueue a => some a
    | QueuedCall.Set _ _ _ => none)

/-- The `Set` calls of a list of calls as they appear in the trace. -/
def TracedSets (calls : List QueuedCall) : List Effect :=
  calls.filterMap (fun c => match c with
    | QueuedCall.Set o key _ => some (Effect.PropertySet o key)
    | QueuedCall.Enqueue _ => none)

/-- Example state of C22: actor 1 is bound to object 5, whose dictionary stores
the transform that the actor has; the properties `RelativeLocation` and
`ActorLabel` of the actor are queued. -/
def C22_state : ManagerState :=
  { ManagerState.empty with
    host := { ManagerState.empty.host with
      actor := fun a =>
        if a = 1 then
          { ActorData.blank with
            Name := "Cube", RootComponent := some ⟨⟨1, 0, 0⟩, ⟨0, 0, 0⟩, ⟨1, 1, 1⟩⟩ }
        else ActorData.blank,
      allActors := [1], nextActor := 2 },
    objects := fun o =>
      if o = 5 then
        ObjectData.create sfType.Actor
          [(sfProp.Location, FromVector ⟨1, 0, 0⟩), (sfProp.Rotation, FromVector ⟨0, 0, 0⟩),
            (sfProp.Scale, FromVector ⟨1, 1, 1⟩)]
      else ObjectData.create sfType.Actor [],
    nextObject := 6,
    m_actorToObjectMap := fun a => if a = 1 then some 5 else none,
    m_objectToActorMap := fun o => if o = 5 then some 1 else none,
    m_propertyChangeMap := [(1, ["RelativeLocation", "ActorLabel"])] }

/-- The folder path of an actor equals the queued folder or lies beneath it: the
test of the inner loop of `DeleteEmptyFolders`. -/
def FolderHolds (folder queued : String) : Bool :=
  folder == queued || PathIsChildOf folder queued

/-- The queued folders in which no actor of the world lies. -/
def EmptyFolders (s : ManagerState) : List String :=
  s.m_foldersToCheck.filter
    (fun q => !(s.host.WorldActors.any (fun a => FolderHolds (s.host.actor a).FolderPath q)))

/-- Example state of C27: actor 1 lies in the folder `Lights/Ceiling`; the
folders `Props` and `Lights` are queued, or with `nested` set the folders
`Lights` and `Lights/Ceiling`; `available` is `FActorFolders::IsAvailable()`. -/
def C27_state (available nested : Bool) : ManagerState :=
  { ManagerState.empty with
    host := { ManagerState.empty.host with
      actor := fun a =>
        if a = 1 then { ActorData.blank with Name := "Lamp", FolderPath := "Lights/Ceiling" }
        else ActorData.blank,
      allActors := [1], nextActor := 2, foldersAvailable := available },
    m_foldersToCheck := if nested then ["Lights", "Lights/Ceiling"] else ["Props", "Lights"] }

/-- Whether the loop of `CopyList` finds the insertion of `x` in front of the
elements `post` of the destination: it passes the elements that equal their
neighbour, and at the first one that differs the source element must not equal
the destination element after it, or the loop takes the difference for a
removal. -/
def InsertionFound : sfProperty → List sfProperty → Bool
  | _, [] => true
  | x, a :: post =>
    if Equals x a then InsertionFound a post
    else !(match post with
           | b :: _ => Equals x b
           | [] => false)

/-! ## Actor manager: the repair of component child lists after a transaction -/

/-- A scene component of the host (`USceneComponent*`), identified by a number. -/
abbrev ComponentPtr := Nat

/-- What the repair reads and writes of a scene component. -/
structure ComponentData where
  /-- The result of `GetAttachParent()`. -/
  AttachParent : Option ComponentPtr
  /-- The array `GetAttachChildren()`; an entry may be null. -/
  AttachChildren : List (Option ComponentPtr)
  /-- The result of `GetOwner()`. -/
  Owner : Option AActor
  /-- Set by `DestroyComponent`. -/
  IsPendingKill : Bool
  deriving DecidableEq, Repr

/-- The components of the host and the lists that the actor manager keeps from
before a transaction to after it. -/
structure TransactionState where
  component : ComponentPtr → ComponentData
  /-- The result of `GetRootComponent()` for each actor. -/
  rootComponent : AActor → Option ComponentPtr
  /-- The result of `IsPendingKill()` for each actor. -/
  actorPendingKill : AActor → Bool
  m_parentsToCheck : List ComponentPtr
  m_childrenToCheck : List ComponentPtr
  m_destroyedActorsToCheck : List AActor
  /-- An array was read past its end; the C++ is undefined from there on. -/
  fault : Bool

/-- An object of a transaction as the casts of `RecordPreTransactionState` see it. -/
inductive TransactionObject where
  | actor (a : AActor)
  | component (c : ComponentPtr)
  | other
  deriving DecidableEq, Repr

/-- Method `TArray::AddUnique`. -/
def AddUnique {α : Type} [BEq α] (l : List α) (x : α) : List α :=
  if l.contains x then l else l ++ [x]

/-- Function `sfActorManager::RecordPreTransactionState` on the objects of the
transaction. -/
def RecordPreTransactionState (s : TransactionState) (objs : List TransactionObject) :
    TransactionState :=
  objs.foldl
    (fun acc obj =>
      match obj with
      | .actor a =>
        if acc.actorPendingKill a then
          { acc with m_destroyedActorsToCheck := AddUnique acc.m_destroyedActorsToCheck a }
        else acc
      | .component c =>
        let acc1 := { acc with m_parentsToCheck := AddUnique acc.m_parentsToCheck c }
        (acc1.component c).AttachChildren.foldl
          (fun acc2 childPtr =>
            match childPtr with
            | some child => { acc2 with m_childrenToCheck := AddUnique acc2.m_childrenToCheck child }
            | none => acc2)
          acc1
      | .other => acc)
    s

/-- The state with the child list of one component replaced. -/
def TransactionState.setChildren (s : TransactionState) (p : ComponentPtr)
    (children : List (Option ComponentPtr)) : TransactionState :=
  { s with component :=
      Function.update s.component p { s.component p with AttachChildren := children } }

/-- Host call `USceneComponent::DestroyComponent` on a component without an
attach parent, the only case in which the repair makes it: the component is
pending kill, the children in its child list that are attached to it are
detached, and its child list is empty. -/
def DestroyComponent (s : TransactionState) (c : ComponentPtr) : TransactionState :=
  { s with component := fun x =>
      if x = c then { s.component c with AttachChildren := [], IsPendingKill := true }
      else if (s.component x).AttachParent = some c ∧ some x ∈ (s.component c).AttachChildren then
        { s.component x with AttachParent := none }
      else s.component x }

/-- The inner loop of the first part of `FixTransactedComponentChildren` for the
component `componentPtr`: the entries of its child list below index `i` are
still to visit, the last first.  The loop reads the array of the component
itself, so a read past its end is a fault. -/
def FixChildren (componentPtr : ComponentPtr) : Nat → TransactionState → TransactionState
  | 0, s => s
  | i + 1, s =>
    match (s.component componentPtr).AttachChildren[i]? with
    | none => { s with fault := true }
    | some childPtr =>
      if (match childPtr with
          | none => true
          | some child => decide ((s.component child).AttachParent ≠ some componentPtr)) then
        -- children.RemoveAt(i)
        let s1 := s.setChildren componentPtr
          ((s.component componentPtr).AttachChildren.eraseIdx i)
        let s2 :=
          match childPtr with
          | none => s1
          | some child =>
            if decide ((s1.component child).Owner = (s1.component componentPtr).Owner) &&
                decide ((s1.component child).AttachParent = none) &&
                (match (s1.component child).Owner with
                 | none => true
                 | some owner => decide (s1.rootComponent owner ≠ some child)) then
              DestroyComponent s1 child
            else s1
        FixChildren componentPtr i s2
      else FixChildren componentPtr i s

/-- The body of the first loop of `FixTransactedComponentChildren`. -/
def FixParent (s : TransactionState) (componentPtr : ComponentPtr) : TransactionState :=
  FixChildren componentPtr (s.component componentPtr).AttachChildren.length s

/-- The body of the second loop of `FixTransactedComponentChildren`. -/
def RestoreChild (s : TransactionState) (componentPtr : ComponentPtr) : TransactionState :=
  match (s.component componentPtr).AttachParent with
  | none => s
  | some parentPtr =>
    if !((s.component parentPtr).AttachChildren.contains (some componentPtr)) then
      -- children.Add(componentPtr)
      s.setChildren parentPtr ((s.component parentPtr).AttachChildren ++ [some componentPtr])
    else s

/-- Function `sfActorManager::FixTransactedComponentChildren`. -/
def FixTransactedComponentChildren (s : TransactionState) : TransactionState :=
  let s1 := s.m_parentsToCheck.foldl FixParent s
  let s2 := s.m_childrenToCheck.foldl RestoreChild s1
  { s2 with m_parentsToCheck := [], m_childrenToCheck := [] }

/-- The child list of `p` has no null entry and holds only components whose
attach parent is `p`. -/
def ChildrenSound (s : TransactionState) (p : ComponentPtr) : Prop :=
  ∀ e ∈ (s.component p).AttachChildren,
    ∃ c, e = some c ∧ (s.component c).AttachParent = some p

/-- A component with an attach parent is in the child list of that parent. -/
def ListedByParent (s : TransactionState) (c : ComponentPtr) : Prop :=
  ∀ p, (s.component c).AttachParent = some p → some c ∈ (s.component p).AttachChildren

/-- What the steps of the first loop keep: the fault flag, the soundness of the
child list of any component, the absence of a component from its own child
list, and the entries of a child list above an index of sound entries. -/
structure RepairStep (s t : TransactionState) : Prop where
  fault : t.fault = s.fault
  sound : ∀ q, ChildrenSound s q → ChildrenSound t q
  subset : ∀ q e, e ∈ (t.component q).AttachChildren → e ∈ (s.component q).AttachChildren
  toCheck : t.m_parentsToCheck = s.m_parentsToCheck ∧ t.m_childrenToCheck = s.m_childrenToCheck

/-- Example state of C25: the child list of component 1 holds a null entry,
component 2, which is attached to it, and component 3, which is attached to
nothing and is not the root of its actor; component 4 is attached to
component 1 and is missing from its child list. -/
def C25_state : TransactionState :=
  { component := fun x =>
      if x = 1 then ⟨none, [none, some 2, some 3], some 7, false⟩
      else if x = 2 then ⟨some 1, [], some 7, false⟩
      else if x = 3 then ⟨none, [], some 7, false⟩
      else if x = 4 then ⟨some 1, [], some 7, false⟩
      else ⟨none, [], none, false⟩,
    rootComponent := fun a => if a = 7 then some 1 else none,
    actorPendingKill := fun _ => false,
    m_parentsToCheck := [1],
    m_childrenToCheck := [2, 3, 4],
    m_destroyedActorsToCheck := [],
    fault := false }

/-! ## Actor manager: undo and redo -/

/-- The enum `sfActorManager::UndoType`. -/
inductive UndoType where
  | None
  | Move
  | Rotate
  | Scale
  | Create
  | Delete
  | DeleteOutliner
  | Rename
  | Folder
  | Attach
  | Detach
  | Edit
  | MoveToLevel
  deriving DecidableEq, Repr

/-- The number of an enumerator, which is what the C++ reads where an
`UndoType` stands as a condition. -/
def UndoType.toNat : UndoType → Nat
  | .None => 0
  | .Move => 1
  | .Rotate => 2
  | .Scale => 3
  | .Create => 4
  | .Delete => 5
  | .DeleteOutliner => 6
  | .Rename => 7
  | .Folder => 8
  | .Attach => 9
  | .Detach => 10
  | .Edit => 11
  | .MoveToLevel => 12

/-- Function `sfActorManager::RegisterUndoTypes`: the table `m_undoTypes`. -/
def RegisterUndoTypes : List (String × UndoType) :=
  [("Move Actors", .Move), ("Move Components", .Move), ("Set Location", .Move),
    ("Paste Location", .Move), ("Rotate Actors", .Rotate), ("Rotate Components", .Rotate),
    ("Translate/RotateZ Actors", .Rotate), ("Translate/RotateZ Components", .Rotate),
    ("Translate/Rotate2D Actors", .Rotate), ("Translate/Rotate2D Components", .Rotate),
    ("Set Rotation", .Rotate), ("Paste Rotation", .Rotate), ("Scale Actors", .Scale),
    ("Scale Components", .Scale), ("Set Scale", .Scale), ("Paste Scale", .Scale),
    ("Create Actors", .Create), ("Paste", .Create), ("Delete Actors", .Delete),
    ("Cut", .Delete), ("Delete Selection", .DeleteOutliner), ("Rename Actor", .Rename),
    ("Rename Multiple Actors", .Rename), ("Rename Folder", .Folder), ("Create Folder", .Folder),
    ("Move World Outliner Items", .Folder), ("Attach actors", .Attach),
    ("Detach actors", .Detach), ("Add Child", .Edit), ("Insert Child", .Edit),
    ("Delete Child", .Edit), ("Duplicate Child", .Edit), ("Clear Children", .Edit),
    ("Move Row", .Edit), ("Move Actors To Level", .MoveToLevel),
    ("Move Selected Actors To Level", .MoveToLevel)]

/-- The classification at the head of `OnUndoRedo`: the entry of the title in
`m_undoTypes`, `None` without one, and `Edit` for an unlisted title that starts
with `Edit `.  Titles are compared letter by letter. -/
def ClassifyUndo (action : String) : UndoType :=
  let undoType := (RegisterUndoTypes.lookup action).getD UndoType.None
  if undoType = UndoType.None ∧ "Edit ".toList.isPrefixOf action.toList then UndoType.Edit
  else undoType

/-- Method `AActor::GetActorScale`; without a root component it is (1, 1, 1). -/
def GetActorScale (h : HostScene) (a : AActor) : FVector :=
  match (h.actor a).RootComponent with
  | none => ⟨1, 1, 1⟩
  | some r => h.actorScale a r

/-- Method `AActor::SetActorScale3D`; without a root component nothing is set. -/
def SetActorScale3D (s : ManagerState) (a : AActor) (v : FVector) : ManagerState :=
  match (s.host.actor a).RootComponent with
  | none => s
  | some r => s.setActor a { s.host.actor a with RootComponent := some (s.host.setActorScale a v r) }

/-- Function `sfActorManager::SyncScale`; `objPtr` is null for an actor that is
not bound. -/
def SyncScale (s : ManagerState) (a : AActor) (objPtr : Option sfObject) : ManagerState :=
  match objPtr with
  | none => s
  | some o =>
    if (s.objects o).IsLocked then
      SetActorScale3D s a (ToVector (DictGet (s.objects o).Property sfProp.Scale))
    else s.PropertySet o sfProp.Scale (FromVector (GetActorScale s.host a))

/-- Function `sfActorManager::Unlock`, as far as the state goes: the lock
components are decorations of the host; a selected actor is unselected and
selected again. -/
def Unlock (s : ManagerState) (a : AActor) : ManagerState :=
  if s.host.IsSelected a then
    { s with host := { s.host with selection := s.host.selection.erase a ++ [a] } }
  else s

/-- Function `sfActorManager::OnUndoDelete`. -/
def OnUndoDelete (s : ManagerState) (a : AActor) : ManagerState :=
  if !(IsSyncable (s.host.actor a)) then s
  else
    let actors := s.host.LevelActors (s.host.actor a).Level
    if actors.any (fun x => x != a && (s.host.actor x).Name == (s.host.actor a).Name) then
      -- an actor with the same name exists: rename and delete the one just created
      EditorDestroyActor (Rename s a ((s.host.actor a).Name ++ " (deleted)")) a
    else if !(actors.contains a) then
      -- the actor is not in the world
      EditorDestroyActor s a
    else
      let s1 := Unlock s a
      { s1 with m_uploadList :=
          if s1.m_uploadList.contains a then s1.m_uploadList else s1.m_uploadList ++ [a] }

/-- The location part of `OnUndoRedoMove` for a bound actor with the root
component `root`: a location that differs from the stored one is reverted when
the object is locked and sent otherwise. -/
def SyncMovedLocation (s : ManagerState) (a : AActor) (o : sfObject)
    (root : USceneComponent) : ManagerState :=
  let oldLocation := ToVector (DictGet (s.objects o).Property sfProp.Location)
  if root.RelativeLocation ≠ oldLocation then
    if (s.objects o).IsLocked then SetActorRelativeLocation s a oldLocation
    else s.PropertySet o sfProp.Location (FromVector root.RelativeLocation)
  else s

/-- The rotation part of `OnUndoRedoMove`, as `SyncMovedLocation`. -/
def SyncMovedRotation (s : ManagerState) (a : AActor) (o : sfObject)
    (root : USceneComponent) : ManagerState :=
  let oldRotation := ToVector (DictGet (s.objects o).Property sfProp.Rotation)
  if root.RelativeRotation ≠ oldRotation then
    if (s.objects o).IsLocked then SetActorRelativeRotation s a oldRotation
    else s.PropertySet o sfProp.Rotation (FromVector root.RelativeRotation)
  else s

/-- Function `sfActorManager::OnUndoRedoMove`; `objPtr` is null for an actor that
is not bound. -/
def OnUndoRedoMove (s : ManagerState) (a : AActor) (objPtr : Option sfObject)
    (isRotation : Bool) : ManagerState :=
  if s.host.IsSelected a then
    match objPtr with
    | none => OnUndoDelete s a
    | some o =>
      match (s.host.actor a).RootComponent with
      | none => s
      | some root =>
        -- rotating may also change the location, so the location is checked in both cases
        let s1 := SyncMovedLocation s a o root
        if isRotation then SyncMovedRotation s1 a o root else s1
  else if (s.host.actor a).IsPendingKill then OnActorDeleted s a
  else s

/-- Function `sfActorManager::OnUndoDetach`. -/
def OnUndoDetach (s : ManagerState) (a : AActor) : ManagerState :=
  (s.host.GetAttachedActors a).foldl
    (fun acc childPtr =>
      match acc.m_actorToObjectMap childPtr with
      | some childObj =>
        -- detaching may change the folder
        SyncFolder (SyncParent acc childPtr (some childObj)) childPtr childObj
      | none => acc)
    s

/-- The cases `Create`, `Delete` and `MoveToLevel` of the switch of `OnUndoRedo`. -/
def OnUndoRedoDelete (s : ManagerState) (a : AActor) (objPtr : Option sfObject) :
    ManagerState :=
  if (s.host.actor a).IsPendingKill then OnActorDeleted s a
  else if objPtr.isNone then OnUndoDelete s a
  else s

/-- The body of the loop of `OnUndoRedo` for one actor of the transaction.  The
flag `bLockLocation` is a lock decoration of the host and not part of the state;
the case `Edit` is compiled out (`SYNC_ACTOR_PROPERTIES` is 0). -/
def OnUndoRedoActor (undoType : UndoType) (isUndo : Bool) (s : ManagerState) (a : AActor) :
    ManagerState :=
  let objPtr := s.m_actorToObjectMap a
  match undoType with
  | .Move => OnUndoRedoMove s a objPtr (decide (undoType = UndoType.Rotate))
  | .Rotate => OnUndoRedoMove s a objPtr (decide (undoType = UndoType.Rotate))
  | .Scale => SyncScale s a objPtr
  | .DeleteOutliner =>
    let s1 :=
      if !(s.host.actor a).IsPendingKill then
        match objPtr with
        | some o => SyncFolder s a o
        | none => s
      else s
    -- no break: the Delete case runs as well
    OnUndoRedoDelete s1 a objPtr
  | .Create => OnUndoRedoDelete s a objPtr
  | .Delete => OnUndoRedoDelete s a objPtr
  | .MoveToLevel => OnUndoRedoDelete s a objPtr
  | .Rename =>
    match objPtr with
    | some o => SyncLabelAndName s a o
    | none => s
  | .Folder =>
    let s1 :=
      match objPtr with
      | some o => SyncFolder s a o
      | none => s
    SyncParent s1 a objPtr
  | .Attach => SyncParent s a objPtr
  | .Detach => if isUndo then OnUndoDetach s a else OnRedoDetach s a objPtr
  | .Edit => s
  | .None => s

/-- Function `sfActorManager::OnUndoRedo`.  `transaction` is the result of
`GetTransaction(index)`, null or the objects of the transaction, each cast to an
actor (`none` for an object that is no actor). -/
def OnUndoRedo (s : ManagerState) (action : String) (isUndo : Bool)
    (transaction : Option (List (Option AActor))) : ManagerState :=
  match transaction with
  | none => s
  | some objs =>
    let undoType := ClassifyUndo action
    let s1 :=
      -- `undoType == Delete || undoType == Create || UndoType::MoveToLevel`
      if decide (undoType = UndoType.Delete) || decide (undoType = UndoType.Create) ||
          decide (UndoType.MoveToLevel.toNat ≠ 0) then
        -- ABrush::SetNeedRebuild marks the level; the rebuild follows at once
        ({ s with m_bspRebuildDelay := 0 }).emit Effect.RebuildAlteredBSP
      else s
    objs.foldl
      (fun acc obj =>
        match obj with
        | some a => OnUndoRedoActor undoType isUndo acc a
        | none => acc)
      s1

theorem CopyListLoop_nil (i : Nat) (dest toAdd : List sfProperty) :
    CopyListLoop [] i dest toAdd = ⟨dest, toAdd, []⟩ := rfl

theorem CopyListLoop_cons (e : sfProperty) (rest : List sfProperty) (i : Nat)
    (dest toAdd : List sfProperty) :
    CopyListLoop (e :: rest) i dest toAdd =
    if dest.length ≤ i then
      CopyListLoop rest (i + 1) dest (toAdd ++ [e])
    else if Equals e (Get dest i) then
      CopyListLoop rest (i + 1) dest toAdd
    else if decide (dest.length > i + 1) && Equals e (Get dest (i + 1)) then
      let r := CopyListLoop rest (i + 1) (dest.eraseIdx i) toAdd
      ⟨r.dest, r.toAdd, Mutation.Remove :: r.log⟩
    else if (match rest with
             | e' :: _ => Equals (Get dest i) e'
             | [] => false) then
      let r := CopyListSkip rest (i + 1) (dest.insertIdx i e) toAdd
      ⟨r.dest, r.toAdd, Mutation.Insert :: r.log⟩
    else
      let c := Copy (Get dest i) e
      if !c.ok then
        let r := CopyListLoop rest (i + 1) (dest.set i e) toAdd
        ⟨r.dest, r.toAdd, c.log ++ Mutation.Set :: r.log⟩
      else
        let r := CopyListLoop rest (i + 1) (dest.set i c.dest) toAdd
        ⟨r.dest, r.toAdd, c.log ++ r.log⟩ := rfl

theorem CopyListSkip_cons (e : sfProperty) (rest : List sfProperty) (i : Nat)
    (dest toAdd : List sfProperty) :
    CopyListSkip (e :: rest) i dest toAdd = CopyListLoop rest (i + 1) dest toAdd := rfl

theorem CopyDictLoop_nil (dest : List (sfName × sfProperty)) :
    CopyDictLoop [] dest = ⟨dest, []⟩ := rfl

theorem CopyDictLoop_cons (k : sfName) (v : sfProperty) (rest dest : List (sfName × sfProperty)) :
    CopyDictLoop ((k, v) :: rest) dest =
    match TryGet dest k with
    | none =>
      let r := CopyDictLoop rest (DictSet dest k v)
      ⟨r.dest, Mutation.Set :: r.log⟩
    | some dv =>
      let c := Copy dv v
      if !c.ok then
        let r := CopyDictLoop rest (DictSet dest k v)
        ⟨r.dest, c.log ++ Mutation.Set :: r.log⟩
      else
        let r := CopyDictLoop rest (DictSet dest k c.dest)
        ⟨r.dest, c.log ++ r.log⟩ := by
  rw [CopyDictLoop.eq_def]

theorem Copy_value_value (d s : Scalar) :
    Copy (.value d) (.value s) =
      if !(Equals (.value d) (.value s)) then ⟨true, .value s, [Mutation.SetValue]⟩
      else ⟨true, .value d, []⟩ := rfl

theorem Copy_list_list (d s : List sfProperty) :
    Copy (.list d) (.list s) =
      ⟨true, .list (CopyListFinish s.length (CopyListLoop s 0 d [])).1,
        (CopyListFinish s.length (CopyListLoop s 0 d [])).2⟩ := rfl

theorem Copy_dict_dict (d s : List (sfName × sfProperty)) :
    Copy (.dict d) (.dict s) =
      ⟨true, .dict (CopyDictLoop s ((KeysToRemove d s).foldl DictRemove d)).dest,
        (KeysToRemove d s).map (fun _ => Mutation.Remove) ++
          (CopyDictLoop s ((KeysToRemove d s).foldl DictRemove d)).log⟩ := rfl

/-- The flag returned by `Copy` says whether the two properties have the same type. -/
theorem Copy_ok (dest src : sfProperty) :
    (Copy dest src).ok = decide (dest.Type_ = src.Type_) := by
  cases dest <;> cases src <;> first | rfl | (rw [Copy_value_value]; split <;> rfl)

theorem Equals_value (a b : Scalar) : Equals (.value a) (.value b) = (a == b) := rfl
theorem Equals_list (a b : List sfProperty) : Equals (.list a) (.list b) = EqualsList a b := rfl
theorem Equals_dict (a b : List (sfName × sfProperty)) :
    Equals (.dict a) (.dict b) = (b.all (fun p => HasKey a p.1) && EqualsFields a b) := rfl
theorem EqualsList_cons (x y : sfProperty) (xs ys : List sfProperty) :
    EqualsList (x :: xs) (y :: ys) = (Equals x y && EqualsList xs ys) := rfl
theorem EqualsFields_cons (k : sfName) (v : sfProperty) (rest b : List (sfName × sfProperty)) :
    EqualsFields ((k, v) :: rest) b =
      ((match TryGet b k with
        | some w => Equals v w
        | none => false) && EqualsFields rest b) := by
  rw [EqualsFields.eq_def]

/-- Structural induction on properties, with the elements of a list and the
field values of a dictionary as induction hypotheses. -/
theorem sfProperty.induct {P : sfProperty → Prop}
    (hv : ∀ v, P (.value v))
    (hl : ∀ xs, (∀ x ∈ xs, P x) → P (.list xs))
    (hd : ∀ kvs, (∀ p ∈ kvs, P p.2) → P (.dict kvs)) : ∀ p, P p := by
  intro p
  refine @sfProperty.rec P (fun xs => ∀ x ∈ xs, P x) (fun kvs => ∀ q ∈ kvs, P q.2)
    (fun q => P q.2) hv hl hd ?_ ?_ ?_ ?_ ?_ p
  · intro x hx; cases hx
  · intro h t ih1 ih2 x hx
    rcases List.mem_cons.1 hx with rfl | hx
    · exact ih1
    · exact ih2 x hx
  · intro x hx; cases hx
  · intro h t ih1 ih2 x hx
    rcases List.mem_cons.1 hx with rfl | hx
    · exact ih1
    · exact ih2 x hx
  · intro k v h; exact h

/-! ### Dictionaries as association lists -/

theorem HasKey_cons (k' : sfName) (v : sfProperty) (rest : List (sfName × sfProperty))
    (k : sfName) : HasKey ((k', v) :: rest) k = (k' == k || HasKey rest k) := rfl

theorem HasKey_iff_mem (d : List (sfName × sfProperty)) (k : sfName) :
    HasKey d k = true ↔ ∃ v, (k, v) ∈ d := by
  induction d with
  | nil => simp [HasKey]
  | cons p rest ih =>
    obtain ⟨k', v'⟩ := p
    rw [HasKey_cons, Bool.or_eq_true, ih]
    constructor
    · rintro (h | ⟨v, hv⟩)
      · exact ⟨v', by simp [beq_iff_eq.1 h]⟩
      · exact ⟨v, List.mem_cons_of_mem _ hv⟩
    · rintro ⟨v, hv⟩
      rcases List.mem_cons.1 hv with h | h
      · left; simp [(Prod.mk.inj h).1]
      · right; exact ⟨v, h⟩

theorem TryGet_cons (k' : sfName) (v : sfProperty) (rest : List (sfName × sfProperty))
    (k : sfName) : TryGet ((k', v) :: rest) k = if k' == k then some v else TryGet rest k := rfl

theorem TryGet_eq_none (d : List (sfName × sfProperty)) (k : sfName) :
    TryGet d k = none ↔ HasKey d k = false := by
  induction d with
  | nil => simp [TryGet, HasKey]
  | cons p rest ih =>
    obtain ⟨k', v'⟩ := p
    rw [TryGet_cons, HasKey_cons]
    by_cases h : (k' == k) = true
    · simp [h]
    · simp [h, ih]

theorem TryGet_mem {d : List (sfName × sfProperty)} {k : sfName} {v : sfProperty}
    (h : TryGet d k = some v) : (k, v) ∈ d := by
  induction d with
  | nil => simp [TryGet] at h
  | cons p rest ih =>
    obtain ⟨k', v'⟩ := p
    rw [TryGet_cons] at h
    by_cases hk : (k' == k) = true
    · rw [if_pos hk] at h
      have hk' : k' = k := beq_iff_eq.1 hk
      simp only [Option.some.injEq] at h
      subst hk' h
      exact List.mem_cons_self _ _
    · rw [if_neg hk] at h
      exact List.mem_cons_of_mem _ (ih h)

theorem HasKey_of_TryGet {d : List (sfName × sfProperty)} {k : sfName} {v : sfProperty}
    (h : TryGet d k = some v) : HasKey d k = true :=
  (HasKey_iff_mem d k).2 ⟨v, TryGet_mem h⟩

theorem TryGet_of_HasKey {d : List (sfName × sfProperty)} {k : sfName}
    (h : HasKey d k = true) : ∃ v, TryGet d k = some v := by
  cases hv : TryGet d k with
  | none => rw [(TryGet_eq_none d k).1 hv] at h; cases h
  | some v => exact ⟨v, rfl⟩

theorem DistinctKeys_cons (k : sfName) (v : sfProperty) (rest : List (sfName × sfProperty)) :
    DistinctKeys ((k, v) :: rest) = (!(HasKey rest k) && DistinctKeys rest) := rfl

theorem TryGet_of_mem {d : List (sfName × sfProperty)} {k : sfName} {v : sfProperty}
    (hd : DistinctKeys d = true) (h : (k, v) ∈ d) : TryGet d k = some v := by
  induction d with
  | nil => cases h
  | cons p rest ih =>
    obtain ⟨k', v'⟩ := p
    rw [DistinctKeys_cons, Bool.and_eq_true] at hd
    rw [TryGet_cons]
    rcases List.mem_cons.1 h with h | h
    · obtain ⟨rfl, rfl⟩ := Prod.mk.inj h
      simp
    · have hk : HasKey rest k = true := (HasKey_iff_mem rest k).2 ⟨v, h⟩
      have hne : (k' == k) = false := by
        cases hb : (k' == k) with
        | false => rfl
        | true =>
          have : k' = k := beq_iff_eq.1 hb
          subst this
          rw [hk] at hd
          simp at hd
      rw [hne]
      exact ih hd.2 h

theorem DictSet_cons_eq (k : sfName) (v' : sfProperty) (rest : List (sfName × sfProperty))
    (v : sfProperty) : DictSet ((k, v') :: rest) k v = (k, v) :: rest := by
  simp [DictSet]

theorem DictSet_cons_ne {k' k : sfName} (h : k' ≠ k) (v' : sfProperty)
    (rest : List (sfName × sfProperty)) (v : sfProperty) :
    DictSet ((k', v') :: rest) k v = (k', v') :: DictSet rest k v := by
  simp [DictSet, h]

theorem TryGet_cons_eq (k : sfName) (v : sfProperty) (rest : List (sfName × sfProperty)) :
    TryGet ((k, v) :: rest) k = some v := by
  simp [TryGet]

theorem TryGet_cons_ne {k' k : sfName} (h : k' ≠ k) (v : sfProperty)
    (rest : List (sfName × sfProperty)) : TryGet ((k', v) :: rest) k = TryGet rest k := by
  simp [TryGet, h]

theorem TryGet_DictSet (d : List (sfName × sfProperty)) (k : sfName) (x : sfProperty)
    (k' : sfName) :
    TryGet (DictSet d k x) k' = if k = k' then some x else TryGet d k' := by
  induction d with
  | nil =>
    by_cases h : k = k' <;> simp [DictSet, TryGet, h]
  | cons p rest ih =>
    obtain ⟨k0, v0⟩ := p
    by_cases h0 : k0 = k
    · subst h0
      rw [DictSet_cons_eq]
      by_cases h : k0 = k'
      · subst h; rw [TryGet_cons_eq, if_pos rfl]
      · rw [TryGet_cons_ne h, TryGet_cons_ne h, if_neg h]
    · rw [DictSet_cons_ne h0]
      by_cases h1 : k0 = k'
      · subst h1
        rw [TryGet_cons_eq, TryGet_cons_eq, if_neg (Ne.symm h0)]
      · rw [TryGet_cons_ne h1, TryGet_cons_ne h1, ih]

theorem HasKey_DictSet (d : List (sfName × sfProperty)) (k : sfName) (x : sfProperty)
    (k' : sfName) :
    HasKey (DictSet d k x) k' = (k == k' || HasKey d k') := by
  have h1 := TryGet_DictSet d k x k'
  by_cases h : k = k'
  · subst h
    rw [if_pos rfl] at h1
    rw [HasKey_of_TryGet h1]; simp
  · rw [if_neg h] at h1
    have hb : (k == k') = false := by simp [h]
    rw [hb, Bool.false_or]
    cases hk : HasKey d k' with
    | false =>
      rw [← TryGet_eq_none] at hk ⊢
      rw [h1, hk]
    | true =>
      obtain ⟨v, hv⟩ := TryGet_of_HasKey hk
      rw [hv] at h1
      exact HasKey_of_TryGet h1

theorem DistinctKeys_DictSet (d : List (sfName × sfProperty)) (k : sfName) (x : sfProperty)
    (hd : DistinctKeys d = true) : DistinctKeys (DictSet d k x) = true := by
  induction d with
  | nil => simp [DictSet, DistinctKeys, HasKey]
  | cons p rest ih =>
    obtain ⟨k0, v0⟩ := p
    rw [DistinctKeys_cons, Bool.and_eq_true] at hd
    by_cases h0 : k0 = k
    · subst h0
      rw [DictSet_cons_eq, DistinctKeys_cons, Bool.and_eq_true]
      exact hd
    · rw [DictSet_cons_ne h0, DistinctKeys_cons, Bool.and_eq_true, HasKey_DictSet]
      refine ⟨?_, ih hd.2⟩
      have hb' : (k == k0) = false := by simp [Ne.symm h0]
      rw [hb', Bool.false_or]
      exact hd.1

theorem DictSet_self {d : List (sfName × sfProperty)} {k : sfName} {v : sfProperty}
    (h : TryGet d k = some v) : DictSet d k v = d := by
  induction d with
  | nil => simp [TryGet] at h
  | cons p rest ih =>
    obtain ⟨k0, v0⟩ := p
    rw [TryGet_cons] at h
    by_cases hk : (k0 == k) = true
    · rw [if_pos hk] at h
      simp only [Option.some.injEq] at h
      subst h
      simp [DictSet, hk]
    · rw [if_neg hk] at h
      simp [DictSet, hk, ih h]

theorem mem_DictSet {d : List (sfName × sfProperty)} {k : sfName} {x : sfProperty}
    {p : sfName × sfProperty} (h : p ∈ DictSet d k x) : p = (k, x) ∨ p ∈ d := by
  induction d with
  | nil => left; simpa [DictSet] using h
  | cons q rest ih =>
    obtain ⟨k0, v0⟩ := q
    by_cases hk : (k0 == k) = true
    · simp only [DictSet, hk, if_true] at h
      rcases List.mem_cons.1 h with h | h
      · left; rw [h, beq_iff_eq.1 hk]
      · right; exact List.mem_cons_of_mem _ h
    · simp only [DictSet, hk] at h
      rcases List.mem_cons.1 h with h | h
      · right; rw [h]; exact List.mem_cons_self _ _
      · rcases ih h with h | h
        · left; exact h
        · right; exact List.mem_cons_of_mem _ h

/-! ### Well-formedness and structural equality -/

theorem WellFormedList_iff (xs : List sfProperty) :
    WellFormedList xs = true ↔ ∀ x ∈ xs, WellFormed x = true := by
  induction xs with
  | nil => simp [WellFormedList]
  | cons x xs ih =>
    have : WellFormedList (x :: xs) = (WellFormed x && WellFormedList xs) := rfl
    rw [this, Bool.and_eq_true, ih]
    simp

theorem WellFormedFields_iff (d : List (sfName × sfProperty)) :
    WellFormedFields d = true ↔ ∀ p ∈ d, WellFormed p.2 = true := by
  induction d with
  | nil => simp [WellFormedFields]
  | cons p d ih =>
    obtain ⟨k, v⟩ := p
    have : WellFormedFields ((k, v) :: d) = (WellFormed v && WellFormedFields d) := rfl
    rw [this, Bool.and_eq_true, ih]
    simp

theorem WellFormed_list (xs : List sfProperty) :
    WellFormed (.list xs) = true ↔ ∀ x ∈ xs, WellFormed x = true := by
  have : WellFormed (.list xs) = WellFormedList xs := rfl
  rw [this, WellFormedList_iff]

theorem WellFormed_dict (d : List (sfName × sfProperty)) :
    WellFormed (.dict d) = true ↔
      DistinctKeys d = true ∧ ∀ p ∈ d, WellFormed p.2 = true := by
  have : WellFormed (.dict d) = (DistinctKeys d && WellFormedFields d) := rfl
  rw [this, Bool.and_eq_true, WellFormedFields_iff]

theorem EqualsList_iff (xs ys : List sfProperty) :
    EqualsList xs ys = true ↔ List.Forall₂ (fun x y => Equals x y = true) xs ys := by
  induction xs generalizing ys with
  | nil =>
    cases ys with
    | nil => simp [EqualsList]
    | cons y ys => simp [EqualsList]
  | cons x xs ih =>
    cases ys with
    | nil => simp [EqualsList]
    | cons y ys =>
      rw [EqualsList_cons, Bool.and_eq_true, ih, List.forall₂_cons]

theorem EqualsFields_iff (a b : List (sfName × sfProperty)) :
    EqualsFields a b = true ↔
      ∀ p ∈ a, ∃ w, TryGet b p.1 = some w ∧ Equals p.2 w = true := by
  induction a with
  | nil => simp [EqualsFields]
  | cons p a ih =>
    obtain ⟨k, v⟩ := p
    rw [EqualsFields_cons, Bool.and_eq_true, ih]
    constructor
    · rintro ⟨h1, h2⟩ q hq
      rcases List.mem_cons.1 hq with rfl | hq
      · cases hb : TryGet b k with
        | none => rw [hb] at h1; cases h1
        | some w => rw [hb] at h1; exact ⟨w, rfl, h1⟩
      · exact h2 q hq
    · intro h
      refine ⟨?_, fun q hq => h q (List.mem_cons_of_mem _ hq)⟩
      obtain ⟨w, hw, he⟩ := h (k, v) (List.mem_cons_self _ _)
      simp only at hw he
      rw [hw]; exact he

theorem Equals_dict_iff (a b : List (sfName × sfProperty)) :
    Equals (.dict a) (.dict b) = true ↔
      (∀ p ∈ b, HasKey a p.1 = true) ∧
      ∀ p ∈ a, ∃ w, TryGet b p.1 = some w ∧ Equals p.2 w = true := by
  rw [Equals_dict, Bool.and_eq_true, EqualsFields_iff, List.all_eq_true]

/-- A well formed property equals itself. -/
theorem Equals_refl : ∀ p : sfProperty, WellFormed p = true → Equals p p = true := by
  apply sfProperty.induct
  · intro v _; simp [Equals_value]
  · intro xs ih hw
    rw [WellFormed_list] at hw
    rw [Equals_list, EqualsList_iff]
    have : ∀ l : List sfProperty, (∀ x ∈ l, Equals x x = true) →
        List.Forall₂ (fun x y => Equals x y = true) l l := by
      intro l hl
      induction l with
      | nil => exact List.Forall₂.nil
      | cons x l ihl =>
        exact List.Forall₂.cons (hl x (List.mem_cons_self _ _))
          (ihl (fun y hy => hl y (List.mem_cons_of_mem _ hy)))
    exact this xs (fun x hx => ih x hx (hw x hx))
  · intro d ih hw
    rw [WellFormed_dict] at hw
    rw [Equals_dict_iff]
    refine ⟨fun p hp => (HasKey_iff_mem d p.1).2 ⟨p.2, hp⟩, fun p hp => ?_⟩
    exact ⟨p.2, TryGet_of_mem hw.1 hp, ih p hp (hw.2 p hp)⟩

/-- Structural equality is symmetric on well formed properties. -/
theorem Equals_symm : ∀ a b : sfProperty, WellFormed b = true →
    Equals a b = true → Equals b a = true := by
  intro a
  induction a using sfProperty.induct with
  | hv v =>
    intro b _ h
    cases b with
    | value w => rw [Equals_value] at h ⊢; rw [beq_iff_eq] at h ⊢; exact h.symm
    | list ys => cases h
    | dict d => cases h
  | hl xs ih =>
    intro b hb h
    cases b with
    | value w => cases h
    | dict d => cases h
    | list ys =>
      rw [WellFormed_list] at hb
      rw [Equals_list, EqualsList_iff] at h ⊢
      induction h with
      | nil => exact List.Forall₂.nil
      | cons hxy _ ih2 =>
        refine List.Forall₂.cons ?_ ?_
        · exact ih _ (List.mem_cons_self _ _) _ (hb _ (List.mem_cons_self _ _)) hxy
        · exact ih2 (fun x hx => ih x (List.mem_cons_of_mem _ hx))
            (fun y hy => hb y (List.mem_cons_of_mem _ hy))
  | hd a ih =>
    intro b hb h
    cases b with
    | value w => cases h
    | list ys => cases h
    | dict b =>
      rw [WellFormed_dict] at hb
      rw [Equals_dict_iff] at h ⊢
      obtain ⟨h1, h2⟩ := h
      constructor
      · intro p hp
        obtain ⟨w, hw, _⟩ := h2 p hp
        exact HasKey_of_TryGet hw
      · intro q hq
        obtain ⟨v, hv⟩ := TryGet_of_HasKey (h1 q hq)
        have hmem := TryGet_mem hv
        obtain ⟨w, hw, he⟩ := h2 _ hmem
        have hq' : TryGet b q.1 = some q.2 := TryGet_of_mem hb.1 hq
        simp only at hw he
        rw [hq'] at hw
        simp only [Option.some.injEq] at hw
        subst hw
        exact ⟨v, hv, ih _ hmem _ (hb.2 q hq) he⟩

/-! ### The list loop -/

theorem Get_append_cons (pre : List sfProperty) (x : sfProperty) (d : List sfProperty) :
    Get (pre ++ x :: d) pre.length = x := by
  induction pre with
  | nil => rfl
  | cons a pre ih => simpa [Get] using ih

theorem Get_append_cons_succ (pre : List sfProperty) (x y : sfProperty) (d : List sfProperty) :
    Get (pre ++ x :: y :: d) (pre.length + 1) = y := by
  have h : pre ++ x :: y :: d = (pre ++ [x]) ++ y :: d := by simp
  have hl : pre.length + 1 = (pre ++ [x]).length := by simp
  rw [h, hl, Get_append_cons]

theorem eraseIdx_append_cons (pre : List sfProperty) (x : sfProperty) (d : List sfProperty) :
    (pre ++ x :: d).eraseIdx pre.length = pre ++ d := by
  induction pre with
  | nil => rfl
  | cons a pre ih => simp [List.eraseIdx, ih]

theorem insertIdx_append (pre : List sfProperty) (e : sfProperty) (d : List sfProperty) :
    (pre ++ d).insertIdx pre.length e = pre ++ e :: d := by
  induction pre with
  | nil => cases d <;> rfl
  | cons a pre ih => simp [ih]

theorem set_append_cons (pre : List sfProperty) (x y : sfProperty) (d : List sfProperty) :
    (pre ++ x :: d).set pre.length y = pre ++ y :: d := by
  induction pre with
  | nil => rfl
  | cons a pre ih => simp [ih]

/-- Once the destination is no longer than the index, the loop only collects
the remaining source elements. -/
theorem CopyListLoop_short (src : List sfProperty) :
    ∀ (i : Nat) (dest toAdd : List sfProperty), dest.length ≤ i →
      CopyListLoop src i dest toAdd = ⟨dest, toAdd ++ src, []⟩ := by
  induction src with
  | nil => intro i dest toAdd _; simp [CopyListLoop_nil]
  | cons e rest ih =>
    intro i dest toAdd h
    rw [CopyListLoop_cons, if_pos h, ih (i + 1) dest (toAdd ++ [e]) (by omega)]
    simp

theorem Forall₂_Equals_refl (l : List sfProperty) (h : ∀ x ∈ l, WellFormed x = true) :
    List.Forall₂ (fun x y => Equals x y = true) l l := by
  induction l with
  | nil => exact List.Forall₂.nil
  | cons x l ih =>
    exact List.Forall₂.cons (Equals_refl x (h x (List.mem_cons_self _ _)))
      (ih (fun y hy => h y (List.mem_cons_of_mem _ hy)))

/-- Invariant of the loop of `CopyList`: started at index `|pre|` on `pre ++ d`,
it leaves `pre` alone, turns a part of `d` into `mid`, and collects `ta`, such
that `mid ++ ta` equals the visited source element by element. -/
theorem CopyListLoop_spec (n : Nat) :
    ∀ (src : List sfProperty), src.length ≤ n →
      (∀ e ∈ src, WellFormed e = true ∧ CopyGood e) →
      ∀ (pre d : List sfProperty), (∀ x ∈ d, WellFormed x = true) →
      ∃ mid rem ta,
        (CopyListLoop src pre.length (pre ++ d) []).dest = pre ++ mid ++ rem ∧
        (CopyListLoop src pre.length (pre ++ d) []).toAdd = ta ∧
        (ta ≠ [] → rem = []) ∧
        List.Forall₂ (fun x y => Equals x y = true) (mid ++ ta) src ∧
        (∀ x ∈ mid ++ rem ++ ta, WellFormed x = true) := by
  induction n with
  | zero =>
    intro src hn _ pre d hd
    have : src = [] := List.length_eq_zero.1 (Nat.le_zero.1 hn)
    subst this
    exact ⟨[], d, [], by simp [CopyListLoop_nil], by simp [CopyListLoop_nil], by simp,
      List.Forall₂.nil, by simpa using hd⟩
  | succ n ih =>
    intro src hn hsrc pre d hd
    cases src with
    | nil =>
      exact ⟨[], d, [], by simp [CopyListLoop_nil], by simp [CopyListLoop_nil], by simp,
        List.Forall₂.nil, by simpa using hd⟩
    | cons e rest =>
      have hrest : ∀ x ∈ rest, WellFormed x = true ∧ CopyGood x :=
        fun x hx => hsrc x (List.mem_cons_of_mem _ hx)
      have he := hsrc e (List.mem_cons_self _ _)
      have hlen : rest.length ≤ n := by simpa using hn
      -- shape of the conclusion for one converted element `x`
      have step : ∀ (x : sfProperty) (d' : List sfProperty) (r : ListLoop),
          Equals x e = true → WellFormed x = true → (∀ y ∈ d', WellFormed y = true) →
          r.dest = (CopyListLoop rest (pre.length + 1) (pre ++ x :: d') []).dest →
          r.toAdd = (CopyListLoop rest (pre.length + 1) (pre ++ x :: d') []).toAdd →
          ∃ mid rem ta, r.dest = pre ++ mid ++ rem ∧ r.toAdd = ta ∧ (ta ≠ [] → rem = []) ∧
            List.Forall₂ (fun x y => Equals x y = true) (mid ++ ta) (e :: rest) ∧
            (∀ x ∈ mid ++ rem ++ ta, WellFormed x = true) := by
        intro x d' r hx hwx hd' h1 h2
        have hshape : CopyListLoop rest (pre.length + 1) (pre ++ x :: d') [] =
            CopyListLoop rest (pre ++ [x]).length ((pre ++ [x]) ++ d') [] := by simp
        obtain ⟨mid, rem, ta, g1, g2, g3, g4, g5⟩ := ih rest hlen hrest (pre ++ [x]) d' hd'
        rw [← hshape] at g1 g2
        refine ⟨x :: mid, rem, ta, ?_, ?_, g3, ?_, ?_⟩
        · rw [h1, g1]; simp
        · rw [h2, g2]
        · exact List.Forall₂.cons hx g4
        · intro y hy
          simp only [List.cons_append, List.mem_cons] at hy
          rcases hy with rfl | hy
          · exact hwx
          · exact g5 y hy
      cases d with
      | nil =>
        have hs := CopyListLoop_short (e :: rest) pre.length (pre ++ []) [] (by simp)
        refine ⟨[], [], e :: rest, by rw [hs]; simp, by rw [hs]; simp, by simp, ?_, ?_⟩
        · exact Forall₂_Equals_refl _ (fun x hx => (hsrc x hx).1)
        · intro x hx; exact (hsrc x (by simpa using hx)).1
      | cons di d' =>
        have hwdi : WellFormed di = true := hd di (List.mem_cons_self _ _)
        have hd' : ∀ y ∈ d', WellFormed y = true := fun y hy => hd y (List.mem_cons_of_mem _ hy)
        have hnot : ¬ (pre ++ di :: d').length ≤ pre.length := by simp
        rw [CopyListLoop_cons, if_neg hnot, Get_append_cons]
        by_cases h1 : Equals e di = true
        · rw [if_pos h1]
          exact step di d' _ (Equals_symm e di hwdi h1) hwdi hd' rfl rfl
        · rw [if_neg h1]
          by_cases h2 : (decide ((pre ++ di :: d').length > pre.length + 1) &&
              Equals e (Get (pre ++ di :: d') (pre.length + 1))) = true
          · rw [if_pos h2]
            rw [Bool.and_eq_true, decide_eq_true_eq] at h2
            cases d' with
            | nil => simp at h2
            | cons dn d'' =>
              rw [Get_append_cons_succ] at h2
              have hwdn : WellFormed dn = true := hd' dn (List.mem_cons_self _ _)
              rw [eraseIdx_append_cons]
              exact step dn d'' _ (Equals_symm e dn hwdn h2.2) hwdn
                (fun y hy => hd' y (List.mem_cons_of_mem _ hy)) rfl rfl
          · rw [if_neg h2]
            split_ifs with h3
            · cases rest with
              | nil => simp at h3
              | cons e' rest' =>
                simp only at h3
                rw [CopyListSkip_cons]
                have hi : (pre ++ di :: d').insertIdx pre.length e = pre ++ e :: di :: d' :=
                  insertIdx_append pre e (di :: d')
                rw [hi]
                have hshape : CopyListLoop rest' (pre.length + 1 + 1) (pre ++ e :: di :: d') [] =
                    CopyListLoop rest' (pre ++ [e, di]).length ((pre ++ [e, di]) ++ d') [] := by
                  simp
                have hlen' : rest'.length ≤ n := by
                  simp only [List.length_cons] at hlen; omega
                obtain ⟨mid, rem, ta, g1, g2, g3, g4, g5⟩ :=
                  ih rest' hlen' (fun x hx => hrest x (List.mem_cons_of_mem _ hx))
                    (pre ++ [e, di]) d' hd'
                rw [← hshape] at g1 g2
                refine ⟨e :: di :: mid, rem, ta, ?_, ?_, g3, ?_, ?_⟩
                · show (CopyListLoop rest' (pre.length + 1 + 1) (pre ++ e :: di :: d') []).dest = _
                  rw [g1]; simp
                · exact g2
                · exact List.Forall₂.cons (Equals_refl e he.1) (List.Forall₂.cons h3 g4)
                · intro y hy
                  simp only [List.cons_append, List.mem_cons] at hy
                  rcases hy with rfl | rfl | hy
                  · exact he.1
                  · exact hwdi
                  · exact g5 y hy
            · by_cases h4 : (Copy di e).ok = true
              · have hg := he.2 di hwdi h4
                simp only [h4, Bool.not_true, Bool.false_eq_true, if_false]
                rw [set_append_cons]
                exact step (Copy di e).dest d' _ hg.1 hg.2 hd' rfl rfl
              · have h4' : (Copy di e).ok = false := by simpa using h4
                simp only [h4', Bool.not_false, if_true]
                rw [set_append_cons]
                exact step e d' _ (Equals_refl e he.1) he.1 hd' rfl rfl

/-! ### The dictionary loops -/

theorem HasKey_filter {d : List (sfName × sfProperty)} {f : sfName × sfProperty → Bool}
    {k : sfName} (h : HasKey (d.filter f) k = true) : HasKey d k = true := by
  obtain ⟨v, hv⟩ := (HasKey_iff_mem _ k).1 h
  exact (HasKey_iff_mem d k).2 ⟨v, (List.mem_filter.1 hv).1⟩

theorem DistinctKeys_filter (d : List (sfName × sfProperty)) (f : sfName × sfProperty → Bool)
    (hd : DistinctKeys d = true) : DistinctKeys (d.filter f) = true := by
  induction d with
  | nil => rfl
  | cons p rest ih =>
    obtain ⟨k, v⟩ := p
    rw [DistinctKeys_cons, Bool.and_eq_true] at hd
    rw [List.filter_cons]
    split
    · rw [DistinctKeys_cons, Bool.and_eq_true]
      refine ⟨?_, ih hd.2⟩
      cases hk : HasKey (List.filter f rest) k with
      | false => rfl
      | true =>
        have := HasKey_filter hk
        rw [this] at hd
        simp at hd
    · exact ih hd.2

theorem foldl_DictRemove (ks : List sfName) :
    ∀ d : List (sfName × sfProperty),
      ks.foldl DictRemove d = d.filter (fun p => !(ks.contains p.1)) := by
  induction ks with
  | nil => intro d; simp
  | cons k ks ih =>
    intro d
    rw [List.foldl_cons, ih, DictRemove, List.filter_filter]
    congr 1
    funext p
    by_cases h : p.1 = k
    · simp [h]
    · have h' : ¬ k = p.1 := fun e => h e.symm
      simp [h, h']

theorem mem_KeysToRemove (d s : List (sfName × sfProperty)) (k : sfName) :
    k ∈ KeysToRemove d s ↔ HasKey d k = true ∧ HasKey s k = false := by
  unfold KeysToRemove
  rw [List.mem_map]
  constructor
  · rintro ⟨p, hp, rfl⟩
    rw [List.mem_filter] at hp
    exact ⟨(HasKey_iff_mem d p.1).2 ⟨p.2, hp.1⟩, by simpa using hp.2⟩
  · rintro ⟨h1, h2⟩
    obtain ⟨v, hv⟩ := (HasKey_iff_mem d k).1 h1
    exact ⟨(k, v), List.mem_filter.2 ⟨hv, by simp [h2]⟩, rfl⟩

/-- After the removal loop of `CopyDict` no key outside the source is left. -/
theorem removed_TryGet (d s : List (sfName × sfProperty)) (k : sfName)
    (hk : HasKey s k = false) : TryGet ((KeysToRemove d s).foldl DictRemove d) k = none := by
  rw [TryGet_eq_none, foldl_DictRemove]
  cases h : HasKey (List.filter (fun p => !(KeysToRemove d s).contains p.1) d) k with
  | false => rfl
  | true =>
    obtain ⟨v, hv⟩ := (HasKey_iff_mem _ k).1 h
    rw [List.mem_filter] at hv
    have hin : k ∈ KeysToRemove d s :=
      (mem_KeysToRemove d s k).2 ⟨(HasKey_iff_mem d k).2 ⟨v, hv.1⟩, hk⟩
    have hc : (KeysToRemove d s).contains k = true := by simpa using hin
    have := hv.2
    simp only [hc] at this
    cases this

/-- Invariant of the second loop of `CopyDict`. -/
theorem CopyDictLoop_spec (src : List (sfName × sfProperty)) :
    DistinctKeys src = true →
    (∀ p ∈ src, WellFormed p.2 = true ∧ CopyGood p.2) →
    ∀ dest : List (sfName × sfProperty), DistinctKeys dest = true →
      (∀ p ∈ dest, WellFormed p.2 = true) →
      DistinctKeys (CopyDictLoop src dest).dest = true ∧
      (∀ p ∈ (CopyDictLoop src dest).dest, WellFormed p.2 = true) ∧
      (∀ k, HasKey src k = false → TryGet (CopyDictLoop src dest).dest k = TryGet dest k) ∧
      (∀ p ∈ src, ∃ v, TryGet (CopyDictLoop src dest).dest p.1 = some v ∧
        Equals v p.2 = true) := by
  induction src with
  | nil =>
    intro _ _ dest hd hw
    rw [CopyDictLoop_nil]
    exact ⟨hd, hw, fun _ _ => rfl, fun p hp => by cases hp⟩
  | cons q rest ih =>
    obtain ⟨k, v⟩ := q
    intro hs hsrc dest hd hw
    rw [DistinctKeys_cons, Bool.and_eq_true] at hs
    have hkrest : HasKey rest k = false := by simpa using hs.1
    have hv := hsrc (k, v) (List.mem_cons_self _ _)
    have hrest : ∀ p ∈ rest, WellFormed p.2 = true ∧ CopyGood p.2 :=
      fun p hp => hsrc p (List.mem_cons_of_mem _ hp)
    -- every branch continues on `DictSet dest k x` with `x` equal to `v`
    have step : ∀ (x : sfProperty) (r : DictLoop), Equals x v = true → WellFormed x = true →
        r.dest = (CopyDictLoop rest (DictSet dest k x)).dest →
        DistinctKeys r.dest = true ∧ (∀ p ∈ r.dest, WellFormed p.2 = true) ∧
        (∀ k', HasKey ((k, v) :: rest) k' = false → TryGet r.dest k' = TryGet dest k') ∧
        (∀ p ∈ (k, v) :: rest, ∃ w, TryGet r.dest p.1 = some w ∧ Equals w p.2 = true) := by
      intro x r hx hwx hr
      have hw2 : ∀ p ∈ DictSet dest k x, WellFormed p.2 = true := by
        intro p hp
        rcases mem_DictSet hp with rfl | hp
        · exact hwx
        · exact hw p hp
      obtain ⟨g1, g2, g3, g4⟩ :=
        ih hs.2 hrest (DictSet dest k x) (DistinctKeys_DictSet dest k x hd) hw2
      rw [hr]
      refine ⟨g1, g2, ?_, ?_⟩
      · intro k' hk'
        rw [HasKey_cons, Bool.or_eq_false_iff] at hk'
        have hne : ¬ k = k' := by simpa using hk'.1
        rw [g3 k' hk'.2, TryGet_DictSet, if_neg hne]
      · intro p hp
        rcases List.mem_cons.1 hp with rfl | hp
        · refine ⟨x, ?_, hx⟩
          rw [g3 k hkrest, TryGet_DictSet, if_pos rfl]
        · exact g4 p hp
    rw [CopyDictLoop_cons]
    cases hg : TryGet dest k with
    | none => exact step v _ (Equals_refl v hv.1) hv.1 rfl
    | some dv =>
      have hwdv : WellFormed dv = true := hw _ (TryGet_mem hg)
      by_cases h4 : (Copy dv v).ok = true
      · have hgood := hv.2 dv hwdv h4
        simp only [h4, Bool.not_true, Bool.false_eq_true, if_false]
        exact step (Copy dv v).dest _ hgood.1 hgood.2 rfl
      · have h4' : (Copy dv v).ok = false := by simpa using h4
        simp only [h4', Bool.not_false, if_true]
        exact step v _ (Equals_refl v hv.1) hv.1 rfl

/-! ### `Copy` makes the destination equal to the source -/

theorem Forall₂_length_Equals {xs ys : List sfProperty}
    (h : List.Forall₂ (fun x y => Equals x y = true) xs ys) : xs.length = ys.length :=
  List.Forall₂.length_eq h

/-- The result of `CopyList`, from the loop invariant. -/
theorem CopyList_spec (d s : List sfProperty)
    (hs : ∀ e ∈ s, WellFormed e = true ∧ CopyGood e) (hd : ∀ x ∈ d, WellFormed x = true) :
    List.Forall₂ (fun x y => Equals x y = true)
      (CopyListFinish s.length (CopyListLoop s 0 d [])).1 s ∧
    ∀ x ∈ (CopyListFinish s.length (CopyListLoop s 0 d [])).1, WellFormed x = true := by
  obtain ⟨mid, rem, ta, g1, g2, g3, g4, g5⟩ := CopyListLoop_spec s.length s le_rfl hs [] d hd
  simp only [List.length_nil, List.nil_append] at g1 g2
  unfold CopyListFinish
  rw [g1, g2]
  by_cases hta : 0 < ta.length
  · rw [if_pos hta]
    have hne : ta ≠ [] := by intro h; rw [h] at hta; simp at hta
    have hrem := g3 hne
    subst hrem
    simp only [List.append_nil] at g5 ⊢
    exact ⟨g4, g5⟩
  · rw [if_neg hta]
    have hnil : ta = [] := List.length_eq_zero.1 (by omega)
    subst hnil
    simp only [List.append_nil] at g4 g5
    have hlen := Forall₂_length_Equals g4
    by_cases hr : (mid ++ rem).length > s.length
    · rw [if_pos hr]
      have : List.take s.length (mid ++ rem) = mid := by
        rw [← hlen]; simp
      simp only [this]
      exact ⟨g4, fun x hx => g5 x (List.mem_append_left _ hx)⟩
    · rw [if_neg hr]
      have hrem : rem = [] := by
        apply List.length_eq_zero.1
        rw [List.length_append] at hr
        omega
      subst hrem
      simp only [List.append_nil] at g5 ⊢
      exact ⟨g4, g5⟩

/-- For well formed arguments, a successful `Copy` leaves a well formed
destination that equals the source. -/
theorem Copy_good : ∀ src : sfProperty, WellFormed src = true → CopyGood src := by
  intro src
  induction src using sfProperty.induct with
  | hv s =>
    intro _ d _ hok
    cases d with
    | value a =>
      by_cases h : Equals (.value a) (.value s) = true
      · have hc : Copy (.value a) (.value s) = ⟨true, .value a, []⟩ := by
          rw [Copy_value_value]; simp [h]
        rw [hc]
        exact ⟨h, rfl⟩
      · have h' : Equals (.value a) (.value s) = false := by simpa using h
        have hc : Copy (.value a) (.value s) = ⟨true, .value s, [Mutation.SetValue]⟩ := by
          rw [Copy_value_value]; simp [h']
        rw [hc]
        exact ⟨by simp [Equals_value], rfl⟩
    | list xs => cases hok
    | dict kvs => cases hok
  | hl s ih =>
    intro hws d hwd hok
    cases d with
    | value a => cases hok
    | dict kvs => cases hok
    | list d =>
      rw [WellFormed_list] at hws hwd
      have hs : ∀ e ∈ s, WellFormed e = true ∧ CopyGood e :=
        fun e he => ⟨hws e he, ih e he (hws e he)⟩
      obtain ⟨h1, h2⟩ := CopyList_spec d s hs hwd
      rw [Copy_list_list]
      exact ⟨by rw [Equals_list, EqualsList_iff]; exact h1, by rw [WellFormed_list]; exact h2⟩
  | hd s ih =>
    intro hws d hwd hok
    cases d with
    | value a => cases hok
    | list xs => cases hok
    | dict d =>
      rw [WellFormed_dict] at hws hwd
      have hs : ∀ p ∈ s, WellFormed p.2 = true ∧ CopyGood p.2 :=
        fun p hp => ⟨hws.2 p hp, ih p hp (hws.2 p hp)⟩
      have hd1 : DistinctKeys ((KeysToRemove d s).foldl DictRemove d) = true := by
        rw [foldl_DictRemove]; exact DistinctKeys_filter d _ hwd.1
      have hw1 : ∀ p ∈ (KeysToRemove d s).foldl DictRemove d, WellFormed p.2 = true := by
        intro p hp
        rw [foldl_DictRemove] at hp
        exact hwd.2 p (List.mem_filter.1 hp).1
      obtain ⟨g1, g2, g3, g4⟩ := CopyDictLoop_spec s hws.1 hs _ hd1 hw1
      rw [Copy_dict_dict]
      refine ⟨?_, by rw [WellFormed_dict]; exact ⟨g1, g2⟩⟩
      rw [Equals_dict_iff]
      constructor
      · intro p hp
        obtain ⟨v, hv, _⟩ := g4 p hp
        exact HasKey_of_TryGet hv
      · intro p hp
        have hp' := TryGet_of_mem g1 hp
        cases hk : HasKey s p.1 with
        | false =>
          rw [g3 p.1 hk, removed_TryGet d s p.1 hk] at hp'
          cases hp'
        | true =>
          obtain ⟨w, hw⟩ := TryGet_of_HasKey hk
          obtain ⟨v, hv, he⟩ := g4 _ (TryGet_mem hw)
          simp only at hv he
          rw [hp'] at hv
          simp only [Option.some.injEq] at hv
          subst hv
          exact ⟨w, hw, he⟩

/-! ### `Copy` on an equal destination changes nothing -/

/-- The list loop visits equal elements without a mutation. -/
theorem CopyListLoop_noop (s : List sfProperty) :
    ∀ (pre d : List sfProperty),
      List.Forall₂ (fun x y => Equals y x = true) d s →
      CopyListLoop s pre.length (pre ++ d) [] = ⟨pre ++ d, [], []⟩ := by
  induction s with
  | nil => intro pre d _; rw [CopyListLoop_nil]
  | cons e rest ih =>
    intro pre d h
    cases h with
    | cons hxy htl =>
      rename_i di d'
      have hnot : ¬ (pre ++ di :: d').length ≤ pre.length := by simp
      rw [CopyListLoop_cons, if_neg hnot, Get_append_cons, if_pos hxy]
      have := ih (pre ++ [di]) d' htl
      simpa using this

/-- The dictionary loop over fields that are all present and equal changes nothing. -/
theorem CopyDictLoop_noop (dest : List (sfName × sfProperty)) (s : List (sfName × sfProperty))
    (h : ∀ p ∈ s, ∃ dv, TryGet dest p.1 = some dv ∧ Copy dv p.2 = ⟨true, dv, []⟩) :
    CopyDictLoop s dest = ⟨dest, []⟩ := by
  induction s with
  | nil => rw [CopyDictLoop_nil]
  | cons q rest ih =>
    obtain ⟨k, v⟩ := q
    obtain ⟨dv, h1, h2⟩ := h (k, v) (List.mem_cons_self _ _)
    simp only at h1 h2
    rw [CopyDictLoop_cons, h1]
    simp only [h2, Bool.not_true, Bool.false_eq_true, if_false, List.nil_append]
    rw [DictSet_self h1, ih (fun p hp => h p (List.mem_cons_of_mem _ hp))]

/-- A destination that already equals the source is left as it is, with no
mutating call at any nesting level. -/
theorem Copy_noop : ∀ src dest : sfProperty, WellFormed src = true → WellFormed dest = true →
    Equals dest src = true → Copy dest src = ⟨true, dest, []⟩ := by
  intro src
  induction src using sfProperty.induct with
  | hv s =>
    intro d _ _ he
    cases d with
    | value a => rw [Copy_value_value, he]; rfl
    | list xs => cases he
    | dict kvs => cases he
  | hl s ih =>
    intro d hws hwd he
    cases d with
    | value a => cases he
    | dict kvs => cases he
    | list d =>
      rw [WellFormed_list] at hws hwd
      rw [Equals_list, EqualsList_iff] at he
      have hsym : List.Forall₂ (fun x y => Equals y x = true) d s := by
        clear ih
        induction he with
        | nil => exact List.Forall₂.nil
        | cons hxy _ ih2 =>
          exact List.Forall₂.cons (Equals_symm _ _ (hws _ (List.mem_cons_self _ _)) hxy)
            (ih2 (fun x hx => hws x (List.mem_cons_of_mem _ hx))
              (fun x hx => hwd x (List.mem_cons_of_mem _ hx)))
      have hloop := CopyListLoop_noop s [] d hsym
      simp only [List.length_nil, List.nil_append] at hloop
      rw [Copy_list_list, hloop]
      have hlen := Forall₂_length_Equals he
      simp [CopyListFinish, hlen]
  | hd s ih =>
    intro d hws hwd he
    cases d with
    | value a => cases he
    | list xs => cases he
    | dict d =>
      rw [WellFormed_dict] at hws hwd
      rw [Equals_dict_iff] at he
      obtain ⟨h1, h2⟩ := he
      have hrem : KeysToRemove d s = [] := by
        apply List.eq_nil_iff_forall_not_mem.2
        intro k hk
        obtain ⟨hk1, hk2⟩ := (mem_KeysToRemove d s k).1 hk
        obtain ⟨v, hv⟩ := (HasKey_iff_mem d k).1 hk1
        obtain ⟨w, hw, _⟩ := h2 _ hv
        rw [HasKey_of_TryGet hw] at hk2
        cases hk2
      have hloop : CopyDictLoop s d = ⟨d, []⟩ := by
        apply CopyDictLoop_noop
        intro p hp
        obtain ⟨dv, hdv⟩ := TryGet_of_HasKey (h1 p hp)
        have hmem := TryGet_mem hdv
        obtain ⟨w, hw, hew⟩ := h2 _ hmem
        simp only at hw hew
        rw [TryGet_of_mem hws.1 hp] at hw
        simp only [Option.some.injEq] at hw
        subst hw
        exact ⟨dv, hdv, ih p hp dv (hws.2 p hp) (hwd.2 _ hmem) hew⟩
      rw [Copy_dict_dict, hrem]
      simp only [List.foldl_nil, List.map_nil, List.nil_append]
      rw [hloop]

/-! ### Claims C1 and C2 -/

/-- Shared core of C1 and C2: a `Copy` between well formed properties of the
same type succeeds and yields a well formed destination equal to the source. -/
theorem Copy_same_type (dest src : sfProperty)
    (hd : WellFormed dest = true) (hs : WellFormed src = true)
    (ht : dest.Type_ = src.Type_) :
    (Copy dest src).ok = true ∧ Equals (Copy dest src).dest src = true ∧
      WellFormed (Copy dest src).dest = true := by
  have hok : (Copy dest src).ok = true := by rw [Copy_ok]; exact decide_eq_true ht
  exact ⟨hok, Copy_good src hs dest hd hok⟩

/-- C1: for well formed properties `dest` and `src` of the same type (value, list
or dictionary, nested to any depth), `Copy dest src` returns true and leaves a
destination that is structurally equal to `src` (`Equals`: the same scalar, the
same elements in the same order, the same key set with equal values). -/
theorem C1_Copy_makes_dest_equal_src (dest src : sfProperty)
    (hd : WellFormed dest = true) (hs : WellFormed src = true)
    (ht : dest.Type_ = src.Type_) :
    (Copy dest src).ok = true ∧ Equals (Copy dest src).dest src = true ∧
      WellFormed (Copy dest src).dest = true :=
  Copy_same_type dest src hd hs ht

/-- Witness of C1 on a nested dictionary whose list field gains an element,
whose field `b` disappears and whose field `c` is new. -/
theorem C1_Copy_makes_dest_equal_src_witness :
    WellFormed (.dict [("a", .list [.value (.int 1), .value (.int 2)]), ("b", .value (.int 3))]) = true ∧
    WellFormed (.dict [("a", .list [.value (.int 1), .value (.int 9), .value (.int 2)]), ("c", .dict [])]) = true ∧
    (sfProperty.dict [("a", .list [.value (.int 1), .value (.int 2)]), ("b", .value (.int 3))]).Type_ =
      (sfProperty.dict [("a", .list [.value (.int 1), .value (.int 9), .value (.int 2)]), ("c", .dict [])]).Type_ ∧
    ((Copy (.dict [("a", .list [.value (.int 1), .value (.int 2)]), ("b", .value (.int 3))])
        (.dict [("a", .list [.value (.int 1), .value (.int 9), .value (.int 2)]), ("c", .dict [])])).ok = true ∧
    Equals
      (Copy (.dict [("a", .list [.value (.int 1), .value (.int 2)]), ("b", .value (.int 3))])
        (.dict [("a", .list [.value (.int 1), .value (.int 9), .value (.int 2)]), ("c", .dict [])])).dest
      (.dict [("a", .list [.value (.int 1), .value (.int 9), .value (.int 2)]), ("c", .dict [])]) = true ∧
    WellFormed
      (Copy (.dict [("a", .list [.value (.int 1), .value (.int 2)]), ("b", .value (.int 3))])
        (.dict [("a", .list [.value (.int 1), .value (.int 9), .value (.int 2)]), ("c", .dict [])])).dest = true) :=
  ⟨by decide, by decide, by decide,
    C1_Copy_makes_dest_equal_src
      (.dict [("a", .list [.value (.int 1), .value (.int 2)]), ("b", .value (.int 3))])
      (.dict [("a", .list [.value (.int 1), .value (.int 9), .value (.int 2)]), ("c", .dict [])])
      (by decide) (by decide) (by decide)⟩

/-- C2: `Copy` is idempotent.  For well formed `dest` and `src` of the same type
the second call returns true, leaves the destination of the first call as it
is, and makes no mutating call (`SetValue`, `Set`, `Insert`, `Remove`,
`AddRange`, `Resize`) at any nesting level. -/
theorem C2_Copy_idempotent (dest src : sfProperty)
    (hd : WellFormed dest = true) (hs : WellFormed src = true)
    (ht : dest.Type_ = src.Type_) :
    (Copy (Copy dest src).dest src).dest = (Copy dest src).dest ∧
      (Copy (Copy dest src).dest src).log = [] ∧
      (Copy (Copy dest src).dest src).ok = true := by
  obtain ⟨_, he, hw⟩ := Copy_same_type dest src hd hs ht
  rw [Copy_noop src (Copy dest src).dest hs hw he]
  exact ⟨rfl, rfl, rfl⟩

/-- Witness of C2: a list that needs a removal and an overwrite the first time. -/
theorem C2_Copy_idempotent_witness :
    WellFormed (.list [.value (.int 1), .value (.int 2), .dict [("k", .value (.int 0))]]) = true ∧
    WellFormed (.list [.value (.int 2), .dict [("k", .value (.int 5))]]) = true ∧
    (sfProperty.list [.value (.int 1), .value (.int 2), .dict [("k", .value (.int 0))]]).Type_ =
      (sfProperty.list [.value (.int 2), .dict [("k", .value (.int 5))]]).Type_ ∧
    ((Copy (Copy (.list [.value (.int 1), .value (.int 2), .dict [("k", .value (.int 0))]])
        (.list [.value (.int 2), .dict [("k", .value (.int 5))]])).dest
      (.list [.value (.int 2), .dict [("k", .value (.int 5))]])).dest =
      (Copy (.list [.value (.int 1), .value (.int 2), .dict [("k", .value (.int 0))]])
        (.list [.value (.int 2), .dict [("k", .value (.int 5))]])).dest ∧
    (Copy (Copy (.list [.value (.int 1), .value (.int 2), .dict [("k", .value (.int 0))]])
        (.list [.value (.int 2), .dict [("k", .value (.int 5))]])).dest
      (.list [.value (.int 2), .dict [("k", .value (.int 5))]])).log = [] ∧
    (Copy (Copy (.list [.value (.int 1), .value (.int 2), .dict [("k", .value (.int 0))]])
        (.list [.value (.int 2), .dict [("k", .value (.int 5))]])).dest
      (.list [.value (.int 2), .dict [("k", .value (.int 5))]])).ok = true) :=
  ⟨by decide, by decide, by decide,
    C2_Copy_idempotent
      (.list [.value (.int 1), .value (.int 2), .dict [("k", .value (.int 0))]])
      (.list [.value (.int 2), .dict [("k", .value (.int 5))]])
      (by decide) (by decide) (by decide)⟩

/-! ### Claim C7 -/

/-- C9: an object is reported as `PartiallyLocked` exactly when it is not itself
fully locked and some descendant is fully locked; a fully locked object is
reported as `FullyLocked`, and an object with neither as `Unlocked`. -/
theorem C9_reported_lock_state (o : LockedObject) :
    ((InvokeOnLockStateChange o).1 = LockType.PartiallyLocked ↔
      (o.IsFullyLocked = false ∧ ∃ d ∈ o.Descendants, d.IsFullyLocked = true)) ∧
    ((InvokeOnLockStateChange o).1 = LockType.FullyLocked ↔ o.IsFullyLocked = true) ∧
    ((InvokeOnLockStateChange o).1 = LockType.Unlocked ↔
      (o.IsFullyLocked = false ∧ ¬ ∃ d ∈ o.Descendants, d.IsFullyLocked = true)) := by
  have hany : o.Descendants.any LockedObject.IsFullyLocked = true ↔
      ∃ d ∈ o.Descendants, d.IsFullyLocked = true := List.any_eq_true
  unfold InvokeOnLockStateChange LockTypeOf LockedObject.IsPartiallyLocked
  cases hf : o.IsFullyLocked <;>
    cases ha : o.Descendants.any LockedObject.IsFullyLocked <;>
    simp [← hany, ha]

/-! ### Claim C8 -/

theorem SameBinding.refl_same (s : ManagerState) : SameBinding s s :=
  ⟨rfl, rfl, le_rfl, le_rfl, rfl⟩

theorem SameBinding.trans_same {s t u : ManagerState} (h1 : SameBinding s t) (h2 : SameBinding t u) :
    SameBinding s u :=
  ⟨h2.a2o.trans h1.a2o, h2.o2a.trans h1.o2a, le_trans h1.nextObject h2.nextObject,
    le_trans h1.nextActor h2.nextActor, h2.allActors.trans h1.allActors⟩

theorem BindingInv.of_same {s t : ManagerState} (h : BindingInv s) (hf : SameBinding s t) :
    BindingInv t := by
  refine ⟨?_, ?_, ?_, ?_⟩
  · intro a o; rw [hf.a2o, hf.o2a]; exact h.bij a o
  · intro o ho; rw [hf.o2a]; exact h.freshObject o (le_trans hf.nextObject ho)
  · intro a ha; rw [hf.a2o]; exact h.freshActor a (le_trans hf.nextActor ha)
  · intro a ha; rw [hf.allActors] at ha; exact lt_of_lt_of_le (h.actorsExist a ha) hf.nextActor

theorem SameBinding.emit_same (s : ManagerState) (e : Effect) : SameBinding s (s.emit e) :=
  ⟨rfl, rfl, le_rfl, le_rfl, rfl⟩

theorem SameBinding.setActor_same (s : ManagerState) (a : AActor) (d : ActorData) :
    SameBinding s (s.setActor a d) :=
  ⟨rfl, rfl, le_rfl, le_rfl, rfl⟩

theorem SameBinding.PropertySet_same (s : ManagerState) (o : sfObject) (k : sfName) (v : sfProperty) :
    SameBinding s (s.PropertySet o k v) :=
  ⟨rfl, rfl, le_rfl, le_rfl, rfl⟩

theorem SameBinding.AddChild_same (s : ManagerState) (p c : sfObject) : SameBinding s (s.AddChild p c) :=
  ⟨rfl, rfl, le_rfl, le_rfl, rfl⟩

theorem SameBinding.Detach_same (s : ManagerState) (o : sfObject) : SameBinding s (s.Detach o) :=
  ⟨rfl, rfl, le_rfl, le_rfl, rfl⟩

theorem SameBinding.SessionCreate_same (s : ManagerState) (l : List sfObject) (p : sfObject) (i : Nat) :
    SameBinding s (s.SessionCreate l p i) :=
  ⟨rfl, rfl, le_rfl, le_rfl, rfl⟩

theorem SameBinding.SessionDelete_same (s : ManagerState) (o : sfObject) :
    SameBinding s (s.SessionDelete o) :=
  ⟨rfl, rfl, le_rfl, le_rfl, rfl⟩

theorem SameBinding.InvokeOnLockStateChange_same (s : ManagerState) (o : sfObject) (a : AActor) :
    SameBinding s (s.InvokeOnLockStateChange o a) :=
  ⟨rfl, rfl, le_rfl, le_rfl, rfl⟩

theorem SameBinding.SetActorRelativeLocation_same (s : ManagerState) (a : AActor) (v : FVector) :
    SameBinding s (SetActorRelativeLocation s a v) := by
  unfold SceneFusion.SetActorRelativeLocation
  split
  · exact SameBinding.refl_same s
  · exact SameBinding.setActor_same s a _

theorem SameBinding.SetActorRelativeRotation_same (s : ManagerState) (a : AActor) (v : FVector) :
    SameBinding s (SetActorRelativeRotation s a v) := by
  unfold SceneFusion.SetActorRelativeRotation
  split
  · exact SameBinding.refl_same s
  · exact SameBinding.setActor_same s a _

theorem SameBinding.SetActorRelativeScale3D_same (s : ManagerState) (a : AActor) (v : FVector) :
    SameBinding s (SetActorRelativeScale3D s a v) := by
  unfold SceneFusion.SetActorRelativeScale3D
  split
  · exact SameBinding.refl_same s
  · exact SameBinding.setActor_same s a _

theorem SameBinding.SendTransformUpdate_same (s : ManagerState) (a : AActor) (o : sfObject) :
    SameBinding s (SendTransformUpdate s a o) := by
  unfold SceneFusion.SendTransformUpdate
  split
  · exact SameBinding.refl_same s
  · simp only
    split_ifs <;>
      first
      | exact SameBinding.refl_same s
      | exact SameBinding.PropertySet_same _ _ _ _
      | exact (SameBinding.PropertySet_same _ _ _ _).trans_same (SameBinding.PropertySet_same _ _ _ _)
      | exact ((SameBinding.PropertySet_same _ _ _ _).trans_same (SameBinding.PropertySet_same _ _ _ _)).trans_same
          (SameBinding.PropertySet_same _ _ _ _)

theorem SameBinding.ApplyServerTransform_same (s : ManagerState) (a : AActor) (o : sfObject) :
    SameBinding s (ApplyServerTransform s a o) := by
  unfold SceneFusion.ApplyServerTransform
  simp only
  split
  · exact SameBinding.refl_same s
  · exact ((SameBinding.SetActorRelativeLocation_same _ _ _).trans_same
      (SameBinding.SetActorRelativeRotation_same _ _ _)).trans_same
      (SameBinding.SetActorRelativeScale3D_same _ _ _)

theorem SameBinding.LevelManager_RequestLock_same (s : ManagerState) :
    SameBinding s (LevelManager_RequestLock s) := by
  unfold SceneFusion.LevelManager_RequestLock
  simp only
  split_ifs with h
  · split <;> exact ⟨rfl, rfl, Nat.le_succ _, le_rfl, rfl⟩
  · split <;> exact ⟨rfl, rfl, le_rfl, le_rfl, rfl⟩

theorem SameBinding.GetOrCreateLevelObject_same (s : ManagerState) (l : ULevel) :
    SameBinding s (GetOrCreateLevelObject s l).1 := by
  unfold SceneFusion.GetOrCreateLevelObject
  split
  · exact SameBinding.refl_same s
  · have h := SameBinding.LevelManager_RequestLock_same s
    exact ⟨h.a2o, h.o2a, h.nextObject, h.nextActor, h.allActors⟩

theorem SameBinding.ReparentChildrenToLevel_same (n : Nat) :
    ∀ (s : ManagerState) (o l : sfObject), SameBinding s (ReparentChildrenToLevel n s o l) := by
  induction n with
  | zero => intro s o l; exact SameBinding.refl_same s
  | succ n ih =>
    intro s o l
    unfold SceneFusion.ReparentChildrenToLevel
    split
    · exact SameBinding.refl_same s
    · simp only
      refine SameBinding.trans_same ?_ (ih _ o l)
      split
      · exact (SameBinding.AddChild_same s l _).trans_same (SameBinding.SendTransformUpdate_same _ _ _)
      · exact SameBinding.AddChild_same s l _

/-! ### The binding invariant under unbinding and binding -/

theorem BindingInv.unbind {s t : ManagerState} {a : AActor} {o : sfObject} (h : BindingInv s)
    (hb : s.m_actorToObjectMap a = some o)
    (ha : t.m_actorToObjectMap = Function.update s.m_actorToObjectMap a none)
    (ho : t.m_objectToActorMap = Function.update s.m_objectToActorMap o none)
    (hn : s.nextObject ≤ t.nextObject) (hna : s.host.nextActor ≤ t.host.nextActor)
    (hall : t.host.allActors = s.host.allActors) :
    BindingInv t := by
  have hb' : s.m_objectToActorMap o = some a := (h.bij a o).1 hb
  refine ⟨?_, ?_, ?_, fun x hx => lt_of_lt_of_le (h.actorsExist x (hall ▸ hx)) hna⟩
  · intro a' o'
    rw [ha, ho]
    by_cases h1 : a' = a
    · subst h1
      rw [Function.update_same]
      by_cases h2 : o' = o
      · subst h2; simp
      · rw [Function.update_noteq h2]
        constructor
        · intro hc; cases hc
        · intro hc
          have := (h.bij a' o').2 hc
          rw [hb] at this
          exact absurd (Option.some.inj this).symm h2
    · rw [Function.update_noteq h1]
      by_cases h2 : o' = o
      · subst h2
        rw [Function.update_same]
        constructor
        · intro hc
          have := (h.bij a' o').1 hc
          rw [hb'] at this
          exact absurd (Option.some.inj this).symm h1
        · intro hc; cases hc
      · rw [Function.update_noteq h2]
        exact h.bij a' o'
  · intro o' ho'
    rw [ho]
    by_cases h2 : o' = o
    · subst h2; rw [Function.update_same]
    · rw [Function.update_noteq h2]; exact h.freshObject o' (le_trans hn ho')
  · intro a' ha'
    rw [ha]
    by_cases h1 : a' = a
    · subst h1; rw [Function.update_same]
    · rw [Function.update_noteq h1]; exact h.freshActor a' (le_trans hna ha')

theorem BindingInv.bind {s t : ManagerState} {a : AActor} {o : sfObject} (h : BindingInv s)
    (hua : s.m_actorToObjectMap a = none) (huo : s.m_objectToActorMap o = none)
    (ha : t.m_actorToObjectMap = Function.update s.m_actorToObjectMap a (some o))
    (ho : t.m_objectToActorMap = Function.update s.m_objectToActorMap o (some a))
    (hn : o < t.nextObject) (hn' : s.nextObject ≤ t.nextObject)
    (hna : a < t.host.nextActor) (hna' : s.host.nextActor ≤ t.host.nextActor)
    (hall : t.host.allActors = s.host.allActors) :
    BindingInv t := by
  refine ⟨?_, ?_, ?_, fun x hx => lt_of_lt_of_le (h.actorsExist x (hall ▸ hx)) hna'⟩
  · intro a' o'
    rw [ha, ho]
    by_cases h1 : a' = a
    · subst h1
      rw [Function.update_same]
      by_cases h2 : o' = o
      · subst h2; simp
      · rw [Function.update_noteq h2]
        constructor
        · intro hc; exact absurd (Option.some.inj hc).symm h2
        · intro hc
          have := (h.bij a' o').2 hc
          rw [hua] at this; cases this
    · rw [Function.update_noteq h1]
      by_cases h2 : o' = o
      · subst h2
        rw [Function.update_same]
        constructor
        · intro hc
          have := (h.bij a' o').1 hc
          rw [huo] at this; cases this
        · intro hc; exact absurd (Option.some.inj hc).symm h1
      · rw [Function.update_noteq h2]
        exact h.bij a' o'
  · intro o' ho'
    rw [ho]
    have h2 : o' ≠ o := fun hc => absurd hn (by rw [← hc]; exact Nat.not_lt.2 ho')
    rw [Function.update_noteq h2]; exact h.freshObject o' (le_trans hn' ho')
  · intro a' ha'
    rw [ha]
    have h1 : a' ≠ a := fun hc => absurd hna (by rw [← hc]; exact Nat.not_lt.2 ha')
    rw [Function.update_noteq h1]; exact h.freshActor a' (le_trans hna' ha')

/-! ### The deleting handlers keep the binding invariant -/

theorem BindingInv.eraseQueues {s1 : ManagerState} (h : BindingInv s1)
    (x : List (AActor × sfObject)) (y : List (AActor × List UProperty)) (z : List AActor) :
    BindingInv { s1 with m_selectedActors := x, m_propertyChangeMap := y, m_uploadList := z } :=
  h.of_same ⟨rfl, rfl, le_rfl, le_rfl, rfl⟩

theorem OnActorDeleted_BindingInv (s : ManagerState) (a : AActor) (h : BindingInv s) :
    BindingInv (OnActorDeleted s a) := by
  unfold OnActorDeleted
  split_ifs with ht
  · exact h
  · dsimp only
    apply BindingInv.eraseQueues
    cases hb : s.m_actorToObjectMap a with
    | none => exact h
    | some o =>
      simp only
      split_ifs with hl
      · exact h.unbind hb rfl rfl le_rfl le_rfl rfl
      · -- the unlocked branch: the tree work leaves the maps alone
        have h3 : BindingInv
            { ({ s with m_actorToObjectMap := Function.update s.m_actorToObjectMap a none }.emit
                (Effect.ReleaseLock o)) with
              m_objectToActorMap := Function.update s.m_objectToActorMap o none } :=
          h.unbind hb rfl rfl le_rfl le_rfl rfl
        have h4 := h3.of_same (SameBinding.GetOrCreateLevelObject_same _ (s.host.actor a).Level)
        refine BindingInv.of_same ?_ (SameBinding.SessionDelete_same _ o)
        split
        · exact h4
        · exact h4.of_same (SameBinding.ReparentChildrenToLevel_same _ _ _ _)
        · exact h4.of_same ⟨rfl, rfl, le_rfl, le_rfl, rfl⟩

theorem OnDelete_BindingInv (s : ManagerState) (o : sfObject) (h : BindingInv s) :
    BindingInv (OnDelete s o) := by
  unfold OnDelete
  cases hb : s.m_objectToActorMap o with
  | none => exact h
  | some a =>
    dsimp only
    split
    · exact h.unbind ((h.bij a o).2 hb) rfl rfl le_rfl le_rfl rfl
    · exact h.unbind ((h.bij a o).2 hb) rfl rfl le_rfl le_rfl rfl

theorem OnRemoveLevel_BindingInv (s : ManagerState) (level : ULevel) (h : BindingInv s) :
    BindingInv (OnRemoveLevel s level) := by
  unfold OnRemoveLevel
  generalize s.host.LevelActors level = actors
  induction actors generalizing s with
  | nil => exact h
  | cons a rest ih =>
    rw [List.foldl_cons]
    apply ih
    cases hb : s.m_actorToObjectMap a with
    | none => exact h
    | some o => exact h.unbind hb rfl rfl le_rfl le_rfl rfl

theorem CleanUp_BindingInv (s : ManagerState) (h : BindingInv s) : BindingInv (CleanUp s) :=
  ⟨fun _ _ => Iff.intro (fun h => by cases h) (fun h => by cases h), fun _ _ => rfl,
    fun _ _ => rfl, h.actorsExist⟩

/-! ### `CreateObject` and the binding maps -/

theorem BindingFrame.of_eq_frame (S : AActor → Prop) {s t : ManagerState} (hh : t.host = s.host)
    (hn : s.nextObject ≤ t.nextObject) (ho : t.m_objectToActorMap = s.m_objectToActorMap)
    (ha : t.m_actorToObjectMap = s.m_actorToObjectMap) : BindingFrame S s t :=
  ⟨hh, hn, fun _ _ => by rw [ho], fun _ _ => by rw [ha]⟩

theorem BindingFrame.refl_frame (S : AActor → Prop) (s : ManagerState) : BindingFrame S s s :=
  BindingFrame.of_eq_frame S rfl le_rfl rfl rfl

theorem BindingFrame.trans_frame {S : AActor → Prop} {s t u : ManagerState} (h1 : BindingFrame S s t)
    (h2 : BindingFrame S t u) : BindingFrame S s u :=
  ⟨h2.host.trans h1.host, le_trans h1.nextObject h2.nextObject,
    fun o ho => (h2.o2a o (lt_of_lt_of_le ho h1.nextObject)).trans (h1.o2a o ho),
    fun x hx => (h2.a2o x hx).trans (h1.a2o x hx)⟩

theorem BindingFrame.mono_frame {S T : AActor → Prop} {s t : ManagerState} (h : BindingFrame S s t)
    (hST : ∀ x, S x → T x) : BindingFrame T s t :=
  ⟨h.host, h.nextObject, h.o2a, fun x hx => h.a2o x (fun hs => hx (hST x hs))⟩

theorem BindingFrame.PropertySet_frame (S : AActor → Prop) (s : ManagerState) (o : sfObject)
    (k : sfName) (v : sfProperty) : BindingFrame S s (s.PropertySet o k v) :=
  BindingFrame.of_eq_frame S rfl le_rfl rfl rfl

theorem BindingFrame.AddChild_frame (S : AActor → Prop) (s : ManagerState) (p c : sfObject) :
    BindingFrame S s (s.AddChild p c) :=
  BindingFrame.of_eq_frame S rfl le_rfl rfl rfl

theorem BindingFrame.CreateTypeProperties_frame (S : AActor → Prop) (s : ManagerState) (a : AActor)
    (o : sfObject) : BindingFrame S s (CreateTypeProperties s a o) := by
  unfold SceneFusion.CreateTypeProperties SceneFusion.CreateMeshProperties
    SceneFusion.CreateEmitterProperties
  split
  · split
    · exact BindingFrame.refl_frame S s
    · exact (BindingFrame.PropertySet_frame S _ _ _ _).trans_frame (BindingFrame.PropertySet_frame S _ _ _ _)
  · split
    · exact BindingFrame.refl_frame S s
    · exact (BindingFrame.PropertySet_frame S _ _ _ _).trans_frame (BindingFrame.PropertySet_frame S _ _ _ _)
  · split
    · exact BindingFrame.PropertySet_frame S _ _ _ _
    · exact BindingFrame.refl_frame S s
  · exact BindingFrame.refl_frame S s

theorem BindingFrame.foldl_frame (h : HostScene) (f : ManagerState → AActor → ManagerState)
    (hf : ∀ acc c, acc.host = h → BindingFrame (Relation.ReflTransGen h.Attached c) acc (f acc c)) :
    ∀ (l : List AActor) (acc : ManagerState), acc.host = h →
      BindingFrame (fun x => ∃ c ∈ l, Relation.ReflTransGen h.Attached c x) acc
        (l.foldl f acc) := by
  intro l
  induction l with
  | nil => intro acc _; exact BindingFrame.refl_frame _ acc
  | cons c rest ih =>
    intro acc hacc
    rw [List.foldl_cons]
    have h1 := hf acc c hacc
    have h2 := ih (f acc c) (h1.host.trans hacc)
    exact (h1.mono_frame (fun x hx => ⟨c, List.mem_cons_self _ _, hx⟩)).trans_frame
      (h2.mono_frame (fun x ⟨d, hd, hx⟩ => ⟨d, List.mem_cons_of_mem _ hd, hx⟩))

theorem BindingFrame.bindNew_frame {S : AActor → Prop} {s s8 : ManagerState} {a : AActor}
    (h : BindingFrame S s s8) (ha : S a) :
    BindingFrame S s
      (ManagerState.InvokeOnLockStateChange
        { s8 with
          m_actorToObjectMap := Function.update s8.m_actorToObjectMap a (some s.nextObject),
          m_objectToActorMap := Function.update s8.m_objectToActorMap s.nextObject (some a) }
        s.nextObject a) := by
  refine ⟨h.host, h.nextObject, ?_, ?_⟩
  · intro o ho
    show Function.update s8.m_objectToActorMap s.nextObject (some a) o = _
    rw [Function.update_noteq (Nat.ne_of_lt ho)]
    exact h.o2a o ho
  · intro x hx
    show Function.update s8.m_actorToObjectMap a (some s.nextObject) x = _
    rw [Function.update_noteq (fun hxa : x = a => hx (by rw [hxa]; exact ha))]
    exact h.a2o x hx

theorem BindingFrame.then_foldl_frame {S : AActor → Prop} {s s7 : ManagerState}
    (f : ManagerState → AActor → ManagerState) (l : List AActor) (hpre : BindingFrame S s s7)
    (hf : ∀ acc c, acc.host = s.host →
      BindingFrame (Relation.ReflTransGen s.host.Attached c) acc (f acc c))
    (hmono : s7.host = s.host → ∀ c ∈ l, ∀ x, Relation.ReflTransGen s.host.Attached c x → S x) :
    BindingFrame S s (l.foldl f s7) :=
  hpre.trans_frame ((BindingFrame.foldl_frame s.host f hf l s7 hpre.host).mono_frame
    (fun x ⟨c, hc, hx⟩ => hmono hpre.host c hc x hx))

theorem Allocated.PropertySet_alloc {s s7 : ManagerState} (h : Allocated s s7) (o : sfObject)
    (k : sfName) (v : sfProperty) : Allocated s (s7.PropertySet o k v) :=
  ⟨h.host, h.a2o, h.o2a, h.nextObject⟩

theorem Allocated.CreateTypeProperties_alloc {s s7 : ManagerState} (h : Allocated s s7) (a : AActor)
    (o : sfObject) : Allocated s (CreateTypeProperties s7 a o) := by
  unfold SceneFusion.CreateTypeProperties SceneFusion.CreateMeshProperties
    SceneFusion.CreateEmitterProperties
  split
  · split
    · exact h
    · exact (h.PropertySet_alloc _ _ _).PropertySet_alloc _ _ _
  · split
    · exact h
    · exact (h.PropertySet_alloc _ _ _).PropertySet_alloc _ _ _
  · split
    · exact h.PropertySet_alloc _ _ _
    · exact h
  · exact h

theorem Allocated.frame_alloc {s s7 : ManagerState} (h : Allocated s s7) (S : AActor → Prop) :
    BindingFrame S s s7 :=
  BindingFrame.of_eq_frame S h.host (by rw [h.nextObject]; exact Nat.le_succ _) h.o2a h.a2o

theorem Allocated.inv_alloc {s s7 : ManagerState} (h : Allocated s s7) (hi : BindingInv s) :
    BindingInv s7 :=
  hi.of_same ⟨h.a2o, h.o2a, by rw [h.nextObject]; exact Nat.le_succ _, by rw [h.host],
    by rw [h.host]⟩

theorem mem_GetAttachedActors_lt {s : ManagerState} (hi : BindingInv s) {a c : AActor}
    (hc : c ∈ s.host.GetAttachedActors a) : c < s.host.nextActor := by
  unfold HostScene.GetAttachedActors HostScene.WorldActors at hc
  exact hi.actorsExist c (List.mem_of_mem_filter (List.mem_of_mem_filter hc))

theorem BindingInv.foldl (h : HostScene) (f : ManagerState → AActor → ManagerState)
    (hf : ∀ acc c, acc.host = h →
      BindingFrame (Relation.ReflTransGen h.Attached c) acc (f acc c) ∧
        (BindingInv acc → c < h.nextActor → BindingInv (f acc c))) :
    ∀ (l : List AActor) (acc : ManagerState), acc.host = h → BindingInv acc →
      (∀ c ∈ l, c < h.nextActor) → BindingInv (l.foldl f acc) := by
  intro l
  induction l with
  | nil => intro acc _ hi _; exact hi
  | cons c rest ih =>
    intro acc hacc hi hl
    rw [List.foldl_cons]
    have h1 := hf acc c hacc
    exact ih (f acc c) (h1.1.host.trans hacc) (h1.2 hi (hl c (List.mem_cons_self _ _)))
      (fun d hd => hl d (List.mem_cons_of_mem _ hd))

/-- The loop over the attached actors and the two map entries at the end of
`CreateObject`, for any state `s7` that the first part of the function can
leave and any loop body `f` that meets the specification. -/
theorem CreateObject_tail {s s7 : ManagerState} (a : AActor)
    (f : ManagerState → AActor → ManagerState) (hpre : Allocated s s7)
    (hs : s.m_actorToObjectMap a = none)
    (hf : ∀ acc c, acc.host = s.host →
      BindingFrame (Relation.ReflTransGen s.host.Attached c) acc (f acc c) ∧
        (BindingInv acc → HostAcyclic s.host → c < s.host.nextActor → BindingInv (f acc c))) :
    CreateObjectSpec s a
      (ManagerState.InvokeOnLockStateChange
        { ((s7.host.GetAttachedActors a).foldl f s7) with
          m_actorToObjectMap := Function.update
            ((s7.host.GetAttachedActors a).foldl f s7).m_actorToObjectMap a (some s.nextObject),
          m_objectToActorMap := Function.update
            ((s7.host.GetAttachedActors a).foldl f s7).m_objectToActorMap s.nextObject (some a) }
        s.nextObject a) := by
  have hfold := BindingFrame.foldl_frame s.host f (fun acc c hacc => (hf acc c hacc).1)
    (s7.host.GetAttachedActors a) s7 hpre.host
  constructor
  · refine BindingFrame.bindNew_frame ?_ Relation.ReflTransGen.refl
    refine BindingFrame.then_foldl_frame f _ (hpre.frame_alloc _) (fun acc c hacc => (hf acc c hacc).1) ?_
    intro hh c hc x hx
    rw [hh] at hc
    exact Relation.ReflTransGen.head hc hx
  · intro hi hac ha
    have h7 : BindingInv s7 := hpre.inv_alloc hi
    have h8 : BindingInv ((s7.host.GetAttachedActors a).foldl f s7) := by
      refine BindingInv.foldl s.host f (fun acc c hacc => ⟨(hf acc c hacc).1, fun h1 h2 =>
        (hf acc c hacc).2 h1 hac h2⟩) _ s7 hpre.host h7 ?_
      intro c hc
      rw [hpre.host] at hc
      exact mem_GetAttachedActors_lt hi hc
    refine BindingInv.of_same ?_ (SameBinding.InvokeOnLockStateChange_same _ _ _)
    refine h8.bind ?_ ?_ rfl rfl ?_ le_rfl ?_ le_rfl rfl
    · rw [hfold.a2o a, hpre.a2o, hs]
      rintro ⟨c, hc, hca⟩
      rw [hpre.host] at hc
      exact hac a (Relation.TransGen.head' hc hca)
    · rw [hfold.o2a s.nextObject (by rw [hpre.nextObject]; exact Nat.lt_succ_self _), hpre.o2a]
      exact hi.freshObject _ le_rfl
    · show s.nextObject < ((s7.host.GetAttachedActors a).foldl f s7).nextObject
      exact lt_of_lt_of_le (by rw [hpre.nextObject]; exact Nat.lt_succ_self _) hfold.nextObject
    · show a < ((s7.host.GetAttachedActors a).foldl f s7).host.nextActor
      rw [hfold.host, hpre.host]; exact ha

theorem CreateObject_spec : ∀ (fuel : Nat) (s : ManagerState) (a : AActor),
    CreateObjectSpec s a (CreateObject fuel s a).1 := by
  intro fuel
  induction fuel with
  | zero => intro s a; exact ⟨BindingFrame.refl_frame _ s, fun h _ _ => h⟩
  | succ fuel ih =>
    intro s a
    simp only [CreateObject]
    split
    · exact ⟨BindingFrame.refl_frame _ s, fun h _ _ => h⟩
    · rename_i hs
      refine CreateObject_tail a _ ?pre hs ?hf
      case hf =>
        intro acc c hacc
        have h1 := ih acc c
        unfold CreateObjectSpec at h1
        rw [hacc] at h1
        constructor
        · split
          · exact h1.1.trans_frame (BindingFrame.AddChild_frame _ _ _ _)
          · exact h1.1
        · intro hi hac hc
          split
          · exact (h1.2 hi hac hc).of_same (SameBinding.AddChild_same _ _ _)
          · exact h1.2 hi hac hc
      case pre =>
        refine Allocated.CreateTypeProperties_alloc ?_ _ _
        have hq : ∀ s1 : ManagerState, Allocated s s1 →
            Allocated s
              ((((s1.PropertySet s.nextObject sfProp.Name
                (FromString (s1.host.actor a).Name)).PropertySet s.nextObject sfProp.Class
                (FromString (s1.host.actor a).Class)).PropertySet s.nextObject sfProp.Label
                (FromString (s1.host.actor a).ActorLabel)).PropertySet s.nextObject sfProp.Folder
                (FromString (s1.host.actor a).FolderPath)) := fun s1 h1 =>
          (((h1.PropertySet_alloc _ _ _).PropertySet_alloc _ _ _).PropertySet_alloc _ _ _).PropertySet_alloc _ _ _
        have h1 : Allocated s
            (if s.host.IsSelected a then
              { ((s.CreateSfObject sfType.Actor []).1.emit (Effect.RequestLock s.nextObject)) with
                m_selectedActors :=
                  SelectedSet (s.CreateSfObject sfType.Actor []).1.m_selectedActors a s.nextObject }
            else (s.CreateSfObject sfType.Actor []).1) := by
          split <;> exact ⟨rfl, rfl, rfl, rfl⟩
        split
        · exact (((hq _ h1).PropertySet_alloc _ _ _).PropertySet_alloc _ _ _).PropertySet_alloc _ _ _
        · exact hq _ h1

/-! ### `InitializeActor` and the binding maps -/

theorem HostOnly.refl_host (s : ManagerState) : HostOnly s s := ⟨rfl, rfl, rfl, rfl, rfl, rfl⟩

theorem HostOnly.trans_host {s t u : ManagerState} (h1 : HostOnly s t) (h2 : HostOnly t u) :
    HostOnly s u :=
  ⟨h2.objects.trans h1.objects, h2.nextObject.trans h1.nextObject, h2.a2o.trans h1.a2o,
    h2.o2a.trans h1.o2a, h2.nextActor.trans h1.nextActor, h2.allActors.trans h1.allActors⟩

theorem HostOnly.same_host {s t : ManagerState} (h : HostOnly s t) : SameBinding s t :=
  ⟨h.a2o, h.o2a, le_of_eq h.nextObject.symm, le_of_eq h.nextActor.symm, h.allActors⟩

theorem HostOnly.setActor_host (s : ManagerState) (a : AActor) (d : ActorData) :
    HostOnly s (s.setActor a d) := ⟨rfl, rfl, rfl, rfl, rfl, rfl⟩

theorem HostOnly.emit_host (s : ManagerState) (e : Effect) : HostOnly s (s.emit e) :=
  ⟨rfl, rfl, rfl, rfl, rfl, rfl⟩

theorem HostOnly.DerefGet_host (s : ManagerState) (props : List (sfName × sfProperty))
    (k : sfName) : HostOnly s (s.DerefGet props k) := by
  unfold ManagerState.DerefGet
  split <;> exact ⟨rfl, rfl, rfl, rfl, rfl, rfl⟩

theorem DerefGet_of_isSome (s : ManagerState) {props : List (sfName × sfProperty)} {k : sfName}
    (h : (TryGet props k).isSome = true) : s.DerefGet props k = s := by
  unfold ManagerState.DerefGet
  rw [if_neg]
  cases hk : TryGet props k with
  | none => rw [hk] at h; cases h
  | some v => exact Bool.false_ne_true

theorem DerefGet_of_isNone (s : ManagerState) {props : List (sfName × sfProperty)} {k : sfName}
    (h : TryGet props k = none) : s.DerefGet props k = { s with fault := true } := by
  unfold ManagerState.DerefGet
  rw [h]
  rfl

theorem HostOnly.DerefList_host (s : ManagerState) (props : List (sfName × sfProperty))
    (k : sfName) : HostOnly s (s.DerefList props k) := by
  unfold ManagerState.DerefList
  split <;> exact ⟨rfl, rfl, rfl, rfl, rfl, rfl⟩

theorem DerefList_of_list (s : ManagerState) {props : List (sfName × sfProperty)} {k : sfName}
    {l : List sfProperty} (h : TryGet props k = some (.list l)) : s.DerefList props k = s := by
  unfold ManagerState.DerefList
  rw [h]

theorem HostOnly.InvokeOnLockStateChange_host (s : ManagerState) (o : sfObject) (a : AActor) :
    HostOnly s (s.InvokeOnLockStateChange o a) := ⟨rfl, rfl, rfl, rfl, rfl, rfl⟩

theorem HostOnly.SetActorRelativeLocation_host (s : ManagerState) (a : AActor) (v : FVector) :
    HostOnly s (SetActorRelativeLocation s a v) := by
  unfold SceneFusion.SetActorRelativeLocation
  split
  · exact HostOnly.refl_host s
  · exact HostOnly.setActor_host s a _

theorem HostOnly.SetActorRelativeRotation_host (s : ManagerState) (a : AActor) (v : FVector) :
    HostOnly s (SetActorRelativeRotation s a v) := by
  unfold SceneFusion.SetActorRelativeRotation
  split
  · exact HostOnly.refl_host s
  · exact HostOnly.setActor_host s a _

theorem HostOnly.SetActorRelativeScale3D_host (s : ManagerState) (a : AActor) (v : FVector) :
    HostOnly s (SetActorRelativeScale3D s a v) := by
  unfold SceneFusion.SetActorRelativeScale3D
  split
  · exact HostOnly.refl_host s
  · exact HostOnly.setActor_host s a _

theorem HostOnly.SetFolderPath_host (s : ManagerState) (a : AActor) (f : String) :
    HostOnly s (SetFolderPath s a f) := HostOnly.setActor_host s a _

theorem HostOnly.SetActorLabel_host (s : ManagerState) (a : AActor) (l : String) :
    HostOnly s (SetActorLabel s a l) := HostOnly.setActor_host s a _

theorem HostOnly.AttachToActor_host (s : ManagerState) (a p : AActor) :
    HostOnly s (AttachToActor s a p) := HostOnly.setActor_host s a _

theorem HostOnly.DetachFromActor_host (s : ManagerState) (a : AActor) :
    HostOnly s (DetachFromActor s a) := HostOnly.setActor_host s a _

theorem HostOnly.Rename_host (s : ManagerState) (a : AActor) (n : String) :
    HostOnly s (Rename s a n) := HostOnly.setActor_host s a _

theorem HostOnly.TryRename_host (s : ManagerState) (a : AActor) (n : String) :
    HostOnly s (TryRename s a n) := by
  unfold SceneFusion.TryRename
  split
  · split
    · exact HostOnly.refl_host s
    · split
      · dsimp only
        split
        · exact (HostOnly.Rename_host s _ _).trans_host (HostOnly.setActor_host _ _ _)
        · exact HostOnly.Rename_host s _ _
      · exact HostOnly.refl_host s
  · exact HostOnly.setActor_host s a _

theorem HostOnly.ApplyTypeProperties_host (s : ManagerState) (a : AActor)
    (props : List (sfName × sfProperty)) : HostOnly s (ApplyTypeProperties s a props) := by
  unfold SceneFusion.ApplyTypeProperties SceneFusion.ApplyMeshProperties
    SceneFusion.ApplyEmitterProperties
  split
  · split
    · exact (HostOnly.DerefList_host s _ _).trans_host (HostOnly.setActor_host _ a _)
    · exact HostOnly.refl_host s
  · split
    · exact (HostOnly.DerefList_host s _ _).trans_host (HostOnly.setActor_host _ a _)
    · exact HostOnly.refl_host s
  · split
    · exact HostOnly.setActor_host s a _
    · exact HostOnly.refl_host s
  · exact HostOnly.refl_host s

theorem HostOnly.ite_host {s t : ManagerState} (c : Prop) [Decidable c] (h : HostOnly s t) :
    HostOnly s (if c then t else s) := by
  split
  · exact h
  · exact HostOnly.refl_host s

theorem InitInv.refl_init {s : ManagerState} (h : BindingInv s) : InitInv s s := ⟨rfl, rfl, h⟩

theorem InitInv.step_init {s t u : ManagerState} (h : InitInv s t) (hu : HostOnly t u) :
    InitInv s u :=
  ⟨hu.objects.trans h.objects, hu.nextObject.trans h.nextObject, h.inv.of_same hu.same_host⟩

theorem InitInv.trans_init {s t u : ManagerState} (h : InitInv s t) (hu : InitInv t u) :
    InitInv s u :=
  ⟨hu.objects.trans h.objects, hu.nextObject.trans h.nextObject, hu.inv⟩

theorem Ready.step_ready {s t u : ManagerState} {o : sfObject} {a : AActor} (h : Ready s o a t)
    (hu : HostOnly t u) : Ready s o a u :=
  ⟨h.init.step_init hu, by rw [hu.a2o]; exact h.a2o, by rw [hu.o2a]; exact h.o2a,
    by rw [hu.nextActor]; exact h.actorExists⟩

theorem InitInv.bind_init {s t : ManagerState} {o : sfObject} {a : AActor} (h : Ready s o a t)
    (hlt : o < s.nextObject) :
    InitInv s { t with
      m_actorToObjectMap := Function.update t.m_actorToObjectMap a (some o),
      m_objectToActorMap := Function.update t.m_objectToActorMap o (some a) } :=
  ⟨h.init.objects, h.init.nextObject,
    h.init.inv.bind h.a2o h.o2a rfl rfl (by rw [← h.init.nextObject] at hlt; exact hlt) le_rfl
      h.actorExists le_rfl rfl⟩

theorem InitInv.foldl_init {s : ManagerState} (f : ManagerState → sfObject → ManagerState)
    (hf : ∀ acc c, InitInv s acc → c < s.nextObject → InitInv s (f acc c)) :
    ∀ (l : List sfObject) (acc : ManagerState), InitInv s acc →
      (∀ c ∈ l, c < s.nextObject) → InitInv s (l.foldl f acc) := by
  intro l
  induction l with
  | nil => intro acc h _; exact h
  | cons c rest ih =>
    intro acc h hl
    rw [List.foldl_cons]
    exact ih _ (hf acc c h (hl c (List.mem_cons_self _ _)))
      (fun d hd => hl d (List.mem_cons_of_mem _ hd))

theorem InitInv.foldl_children_init {s s10 : ManagerState} (f : ManagerState → sfObject → ManagerState)
    (o : sfObject) (hce : ChildrenExist s)
    (hf : ∀ acc c, InitInv s acc → c < s.nextObject → InitInv s (f acc c))
    (h10 : InitInv s s10) : InitInv s ((s10.objects o).Children.foldl f s10) :=
  InitInv.foldl_init f hf _ s10 h10 (fun c hc => hce o c (by rw [← h10.objects]; exact hc))

theorem ChildrenExist.of_InitInv {s t : ManagerState} (hce : ChildrenExist s) (h : InitInv s t) :
    ChildrenExist t := by
  intro p c hc
  rw [h.objects] at hc
  rw [h.nextObject]
  exact hce p c hc

theorem Ready.SpawnActor_ready {s t : ManagerState} {o : sfObject} (h : InitInv s t)
    (ho : s.m_objectToActorMap o = none → t.m_objectToActorMap o = none)
    (hs : s.m_objectToActorMap o = none) (cdo : ActorData) (level : ULevel)
    (location rotation : FVector) :
    Ready s o (SpawnActor t cdo level location rotation).2
      (SpawnActor t cdo level location rotation).1 := by
  refine ⟨⟨h.objects, h.nextObject, ?_, ?_, ?_, ?_⟩, ?_, ho hs, Nat.lt_succ_self _⟩
  · exact h.inv.bij
  · exact h.inv.freshObject
  · intro a ha
    exact h.inv.freshActor a (le_trans (Nat.le_succ _) ha)
  · intro a ha
    show a < t.host.nextActor + 1
    rcases List.mem_append.1 ha with h1 | h1
    · exact Nat.lt_succ_of_lt (h.inv.actorsExist a h1)
    · rw [List.mem_singleton.1 h1]; exact Nat.lt_succ_self _
  · exact h.inv.freshActor _ le_rfl

theorem Ready.of_pair_ready {s : ManagerState} {o : sfObject} {p : ManagerState × AActor}
    {sa : ManagerState} {a : AActor} (h : Ready s o p.2 p.1) (hp : some p = some (sa, a)) :
    Ready s o a sa := by
  cases hp; exact h

theorem HostOnly.LogNoParentErrorAndDisconnect_host (s : ManagerState) (o : sfObject) :
    HostOnly s (LogNoParentErrorAndDisconnect s o) :=
  (HostOnly.DerefGet_host s _ _).trans_host (HostOnly.emit_host _ _)

theorem FindActorToReuse_host (s : ManagerState) (level : ULevel) (name : String) :
    HostOnly s (FindActorToReuse s level name).1 := by
  unfold FindActorToReuse
  split
  · exact HostOnly.refl_host s
  · split
    · exact HostOnly.Rename_host s _ _
    · split <;> exact HostOnly.refl_host s

theorem FindActorToReuse_free (s : ManagerState) (level : ULevel) (name : String) (a : AActor)
    (h : (FindActorToReuse s level name).2 = some a) :
    (FindActorToReuse s level name).1 = s ∧ a ∈ s.host.allActors ∧
      s.m_actorToObjectMap a = none := by
  unfold FindActorToReuse at h ⊢
  cases hF : FindActorWithNameInLevel s.host level name with
  | none => rw [hF] at h; cases h
  | some a0 =>
    have hmem : a0 ∈ s.host.allActors := by
      unfold SceneFusion.FindActorWithNameInLevel at hF
      exact List.mem_of_find?_eq_some hF
    rw [hF] at h
    dsimp only at h ⊢
    by_cases hp : (s.host.actor a0).IsPendingKill = true
    · rw [if_pos hp] at h; cases h
    by_cases hb : (s.m_actorToObjectMap a0).isSome = true
    · rw [if_neg hp, if_pos hb] at h; cases h
    · rw [if_neg hp, if_neg hb] at h ⊢
      cases h
      exact ⟨rfl, hmem, by simpa using hb⟩

theorem SpawnOrReuseActor_none {s t : ManagerState} {o : sfObject} (level : ULevel)
    (props : List (sfName × sfProperty)) (actorPtr : Option AActor) (location rotation : FVector)
    (h : InitInv s t)
    (hn : (SpawnOrReuseActor t o level props actorPtr location rotation).2 = none) :
    InitInv s (SpawnOrReuseActor t o level props actorPtr location rotation).1 := by
  unfold SpawnOrReuseActor at hn ⊢
  cases actorPtr with
  | none =>
    dsimp only at hn ⊢
    split
    · exact h.step_init (HostOnly.DerefGet_host _ _ _)
    · rename_i hc; rw [hc] at hn; cases hn
  | some a => cases hn

theorem SpawnOrReuseActor_ready {s t : ManagerState} {o : sfObject} (level : ULevel)
    (props : List (sfName × sfProperty)) (actorPtr : Option AActor) (location rotation : FVector)
    (h : InitInv s t) (hs : s.m_objectToActorMap o = none) (ho : t.m_objectToActorMap o = none)
    (hfree : ∀ a, actorPtr = some a → a ∈ t.host.allActors ∧ t.m_actorToObjectMap a = none)
    (a : AActor)
    (hn : (SpawnOrReuseActor t o level props actorPtr location rotation).2 = some a) :
    Ready s o a (SpawnOrReuseActor t o level props actorPtr location rotation).1 := by
  unfold SpawnOrReuseActor at hn ⊢
  cases actorPtr with
  | none =>
    dsimp only at hn ⊢
    split
    · rename_i hc; rw [hc] at hn; cases hn
    · rename_i cdo hc
      rw [hc] at hn
      cases hn
      have hr := Ready.SpawnActor_ready (o := o) (h.step_init (HostOnly.DerefGet_host t props sfProp.Class))
        (fun _ => (congrFun (HostOnly.DerefGet_host t props sfProp.Class).o2a o).trans ho) hs cdo
        level location rotation
      exact ⟨⟨hr.init.objects, hr.init.nextObject, hr.init.inv⟩, hr.a2o, hr.o2a, hr.actorExists⟩
  | some a0 =>
    obtain rfl : a0 = a := Option.some.inj hn
    dsimp only
    have h0 : Ready s o a0 t :=
      ⟨h, (hfree a0 rfl).2, ho, h.inv.actorsExist a0 (hfree a0 rfl).1⟩
    have h3 : ∀ (u : ManagerState), Ready s o a0 u →
        Ready s o a0 (if (u.host.actor a0).IsBrush = true then
          { u with m_bspRebuildDelay := 2 } else u) := by
      intro u hu
      split
      · exact hu.step_ready ⟨rfl, rfl, rfl, rfl, rfl, rfl⟩
      · exact hu
    have h2 : ∀ (u : ManagerState), Ready s o a0 u →
        Ready s o a0 (if u.host.IsSelected a0 = true then
          { (u.emit (Effect.RequestLock o)) with
            m_selectedActors := SelectedSet u.m_selectedActors a0 o } else u) := by
      intro u hu
      split
      · exact hu.step_ready ⟨rfl, rfl, rfl, rfl, rfl, rfl⟩
      · exact hu
    exact h3 _ (h2 _ (h0.step_ready (HostOnly.DetachFromActor_host t _)))

theorem ApplyAndBind_init {s t : ManagerState} {o : sfObject} {a : AActor}
    (props : List (sfName × sfProperty)) (name : String) (location rotation scale : FVector)
    (h : Ready s o a t) (hlt : o < s.nextObject) :
    InitInv s (ApplyAndBind t o a props name location rotation scale) := by
  unfold ApplyAndBind
  dsimp only
  refine InitInv.step_init ?_ (HostOnly.InvokeOnLockStateChange_host _ _ _)
  refine InitInv.step_init ?_ (HostOnly.ite_host _ (HostOnly.InvokeOnLockStateChange_host _ _ _))
  refine InitInv.bind_init ?_ hlt
  refine Ready.step_ready ?_ (HostOnly.ApplyTypeProperties_host _ _ _)
  refine Ready.step_ready ?_ (HostOnly.TryRename_host _ _ _)
  refine Ready.step_ready ?_ (HostOnly.ite_host _ (HostOnly.SetActorLabel_host _ _ _))
  refine Ready.step_ready ?_ (HostOnly.DerefGet_host _ _ _)
  refine Ready.step_ready ?_ (HostOnly.SetFolderPath_host _ _ _)
  refine Ready.step_ready ?_ (HostOnly.DerefGet_host _ _ _)
  refine Ready.step_ready ?_ (HostOnly.SetActorRelativeScale3D_host _ _ _)
  refine Ready.step_ready ?_ (HostOnly.SetActorRelativeRotation_host _ _ _)
  exact h.step_ready (HostOnly.SetActorRelativeLocation_host _ _ _)

theorem InitializeActor_InitInv : ∀ (fuel : Nat) (s : ManagerState) (o : sfObject) (level : ULevel),
    BindingInv s → ChildrenExist s → s.m_objectToActorMap o = none → o < s.nextObject →
    InitInv s (InitializeActor fuel s o level).1 := by
  intro fuel
  induction fuel with
  | zero => intro s o level hi _ _ _; exact ⟨rfl, rfl, hi⟩
  | succ fuel ih =>
    intro s o level hi hce ho hlt
    rw [InitializeActor]
    dsimp only
    -- the state after the read of the name and the lookup
    have hh : HostOnly s (FindActorToReuse (s.DerefGet (s.objects o).Property sfProp.Name) level
        (ToString (DictGet (s.objects o).Property sfProp.Name))).1 :=
      (HostOnly.DerefGet_host _ _ _).trans_host (FindActorToReuse_host _ _ _)
    have hfound : InitInv s (FindActorToReuse (s.DerefGet (s.objects o).Property sfProp.Name)
        level (ToString (DictGet (s.objects o).Property sfProp.Name))).1 :=
      (InitInv.refl_init hi).step_init hh
    have hfree := FindActorToReuse_free (s.DerefGet (s.objects o).Property sfProp.Name) level
      (ToString (DictGet (s.objects o).Property sfProp.Name))
    generalize FindActorToReuse (s.DerefGet (s.objects o).Property sfProp.Name) level
      (ToString (DictGet (s.objects o).Property sfProp.Name)) = found at hh hfound hfree ⊢
    have hmade := SpawnOrReuseActor_ready (o := o) level (s.objects o).Property found.2
      (if (TryGet (s.objects o).Property sfProp.Location).isSome = true then
        ToVector (DictGet (s.objects o).Property sfProp.Location) else ⟨0, 0, 0⟩)
      (if (TryGet (s.objects o).Property sfProp.Location).isSome = true then
        ToVector (DictGet (s.objects o).Property sfProp.Rotation) else ⟨0, 0, 0⟩)
      hfound ho (by rw [hh.o2a]; exact ho)
      (by
        intro a ha
        obtain ⟨h1, h2, h3⟩ := hfree a ha
        rw [h1]
        exact ⟨h2, h3⟩)
    have hnone := SpawnOrReuseActor_none (o := o) level (s.objects o).Property found.2
      (if (TryGet (s.objects o).Property sfProp.Location).isSome = true then
        ToVector (DictGet (s.objects o).Property sfProp.Location) else ⟨0, 0, 0⟩)
      (if (TryGet (s.objects o).Property sfProp.Location).isSome = true then
        ToVector (DictGet (s.objects o).Property sfProp.Rotation) else ⟨0, 0, 0⟩)
      hfound
    generalize SpawnOrReuseActor found.1 o level (s.objects o).Property found.2
      (if (TryGet (s.objects o).Property sfProp.Location).isSome = true then
        ToVector (DictGet (s.objects o).Property sfProp.Location) else ⟨0, 0, 0⟩)
      (if (TryGet (s.objects o).Property sfProp.Location).isSome = true then
        ToVector (DictGet (s.objects o).Property sfProp.Rotation) else ⟨0, 0, 0⟩) = made
      at hmade hnone ⊢
    split
    · -- no actor was found or made
      rename_i heq
      exact hnone heq
    · rename_i a heq
      dsimp only
      refine InitInv.foldl_children_init _ o hce ?hf ?h10
      case hf =>
        intro acc c hacc hc
        cases hb : acc.m_objectToActorMap c with
        | some ca =>
          dsimp only
          exact hacc.step_init ((((HostOnly.SetActorRelativeLocation_host _ _ _).trans_host
            (HostOnly.SetActorRelativeRotation_host _ _ _)).trans_host
            (HostOnly.SetActorRelativeScale3D_host _ _ _)).trans_host (HostOnly.AttachToActor_host _ _ _))
        | none =>
          dsimp only
          have h1 := ih acc c level hacc.inv (hce.of_InitInv hacc) hb
            (by rw [hacc.nextObject]; exact hc)
          split
          · exact (hacc.trans_init h1).step_init (HostOnly.AttachToActor_host _ _ _)
          · exact hacc.trans_init h1
      case h10 => exact ApplyAndBind_init _ _ _ _ _ (hmade a heq) hlt

/-! ### `OnCreate` and the binding maps -/

theorem HostOnly.DetachIfParentIsLevel_host (s : ManagerState) (o : sfObject) (a : AActor) :
    HostOnly s (DetachIfParentIsLevel s o a).1 := by
  unfold SceneFusion.DetachIfParentIsLevel
  split
  · exact ⟨rfl, rfl, rfl, rfl, rfl, rfl⟩
  · split
    · exact HostOnly.DetachFromActor_host s a
    · exact HostOnly.refl_host s

theorem OnCreate_BindingInv (fuel : Nat) (s : ManagerState) (o : sfObject) (hi : BindingInv s)
    (hce : ChildrenExist s) (ho : s.m_objectToActorMap o = none) (hlt : o < s.nextObject) :
    BindingInv (OnCreate fuel s o) := by
  unfold SceneFusion.OnCreate
  dsimp only
  split
  · exact hi.of_same ((HostOnly.emit_host s _).trans_host
      (HostOnly.LogNoParentErrorAndDisconnect_host _ _)).same_host
  · generalize hs0 : @ite ManagerState (_ = true) (instDecidableEqBool _ true)
      { (s.emit (Effect.OnCreate o)) with fault := true } (s.emit (Effect.OnCreate o)) = s0
    have hh : HostOnly s s0 := by
      rw [← hs0]
      split
      · exact ⟨rfl, rfl, rfl, rfl, rfl, rfl⟩
      · exact HostOnly.emit_host s _
    have hce0 : ChildrenExist s0 := by
      intro p c hc
      rw [hh.objects] at hc
      rw [hh.nextObject]
      exact hce p c hc
    have h := fun level => InitializeActor_InitInv fuel s0 o level
      (hi.of_same hh.same_host) hce0 (by rw [hh.o2a]; exact ho) (by rw [hh.nextObject]; exact hlt)
    split
    · exact (h _).inv
    · split
      · exact ((h _).step_init (HostOnly.DetachIfParentIsLevel_host _ _ _)).inv
      · split
        · exact (((h _).step_init (HostOnly.DetachIfParentIsLevel_host _ _ _)).step_init
            (HostOnly.AttachToActor_host _ _ _)).inv
        · exact ((h _).step_init (HostOnly.DetachIfParentIsLevel_host _ _ _)).inv

theorem C4_state_BindingInv : BindingInv C4_state := by
  refine ⟨?_, ?_, ?_, ?_⟩
  · intro a o
    show (if a = 1 then some 5 else none) = some o ↔ (if o = 5 then some 1 else none) = some a
    by_cases h1 : a = 1 <;> by_cases h2 : o = 5 <;> simp [h1, h2, eq_comm]
  · intro o ho
    show (if o = 5 then some 1 else none) = none
    have h5 : 6 ≤ o := ho
    rw [if_neg (fun h : o = 5 => absurd h5 (by rw [h]; decide))]
  · intro a ha
    show (if a = 1 then some 5 else none) = none
    have h3 : 3 ≤ a := ha
    rw [if_neg (fun h : a = 1 => absurd h3 (by rw [h]; decide))]
  · intro a ha
    have h : a ∈ [1, 2] := ha
    show a < 3
    simp at h
    rcases h with rfl | rfl <;> decide

theorem C4_state_HostAcyclic : HostAcyclic C4_state.host := by
  intro a h
  have hne : ∀ p c, ¬ C4_state.host.Attached p c := by
    intro p c hc
    unfold HostScene.Attached HostScene.GetAttachedActors HostScene.WorldActors at hc
    have h1 := (List.mem_filter.1 hc).2
    have h2 : c ∈ [1, 2] := List.mem_of_mem_filter (List.mem_of_mem_filter hc)
    simp at h2
    rcases h2 with rfl | rfl
    · simp [C4_state, ManagerState.empty, ActorData.blank] at h1
    · simp [C4_state, ManagerState.empty, ActorData.blank] at h1
  cases h with
  | single h1 => exact hne _ _ h1
  | tail _ h1 => exact hne _ _ h1

/-- C4 (amended).  The entity binding stays a bijection (field `bij` of
`BindingInv`: actor `a` maps to object `o` if and only if `o` maps to `a`, with
the bookkeeping that unallocated actors and objects are unbound) under each of
`CreateObject`, `OnCreate`/`InitializeActor`, `OnActorDeleted`, `OnDelete`,
`OnRemoveLevel` and `CleanUp`, for every recursion depth, provided `CreateObject`
gets an existing actor of an acyclic attachment hierarchy and `OnCreate` gets an
existing object that is not bound yet. -/
theorem C4_binding_bijection_preserved (fuel : Nat) (s : ManagerState) (op : ManagerOp)
    (hi : BindingInv s) (hpre : op.Pre s) : BindingInv (op.run fuel s) := by
  cases op with
  | CreateObject a => exact (CreateObject_spec fuel s a).2 hi hpre.2 hpre.1
  | OnCreate o => exact OnCreate_BindingInv fuel s o hi hpre.2.2 hpre.2.1 hpre.1
  | OnActorDeleted a => exact OnActorDeleted_BindingInv s a hi
  | OnDelete o => exact OnDelete_BindingInv s o hi
  | OnRemoveLevel level => exact OnRemoveLevel_BindingInv s level hi
  | CleanUp => exact CleanUp_BindingInv s hi

theorem C4_binding_bijection_preserved_witness :
    BindingInv C4_state ∧ (ManagerOp.CreateObject 2).Pre C4_state ∧
      BindingInv ((ManagerOp.CreateObject 2).run 3 C4_state) :=
  ⟨C4_state_BindingInv, ⟨by decide, C4_state_HostAcyclic⟩,
    C4_binding_bijection_preserved 3 C4_state (ManagerOp.CreateObject 2) C4_state_BindingInv
      ⟨by decide, C4_state_HostAcyclic⟩⟩

/-- C4 (counterexample).  `OnCreate` does not look whether the object is bound:
called for object 5, which is bound to actor 1 and has its name, class, label and
folder, it runs without a fault, finds that the actor named like the object is
bound, spawns actor 3, binds the object to it and leaves the entry of actor 1, so
actor 1 maps to object 5 while object 5 no longer maps to actor 1. -/
theorem C4_counterexample_OnCreate_bound_object :
    (∀ a o, C4_state.m_actorToObjectMap a = some o ↔ C4_state.m_objectToActorMap o = some a) ∧
      (OnCreate 3 C4_state 5).fault = false ∧
      (OnCreate 3 C4_state 5).m_actorToObjectMap 1 = some 5 ∧
      (OnCreate 3 C4_state 5).m_objectToActorMap 5 = some 3 ∧
      (OnCreate 3 C4_state 5).m_actorToObjectMap 3 = some 5 :=
  ⟨C4_state_BindingInv.bij, by decide, by decide, by decide, by decide⟩

/-! ### The tree invariant under the library calls -/

theorem TreeInv.congr_tree {objs objs2 : sfObject → ObjectData} {n : Nat} (h : TreeInv objs n)
    (hp : ∀ x, (objs2 x).Parent = (objs x).Parent)
    (hc : ∀ x, (objs2 x).Children = (objs x).Children) : TreeInv objs2 n := by
  refine ⟨?_, ?_, ?_, ?_, ?_⟩
  · intro p c hmem; rw [hp]; rw [hc] at hmem; exact h.parentOfChild p c hmem
  · intro p c hpar; rw [hc]; rw [hp] at hpar; exact h.childOfParent p c hpar
  · intro p; rw [hc]; exact h.nodup p
  · intro o ho
    refine h.acyclic o (Relation.TransGen.mono ?_ ho)
    intro a b hab
    unfold ParentOf at hab ⊢
    rw [← hp]; exact hab
  · intro o ho; rw [hp, hc]; exact h.fresh o ho

theorem TreeInv.exists_of_parent {objs : sfObject → ObjectData} {n : Nat} (h : TreeInv objs n)
    {c p : sfObject} (hcp : (objs c).Parent = some p) : c < n ∧ p < n := by
  constructor
  · by_contra hlt
    have := (h.fresh c (Nat.le_of_not_lt hlt)).1
    rw [hcp] at this; cases this
  · by_contra hlt
    have := (h.fresh p (Nat.le_of_not_lt hlt)).2
    have hm := h.childOfParent p c hcp
    rw [this] at hm; cases hm

theorem TreeInv.create {objs : sfObject → ObjectData} {n : Nat} (h : TreeInv objs n)
    (t : sfType) (props : List (sfName × sfProperty)) :
    TreeInv (Function.update objs n (ObjectData.create t props)) (n + 1) := by
  have hfn := h.fresh n le_rfl
  refine (show TreeInv objs (n + 1) from
    ⟨h.parentOfChild, h.childOfParent, h.nodup, h.acyclic,
      fun o ho => h.fresh o (le_trans (Nat.le_succ n) ho)⟩).congr_tree ?_ ?_
  · intro x
    by_cases hx : x = n
    · subst hx; rw [Function.update_same]; exact hfn.1.symm
    · rw [Function.update_noteq hx]
  · intro x
    by_cases hx : x = n
    · subst hx; rw [Function.update_same]; exact hfn.2.symm
    · rw [Function.update_noteq hx]

theorem TreeDetach_Parent (objs : sfObject → ObjectData) (o x : sfObject) :
    (TreeDetach objs o x).Parent = if x = o then none else (objs x).Parent := by
  unfold TreeDetach
  cases hpo : (objs o).Parent with
  | none =>
    dsimp only
    split_ifs with hx
    · rw [hx, hpo]
    · rfl
  | some p =>
    dsimp only
    split_ifs with hx
    · rw [hx, Function.update_same]
    · rw [Function.update_noteq hx]
      by_cases hxp : x = p
      · rw [hxp, Function.update_same]
      · rw [Function.update_noteq hxp]

theorem TreeDetach_Children (objs : sfObject → ObjectData) (o x : sfObject) :
    (TreeDetach objs o x).Children =
      if (objs o).Parent = some x then (objs x).Children.erase o else (objs x).Children := by
  unfold TreeDetach
  cases hpo : (objs o).Parent with
  | none => simp
  | some p =>
    dsimp only
    by_cases hxp : x = p
    · subst hxp
      rw [if_pos rfl]
      by_cases hxo : x = o
      · subst hxo; rw [Function.update_same, Function.update_same]
      · rw [Function.update_noteq hxo, Function.update_same]
    · rw [if_neg (fun hc => hxp (Option.some.inj hc).symm)]
      by_cases hxo : x = o
      · subst hxo; rw [Function.update_same, Function.update_noteq hxp]
      · rw [Function.update_noteq hxo, Function.update_noteq hxp]

theorem TreeInv.detach {objs : sfObject → ObjectData} {n : Nat} (h : TreeInv objs n)
    (o : sfObject) : TreeInv (TreeDetach objs o) n := by
  refine ⟨?_, ?_, ?_, ?_, ?_⟩
  · intro p c hmem
    rw [TreeDetach_Children] at hmem
    rw [TreeDetach_Parent]
    split_ifs at hmem with hop
    · have hne : c ≠ o := fun hc => by
        rw [hc] at hmem; exact (List.Nodup.not_mem_erase (h.nodup p)) hmem
      rw [if_neg hne]
      exact h.parentOfChild p c (List.mem_of_mem_erase hmem)
    · have hne : c ≠ o := fun hc => by
        rw [hc] at hmem; exact hop (h.parentOfChild p o hmem)
      rw [if_neg hne]
      exact h.parentOfChild p c hmem
  · intro p c hpar
    rw [TreeDetach_Parent] at hpar
    rw [TreeDetach_Children]
    split_ifs at hpar with hco
    have hm := h.childOfParent p c hpar
    split_ifs with hop
    · exact (List.mem_erase_of_ne hco).2 hm
    · exact hm
  · intro p
    rw [TreeDetach_Children]
    split_ifs
    · exact (h.nodup p).erase o
    · exact h.nodup p
  · intro x hx
    refine h.acyclic x (Relation.TransGen.mono ?_ hx)
    intro a b hab
    unfold ParentOf at hab ⊢
    rw [TreeDetach_Parent] at hab
    split_ifs at hab
    exact hab
  · intro x hx
    rw [TreeDetach_Parent, TreeDetach_Children]
    have hf := h.fresh x hx
    refine ⟨by split_ifs <;> [rfl; exact hf.1], ?_⟩
    split_ifs with hop
    · rw [hf.2]; rfl
    · exact hf.2

theorem AncestorChain_sound (objs : sfObject → ObjectData) :
    ∀ (fuel : Nat) (o : sfObject) (l : List sfObject), AncestorChain objs fuel o = some l →
      ∀ x, Relation.TransGen (ParentOf objs) o x → x ∈ l := by
  intro fuel
  induction fuel with
  | zero =>
    intro o l hl x hx
    unfold AncestorChain at hl
    split_ifs at hl with hnone
    obtain ⟨y, hy, _⟩ := Relation.TransGen.head'_iff.1 hx
    unfold ParentOf at hy
    rw [hy] at hnone
    cases hnone
  | succ fuel ih =>
    intro o l hl x hx
    obtain ⟨y, hy, hyx⟩ := Relation.TransGen.head'_iff.1 hx
    unfold ParentOf at hy
    unfold AncestorChain at hl
    rw [hy] at hl
    dsimp only at hl
    cases hc : AncestorChain objs fuel y with
    | none => rw [hc] at hl; cases hl
    | some l2 =>
      rw [hc] at hl
      cases hl
      rcases Relation.reflTransGen_iff_eq_or_transGen.1 hyx with h1 | h1
      · rw [h1]; exact List.mem_cons_self _ _
      · exact List.mem_cons_of_mem _ (ih y l2 hc x h1)

theorem CanAttach_sound {objs : sfObject → ObjectData} {n : Nat} {parent child : sfObject}
    (h : CanAttach objs n parent child = true) :
    parent < n ∧ child < n ∧ child ≠ parent ∧
      ¬ Relation.ReflTransGen (ParentOf objs) parent child := by
  unfold CanAttach at h
  cases hc : AncestorChain objs n parent with
  | none => rw [hc] at h; simp at h
  | some l =>
    rw [hc] at h
    simp only [Bool.and_eq_true, decide_eq_true_eq, bne_iff_ne, ne_eq, Bool.not_eq_true'] at h
    refine ⟨h.1.1, h.1.2, h.2.1, ?_⟩
    intro hr
    rcases Relation.reflTransGen_iff_eq_or_transGen.1 hr with h1 | h1
    · exact h.2.1 h1
    · have hm := AncestorChain_sound objs n parent l hc child h1
      have hcon : l.contains child = true := by simpa using hm
      rw [h.2.2] at hcon
      cases hcon

/-- A path of the new parent relation, in which `child` points to `parent` and
every other object keeps its pointer, is a path of the old relation or passes
through the new link. -/
theorem TransGen_reparent {r r2 : sfObject → sfObject → Prop} {child parent : sfObject}
    (hr : ∀ c p, r2 c p → (c = child ∧ p = parent) ∨ (c ≠ child ∧ r c p)) :
    ∀ x y, Relation.TransGen r2 x y →
      Relation.TransGen r x y ∨
        (Relation.ReflTransGen r x child ∧ Relation.ReflTransGen r parent y) := by
  intro x y hxy
  induction hxy using Relation.TransGen.head_induction_on with
  | base hxy =>
    rcases hr _ _ hxy with ⟨h1, h2⟩ | ⟨_, h2⟩
    · right; rw [h1, h2]; exact ⟨Relation.ReflTransGen.refl, Relation.ReflTransGen.refl⟩
    · left; exact Relation.TransGen.single h2
  | ih hxz _ ih =>
    rcases hr _ _ hxz with ⟨h1, h2⟩ | ⟨_, h2⟩
    · right
      rw [h1]
      refine ⟨Relation.ReflTransGen.refl, ?_⟩
      rw [h2] at ih
      rcases ih with h3 | h3
      · exact h3.to_reflTransGen
      · exact h3.2
    · rcases ih with h3 | h3
      · left; exact Relation.TransGen.head h2 h3
      · right; exact ⟨Relation.ReflTransGen.head h2 h3.1, h3.2⟩

theorem TreeInv.insert {objs : sfObject → ObjectData} {n : Nat} (h : TreeInv objs n)
    (parent : sfObject) (index : Nat) (child : sfObject) :
    TreeInv (TreeInsertChild objs n parent index child) n := by
  unfold TreeInsertChild
  split_ifs with hg
  swap
  · exact h
  obtain ⟨hpn, hcn, hne, hnr⟩ := CanAttach_sound hg
  have h2 := h.detach child
  have hpar2 : (TreeDetach objs child child).Parent = none := by
    rw [TreeDetach_Parent, if_pos rfl]
  have hnotchild : ∀ q, child ∉ (TreeDetach objs child q).Children := by
    intro q hq
    have := h2.parentOfChild q child hq
    rw [hpar2] at this; cases this
  have hnr2 : ¬ Relation.ReflTransGen (ParentOf (TreeDetach objs child)) parent child := by
    intro hr
    refine hnr (Relation.ReflTransGen.mono ?_ hr)
    intro a b hab
    unfold ParentOf at hab ⊢
    rw [TreeDetach_Parent] at hab
    split_ifs at hab
    exact hab
  generalize TreeDetach objs child = o2 at h2 hpar2 hnotchild hnr2
  dsimp only
  have hP : ∀ x, (Function.update (Function.update o2 parent
      { o2 parent with Children :=
        (o2 parent).Children.insertIdx (min index (o2 parent).Children.length) child }) child
      { (Function.update o2 parent
          { o2 parent with Children :=
            (o2 parent).Children.insertIdx (min index (o2 parent).Children.length) child }) child
        with Parent := some parent } x).Parent =
      if x = child then some parent else (o2 x).Parent := by
    intro x
    split_ifs with hx
    · rw [hx, Function.update_same]
    · rw [Function.update_noteq hx]
      by_cases hxp : x = parent
      · rw [hxp, Function.update_same]
      · rw [Function.update_noteq hxp]
  have hC : ∀ x, (Function.update (Function.update o2 parent
      { o2 parent with Children :=
        (o2 parent).Children.insertIdx (min index (o2 parent).Children.length) child }) child
      { (Function.update o2 parent
          { o2 parent with Children :=
            (o2 parent).Children.insertIdx (min index (o2 parent).Children.length) child }) child
        with Parent := some parent } x).Children =
      if x = parent then
        (o2 parent).Children.insertIdx (min index (o2 parent).Children.length) child
      else (o2 x).Children := by
    intro x
    by_cases hx : x = child
    · rw [hx, Function.update_same, Function.update_noteq hne, if_neg hne]
    · rw [Function.update_noteq hx]
      split_ifs with hxp
      · rw [hxp, Function.update_same]
      · rw [Function.update_noteq hxp]
  have hperm := List.perm_insertIdx child (o2 parent).Children
    (Nat.min_le_right index (o2 parent).Children.length)
  refine ⟨?_, ?_, ?_, ?_, ?_⟩
  · intro p c hmem
    rw [hC] at hmem
    rw [hP]
    split_ifs at hmem with hpp
    · rcases List.mem_cons.1 (hperm.mem_iff.1 hmem) with h1 | h1
      · rw [if_pos h1, hpp]
      · have hcc : c ≠ child := fun hc => hnotchild parent (hc ▸ h1)
        rw [if_neg hcc, hpp]
        exact h2.parentOfChild parent c h1
    · have hcc : c ≠ child := fun hc => hnotchild p (hc ▸ hmem)
      rw [if_neg hcc]
      exact h2.parentOfChild p c hmem
  · intro p c hpar
    rw [hP] at hpar
    rw [hC]
    split_ifs at hpar with hcc
    · have hpp : p = parent := (Option.some.inj hpar).symm
      rw [if_pos hpp, hcc]
      exact hperm.mem_iff.2 (List.mem_cons_self _ _)
    · have hm := h2.childOfParent p c hpar
      split_ifs with hpp
      · rw [hpp] at hm
        exact hperm.mem_iff.2 (List.mem_cons_of_mem _ hm)
      · exact hm
  · intro p
    rw [hC]
    split_ifs with hpp
    · exact hperm.nodup_iff.2 (List.nodup_cons.2 ⟨hnotchild parent, h2.nodup parent⟩)
    · exact h2.nodup p
  · intro x hx
    have hrel : ∀ c p, ParentOf (Function.update (Function.update o2 parent
        { o2 parent with Children :=
          (o2 parent).Children.insertIdx (min index (o2 parent).Children.length) child }) child
        { (Function.update o2 parent
            { o2 parent with Children :=
              (o2 parent).Children.insertIdx (min index (o2 parent).Children.length) child })
            child with Parent := some parent }) c p →
        (c = child ∧ p = parent) ∨ (c ≠ child ∧ ParentOf o2 c p) := by
      intro c p hcp
      unfold ParentOf at hcp ⊢
      rw [hP] at hcp
      split_ifs at hcp with hcc
      · left; exact ⟨hcc, (Option.some.inj hcp).symm⟩
      · right; exact ⟨hcc, hcp⟩
    rcases TransGen_reparent hrel x x hx with h3 | h3
    · exact h2.acyclic x h3
    · exact hnr2 (h3.2.trans h3.1)
  · intro x hx
    rw [hP, hC]
    have hf := h2.fresh x hx
    have hxc : x ≠ child := fun hc => absurd hcn (by rw [← hc]; exact Nat.not_lt.2 hx)
    have hxp : x ≠ parent := fun hc => absurd hpn (by rw [← hc]; exact Nat.not_lt.2 hx)
    rw [if_neg hxc, if_neg hxp]
    exact hf

/-! ### The tree invariant under the calls of the actor manager -/

theorem TreeOK_of_eq {s t : ManagerState} (h : TreeOK s) (ho : t.objects = s.objects)
    (hn : t.nextObject = s.nextObject) : TreeOK t := by
  unfold TreeOK at h ⊢
  rw [ho, hn]; exact h

theorem TreeOK_of_HostOnly {s t : ManagerState} (h : TreeOK s) (hs : HostOnly s t) : TreeOK t :=
  TreeOK_of_eq h hs.objects hs.nextObject

theorem TreeOK_PropertySet {s : ManagerState} (h : TreeOK s) (o : sfObject) (k : sfName)
    (v : sfProperty) : TreeOK (s.PropertySet o k v) := by
  unfold TreeOK at h ⊢
  refine TreeInv.congr_tree h ?_ ?_
  · intro x
    show (Function.update s.objects o _ x).Parent = _
    by_cases hx : x = o
    · rw [hx, Function.update_same]
    · rw [Function.update_noteq hx]
  · intro x
    show (Function.update s.objects o _ x).Children = _
    by_cases hx : x = o
    · rw [hx, Function.update_same]
    · rw [Function.update_noteq hx]

theorem TreeOK_AddChild {s : ManagerState} (h : TreeOK s) (p c : sfObject) :
    TreeOK (s.AddChild p c) :=
  TreeInv.insert h p _ c

theorem TreeOK_Detach {s : ManagerState} (h : TreeOK s) (o : sfObject) : TreeOK (s.Detach o) :=
  TreeInv.detach h o

theorem TreeOK_SessionDelete {s : ManagerState} (h : TreeOK s) (o : sfObject) :
    TreeOK (s.SessionDelete o) :=
  TreeInv.detach h o

theorem TreeOK_SessionCreate {s : ManagerState} (h : TreeOK s) (objs : List sfObject)
    (p : sfObject) (i : Nat) : TreeOK (s.SessionCreate objs p i) := by
  unfold TreeOK at h ⊢
  show TreeInv (objs.foldl _ (s.objects, i)).1 s.nextObject
  generalize s.objects = st at h
  induction objs generalizing st i with
  | nil => exact h
  | cons o rest ih =>
    rw [List.foldl_cons]
    exact ih (i + 1) _ (TreeInv.insert h p i o)

theorem TreeOK_CreateSfObject {s : ManagerState} (h : TreeOK s) (t : sfType)
    (props : List (sfName × sfProperty)) : TreeOK (s.CreateSfObject t props).1 :=
  TreeInv.create h t props

theorem TreeOK_LevelManager_RequestLock {s : ManagerState} (h : TreeOK s) :
    TreeOK (LevelManager_RequestLock s) := by
  unfold LevelManager_RequestLock
  dsimp only
  split
  · split_ifs
    · exact TreeOK_of_eq (TreeOK_CreateSfObject h sfType.LevelLock []) rfl rfl
    · exact TreeOK_of_eq h rfl rfl
  · split_ifs
    · exact TreeOK_of_eq (TreeOK_CreateSfObject h sfType.LevelLock []) rfl rfl
    · exact h

theorem TreeOK_GetOrCreateLevelObject {s : ManagerState} (h : TreeOK s) (l : ULevel) :
    TreeOK (GetOrCreateLevelObject s l).1 := by
  unfold GetOrCreateLevelObject
  split
  · exact h
  · exact TreeOK_of_eq (TreeOK_LevelManager_RequestLock h) rfl rfl

theorem TreeOK_SendTransformUpdate {s : ManagerState} (h : TreeOK s) (a : AActor)
    (o : sfObject) : TreeOK (SendTransformUpdate s a o) := by
  unfold SendTransformUpdate
  split
  · exact h
  · dsimp only
    have h1 : ∀ (t : ManagerState) (c : Prop) [Decidable c] (k : sfName) (v : sfProperty),
        TreeOK t → TreeOK (if c then t.PropertySet o k v else t) := by
      intro t c _ k v ht
      split
      · exact TreeOK_PropertySet ht o k v
      · exact ht
    exact h1 _ _ _ _ (h1 _ _ _ _ (h1 _ _ _ _ h))

theorem HostOnly.ApplyServerTransform_host (s : ManagerState) (a : AActor) (o : sfObject) :
    HostOnly s (ApplyServerTransform s a o) := by
  unfold SceneFusion.ApplyServerTransform
  dsimp only
  split
  · exact HostOnly.refl_host s
  · exact ((HostOnly.SetActorRelativeLocation_host _ _ _).trans_host
      (HostOnly.SetActorRelativeRotation_host _ _ _)).trans_host
      (HostOnly.SetActorRelativeScale3D_host _ _ _)

theorem TreeOK_SyncFolder {s : ManagerState} (h : TreeOK s) (a : AActor) (o : sfObject) :
    TreeOK (SyncFolder s a o) := by
  unfold SyncFolder
  dsimp only
  have h0 : TreeOK (s.DerefGet (s.objects o).Property sfProp.Folder) :=
    TreeOK_of_HostOnly h (HostOnly.DerefGet_host _ _ _)
  split
  · split
    · exact TreeOK_of_eq h0 rfl rfl
    · exact TreeOK_PropertySet h0 _ _ _
  · exact h0

theorem TreeOK_ReparentChildrenToLevel (n : Nat) : ∀ (s : ManagerState) (o l : sfObject),
    TreeOK s → TreeOK (ReparentChildrenToLevel n s o l) := by
  induction n with
  | zero => intro s o l h; exact h
  | succ n ih =>
    intro s o l h
    unfold ReparentChildrenToLevel
    split
    · exact h
    · dsimp only
      apply ih
      split
      · exact TreeOK_SendTransformUpdate (TreeOK_AddChild h _ _) _ _
      · exact TreeOK_AddChild h _ _

theorem TreeOK_SyncParent {s : ManagerState} (h : TreeOK s) (a : AActor)
    (objPtr : Option sfObject) : TreeOK (SyncParent s a objPtr) := by
  unfold SyncParent SyncParentResolved
  split
  · exact h
  · rename_i o
    dsimp only
    have hr : TreeOK (match (s.host.actor a).AttachParentActor with
        | some parentActor => (s, s.m_actorToObjectMap parentActor)
        | none => GetOrCreateLevelObject s (s.host.actor a).Level).1 := by
      split
      · exact h
      · exact TreeOK_GetOrCreateLevelObject h _
    split
    · exact hr
    · split
      · split
        · split
          · exact TreeOK_of_HostOnly hr (HostOnly.LogNoParentErrorAndDisconnect_host _ _)
          · exact hr
        · have hd := TreeOK_of_HostOnly hr (HostOnly.DetachIfParentIsLevel_host _ o a)
          split
          · exact TreeOK_of_HostOnly hd (HostOnly.ApplyServerTransform_host _ _ _)
          · split
            · exact hd
            · exact TreeOK_of_HostOnly hd ((HostOnly.AttachToActor_host _ _ _).trans_host
                (HostOnly.ApplyServerTransform_host _ _ _))
      · split
        · exact TreeOK_SendTransformUpdate (TreeOK_Detach hr o) _ _
        · exact TreeOK_SendTransformUpdate (TreeOK_AddChild hr _ o) _ _

theorem TreeOK_OnActorDeleted {s : ManagerState} (h : TreeOK s) (a : AActor) :
    TreeOK (OnActorDeleted s a) := by
  unfold OnActorDeleted
  split
  · exact h
  · dsimp only
    refine TreeOK_of_eq ?_ rfl rfl
    split
    · exact h
    · rename_i o _
      split
      · exact TreeOK_of_eq h rfl rfl
      · refine TreeOK_SessionDelete ?_ o
        have hg : TreeOK (GetOrCreateLevelObject
            { ({ s with m_actorToObjectMap := Function.update s.m_actorToObjectMap a none }.emit
                (Effect.ReleaseLock o)) with
              m_objectToActorMap := Function.update s.m_objectToActorMap o none }
            (s.host.actor a).Level).1 := by
          refine TreeOK_GetOrCreateLevelObject ?_ _
          exact TreeOK_of_eq h rfl rfl
        split
        · exact hg
        · exact TreeOK_ReparentChildrenToLevel _ _ _ _ hg
        · exact TreeOK_of_eq hg rfl rfl

theorem TreeOK_foldl {α : Type} (f : ManagerState → α → ManagerState)
    (hf : ∀ acc c, TreeOK acc → TreeOK (f acc c)) :
    ∀ (l : List α) (acc : ManagerState), TreeOK acc → TreeOK (l.foldl f acc) := by
  intro l
  induction l with
  | nil => intro acc h; exact h
  | cons c rest ih => intro acc h; rw [List.foldl_cons]; exact ih _ (hf acc c h)

theorem TreeOK_CreateTypeProperties {s : ManagerState} (h : TreeOK s) (a : AActor)
    (o : sfObject) : TreeOK (CreateTypeProperties s a o) := by
  unfold SceneFusion.CreateTypeProperties SceneFusion.CreateMeshProperties
    SceneFusion.CreateEmitterProperties
  split
  · split
    · exact h
    · exact TreeOK_PropertySet (TreeOK_PropertySet h _ _ _) _ _ _
  · split
    · exact h
    · exact TreeOK_PropertySet (TreeOK_PropertySet h _ _ _) _ _ _
  · split
    · exact TreeOK_PropertySet h _ _ _
    · exact h
  · exact h

theorem TreeOK_CreateObject : ∀ (fuel : Nat) (s : ManagerState) (a : AActor),
    TreeOK s → TreeOK (CreateObject fuel s a).1 := by
  intro fuel
  induction fuel with
  | zero => intro s a h; exact h
  | succ fuel ih =>
    intro s a h
    simp only [CreateObject]
    split
    · exact h
    · refine TreeOK_of_eq ?_ rfl rfl
      refine TreeOK_foldl _ ?hf _ _ ?pre
      case hf =>
        intro acc c hacc
        split
        · exact TreeOK_AddChild (ih acc c hacc) _ _
        · exact ih acc c hacc
      case pre =>
        refine TreeOK_CreateTypeProperties ?_ _ _
        have hq : ∀ s1 : ManagerState, TreeOK s1 →
            TreeOK
              ((((s1.PropertySet s.nextObject sfProp.Name
                (FromString (s1.host.actor a).Name)).PropertySet s.nextObject sfProp.Class
                (FromString (s1.host.actor a).Class)).PropertySet s.nextObject sfProp.Label
                (FromString (s1.host.actor a).ActorLabel)).PropertySet s.nextObject sfProp.Folder
                (FromString (s1.host.actor a).FolderPath)) := fun s1 h1 =>
          TreeOK_PropertySet (TreeOK_PropertySet (TreeOK_PropertySet
            (TreeOK_PropertySet h1 _ _ _) _ _ _) _ _ _) _ _ _
        have h1 : TreeOK
            (if s.host.IsSelected a then
              { ((s.CreateSfObject sfType.Actor []).1.emit (Effect.RequestLock s.nextObject)) with
                m_selectedActors :=
                  SelectedSet (s.CreateSfObject sfType.Actor []).1.m_selectedActors a s.nextObject }
            else (s.CreateSfObject sfType.Actor []).1) := by
          split
          · exact TreeOK_of_eq (TreeOK_CreateSfObject h sfType.Actor []) rfl rfl
          · exact TreeOK_CreateSfObject h sfType.Actor []
        split
        · exact TreeOK_PropertySet (TreeOK_PropertySet (TreeOK_PropertySet (hq _ h1) _ _ _)
            _ _ _) _ _ _
        · exact hq _ h1

theorem TreeOK_AttachChildrenOf {s : ManagerState} (h : TreeOK s) (current : sfObject) :
    TreeOK (AttachChildrenOf s current) := by
  unfold AttachChildrenOf
  split
  · exact h
  · refine TreeOK_foldl _ ?_ _ _ h
    intro acc c hacc
    split
    · split
      · exact TreeOK_SendTransformUpdate (TreeOK_AddChild hacc _ _) _ _
      · exact hacc
    · exact hacc

theorem TreeOK_FindAndAttachChildrenFrom : ∀ (fuel : Nat) (s : ManagerState) (o : sfObject),
    TreeOK s → TreeOK (FindAndAttachChildrenFrom fuel s o) := by
  intro fuel
  induction fuel with
  | zero => intro s o h; exact h
  | succ fuel ih =>
    intro s o h
    simp only [FindAndAttachChildrenFrom]
    exact TreeOK_foldl _ (fun acc c hacc => ih acc c hacc) _ _ (TreeOK_AttachChildrenOf h o)

theorem TreeOK_FindAndAttachChildren (fuel : Nat) {s : ManagerState} (h : TreeOK s)
    (objs : List sfObject) : TreeOK (FindAndAttachChildren fuel s objs) :=
  TreeOK_foldl _ (fun acc c hacc => TreeOK_FindAndAttachChildrenFrom fuel acc c hacc) _ _ h

theorem TreeOK_FlushUpload (fuel : Nat) {s : ManagerState} (h : TreeOK s) (objs : List sfObject)
    (parentPtr : Option sfObject) : TreeOK (FlushUpload fuel s objs parentPtr) := by
  unfold FlushUpload
  split
  · exact TreeOK_FindAndAttachChildren fuel (TreeOK_SessionCreate h _ _ _) _
  · refine TreeOK_FindAndAttachChildren fuel ?_ _
    exact TreeOK_of_eq h rfl rfl

theorem TreeOK_fault {s : ManagerState} (h : TreeOK s) : TreeOK { s with fault := true } :=
  TreeOK_of_eq h rfl rfl

theorem TreeOK_DetachFromActorKeepWorld {s : ManagerState} (h : TreeOK s) (a : AActor) :
    TreeOK (DetachFromActorKeepWorld s a) :=
  TreeOK_of_eq h rfl rfl

theorem TreeOK_UploadActor (fuel : Nat) (l : UploadLoop) (a : AActor) (h : TreeOK l.s) :
    TreeOK (UploadActor fuel l a).s := by
  unfold UploadActor
  dsimp only
  repeat' split
  all_goals try dsimp only
  all_goals
    repeat
      first
      | exact h
      | apply TreeOK_CreateObject
      | apply TreeOK_FlushUpload
      | apply TreeOK_GetOrCreateLevelObject
      | apply TreeOK_DetachFromActorKeepWorld
      | apply TreeOK_fault

theorem TreeOK_UploadActors (fuel : Nat) {s : ManagerState} (h : TreeOK s)
    (actors : List AActor) : TreeOK (UploadActors fuel s actors) := by
  unfold UploadActors
  dsimp only
  have hl : ∀ (l : List AActor) (acc : UploadLoop), TreeOK acc.s →
      TreeOK (l.foldl (UploadActor fuel) acc).s := by
    intro l
    induction l with
    | nil => intro acc hacc; exact hacc
    | cons c rest ih =>
      intro acc hacc
      rw [List.foldl_cons]
      exact ih _ (TreeOK_UploadActor fuel acc c hacc)
  split
  · exact TreeOK_FlushUpload fuel (hl _ _ h) _ _
  · exact hl _ _ h

theorem HostOnly.AttachToActorKeepWorld_host (s : ManagerState) (a p : AActor) :
    HostOnly s (AttachToActorKeepWorld s a p) := HostOnly.setActor_host s a _

theorem TreeOK_OnRedoDetach {s : ManagerState} (h : TreeOK s) (a : AActor)
    (objPtr : Option sfObject) : TreeOK (OnRedoDetach s a objPtr) := by
  unfold OnRedoDetach
  split
  · exact h
  · dsimp only
    refine TreeOK_foldl _ ?_ _ _ ?_
    · intro acc pair hacc
      exact TreeOK_SendTransformUpdate (TreeOK_Detach hacc _) _ _
    · have hl : ∀ (l : List sfObject) (acc : ManagerState × List (sfObject × AActor)),
          TreeOK acc.1 →
          TreeOK (l.foldl
            (fun (acc : ManagerState × List (sfObject × AActor)) childObj =>
              match acc.1.m_objectToActorMap childObj with
              | some childActor =>
                if (acc.1.host.actor childActor).AttachParentActor.isNone then
                  (SyncFolder
                    (if (acc.1.objects childObj).IsLocked then
                      (AttachToActorKeepWorld acc.1 childActor a, acc.2)
                    else (acc.1, acc.2 ++ [(childObj, childActor)])).1 childActor childObj,
                    (if (acc.1.objects childObj).IsLocked then
                      (AttachToActorKeepWorld acc.1 childActor a, acc.2)
                    else (acc.1, acc.2 ++ [(childObj, childActor)])).2)
                else acc
              | none => acc) acc).1 := by
        intro l
        induction l with
        | nil => intro acc hacc; exact hacc
        | cons c rest ih =>
          intro acc hacc
          rw [List.foldl_cons]
          apply ih
          split
          · split
            · refine TreeOK_SyncFolder ?_ _ _
              split
              · exact TreeOK_of_HostOnly hacc (HostOnly.AttachToActorKeepWorld_host _ _ _)
              · exact hacc
            · exact hacc
          · exact hacc
      exact hl _ _ h

theorem TreeOK_run (fuel : Nat) (s : ManagerState) (op : TreeOp) (h : TreeOK s) :
    TreeOK (op.run fuel s) := by
  cases op with
  | CreateObject a => exact TreeOK_CreateObject fuel s a h
  | UploadActors actors => exact TreeOK_UploadActors fuel h actors
  | FindAndAttachChildren objs => exact TreeOK_FindAndAttachChildren fuel h objs
  | SyncParent a objPtr => exact TreeOK_SyncParent h a objPtr
  | OnActorDeleted a => exact TreeOK_OnActorDeleted h a
  | OnRedoDetach a objPtr => exact TreeOK_OnRedoDetach h a objPtr

theorem TreeInv.one_index {objs : sfObject → ObjectData} {n : Nat} (h : TreeInv objs n)
    (c p : sfObject) (hcp : (objs c).Parent = some p) :
    (objs p).Children.count c = 1 ∧ ∀ q, c ∈ (objs q).Children → q = p := by
  refine ⟨List.count_eq_one_of_mem (h.nodup p) (h.childOfParent p c hcp), ?_⟩
  intro q hq
  have := h.parentOfChild q c hq
  rw [hcp] at this
  exact (Option.some.inj this).symm

theorem C4_state_TreeOK : TreeOK C4_state := by
  have hP : ∀ c p, (C4_state.objects c).Parent = some p → c = 5 ∧ p = 0 := by
    intro c p hcp
    have hcp2 : (if c = 0 then ({ ObjectData.create sfType.Level [] with Children := [5] } :
        ObjectData)
      else if c = 5 then
        { ObjectData.create sfType.Actor
            [(sfProp.Name, FromString "Cube"), (sfProp.Class, FromString "StaticMeshActor"),
              (sfProp.Label, FromString "Cube"), (sfProp.Folder, FromString "")] with
          Parent := some 0 }
      else ObjectData.create sfType.Actor []).Parent = some p := hcp
    split_ifs at hcp2 with h0 h5
    · cases hcp2
    · exact ⟨h5, (Option.some.inj hcp2).symm⟩
    · cases hcp2
  have hC : ∀ p c, c ∈ (C4_state.objects p).Children → c = 5 ∧ p = 0 := by
    intro p c hmem
    have hm2 : c ∈ (if p = 0 then ({ ObjectData.create sfType.Level [] with Children := [5] } :
        ObjectData)
      else if p = 5 then
        { ObjectData.create sfType.Actor
            [(sfProp.Name, FromString "Cube"), (sfProp.Class, FromString "StaticMeshActor"),
              (sfProp.Label, FromString "Cube"), (sfProp.Folder, FromString "")] with
          Parent := some 0 }
      else ObjectData.create sfType.Actor []).Children := hmem
    split_ifs at hm2 with h0 h5
    · exact ⟨List.mem_singleton.1 hm2, h0⟩
    · cases hm2
    · cases hm2
  refine ⟨?_, ?_, ?_, ?_, ?_⟩
  · intro p c hmem
    obtain ⟨h1, h2⟩ := hC p c hmem
    rw [h1, h2]; rfl
  · intro p c hcp
    obtain ⟨h1, h2⟩ := hP c p hcp
    rw [h1, h2]; exact List.mem_singleton.2 rfl
  · intro p
    by_cases h0 : p = 0
    · rw [h0]; exact List.nodup_singleton 5
    · have : (C4_state.objects p).Children = [] := by
        cases hl : (C4_state.objects p).Children with
        | nil => rfl
        | cons c rest =>
          have := (hC p c (by rw [hl]; exact List.mem_cons_self _ _)).2
          exact absurd this h0
      rw [this]; exact List.nodup_nil
  · intro o ho
    obtain ⟨b, hob, hbo⟩ := Relation.TransGen.head'_iff.1 ho
    obtain ⟨h1, h2⟩ := hP o b hob
    rw [h1, h2] at hbo
    rcases Relation.reflTransGen_iff_eq_or_transGen.1 hbo with h3 | h3
    · cases h3
    · obtain ⟨d, h0d, _⟩ := Relation.TransGen.head'_iff.1 h3
      have := (hP 0 d h0d).1
      cases this
  · intro o ho
    have h6 : 6 ≤ o := ho
    constructor
    · cases hp : (C4_state.objects o).Parent with
      | none => rfl
      | some p =>
        have := (hP o p hp).1
        rw [this] at h6
        exact absurd h6 (by decide)
    · cases hl : (C4_state.objects o).Children with
      | nil => rfl
      | cons c rest =>
        have := (hC o c (by rw [hl]; exact List.mem_cons_self _ _)).2
        rw [this] at h6
        exact absurd h6 (by decide)

/-- C3.  With the library calls `AddChild`, `Detach`, session `Create` and
`Delete` modelled from the spec, every sequence of the reconciler operations
that change the replicated tree (`CreateObject`, `UploadActors`,
`FindAndAttachChildren`, `SyncParent`, `OnActorDeleted`, `OnRedoDetach`) keeps
the tree invariant: no object lies above itself, children lists and parent
pointers agree, and an object with parent pointer `p` stands in the children
list of `p` exactly once and in no other children list. -/
theorem C3_tree_invariant_preserved (fuel : Nat) (s : ManagerState) (ops : List TreeOp)
    (h : TreeOK s) :
    TreeInv (TreeOp.runAll fuel s ops).objects (TreeOp.runAll fuel s ops).nextObject ∧
      ∀ c p, ((TreeOp.runAll fuel s ops).objects c).Parent = some p →
        ((TreeOp.runAll fuel s ops).objects p).Children.count c = 1 ∧
          ∀ q, c ∈ ((TreeOp.runAll fuel s ops).objects q).Children → q = p := by
  have hk : TreeOK (TreeOp.runAll fuel s ops) :=
    TreeOK_foldl _ (fun acc op hacc => TreeOK_run fuel acc op hacc) ops s h
  exact ⟨hk, fun c p hcp => TreeInv.one_index hk c p hcp⟩

theorem C3_tree_invariant_preserved_witness :
    TreeOK C4_state ∧
      TreeInv
        (TreeOp.runAll 3 C4_state
          [TreeOp.CreateObject 2, TreeOp.SyncParent 1 (some 5), TreeOp.OnActorDeleted 1]).objects
        (TreeOp.runAll 3 C4_state
          [TreeOp.CreateObject 2, TreeOp.SyncParent 1 (some 5),
            TreeOp.OnActorDeleted 1]).nextObject :=
  ⟨C4_state_TreeOK,
    (C3_tree_invariant_preserved 3 C4_state
      [TreeOp.CreateObject 2, TreeOp.SyncParent 1 (some 5), TreeOp.OnActorDeleted 1]
      C4_state_TreeOK).1⟩

/-! ### Claim C5: a notification that is dropped -/

theorem PropFrame.refl_prop (s : ManagerState) : PropFrame s s := ⟨rfl, le_rfl, fun _ _ => rfl⟩

theorem PropFrame.trans_prop {s t u : ManagerState} (h1 : PropFrame s t) (h2 : PropFrame t u) :
    PropFrame s u :=
  ⟨h2.host.trans h1.host, le_trans h1.nextObject h2.nextObject,
    fun x hx => (h2.props x (lt_of_lt_of_le hx h1.nextObject)).trans (h1.props x hx)⟩

theorem TreeDetach_Property (objs : sfObject → ObjectData) (o x : sfObject) :
    (TreeDetach objs o x).Property = (objs x).Property := by
  unfold TreeDetach
  cases (objs o).Parent with
  | none => rfl
  | some p =>
    dsimp only
    by_cases hxo : x = o
    · subst hxo
      rw [Function.update_same]
      by_cases hxp : x = p
      · subst hxp; rw [Function.update_same]
      · rw [Function.update_noteq hxp]
    · rw [Function.update_noteq hxo]
      by_cases hxp : x = p
      · subst hxp; rw [Function.update_same]
      · rw [Function.update_noteq hxp]

theorem TreeInsertChild_Property (objs : sfObject → ObjectData) (n : Nat) (p : sfObject)
    (i : Nat) (c x : sfObject) :
    (TreeInsertChild objs n p i c x).Property = (objs x).Property := by
  unfold TreeInsertChild
  split
  · dsimp only
    by_cases hxc : x = c
    · subst hxc
      rw [Function.update_same]
      by_cases hxp : x = p
      · subst hxp; rw [Function.update_same]; exact TreeDetach_Property _ _ _
      · rw [Function.update_noteq hxp]; exact TreeDetach_Property _ _ _
    · rw [Function.update_noteq hxc]
      by_cases hxp : x = p
      · subst hxp; rw [Function.update_same]; exact TreeDetach_Property _ _ _
      · rw [Function.update_noteq hxp]; exact TreeDetach_Property _ _ _
  · rfl

theorem PropFrame.AddChild_prop (s : ManagerState) (p c : sfObject) :
    PropFrame s (s.AddChild p c) :=
  ⟨rfl, le_rfl, fun _ _ => TreeInsertChild_Property _ _ _ _ _ _⟩

/-- A `Set` on the dictionary of an object that `s` does not have yet. -/
theorem PropFrame.PropertySet_prop {s t : ManagerState} (h : PropFrame s t) {o : sfObject}
    (ho : s.nextObject ≤ o) (k : sfName) (v : sfProperty) : PropFrame s (t.PropertySet o k v) := by
  refine ⟨h.host, h.nextObject, ?_⟩
  intro x hx
  show (Function.update t.objects o _ x).Property = _
  rw [Function.update_noteq (fun hxo : x = o => absurd hx (by rw [hxo]; exact Nat.not_lt.2 ho))]
  exact h.props x hx

theorem PropFrame.CreateTypeProperties_prop {s t : ManagerState} (h : PropFrame s t)
    {o : sfObject} (ho : s.nextObject ≤ o) (a : AActor) :
    PropFrame s (CreateTypeProperties t a o) := by
  unfold SceneFusion.CreateTypeProperties SceneFusion.CreateMeshProperties
    SceneFusion.CreateEmitterProperties
  split
  · split
    · exact h
    · exact (h.PropertySet_prop ho _ _).PropertySet_prop ho _ _
  · split
    · exact h
    · exact (h.PropertySet_prop ho _ _).PropertySet_prop ho _ _
  · split
    · exact h.PropertySet_prop ho _ _
    · exact h
  · exact h

theorem PropFrame.foldl_prop {α : Type} (f : ManagerState → α → ManagerState)
    (hf : ∀ acc c, PropFrame acc (f acc c)) :
    ∀ (l : List α) (acc : ManagerState), PropFrame acc (l.foldl f acc) := by
  intro l
  induction l with
  | nil => intro acc; exact PropFrame.refl_prop acc
  | cons c rest ih => intro acc; rw [List.foldl_cons]; exact (hf acc c).trans_prop (ih _)

theorem CreateObject_PropFrame : ∀ (fuel : Nat) (s : ManagerState) (a : AActor),
    PropFrame s (CreateObject fuel s a).1 := by
  intro fuel
  induction fuel with
  | zero => intro s a; exact PropFrame.refl_prop s
  | succ fuel ih =>
    intro s a
    simp only [CreateObject]
    split
    · exact PropFrame.refl_prop s
    · refine PropFrame.trans_prop ?pre (PropFrame.trans_prop
        (PropFrame.foldl_prop _ ?hf _ _) ⟨rfl, le_rfl, fun _ _ => rfl⟩)
      case hf =>
        intro acc c
        split
        · exact (ih acc c).trans_prop (PropFrame.AddChild_prop _ _ _)
        · exact ih acc c
      case pre =>
        refine PropFrame.CreateTypeProperties_prop ?_ le_rfl _
        have hq : ∀ s1 : ManagerState, PropFrame s s1 →
            PropFrame s
              ((((s1.PropertySet s.nextObject sfProp.Name
                (FromString (s1.host.actor a).Name)).PropertySet s.nextObject sfProp.Class
                (FromString (s1.host.actor a).Class)).PropertySet s.nextObject sfProp.Label
                (FromString (s1.host.actor a).ActorLabel)).PropertySet s.nextObject sfProp.Folder
                (FromString (s1.host.actor a).FolderPath)) := fun s1 h1 =>
          (((h1.PropertySet_prop le_rfl _ _).PropertySet_prop le_rfl _ _).PropertySet_prop
            le_rfl _ _).PropertySet_prop le_rfl _ _
        have h1 : PropFrame s
            (if s.host.IsSelected a then
              { ((s.CreateSfObject sfType.Actor []).1.emit (Effect.RequestLock s.nextObject)) with
                m_selectedActors :=
                  SelectedSet (s.CreateSfObject sfType.Actor []).1.m_selectedActors a s.nextObject }
            else (s.CreateSfObject sfType.Actor []).1) := by
          have hc : PropFrame s (s.CreateSfObject sfType.Actor []).1 := by
            refine ⟨rfl, Nat.le_succ _, ?_⟩
            intro x hx
            show (Function.update s.objects s.nextObject _ x).Property = _
            rw [Function.update_noteq (Nat.ne_of_lt hx)]
          split
          · exact ⟨hc.host, hc.nextObject, hc.props⟩
          · exact hc
        split
        · exact (((hq _ h1).PropertySet_prop le_rfl _ _).PropertySet_prop le_rfl _ _).PropertySet_prop
            le_rfl _ _
        · exact hq _ h1

theorem PropertySet_Property_same (s : ManagerState) (o : sfObject) (k : sfName)
    (v : sfProperty) :
    ((s.PropertySet o k v).objects o).Property = DictSet (s.objects o).Property k v := by
  show (Function.update s.objects o _ o).Property = _
  rw [Function.update_same]

theorem PropertySet_host (s : ManagerState) (o : sfObject) (k : sfName) (v : sfProperty) :
    (s.PropertySet o k v).host = s.host := rfl

/-- The dictionary after the `Set` calls of `CreateObject`, for any state `s1`
in which the new object has an empty dictionary. -/
theorem CreateObject_head_Property (s1 : ManagerState) (a : AActor) (o : sfObject)
    (h0 : (s1.objects o).Property = []) :
    ((CreateTypeProperties
      (match (s1.host.actor a).RootComponent with
        | some root =>
          ((((((s1.PropertySet o sfProp.Name (FromString (s1.host.actor a).Name)).PropertySet o
            sfProp.Class (FromString (s1.host.actor a).Class)).PropertySet o sfProp.Label
            (FromString (s1.host.actor a).ActorLabel)).PropertySet o sfProp.Folder
            (FromString (s1.host.actor a).FolderPath)).PropertySet o sfProp.Location
            (FromVector root.RelativeLocation)).PropertySet o sfProp.Rotation
            (FromVector root.RelativeRotation)).PropertySet o sfProp.Scale
            (FromVector root.RelativeScale3D)
        | none =>
          (((s1.PropertySet o sfProp.Name (FromString (s1.host.actor a).Name)).PropertySet o
            sfProp.Class (FromString (s1.host.actor a).Class)).PropertySet o sfProp.Label
            (FromString (s1.host.actor a).ActorLabel)).PropertySet o sfProp.Folder
            (FromString (s1.host.actor a).FolderPath)) a o).objects o).Property =
      ActorProperties (s1.host.actor a) := by
  unfold ActorProperties SceneFusion.CreateTypeProperties SceneFusion.CreateMeshProperties
    SceneFusion.CreateEmitterProperties
  cases hroot : (s1.host.actor a).RootComponent with
  | none =>
    dsimp only
    simp only [PropertySet_host]
    cases hk : (s1.host.actor a).Kind <;> dsimp only
    · cases hm : (s1.host.actor a).MeshComponent <;>
        simp only [PropertySet_Property_same, h0]
    · cases hm : (s1.host.actor a).MeshComponent <;>
        simp only [PropertySet_Property_same, h0]
    · split <;> simp only [PropertySet_Property_same, h0]
    · simp only [PropertySet_Property_same, h0]
  | some root =>
    dsimp only
    simp only [PropertySet_host]
    cases hk : (s1.host.actor a).Kind <;> dsimp only
    · cases hm : (s1.host.actor a).MeshComponent <;>
        simp only [PropertySet_Property_same, h0]
    · cases hm : (s1.host.actor a).MeshComponent <;>
        simp only [PropertySet_Property_same, h0]
    · split <;> simp only [PropertySet_Property_same, h0]
    · simp only [PropertySet_Property_same, h0]

theorem CreateObject_Property (fuel : Nat) (s : ManagerState) (a : AActor)
    (hun : s.m_actorToObjectMap a = none) :
    (CreateObject (fuel + 1) s a).2 = some s.nextObject ∧
      ((CreateObject (fuel + 1) s a).1.objects s.nextObject).Property =
        ActorProperties (s.host.actor a) := by
  simp only [CreateObject]
  rw [hun]
  dsimp only
  refine ⟨rfl, ?_⟩
  refine ((PropFrame.foldl_prop _ ?hf _ _).props _ ?hlt).trans ?_
  case hf =>
    intro acc c
    split
    · exact (CreateObject_PropFrame fuel acc c).trans_prop (PropFrame.AddChild_prop _ _ _)
    · exact CreateObject_PropFrame fuel acc c
  case hlt =>
    have hlt : ∀ s7 : ManagerState, Allocated s s7 → s.nextObject < s7.nextObject :=
      fun s7 h7 => by rw [h7.nextObject]; exact Nat.lt_succ_self _
    refine hlt _ (Allocated.CreateTypeProperties_alloc ?_ _ _)
    have hq : ∀ s1 : ManagerState, Allocated s s1 →
        Allocated s
          ((((s1.PropertySet s.nextObject sfProp.Name
            (FromString (s1.host.actor a).Name)).PropertySet s.nextObject sfProp.Class
            (FromString (s1.host.actor a).Class)).PropertySet s.nextObject sfProp.Label
            (FromString (s1.host.actor a).ActorLabel)).PropertySet s.nextObject sfProp.Folder
            (FromString (s1.host.actor a).FolderPath)) := fun s1 h1 =>
      (((h1.PropertySet_alloc _ _ _).PropertySet_alloc _ _ _).PropertySet_alloc _ _ _).PropertySet_alloc
        _ _ _
    have h1 : Allocated s
        (if s.host.IsSelected a then
          { ((s.CreateSfObject sfType.Actor []).1.emit (Effect.RequestLock s.nextObject)) with
            m_selectedActors :=
              SelectedSet (s.CreateSfObject sfType.Actor []).1.m_selectedActors a s.nextObject }
        else (s.CreateSfObject sfType.Actor []).1) := by
      split <;> exact ⟨rfl, rfl, rfl, rfl⟩
    split
    · exact (((hq _ h1).PropertySet_alloc _ _ _).PropertySet_alloc _ _ _).PropertySet_alloc _ _ _
    · exact hq _ h1
  have h0 : ∀ s1 : ManagerState, s1.objects = (s.CreateSfObject sfType.Actor []).1.objects →
      (s1.objects s.nextObject).Property = [] := by
    intro s1 h1
    rw [h1]
    show (Function.update s.objects s.nextObject _ s.nextObject).Property = []
    rw [Function.update_same]
    rfl
  refine (CreateObject_head_Property _ a _ ?_).trans ?_
  · split
    · exact h0 _ rfl
    · exact h0 _ rfl
  · split <;> rfl

/-! ### Claim C10: the entries of the dictionary -/

theorem ActorProperties_Name (d : ActorData) :
    TryGet (ActorProperties d) sfProp.Name = some (FromString d.Name) := by
  unfold ActorProperties
  cases d.RootComponent <;> cases d.Kind <;> cases d.MeshComponent <;>
    rcases d.ParticleSystemComponent with _ | ⟨_ | _⟩ <;>
    simp [TryGet_DictSet, sfProp.Name, sfProp.Class, sfProp.Label, sfProp.Folder,
      sfProp.Location, sfProp.Rotation, sfProp.Scale, sfProp.Mesh, sfProp.Materials,
      sfProp.Template]

theorem ActorProperties_Class (d : ActorData) :
    TryGet (ActorProperties d) sfProp.Class = some (FromString d.Class) := by
  unfold ActorProperties
  cases d.RootComponent <;> cases d.Kind <;> cases d.MeshComponent <;>
    rcases d.ParticleSystemComponent with _ | ⟨_ | _⟩ <;>
    simp [TryGet_DictSet, sfProp.Name, sfProp.Class, sfProp.Label, sfProp.Folder,
      sfProp.Location, sfProp.Rotation, sfProp.Scale, sfProp.Mesh, sfProp.Materials,
      sfProp.Template]

theorem ActorProperties_Label (d : ActorData) :
    TryGet (ActorProperties d) sfProp.Label = some (FromString d.ActorLabel) := by
  unfold ActorProperties
  cases d.RootComponent <;> cases d.Kind <;> cases d.MeshComponent <;>
    rcases d.ParticleSystemComponent with _ | ⟨_ | _⟩ <;>
    simp [TryGet_DictSet, sfProp.Name, sfProp.Class, sfProp.Label, sfProp.Folder,
      sfProp.Location, sfProp.Rotation, sfProp.Scale, sfProp.Mesh, sfProp.Materials,
      sfProp.Template]

theorem ActorProperties_Folder (d : ActorData) :
    TryGet (ActorProperties d) sfProp.Folder = some (FromString d.FolderPath) := by
  unfold ActorProperties
  cases d.RootComponent <;> cases d.Kind <;> cases d.MeshComponent <;>
    rcases d.ParticleSystemComponent with _ | ⟨_ | _⟩ <;>
    simp [TryGet_DictSet, sfProp.Name, sfProp.Class, sfProp.Label, sfProp.Folder,
      sfProp.Location, sfProp.Rotation, sfProp.Scale, sfProp.Mesh, sfProp.Materials,
      sfProp.Template]

theorem ActorProperties_Location (d : ActorData) :
    TryGet (ActorProperties d) sfProp.Location =
      d.RootComponent.map (fun r => FromVector r.RelativeLocation) := by
  unfold ActorProperties
  cases d.RootComponent <;> cases d.Kind <;> cases d.MeshComponent <;>
    rcases d.ParticleSystemComponent with _ | ⟨_ | _⟩ <;>
    simp [TryGet_DictSet, TryGet, sfProp.Name, sfProp.Class, sfProp.Label, sfProp.Folder,
      sfProp.Location, sfProp.Rotation, sfProp.Scale, sfProp.Mesh, sfProp.Materials,
      sfProp.Template]

theorem ActorProperties_Rotation (d : ActorData) :
    TryGet (ActorProperties d) sfProp.Rotation =
      d.RootComponent.map (fun r => FromVector r.RelativeRotation) := by
  unfold ActorProperties
  cases d.RootComponent <;> cases d.Kind <;> cases d.MeshComponent <;>
    rcases d.ParticleSystemComponent with _ | ⟨_ | _⟩ <;>
    simp [TryGet_DictSet, TryGet, sfProp.Name, sfProp.Class, sfProp.Label, sfProp.Folder,
      sfProp.Location, sfProp.Rotation, sfProp.Scale, sfProp.Mesh, sfProp.Materials,
      sfProp.Template]

theorem ActorProperties_Scale (d : ActorData) :
    TryGet (ActorProperties d) sfProp.Scale =
      d.RootComponent.map (fun r => FromVector r.RelativeScale3D) := by
  unfold ActorProperties
  cases d.RootComponent <;> cases d.Kind <;> cases d.MeshComponent <;>
    rcases d.ParticleSystemComponent with _ | ⟨_ | _⟩ <;>
    simp [TryGet_DictSet, TryGet, sfProp.Name, sfProp.Class, sfProp.Label, sfProp.Folder,
      sfProp.Location, sfProp.Rotation, sfProp.Scale, sfProp.Mesh, sfProp.Materials,
      sfProp.Template]

theorem ActorProperties_Mesh (d : ActorData) (c : MeshComponent)
    (hk : d.Kind = ActorKind.StaticMesh ∨ d.Kind = ActorKind.SkeletalMesh)
    (hm : d.MeshComponent = some c) :
    TryGet (ActorProperties d) sfProp.Mesh = some (FromString (c.Mesh.getD "")) ∧
      TryGet (ActorProperties d) sfProp.Materials =
        some (.list (c.Materials.map (fun m => FromString (m.getD "")))) := by
  unfold ActorProperties
  rw [hm]
  rcases hk with hk | hk <;> rw [hk] <;> cases d.RootComponent <;>
    simp [TryGet_DictSet, TryGet, sfProp.Name, sfProp.Class, sfProp.Label, sfProp.Folder,
      sfProp.Location, sfProp.Rotation, sfProp.Scale, sfProp.Mesh, sfProp.Materials,
      sfProp.Template]

theorem ActorProperties_Template (d : ActorData) (path : String)
    (hk : d.Kind = ActorKind.Emitter) (hm : d.ParticleSystemComponent = some ⟨some path⟩) :
    TryGet (ActorProperties d) sfProp.Template = some (FromString path) := by
  unfold ActorProperties
  rw [hm, hk]
  cases d.RootComponent <;>
    simp [TryGet_DictSet, TryGet, sfProp.Name, sfProp.Class, sfProp.Label, sfProp.Folder,
      sfProp.Location, sfProp.Rotation, sfProp.Scale, sfProp.Mesh, sfProp.Materials,
      sfProp.Template]

/-! ### Claim C10: the host calls on the spawned actor -/

theorem HostWith_actor {s : ManagerState} {h : HostScene} {b : AActor} {d : ActorData}
    (hs : s.host = HostWith h b d) : s.host.actor b = d := by
  rw [hs]
  show Function.update h.actor b d b = d
  rw [Function.update_same]

theorem setActor_HostWith {s : ManagerState} {h : HostScene} {b : AActor} {d : ActorData}
    (hs : s.host = HostWith h b d) (d2 : ActorData) :
    (s.setActor b d2).host = HostWith h b d2 := by
  unfold ManagerState.setActor
  dsimp only
  rw [hs]
  unfold HostWith
  dsimp only
  rw [Function.update_idem]

theorem SetActorRelativeLocation_HostWith {s : ManagerState} {h : HostScene} {b : AActor}
    {d : ActorData} (hs : s.host = HostWith h b d) (v : FVector) :
    (SetActorRelativeLocation s b v).host = HostWith h b
      { d with RootComponent := d.RootComponent.map (fun r => { r with RelativeLocation := v }) } := by
  unfold SetActorRelativeLocation
  rw [HostWith_actor hs]
  cases hr : d.RootComponent with
  | none =>
    dsimp only
    rw [hs]
    congr
    cases d
    simp_all
  | some r =>
    dsimp only
    rw [setActor_HostWith hs]
    rfl

theorem SetActorRelativeRotation_HostWith {s : ManagerState} {h : HostScene} {b : AActor}
    {d : ActorData} (hs : s.host = HostWith h b d) (v : FVector) :
    (SetActorRelativeRotation s b v).host = HostWith h b
      { d with RootComponent := d.RootComponent.map (fun r => { r with RelativeRotation := v }) } := by
  unfold SetActorRelativeRotation
  rw [HostWith_actor hs]
  cases hr : d.RootComponent with
  | none =>
    dsimp only
    rw [hs]
    congr
    cases d
    simp_all
  | some r =>
    dsimp only
    rw [setActor_HostWith hs]
    rfl

theorem SetActorRelativeScale3D_HostWith {s : ManagerState} {h : HostScene} {b : AActor}
    {d : ActorData} (hs : s.host = HostWith h b d) (v : FVector) :
    (SetActorRelativeScale3D s b v).host = HostWith h b
      { d with RootComponent := d.RootComponent.map (fun r => { r with RelativeScale3D := v }) } := by
  unfold SetActorRelativeScale3D
  rw [HostWith_actor hs]
  cases hr : d.RootComponent with
  | none =>
    dsimp only
    rw [hs]
    congr
    cases d
    simp_all
  | some r =>
    dsimp only
    rw [setActor_HostWith hs]
    rfl

theorem SetFolderPath_HostWith {s : ManagerState} {h : HostScene} {b : AActor}
    {d : ActorData} (hs : s.host = HostWith h b d) (f : String) :
    (SetFolderPath s b f).host = HostWith h b { d with FolderPath := f } := by
  unfold SetFolderPath
  rw [HostWith_actor hs, setActor_HostWith hs]

theorem SetLabel_HostWith {s : ManagerState} {h : HostScene} {b : AActor}
    {d : ActorData} (hs : s.host = HostWith h b d) (label : String) :
    (if label ≠ (s.host.actor b).ActorLabel then SetActorLabel s b label else s).host =
      HostWith h b { d with
        ActorLabel := label,
        Name := if label ≠ d.ActorLabel then h.nameForLabel b label else d.Name } := by
  rw [HostWith_actor hs]
  by_cases hl : label ≠ d.ActorLabel
  · rw [if_pos hl, if_pos hl]
    unfold SetActorLabel
    rw [HostWith_actor hs, setActor_HostWith hs, hs]
    rfl
  · rw [if_neg hl, if_neg hl, hs]
    have hl2 : label = d.ActorLabel := not_not.1 hl
    rw [hl2]

theorem find_HostWith {h : HostScene} {b : AActor} {d : ActorData} {level : ULevel}
    {name : String} (hvalid : ∀ x ∈ h.allActors, x < b)
    (hfree : FindActorWithNameInLevel h level name = none) :
    FindActorWithNameInLevel (HostWith h b d) level name =
      if (d.Level == level && d.Name == name) = true then some b else none := by
  unfold FindActorWithNameInLevel at hfree ⊢
  unfold HostWith
  dsimp only
  rw [List.find?_append]
  have h1 : List.find? (fun a => (Function.update h.actor b d a).Level == level &&
      (Function.update h.actor b d a).Name == name) h.allActors = none := by
    rw [List.find?_eq_none] at hfree ⊢
    intro x hx
    have hxb : x ≠ b := fun hc => absurd (hvalid x hx) (by rw [hc]; exact Nat.lt_irrefl _)
    rw [Function.update_noteq hxb]
    exact hfree x hx
  rw [h1]
  simp only [Option.none_or, List.find?_cons, List.find?_nil, Function.update_same]
  by_cases hc : (d.Level == level && d.Name == name) = true
  · rw [if_pos hc]; simp only [hc]
  · rw [if_neg hc]
    have hc2 : (d.Level == level && d.Name == name) = false := by simpa using hc
    simp only [hc2]

theorem TryRename_HostWith {s : ManagerState} {h : HostScene} {b : AActor} {d : ActorData}
    (hs : s.host = HostWith h b d) {name : String} (hvalid : ∀ x ∈ h.allActors, x < b)
    (hfree : FindActorWithNameInLevel h d.Level name = none) :
    (TryRename s b name).host = HostWith h b { d with Name := name } := by
  unfold TryRename
  rw [HostWith_actor hs]
  have hf : FindActorWithNameInLevel s.host d.Level name =
      if (d.Level == d.Level && d.Name == name) = true then some b else none := by
    rw [hs]; exact find_HostWith hvalid hfree
  rw [hf]
  by_cases hn : d.Name = name
  · have : (d.Level == d.Level && d.Name == name) = true := by simp [hn]
    rw [if_pos this]
    dsimp only
    rw [if_pos rfl, hs, ← hn]
  · have : ¬ (d.Level == d.Level && d.Name == name) = true := by simp [hn]
    rw [if_neg this]
    dsimp only
    rw [setActor_HostWith hs]

theorem foldl_set_range {α : Type} (g : Nat → α) :
    ∀ (k : Nat) (l : List α), k ≤ l.length →
      (List.range k).foldl (fun acc i => acc.set i (g i)) l = (List.range k).map g ++ l.drop k := by
  intro k
  induction k with
  | zero => intro l _; simp
  | succ k ih =>
    intro l hk
    rw [List.range_succ, List.foldl_append, ih l (Nat.le_of_succ_le hk)]
    simp only [List.foldl_cons, List.foldl_nil, List.map_append, List.map_cons, List.map_nil]
    rw [List.set_append]
    simp only [List.length_map, List.length_range, lt_self_iff_false, if_false, Nat.sub_self]
    rw [List.drop_eq_getElem_cons (Nat.lt_of_succ_le hk)]
    simp only [List.set_cons_zero, List.append_assoc, List.singleton_append]

theorem resolve_getD (A : String → Bool) (m : Option String)
    (hm : ∀ q, m = some q → q ≠ "" ∧ A q = true) :
    (if (m.getD "").isEmpty then none else if A (m.getD "") then some (m.getD "") else none) =
      m := by
  cases m with
  | none => rfl
  | some q =>
    obtain ⟨h1, h2⟩ := hm q rfl
    have h3 : ¬ (q.isEmpty = true) := fun hc => h1 ((String.isEmpty_iff q).1 hc)
    simp only [Option.getD_some, h3, h2, if_true, if_false, Bool.false_eq_true]

theorem materials_round_trip (A : String → Bool) (mats : List (Option String))
    (slots : List (Option String)) (hlen : slots.length = mats.length)
    (hm : ∀ q, some q ∈ mats → q ≠ "" ∧ A q = true) :
    (List.range (min slots.length (mats.map (fun m => FromString (m.getD ""))).length)).foldl
      (fun (acc : List (Option String)) i =>
        acc.set i
          (if (ToString (Get (mats.map (fun m => FromString (m.getD ""))) i)).isEmpty then none
          else if A (ToString (Get (mats.map (fun m => FromString (m.getD ""))) i)) then
            some (ToString (Get (mats.map (fun m => FromString (m.getD ""))) i))
          else none))
      slots = mats := by
  rw [List.length_map, hlen, Nat.min_self]
  rw [foldl_set_range _ _ _ (le_of_eq hlen.symm), ← hlen, List.drop_length, List.append_nil, hlen]
  apply List.ext_getElem
  · simp
  · intro i h1 h2
    simp only [List.getElem_map, List.getElem_range]
    have hg : Get (mats.map (fun m => FromString (m.getD ""))) i = FromString ((mats[i]).getD "") := by
      unfold Get
      rw [List.getD_eq_getElem _ _ (by simpa using h2)]
      simp
    rw [hg]
    show (if ((mats[i]).getD "").isEmpty then none
      else if A ((mats[i]).getD "") then some ((mats[i]).getD "") else none) = mats[i]
    exact resolve_getD A _ (fun q hq => hm q (hq ▸ List.getElem_mem _))

theorem ApplyMeshProperties_HostWith {s : ManagerState} {h : HostScene} {b : AActor}
    {d : ActorData} (hs : s.host = HostWith h b d) {props : List (sfName × sfProperty)}
    {c : MeshComponent} (hcomp : d.MeshComponent.isSome = true)
    (hmesh : TryGet props sfProp.Mesh = some (FromString (c.Mesh.getD "")))
    (hmats : TryGet props sfProp.Materials =
      some (.list (c.Materials.map (fun m => FromString (m.getD "")))))
    (hres : MeshResolves h c) :
    (ApplyMeshProperties s b props).host = HostWith h b { d with MeshComponent := some c } := by
  unfold ApplyMeshProperties
  rw [HostWith_actor hs, hmesh]
  cases hd : d.MeshComponent with
  | none => rw [hd] at hcomp; cases hcomp
  | some c0 =>
    dsimp only
    have hA : s.host.assetExists = h.assetExists := by rw [hs]; rfl
    have hM : s.host.meshMaterials = h.meshMaterials := by rw [hs]; rfl
    have hpath : ToString (FromString (c.Mesh.getD "")) = c.Mesh.getD "" := rfl
    rw [hpath, resolve_getD s.host.assetExists c.Mesh (by rw [hA]; exact hres.mesh)]
    have hget : DictGet props sfProp.Materials =
        .list (c.Materials.map (fun m => FromString (m.getD ""))) := by
      unfold DictGet; rw [hmats]; rfl
    rw [hget]
    dsimp only
    have hslots : (match c.Mesh with
        | some m => s.host.meshMaterials m
        | none => []).length = c.Materials.length := by
      rw [← hres.slots, hM]
      cases c.Mesh <;> rfl
    rw [DerefList_of_list s hmats, setActor_HostWith hs]
    refine congrArg (HostWith h b) ?_
    have key : ∀ (ms : List (Option String)), ms = c.Materials →
        ({ d with MeshComponent := some { Mesh := c.Mesh, Materials := ms } } : ActorData) =
          { d with MeshComponent := some c } := by
      intro ms hms
      rw [hms]
    exact key _ (materials_round_trip s.host.assetExists c.Materials _ hslots
      (by rw [hA]; exact hres.materials))

theorem ApplyEmitterProperties_HostWith {s : ManagerState} {h : HostScene} {b : AActor}
    {d : ActorData} (hs : s.host = HostWith h b d) {props : List (sfName × sfProperty)}
    {path : String} (hcomp : d.ParticleSystemComponent.isSome = true)
    (htemplate : TryGet props sfProp.Template = some (FromString path))
    (hres : h.assetExists path = true) :
    (ApplyEmitterProperties s b props).host =
      HostWith h b { d with ParticleSystemComponent := some ⟨some path⟩ } := by
  unfold ApplyEmitterProperties
  rw [HostWith_actor hs, htemplate]
  cases hd : d.ParticleSystemComponent with
  | none => rw [hd] at hcomp; cases hcomp
  | some c0 =>
    dsimp only
    have hA : s.host.assetExists = h.assetExists := by rw [hs]; rfl
    have hpath : ToString (FromString path) = path := rfl
    rw [hpath, hA, hres, setActor_HostWith hs]
    rfl

theorem ApplyTypeProperties_HostWith_mesh {s : ManagerState} {h : HostScene} {b : AActor}
    {d : ActorData} (hs : s.host = HostWith h b d) {props : List (sfName × sfProperty)}
    {c : MeshComponent} (hk : d.Kind = ActorKind.StaticMesh ∨ d.Kind = ActorKind.SkeletalMesh)
    (hcomp : d.MeshComponent.isSome = true)
    (hmesh : TryGet props sfProp.Mesh = some (FromString (c.Mesh.getD "")))
    (hmats : TryGet props sfProp.Materials =
      some (.list (c.Materials.map (fun m => FromString (m.getD "")))))
    (hres : MeshResolves h c) :
    (ApplyTypeProperties s b props).host = HostWith h b { d with MeshComponent := some c } := by
  have key := ApplyMeshProperties_HostWith hs hcomp hmesh hmats hres
  unfold ApplyTypeProperties
  rw [HostWith_actor hs]
  split
  · exact key
  · exact key
  · rename_i he; rw [he] at hk; rcases hk with hk | hk <;> cases hk
  · rename_i he; rw [he] at hk; rcases hk with hk | hk <;> cases hk

theorem ApplyTypeProperties_HostWith_emitter {s : ManagerState} {h : HostScene} {b : AActor}
    {d : ActorData} (hs : s.host = HostWith h b d) {props : List (sfName × sfProperty)}
    {path : String} (hk : d.Kind = ActorKind.Emitter)
    (hcomp : d.ParticleSystemComponent.isSome = true)
    (htemplate : TryGet props sfProp.Template = some (FromString path))
    (hres : h.assetExists path = true) :
    (ApplyTypeProperties s b props).host =
      HostWith h b { d with ParticleSystemComponent := some ⟨some path⟩ } := by
  have key := ApplyEmitterProperties_HostWith hs hcomp htemplate hres
  unfold ApplyTypeProperties
  rw [HostWith_actor hs]
  split
  · rename_i he; rw [he] at hk; cases hk
  · rename_i he; rw [he] at hk; cases hk
  · exact key
  · rename_i he; rw [he] at hk; cases hk

theorem ApplyTypeProperties_HostWith_other {s : ManagerState} {h : HostScene} {b : AActor}
    {d : ActorData} (hs : s.host = HostWith h b d) (props : List (sfName × sfProperty))
    (hk : d.Kind = ActorKind.Other) :
    (ApplyTypeProperties s b props).host = HostWith h b d := by
  unfold ApplyTypeProperties
  rw [HostWith_actor hs]
  split
  · rename_i he; rw [he] at hk; cases hk
  · rename_i he; rw [he] at hk; cases hk
  · rename_i he; rw [he] at hk; cases hk
  · exact hs

/-- The end of `InitializeActor` for an object without children: the two map
entries, the lock notifications and the empty loop leave the host as it is. -/
theorem InitializeActor_tail_host {α : Type} (f : ManagerState → α → ManagerState)
    (s7 : ManagerState) (o : sfObject) (b : AActor) (l : List α) (hl : l = []) :
    (List.foldl f
      (ManagerState.InvokeOnLockStateChange
        (if (({ s7 with
            m_actorToObjectMap := Function.update s7.m_actorToObjectMap b (some o),
            m_objectToActorMap := Function.update s7.m_objectToActorMap o (some b) } :
              ManagerState).objects o).IsLocked then
          ManagerState.InvokeOnLockStateChange
            { s7 with
              m_actorToObjectMap := Function.update s7.m_actorToObjectMap b (some o),
              m_objectToActorMap := Function.update s7.m_objectToActorMap o (some b) } o b
        else
          { s7 with
            m_actorToObjectMap := Function.update s7.m_actorToObjectMap b (some o),
            m_objectToActorMap := Function.update s7.m_objectToActorMap o (some b) }) o b)
      l).host = s7.host := by
  rw [hl]
  show (ManagerState.InvokeOnLockStateChange _ o b).host = s7.host
  split <;> rfl

theorem C10_transform (d : ActorData) (P : List (sfName × sfProperty))
    (hP : P = ActorProperties d) (r0 : USceneComponent) (r : USceneComponent)
    (hr : d.RootComponent = some r) :
    ({ r0 with
        RelativeLocation :=
          if (TryGet P sfProp.Location).isSome = true then ToVector (DictGet P sfProp.Location)
          else ⟨0, 0, 0⟩,
        RelativeRotation :=
          if (TryGet P sfProp.Location).isSome = true then ToVector (DictGet P sfProp.Rotation)
          else ⟨0, 0, 0⟩,
        RelativeScale3D :=
          if (TryGet P sfProp.Location).isSome = true then ToVector (DictGet P sfProp.Scale)
          else ⟨1, 1, 1⟩ } : USceneComponent) = r := by
  unfold DictGet
  rw [hP, ActorProperties_Location, ActorProperties_Rotation, ActorProperties_Scale, hr]
  cases r
  rfl

theorem InitializeActor_tail_children (s7 : ManagerState) (o : sfObject) (b : AActor)
    (hl : (s7.objects o).Children = []) :
    ((ManagerState.InvokeOnLockStateChange
        (if (({ s7 with
            m_actorToObjectMap := Function.update s7.m_actorToObjectMap b (some o),
            m_objectToActorMap := Function.update s7.m_objectToActorMap o (some b) } :
              ManagerState).objects o).IsLocked then
          ManagerState.InvokeOnLockStateChange
            { s7 with
              m_actorToObjectMap := Function.update s7.m_actorToObjectMap b (some o),
              m_objectToActorMap := Function.update s7.m_objectToActorMap o (some b) } o b
        else
          { s7 with
            m_actorToObjectMap := Function.update s7.m_actorToObjectMap b (some o),
            m_objectToActorMap := Function.update s7.m_objectToActorMap o (some b) }) o b).objects
      o).Children = [] := by
  rw [← hl]
  show ((if _ then _ else _ : ManagerState).objects o).Children = _
  split <;> rfl

theorem SyncedFields_congr (x d : ActorData) (h1 : x.Name = d.Name) (h2 : x.Class = d.Class)
    (h3 : x.ActorLabel = d.ActorLabel) (h4 : x.FolderPath = d.FolderPath)
    (h5 : x.RootComponent = d.RootComponent) (h6 : x.Kind = d.Kind)
    (h7 : d.Kind = ActorKind.StaticMesh ∨ d.Kind = ActorKind.SkeletalMesh →
      x.MeshComponent = d.MeshComponent)
    (h8 : d.Kind = ActorKind.Emitter → x.ParticleSystemComponent = d.ParticleSystemComponent) :
    SyncedFields x = SyncedFields d := by
  unfold SyncedFields
  rw [h1, h2, h3, h4, h5, h6]
  cases hk : d.Kind
  · rw [h7 (Or.inl hk)]
  · rw [h7 (Or.inr hk)]
  · rw [h8 hk]
  · rfl

theorem InitializeActor_round_trip (fuel : Nat) (t : ManagerState) (o : sfObject)
    (level : ULevel) (d cdo : ActorData) (hP : (t.objects o).Property = ActorProperties d)
    (hleaf : (t.objects o).Children = []) (hready : RoundTripReady t level d cdo) :
    (InitializeActor (fuel + 1) t o level).2 = some t.host.nextActor ∧
      SyncedFields ((InitializeActor (fuel + 1) t o level).1.host.actor t.host.nextActor) =
        SyncedFields d := by
  have hname : ToString (DictGet (t.objects o).Property sfProp.Name) = d.Name := by
    unfold DictGet; rw [hP, ActorProperties_Name]; rfl
  have hclass : ToString (DictGet (t.objects o).Property sfProp.Class) = d.Class := by
    unfold DictGet; rw [hP, ActorProperties_Class]; rfl
  have hlabel : ToString (DictGet (t.objects o).Property sfProp.Label) = d.ActorLabel := by
    unfold DictGet; rw [hP, ActorProperties_Label]; rfl
  have hfolder : ToString (DictGet (t.objects o).Property sfProp.Folder) = d.FolderPath := by
    unfold DictGet; rw [hP, ActorProperties_Folder]; rfl
  -- the four strings that are read without a test are in the dictionary
  have hn1 : ∀ u : ManagerState, u.DerefGet (t.objects o).Property sfProp.Name = u :=
    fun u => DerefGet_of_isSome u (by rw [hP, ActorProperties_Name]; rfl)
  have hn2 : ∀ u : ManagerState, u.DerefGet (t.objects o).Property sfProp.Class = u :=
    fun u => DerefGet_of_isSome u (by rw [hP, ActorProperties_Class]; rfl)
  have hn3 : ∀ u : ManagerState, u.DerefGet (t.objects o).Property sfProp.Folder = u :=
    fun u => DerefGet_of_isSome u (by rw [hP, ActorProperties_Folder]; rfl)
  have hn4 : ∀ u : ManagerState, u.DerefGet (t.objects o).Property sfProp.Label = u :=
    fun u => DerefGet_of_isSome u (by rw [hP, ActorProperties_Label]; rfl)
  rw [InitializeActor]
  simp only [hn1, hn2, hn3, hn4, FindActorToReuse, SpawnOrReuseActor, ApplyAndBind, hname, hclass,
    hready.nameFree, hready.classResolves]
  refine ⟨rfl, ?_⟩
  have htr : ∀ r, d.RootComponent = some r →
      (⟨if (TryGet (t.objects o).Property sfProp.Location).isSome = true then
          ToVector (DictGet (t.objects o).Property sfProp.Location) else ⟨0, 0, 0⟩,
        if (TryGet (t.objects o).Property sfProp.Location).isSome = true then
          ToVector (DictGet (t.objects o).Property sfProp.Rotation) else ⟨0, 0, 0⟩,
        if (TryGet (t.objects o).Property sfProp.Location).isSome = true then
          ToVector (DictGet (t.objects o).Property sfProp.Scale) else ⟨1, 1, 1⟩⟩ :
        USceneComponent) = r :=
    fun r hr => C10_transform d _ hP r r hr
  generalize (if (TryGet (t.objects o).Property sfProp.Location).isSome = true then
      ToVector (DictGet (t.objects o).Property sfProp.Location) else (⟨0, 0, 0⟩ : FVector)) = loc
    at htr ⊢
  generalize (if (TryGet (t.objects o).Property sfProp.Location).isSome = true then
      ToVector (DictGet (t.objects o).Property sfProp.Rotation) else (⟨0, 0, 0⟩ : FVector)) = rot
    at htr ⊢
  generalize (if (TryGet (t.objects o).Property sfProp.Location).isSome = true then
      ToVector (DictGet (t.objects o).Property sfProp.Scale) else (⟨1, 1, 1⟩ : FVector)) = scl
    at htr ⊢
  rw [hlabel, hfolder]
  -- the host calls on the spawned actor, one after the other
  have e0 : (SpawnActor t cdo level loc rot).1.host = HostWith t.host t.host.nextActor _ := rfl
  have e1 := SetActorRelativeLocation_HostWith e0 loc
  have e2 := SetActorRelativeRotation_HostWith e1 rot
  have e3 := SetActorRelativeScale3D_HostWith e2 scl
  have e4 := SetFolderPath_HostWith e3 d.FolderPath
  have e5 := SetLabel_HostWith e4 d.ActorLabel
  have e6 := TryRename_HostWith e5 hready.hostValid hready.nameFree
  obtain ⟨D6, e, f1, f2, f3, f4, f5, f6, f7, f8⟩ : ∃ D6 : ActorData, _ = HostWith t.host
      t.host.nextActor D6 ∧ D6.Name = d.Name ∧ D6.Class = cdo.Class ∧
      D6.ActorLabel = d.ActorLabel ∧ D6.FolderPath = d.FolderPath ∧ D6.Kind = cdo.Kind ∧
      D6.MeshComponent = cdo.MeshComponent ∧
      D6.ParticleSystemComponent = cdo.ParticleSystemComponent ∧
      D6.RootComponent = cdo.RootComponent.map (fun _ => ⟨loc, rot, scl⟩) :=
    ⟨_, e6, rfl, rfl, rfl, rfl, rfl, rfl, rfl, by
      dsimp only
      cases cdo.RootComponent <;> rfl⟩
  clear e0 e1 e2 e3 e4 e5 e6
  have hroot : D6.RootComponent = d.RootComponent := by
    rw [f8]
    have hc := hready.cdoRoot
    cases hd : d.RootComponent with
    | none =>
      rw [hd] at hc
      cases hcr : cdo.RootComponent with
      | none => rfl
      | some r0 => rw [hcr] at hc; cases hc
    | some r =>
      rw [hd] at hc
      cases hcr : cdo.RootComponent with
      | none => rw [hcr] at hc; cases hc
      | some r0 => exact congrArg some (htr r hd)
  have hchildren := fun (s7 : ManagerState) (h7 : s7.objects = t.objects) =>
    InitializeActor_tail_children s7 o t.host.nextActor
      ((congrArg (fun ob => (ob o).Children) h7).trans hleaf)
  have hkind : D6.Kind = d.Kind := f5.trans hready.cdoKind
  have hclass2 : D6.Class = d.Class := f2.trans hready.cdoClass
  cases hk : d.Kind with
  | StaticMesh =>
    obtain ⟨c, hc, hcomp, hres⟩ := hready.mesh (Or.inl hk)
    have hm := ActorProperties_Mesh d c (Or.inl hk) hc
    rw [← hP] at hm
    have e7 := ApplyTypeProperties_HostWith_mesh e (Or.inl (hkind.trans hk))
      (by rw [f6]; exact hcomp) hm.1 hm.2 hres
    refine Eq.trans (congrArg (fun hh : HostScene => SyncedFields (hh.actor t.host.nextActor))
      ((InitializeActor_tail_host _ _ o _ _ (hchildren _ ?_)).trans e7)) ?_
    · change _ = (SpawnActor t cdo level loc rot).1.objects
      exact (((((((HostOnly.SetActorRelativeLocation_host _ _ _).trans_host
      (HostOnly.SetActorRelativeRotation_host _ _ _)).trans_host
      (HostOnly.SetActorRelativeScale3D_host _ _ _)).trans_host
      (HostOnly.SetFolderPath_host _ _ _)).trans_host
      (HostOnly.ite_host _ (HostOnly.SetActorLabel_host _ _ _))).trans_host
      (HostOnly.TryRename_host _ _ _)).trans_host
      (HostOnly.ApplyTypeProperties_host _ _ _)).objects
    · simp only [HostWith, Function.update_same]
      exact SyncedFields_congr _ d f1 hclass2 f3 f4 hroot hkind (fun _ => hc.symm)
        (fun h => by rw [hk] at h; cases h)
  | SkeletalMesh =>
    obtain ⟨c, hc, hcomp, hres⟩ := hready.mesh (Or.inr hk)
    have hm := ActorProperties_Mesh d c (Or.inr hk) hc
    rw [← hP] at hm
    have e7 := ApplyTypeProperties_HostWith_mesh e (Or.inr (hkind.trans hk))
      (by rw [f6]; exact hcomp) hm.1 hm.2 hres
    refine Eq.trans (congrArg (fun hh : HostScene => SyncedFields (hh.actor t.host.nextActor))
      ((InitializeActor_tail_host _ _ o _ _ (hchildren _ ?_)).trans e7)) ?_
    · change _ = (SpawnActor t cdo level loc rot).1.objects
      exact (((((((HostOnly.SetActorRelativeLocation_host _ _ _).trans_host
      (HostOnly.SetActorRelativeRotation_host _ _ _)).trans_host
      (HostOnly.SetActorRelativeScale3D_host _ _ _)).trans_host
      (HostOnly.SetFolderPath_host _ _ _)).trans_host
      (HostOnly.ite_host _ (HostOnly.SetActorLabel_host _ _ _))).trans_host
      (HostOnly.TryRename_host _ _ _)).trans_host
      (HostOnly.ApplyTypeProperties_host _ _ _)).objects
    · simp only [HostWith, Function.update_same]
      exact SyncedFields_congr _ d f1 hclass2 f3 f4 hroot hkind (fun _ => hc.symm)
        (fun h => by rw [hk] at h; cases h)
  | Emitter =>
    obtain ⟨path, hc, hcomp, hres⟩ := hready.emitter hk
    have hm := ActorProperties_Template d path hk hc
    rw [← hP] at hm
    have e7 := ApplyTypeProperties_HostWith_emitter e (hkind.trans hk)
      (by rw [f7]; exact hcomp) hm hres
    refine Eq.trans (congrArg (fun hh : HostScene => SyncedFields (hh.actor t.host.nextActor))
      ((InitializeActor_tail_host _ _ o _ _ (hchildren _ ?_)).trans e7)) ?_
    · change _ = (SpawnActor t cdo level loc rot).1.objects
      exact (((((((HostOnly.SetActorRelativeLocation_host _ _ _).trans_host
      (HostOnly.SetActorRelativeRotation_host _ _ _)).trans_host
      (HostOnly.SetActorRelativeScale3D_host _ _ _)).trans_host
      (HostOnly.SetFolderPath_host _ _ _)).trans_host
      (HostOnly.ite_host _ (HostOnly.SetActorLabel_host _ _ _))).trans_host
      (HostOnly.TryRename_host _ _ _)).trans_host
      (HostOnly.ApplyTypeProperties_host _ _ _)).objects
    · simp only [HostWith, Function.update_same]
      exact SyncedFields_congr _ d f1 hclass2 f3 f4 hroot hkind 
        (fun h => by rcases h with h | h <;> rw [hk] at h <;> cases h) (fun _ => hc.symm)
  | Other =>
    have e7 := ApplyTypeProperties_HostWith_other e (t.objects o).Property (hkind.trans hk)
    refine Eq.trans (congrArg (fun hh : HostScene => SyncedFields (hh.actor t.host.nextActor))
      ((InitializeActor_tail_host _ _ o _ _ (hchildren _ ?_)).trans e7)) ?_
    · change _ = (SpawnActor t cdo level loc rot).1.objects
      exact (((((((HostOnly.SetActorRelativeLocation_host _ _ _).trans_host
      (HostOnly.SetActorRelativeRotation_host _ _ _)).trans_host
      (HostOnly.SetActorRelativeScale3D_host _ _ _)).trans_host
      (HostOnly.SetFolderPath_host _ _ _)).trans_host
      (HostOnly.ite_host _ (HostOnly.SetActorLabel_host _ _ _))).trans_host
      (HostOnly.TryRename_host _ _ _)).trans_host
      (HostOnly.ApplyTypeProperties_host _ _ _)).objects
    · simp only [HostWith, Function.update_same]
      exact SyncedFields_congr _ d f1 hclass2 f3 f4 hroot hkind 
        (fun h => by rcases h with h | h <;> rw [hk] at h <;> cases h)
        (fun h => by rw [hk] at h; cases h)

theorem C10_receiver_ready :
    RoundTripReady (C10_receiver true) 0 (C10_sender.host.actor 0) C10_cdo where
  hostValid := fun x hx => by cases hx
  nameFree := rfl
  classResolves := rfl
  cdoClass := rfl
  cdoKind := rfl
  cdoRoot := rfl
  mesh := fun _ =>
    ⟨⟨some "/Game/Cube", [some "/Game/Wood"]⟩, rfl, rfl,
      { mesh := fun m hm => by
          cases hm
          exact ⟨by decide, rfl⟩
        slots := rfl
        materials := fun q hq => by
          have hq2 : q = "/Game/Wood" := by simpa using hq
          rw [hq2]
          exact ⟨by decide, rfl⟩ }⟩
  emitter := fun h => absurd h (by decide)

/-- C10 (round trip), with what the code takes for granted: the actor `a` is not
bound yet, so `CreateObject` makes a new object for it; the receiving state `t`
holds an object `o2` without children whose dictionary is the one `CreateObject`
made; in `t` the name of `a` is free in the level, the class of `a` resolves to a
class default of the same class, kind and components, the mesh, material and
template assets load, the material count is the slot count of the mesh and an
emitter has a template. Then `InitializeActor` spawns a new actor and its synced
fields (name, class, label, folder, relative transform, mesh and materials of a
mesh actor, template of an emitter) are those of `a`. -/
theorem C10_round_trip (fuel fuel2 : Nat) (s t : ManagerState) (a : AActor) (o2 : sfObject)
    (level : ULevel) (cdo : ActorData)
    (hun : s.m_actorToObjectMap a = none)
    (hprops : (t.objects o2).Property =
      ((CreateObject (fuel + 1) s a).1.objects s.nextObject).Property)
    (hleaf : (t.objects o2).Children = [])
    (hready : RoundTripReady t level (s.host.actor a) cdo) :
    (CreateObject (fuel + 1) s a).2 = some s.nextObject ∧
    (InitializeActor (fuel2 + 1) t o2 level).2 = some t.host.nextActor ∧
    SyncedFields ((InitializeActor (fuel2 + 1) t o2 level).1.host.actor t.host.nextActor) =
      SyncedFields (s.host.actor a) :=
  ⟨(CreateObject_Property fuel s a hun).1,
    InitializeActor_round_trip fuel2 t o2 level (s.host.actor a) cdo
      (hprops.trans (CreateObject_Property fuel s a hun).2) hleaf hready⟩

/-- Witness of C10: the static mesh actor `C10_actor` of `C10_sender` arrives in
`C10_receiver true` as actor 0 with the same synced fields. -/
theorem C10_round_trip_witness :
    IsSyncable (C10_sender.host.actor 0) = true ∧
    C10_sender.m_actorToObjectMap 0 = none ∧
    RoundTripReady (C10_receiver true) 0 (C10_sender.host.actor 0) C10_cdo ∧
    (CreateObject 1 C10_sender 0).2 = some 0 ∧
    (InitializeActor 1 (C10_receiver true) 0 0).2 = some 0 ∧
    SyncedFields ((InitializeActor 1 (C10_receiver true) 0 0).1.host.actor 0) =
      SyncedFields C10_actor :=
  ⟨rfl, rfl, C10_receiver_ready,
    C10_round_trip 0 0 C10_sender (C10_receiver true) 0 0 0 C10_cdo rfl rfl rfl
      C10_receiver_ready⟩

/-- Counterexample to C10 as stated: the class of the syncable actor `C10_actor`
does not resolve in the receiving state; `InitializeActor` logs a warning and
returns null, and no actor is made. -/
theorem C10_counterexample_unknown_class :
    IsSyncable (C10_sender.host.actor 0) = true ∧
    (CreateObject 1 C10_sender 0).2 = some 0 ∧
    ((C10_receiver false).objects 0).Property =
      ((CreateObject 1 C10_sender 0).1.objects 0).Property ∧
    (InitializeActor 1 (C10_receiver false) 0 0).2 = none ∧
    (InitializeActor 1 (C10_receiver false) 0 0).1.host.allActors = [] := by
  refine ⟨rfl, rfl, rfl, ?_, ?_⟩
  · rfl
  · rfl

theorem Dispatcher_CallManager_registered (d : sfObjectEventDispatcher) (obj : EventObject)
    (m : ManagerId) (call : ManagerCall) (h : d.find obj.Type_ = some (some m)) :
    d.CallManager (some obj) call = d.emit (.Call m call) := by
  simp [sfObjectEventDispatcher.CallManager, sfObjectEventDispatcher.GetManager, h]

theorem Dispatcher_CallManager_unregistered (d : sfObjectEventDispatcher) (obj : EventObject)
    (call : ManagerCall) (h : d.find obj.Type_ = none) :
    d.CallManager (some obj) call =
      d.emit (.LogError ("Unknown object type '" ++ obj.Type_ ++ "'.")) := by
  simp [sfObjectEventDispatcher.CallManager, sfObjectEventDispatcher.GetManager, h]

/-- C11: for each of the eleven event kinds and an event `e` whose affected object
`obj` has type tag `obj.Type_`: if manager `m` is registered for the tag, the
handler of the dispatcher makes exactly one call, the handler `e.handler` that
matches the event, on `m`, and changes nothing else; if no manager is registered
for the tag, it logs an error, calls no manager and leaves the registry and the
active flag as they are. -/
theorem C11_dispatch_exactly_one_handler (d : sfObjectEventDispatcher) (e : InboundEvent)
    (obj : EventObject) (hobj : e.object = some obj) :
    (∀ m, d.find obj.Type_ = some (some m) →
      d.HandleEvent e = d.emit (.Call m e.handler)) ∧
    (d.find obj.Type_ = none →
      d.HandleEvent e = d.emit (.LogError ("Unknown object type '" ++ obj.Type_ ++ "'.")) ∧
      (d.HandleEvent e).m_managers = d.m_managers ∧
      (d.HandleEvent e).m_active = d.m_active ∧
      ∀ m c, DispatcherEffect.Call m c ∉ (d.HandleEvent e).trace.drop d.trace.length) := by
  have key : ∀ call, (∀ m, d.find obj.Type_ = some (some m) →
      d.CallManager (some obj) call = d.emit (.Call m call)) ∧
    (d.find obj.Type_ = none →
      d.CallManager (some obj) call =
          d.emit (.LogError ("Unknown object type '" ++ obj.Type_ ++ "'.")) ∧
      (d.CallManager (some obj) call).m_managers = d.m_managers ∧
      (d.CallManager (some obj) call).m_active = d.m_active ∧
      ∀ m c, DispatcherEffect.Call m c ∉
        (d.CallManager (some obj) call).trace.drop d.trace.length) := by
    intro call
    refine ⟨fun m h => Dispatcher_CallManager_registered d obj m call h, fun h => ?_⟩
    rw [Dispatcher_CallManager_unregistered d obj call h]
    refine ⟨rfl, rfl, rfl, ?_⟩
    intro m c hm
    simp [sfObjectEventDispatcher.emit] at hm
  cases e with
  | PropertyChange prop =>
    simp only [InboundEvent.object] at hobj
    simp only [sfObjectEventDispatcher.HandleEvent, hobj, InboundEvent.handler]
    exact key _
  | DictionaryRemove dict name =>
    simp only [InboundEvent.object] at hobj
    simp only [sfObjectEventDispatcher.HandleEvent, hobj, InboundEvent.handler]
    exact key _
  | ListAdd list index count =>
    simp only [InboundEvent.object] at hobj
    simp only [sfObjectEventDispatcher.HandleEvent, hobj, InboundEvent.handler]
    exact key _
  | ListRemove list index count =>
    simp only [InboundEvent.object] at hobj
    simp only [sfObjectEventDispatcher.HandleEvent, hobj, InboundEvent.handler]
    exact key _
  | _ =>
    simp only [InboundEvent.object, Option.some.injEq] at hobj
    subst hobj
    exact key _

/-- Witness of C11: a list insertion into a property of an `Actor` object reaches
manager 1 as `OnListAdd`; an event for the unregistered type `Avatar` reaches no
manager. -/
theorem C11_dispatch_exactly_one_handler_witness :
    (InboundEvent.ListAdd ⟨"#materials", some ⟨5, "Actor"⟩⟩ 1 2).object = some ⟨5, "Actor"⟩ ∧
    (C11_dispatcher true).find "Actor" = some (some 1) ∧
    (C11_dispatcher true).HandleEvent (.ListAdd ⟨"#materials", some ⟨5, "Actor"⟩⟩ 1 2) =
      (C11_dispatcher true).emit
        (.Call 1 (.OnListAdd ⟨"#materials", some ⟨5, "Actor"⟩⟩ 1 2)) ∧
    (C11_dispatcher true).find "Avatar" = none ∧
    ((C11_dispatcher true).HandleEvent (.Lock ⟨9, "Avatar"⟩)).trace =
      [.LogError "Unknown object type 'Avatar'."] :=
  ⟨rfl, by decide,
    (C11_dispatch_exactly_one_handler (C11_dispatcher true)
      (.ListAdd ⟨"#materials", some ⟨5, "Actor"⟩⟩ 1 2) ⟨5, "Actor"⟩ rfl).1 1 (by decide),
    by decide, by decide⟩

/-- C12 at the failing input: a dictionary removal, a list insertion or a list
removal whose container object is null makes `GetManager` read `Type()` from the
null pointer, for every dispatcher; only the property change handler checks the
container first, logs and calls no manager. -/
theorem C12_null_container_dereferenced (d : sfObjectEventDispatcher) (path : String)
    (name : sfName) (index count : Int) :
    (d.HandleEvent (.DictionaryRemove ⟨path, none⟩ name)).fault = true ∧
    (d.HandleEvent (.ListAdd ⟨path, none⟩ index count)).fault = true ∧
    (d.HandleEvent (.ListRemove ⟨path, none⟩ index count)).fault = true ∧
    d.HandleEvent (.PropertyChange ⟨path, none⟩) =
      d.emit (.LogError ("Container object is null. Property path: " ++ path)) :=
  ⟨rfl, rfl, rfl, rfl⟩

theorem Dispatcher_CallAll_active (call : ManagerCall) (l : List (sfName × Option ManagerId))
    (d : sfObjectEventDispatcher) :
    (l.foldl
      (fun acc p =>
        match p.2 with
        | some manager => acc.emit (.Call manager call)
        | none => { acc with fault := true })
      d).m_active = d.m_active := by
  induction l generalizing d with
  | nil => rfl
  | cons p rest ih =>
    rw [List.foldl_cons, ih]
    split <;> rfl

theorem Dispatcher_Initialize_active (d : sfObjectEventDispatcher) : d.Initialize.m_active = true := by
  unfold sfObjectEventDispatcher.Initialize
  split
  · assumption
  · dsimp only
    unfold sfObjectEventDispatcher.CallAll
    rw [Dispatcher_CallAll_active]
    rfl

theorem Dispatcher_CleanUp_inactive (d : sfObjectEventDispatcher) : d.CleanUp.m_active = false := by
  unfold sfObjectEventDispatcher.CleanUp
  split
  · rename_i h
    simpa using h
  · dsimp only
    unfold sfObjectEventDispatcher.CallAll
    rw [Dispatcher_CallAll_active]
    rfl

/-- C13: `Initialize` on an active dispatcher and `CleanUp` on an inactive one
return the dispatcher as it is: no field changes, and the trace gains no handler
registration and no call on a manager.  So a second `Initialize` after
`Initialize` and a second `CleanUp` after `CleanUp` change nothing. -/
theorem C13_Initialize_CleanUp_idempotent (d : sfObjectEventDispatcher) :
    (d.m_active = true → d.Initialize = d) ∧
    (d.m_active = false → d.CleanUp = d) ∧
    d.Initialize.Initialize = d.Initialize ∧
    d.CleanUp.CleanUp = d.CleanUp := by
  have h1 : ∀ x : sfObjectEventDispatcher, x.m_active = true → x.Initialize = x := by
    intro x hx
    unfold sfObjectEventDispatcher.Initialize
    rw [if_pos hx]
  have h2 : ∀ x : sfObjectEventDispatcher, x.m_active = false → x.CleanUp = x := by
    intro x hx
    unfold sfObjectEventDispatcher.CleanUp
    rw [if_pos (by rw [hx]; rfl)]
  exact ⟨h1 d, h2 d, h1 _ (Dispatcher_Initialize_active d), h2 _ (Dispatcher_CleanUp_inactive d)⟩

/-- Witness of C13: the example dispatcher, active and inactive; the first
`Initialize` of the inactive one registers the eleven handlers and initializes
both managers, the second does nothing. -/
theorem C13_Initialize_CleanUp_idempotent_witness :
    (C11_dispatcher true).Initialize = C11_dispatcher true ∧
    (C11_dispatcher false).CleanUp = C11_dispatcher false ∧
    (C11_dispatcher false).Initialize.trace.length = 13 ∧
    (C11_dispatcher false).Initialize.Initialize = (C11_dispatcher false).Initialize ∧
    (C11_dispatcher true).CleanUp.trace.length = 13 ∧
    (C11_dispatcher true).CleanUp.CleanUp = (C11_dispatcher true).CleanUp :=
  ⟨(C13_Initialize_CleanUp_idempotent (C11_dispatcher true)).1 rfl,
    (C13_Initialize_CleanUp_idempotent (C11_dispatcher false)).2.1 rfl,
    by decide,
    (C13_Initialize_CleanUp_idempotent (C11_dispatcher false)).2.2.1,
    by decide,
    (C13_Initialize_CleanUp_idempotent (C11_dispatcher true)).2.2.2⟩

theorem CanEditLoop_false_iff (s : ManagerState) (objects : List UObjectRef) :
    CanEditLoop s objects = false ↔
      ∃ objPtr ∈ objects, ∃ a o, objPtr.actorPtr = some a ∧
        SelectedFind s.m_selectedActors a = some o ∧ (s.objects o).IsLocked = true := by
  induction objects with
  | nil => simp [CanEditLoop]
  | cons x rest ih =>
    have hstep : CanEditLoop s (x :: rest) =
        match x.actorPtr with
        | some a =>
          match SelectedFind s.m_selectedActors a with
          | some o => if (s.objects o).IsLocked then false else CanEditLoop s rest
          | none => CanEditLoop s rest
        | none => CanEditLoop s rest := rfl
    rw [hstep]
    simp only [List.mem_cons, exists_eq_or_imp]
    cases hx : x.actorPtr with
    | none => simp [ih]
    | some a =>
      cases hf : SelectedFind s.m_selectedActors a with
      | none => simp [ih, hf]
      | some o =>
        by_cases hl : (s.objects o).IsLocked = true
        · simp only [hf, hl, if_true, true_iff]
          exact Or.inl ⟨a, o, rfl, hf, hl⟩
        · simp only [hf, hl, if_false, Bool.false_eq_true, ih, Option.some.injEq]
          constructor
          · intro h; exact Or.inr h
          · rintro (⟨a2, o2, ha, hf2, hl2⟩ | h)
            · subst ha
              rw [hf] at hf2
              cases hf2
              exact absurd hl2 hl
            · exact h

theorem SelectedFind_nil_of_length (m : List (AActor × sfObject)) (h : m.length = 0)
    (a : AActor) : SelectedFind m a = none := by
  cases m with
  | nil => rfl
  | cons x rest => simp at h

/-- C14 as the code has it: `CanEdit` returns false exactly when one of the
queried objects is an actor, or a component whose outer is an actor, that is in
the tracked selection `m_selectedActors` with an object that is locked (fully or
partially); otherwise it returns true.  So it returns false for a queried actor
whose tracked object is fully locked, and true when no queried entity is locked
or none is tracked. -/
theorem C14_CanEdit_tracked_locked (s : ManagerState) (objects : List UObjectRef) :
    (CanEdit s objects = false ↔
      ∃ objPtr ∈ objects, ∃ a o, objPtr.actorPtr = some a ∧
        SelectedFind s.m_selectedActors a = some o ∧ (s.objects o).IsLocked = true) ∧
    (∀ objPtr ∈ objects, ∀ a o, objPtr.actorPtr = some a →
      SelectedFind s.m_selectedActors a = some o → (s.objects o).IsFullyLocked = true →
      CanEdit s objects = false) ∧
    ((∀ objPtr ∈ objects, ∀ a o, objPtr.actorPtr = some a →
      SelectedFind s.m_selectedActors a = some o → (s.objects o).IsLocked = false) →
      CanEdit s objects = true) := by
  have h1 : CanEdit s objects = false ↔
      ∃ objPtr ∈ objects, ∃ a o, objPtr.actorPtr = some a ∧
        SelectedFind s.m_selectedActors a = some o ∧ (s.objects o).IsLocked = true := by
    unfold CanEdit
    by_cases hlen : s.m_selectedActors.length = 0
    · rw [if_pos hlen]
      constructor
      · intro h; cases h
      · rintro ⟨_, _, a, o, _, hf, _⟩
        rw [SelectedFind_nil_of_length _ hlen a] at hf
        cases hf
    · rw [if_neg hlen]
      exact CanEditLoop_false_iff s objects
  refine ⟨h1, ?_, ?_⟩
  · intro objPtr hmem a o ha hf hl
    refine h1.2 ⟨objPtr, hmem, a, o, ha, hf, ?_⟩
    unfold ObjectData.IsLocked
    rw [hl]
    rfl
  · intro hall
    cases hc : CanEdit s objects with
    | true => rfl
    | false =>
      obtain ⟨objPtr, hmem, a, o, ha, hf, hl⟩ := h1.1 hc
      rw [hall objPtr hmem a o ha hf] at hl
      cases hl

/-- Witness of C14: with actor 1 tracked and its object 5 fully locked, a query
for the actor or for one of its components is refused. -/
theorem C14_CanEdit_tracked_locked_witness :
    SelectedFind (C14_state true).m_selectedActors 1 = some 5 ∧
    ((C14_state true).objects 5).IsFullyLocked = true ∧
    CanEdit (C14_state true) [.other, .component (some 1)] = false :=
  ⟨rfl, rfl,
    (C14_CanEdit_tracked_locked (C14_state true) [.other, .component (some 1)]).2.1
      (.component (some 1)) (by simp) 1 5 rfl rfl rfl⟩

/-- Counterexample to C14 as stated: actor 1 is bound to object 5, which another
user has locked fully, but the tracked selection is empty; `CanEdit` returns true
for the actor. -/
theorem C14_counterexample_untracked_actor :
    (C14_state false).m_actorToObjectMap 1 = some 5 ∧
    ((C14_state false).objects 5).IsFullyLocked = true ∧
    ((C14_state false).objects 5).LockOwner = some 7 ∧
    CanEdit (C14_state false) [.actor 1] = true :=
  ⟨rfl, rfl, rfl, rfl⟩

theorem UpdateSelection_eq (s : ManagerState) :
    UpdateSelection s =
      (s.m_selectedActors.foldl UpdateSelectionRelease s).host.selection.foldl
        UpdateSelectionRequest (s.m_selectedActors.foldl UpdateSelectionRelease s) := rfl

theorem SelFrame.refl_lock (s : ManagerState) : SelFrame s s :=
  ⟨rfl, rfl, rfl, rfl, [], (List.append_nil _).symm, rfl⟩

theorem SelFrame.trans_lock {s t u : ManagerState} (h1 : SelFrame s t) (h2 : SelFrame t u) :
    SelFrame s u := by
  obtain ⟨e1, he1, hl1⟩ := h1.trace
  obtain ⟨e2, he2, hl2⟩ := h2.trace
  refine ⟨h2.host.trans h1.host, h2.a2o.trans h1.a2o, h2.selected.trans h1.selected,
    h2.moving.trans h1.moving, e1 ++ e2, ?_, ?_⟩
  · rw [he2, he1, List.append_assoc]
  · unfold LockCalls at hl1 hl2 ⊢
    rw [List.filter_append, hl1, hl2]
    rfl

theorem SelFrame.PropertySet_lock (s : ManagerState) (o : sfObject) (k : sfName)
    (v : sfProperty) : SelFrame s (s.PropertySet o k v) :=
  ⟨rfl, rfl, rfl, rfl, [Effect.PropertySet o k], rfl, rfl⟩

theorem SelFrame.SendTransformUpdate_lock (s : ManagerState) (a : AActor) (o : sfObject) :
    SelFrame s (SendTransformUpdate s a o) := by
  unfold SendTransformUpdate
  split
  · exact SelFrame.refl_lock s
  · dsimp only
    have h1 : ∀ (c : Prop) [Decidable c] (x : ManagerState) (k : sfName) (v : sfProperty),
        SelFrame x (if c then x.PropertySet o k v else x) := by
      intro c _ x k v
      split
      · exact SelFrame.PropertySet_lock x o k v
      · exact SelFrame.refl_lock x
    exact ((h1 _ _ _ _).trans_lock (h1 _ _ _ _)).trans_lock (h1 _ _ _ _)

theorem UpdateSelectionRelease_step (acc : ManagerState) (x : AActor × sfObject) :
    (UpdateSelectionRelease acc x).host = acc.host ∧
    (UpdateSelectionRelease acc x).m_actorToObjectMap = acc.m_actorToObjectMap ∧
    (UpdateSelectionRelease acc x).m_movingActors = acc.m_movingActors ∧
    (UpdateSelectionRelease acc x).m_selectedActors =
      acc.m_selectedActors.filter (fun p => !(p.1 == x.1 && !(acc.host.IsSelected x.1))) ∧
    ∃ extra, (UpdateSelectionRelease acc x).trace = acc.trace ++ extra ∧
      LockCalls extra = if !(acc.host.IsSelected x.1) then [Effect.ReleaseLock x.2] else [] := by
  unfold UpdateSelectionRelease
  dsimp only
  have hf : SelFrame acc
      (if acc.m_movingActors then SendTransformUpdate acc x.1 x.2 else acc) := by
    split
    · exact SelFrame.SendTransformUpdate_lock acc x.1 x.2
    · exact SelFrame.refl_lock acc
  generalize (if acc.m_movingActors = true then SendTransformUpdate acc x.1 x.2 else acc) = acc1
    at hf ⊢
  obtain ⟨extra, he, hl⟩ := hf.trace
  rw [hf.host]
  by_cases hsel : acc.host.IsSelected x.1 = true
  · simp only [hsel, Bool.not_true, Bool.false_eq_true, if_false, Bool.and_false]
    refine ⟨hf.host, hf.a2o, hf.moving, ?_, extra, he, hl⟩
    rw [hf.selected]
    simp
  · have hsel2 : acc.host.IsSelected x.1 = false := by simpa using hsel
    simp only [hsel2, Bool.not_false, if_true, Bool.and_true]
    refine ⟨hf.host, hf.a2o, hf.moving, ?_, extra ++ [Effect.ReleaseLock x.2], ?_, ?_⟩
    · show SelectedErase acc1.m_selectedActors x.1 = _
      rw [hf.selected]
      rfl
    · show acc1.trace ++ [Effect.ReleaseLock x.2] = _
      rw [he, List.append_assoc]
    · unfold LockCalls at hl ⊢
      rw [List.filter_append, hl]
      rfl

theorem UpdateSelectionRelease_foldl (l : List (AActor × sfObject)) (acc : ManagerState) :
    (l.foldl UpdateSelectionRelease acc).host = acc.host ∧
    (l.foldl UpdateSelectionRelease acc).m_actorToObjectMap = acc.m_actorToObjectMap ∧
    (l.foldl UpdateSelectionRelease acc).m_selectedActors =
      acc.m_selectedActors.filter
        (fun p => !(l.any (fun q => p.1 == q.1 && !(acc.host.IsSelected q.1)))) ∧
    ∃ extra, (l.foldl UpdateSelectionRelease acc).trace = acc.trace ++ extra ∧
      LockCalls extra =
        (l.filter (fun p => !(acc.host.IsSelected p.1))).map (fun p => Effect.ReleaseLock p.2) := by
  induction l generalizing acc with
  | nil => exact ⟨rfl, rfl, by simp, [], (List.append_nil _).symm, rfl⟩
  | cons x rest ih =>
    obtain ⟨h1, h2, _, h4, e1, he1, hl1⟩ := UpdateSelectionRelease_step acc x
    obtain ⟨g1, g2, g4, e2, he2, hl2⟩ := ih (UpdateSelectionRelease acc x)
    rw [List.foldl_cons]
    refine ⟨g1.trans h1, g2.trans h2, ?_, e1 ++ e2, ?_, ?_⟩
    · rw [g4, h4, h1, List.filter_filter]
      congr 1
      funext p
      simp only [List.any_cons, Bool.not_or, Bool.and_comm]
    · rw [he2, he1, List.append_assoc]
    · unfold LockCalls at hl1 hl2 ⊢
      rw [List.filter_append, hl1, hl2, h1, List.filter_cons]
      by_cases hsel : acc.host.IsSelected x.1 = true
      · simp [hsel]
      · have hsel2 : acc.host.IsSelected x.1 = false := by simpa using hsel
        simp [hsel2]

theorem SelectedFind_isSome_iff (m : List (AActor × sfObject)) (a : AActor) :
    (SelectedFind m a).isSome = true ↔ ∃ p ∈ m, p.1 = a := by
  unfold SelectedFind
  rw [Option.isSome_map', List.find?_isSome]
  simp

theorem SelectedFind_append_ne (m : List (AActor × sfObject)) (a b : AActor) (o : sfObject)
    (h : b ≠ a) : (SelectedFind (m ++ [(a, o)]) b).isSome = (SelectedFind m b).isSome := by
  rw [Bool.eq_iff_iff, SelectedFind_isSome_iff, SelectedFind_isSome_iff]
  constructor
  · rintro ⟨p, hp, rfl⟩
    rcases List.mem_append.1 hp with hp | hp
    · exact ⟨p, hp, rfl⟩
    · rw [List.mem_singleton] at hp
      subst hp
      exact absurd rfl h
  · rintro ⟨p, hp, rfl⟩
    exact ⟨p, List.mem_append_left _ hp, rfl⟩

theorem SelectedSet_of_not_tracked (m : List (AActor × sfObject)) (a : AActor) (o : sfObject)
    (h : (SelectedFind m a).isSome = false) : SelectedSet m a o = m ++ [(a, o)] := by
  unfold SelectedSet
  have hany : m.any (fun p => p.1 == a) = false := by
    rw [Bool.eq_false_iff]
    intro hany
    rw [List.any_eq_true] at hany
    obtain ⟨p, hp, hpa⟩ := hany
    have : (SelectedFind m a).isSome = true :=
      (SelectedFind_isSome_iff m a).2 ⟨p, hp, by simpa using hpa⟩
    rw [h] at this
    cases this
  rw [hany]
  rfl

theorem NewlyTracked_congr (m m2 : List (AActor × sfObject)) (a2o : AActor → Option sfObject)
    (l : List AActor)
    (h : ∀ b ∈ l, (SelectedFind m2 b).isSome = (SelectedFind m b).isSome) :
    NewlyTracked m2 a2o l = NewlyTracked m a2o l := by
  unfold NewlyTracked
  induction l with
  | nil => rfl
  | cons b rest ih =>
    rw [List.filterMap_cons, List.filterMap_cons, h b (List.mem_cons_self _ _),
      ih (fun c hc => h c (List.mem_cons_of_mem _ hc))]

theorem UpdateSelectionRequest_foldl (l : List AActor) (hl : l.Nodup) (acc : ManagerState) :
    (l.foldl UpdateSelectionRequest acc).m_selectedActors =
      acc.m_selectedActors ++ NewlyTracked acc.m_selectedActors acc.m_actorToObjectMap l ∧
    (l.foldl UpdateSelectionRequest acc).trace =
      acc.trace ++ (NewlyTracked acc.m_selectedActors acc.m_actorToObjectMap l).map
        (fun p => Effect.RequestLock p.2) := by
  induction l generalizing acc with
  | nil => exact ⟨(List.append_nil _).symm, (List.append_nil _).symm⟩
  | cons a rest ih =>
    rw [List.nodup_cons] at hl
    rw [List.foldl_cons]
    by_cases ht : (SelectedFind acc.m_selectedActors a).isSome = true
    · have h1 : UpdateSelectionRequest acc a = acc := by
        unfold UpdateSelectionRequest
        rw [if_pos ht]
      have h2 : NewlyTracked acc.m_selectedActors acc.m_actorToObjectMap (a :: rest) =
          NewlyTracked acc.m_selectedActors acc.m_actorToObjectMap rest := by
        unfold NewlyTracked
        rw [List.filterMap_cons, if_pos ht]
      rw [h1, h2]
      exact ih hl.2 acc
    · have ht2 : (SelectedFind acc.m_selectedActors a).isSome = false := by simpa using ht
      cases hb : acc.m_actorToObjectMap a with
      | none =>
        have h1 : UpdateSelectionRequest acc a = acc := by
          unfold UpdateSelectionRequest
          rw [if_neg ht, hb]
        have h2 : NewlyTracked acc.m_selectedActors acc.m_actorToObjectMap (a :: rest) =
            NewlyTracked acc.m_selectedActors acc.m_actorToObjectMap rest := by
          unfold NewlyTracked
          rw [List.filterMap_cons, if_neg ht, hb]
          rfl
        rw [h1, h2]
        exact ih hl.2 acc
      | some o =>
        have h1 : UpdateSelectionRequest acc a =
            { (acc.emit (Effect.RequestLock o)) with
              m_selectedActors := acc.m_selectedActors ++ [(a, o)] } := by
          unfold UpdateSelectionRequest
          rw [if_neg ht, hb]
          dsimp only
          rw [SelectedSet_of_not_tracked _ a o ht2]
        have h2 : NewlyTracked acc.m_selectedActors acc.m_actorToObjectMap (a :: rest) =
            (a, o) :: NewlyTracked acc.m_selectedActors acc.m_actorToObjectMap rest := by
          unfold NewlyTracked
          rw [List.filterMap_cons, if_neg ht, hb]
          rfl
        have h3 : NewlyTracked (acc.m_selectedActors ++ [(a, o)]) acc.m_actorToObjectMap rest =
            NewlyTracked acc.m_selectedActors acc.m_actorToObjectMap rest :=
          NewlyTracked_congr _ _ _ _ (fun b hb2 =>
            SelectedFind_append_ne _ a b o (fun hba => hl.1 (hba ▸ hb2)))
        obtain ⟨g1, g2⟩ := ih hl.2 (UpdateSelectionRequest acc a)
        rw [g1, g2, h1, h2]
        have h4 : NewlyTracked
            ({ (acc.emit (Effect.RequestLock o)) with
              m_selectedActors := acc.m_selectedActors ++ [(a, o)] } :
                ManagerState).m_selectedActors
            ({ (acc.emit (Effect.RequestLock o)) with
              m_selectedActors := acc.m_selectedActors ++ [(a, o)] } :
                ManagerState).m_actorToObjectMap rest =
            NewlyTracked acc.m_selectedActors acc.m_actorToObjectMap rest := h3
        rw [h4]
        refine ⟨by simp, ?_⟩
        show (acc.trace ++ [Effect.RequestLock o]) ++ _ = _
        simp

theorem LockCalls_requests (l : List (AActor × sfObject)) :
    LockCalls (l.map (fun p => Effect.RequestLock p.2)) =
      l.map (fun p => Effect.RequestLock p.2) := by
  unfold LockCalls
  rw [List.filter_eq_self]
  intro e he
  obtain ⟨p, _, rfl⟩ := List.mem_map.1 he
  rfl

theorem mem_NewlyTracked (m : List (AActor × sfObject)) (a2o : AActor → Option sfObject)
    (l : List AActor) (p : AActor × sfObject) :
    p ∈ NewlyTracked m a2o l ↔
      p.1 ∈ l ∧ (SelectedFind m p.1).isSome = false ∧ a2o p.1 = some p.2 := by
  unfold NewlyTracked
  rw [List.mem_filterMap]
  constructor
  · rintro ⟨a, ha, h⟩
    by_cases ht : (SelectedFind m a).isSome = true
    · rw [if_pos ht] at h
      cases h
    · rw [if_neg ht] at h
      cases hb : a2o a with
      | none => rw [hb] at h; cases h
      | some o =>
        rw [hb] at h
        cases h
        exact ⟨ha, by simpa using ht, hb⟩
  · rintro ⟨ha, ht, hb⟩
    refine ⟨p.1, ha, ?_⟩
    rw [if_neg (by rw [ht]; exact Bool.false_ne_true), hb]
    rfl

/-- C15 (selection diff): for a tracked selection `T = m_selectedActors` and a
host selection `S` in which each actor is listed once, `UpdateSelection` leaves as
tracked selection the entries of `T` whose actor is in `S`, followed by one new
entry for each bound actor of `S` that `T` does not track; so an actor is tracked
afterwards exactly when it is in `T ∩ S` or is a bound actor of `S`.  The lock
calls it issues are one `ReleaseLock` for each entry of `T` whose actor is not in
`S`, then one `RequestLock` for each new entry, and no others. -/
theorem C15_selection_diff (s : ManagerState) (hS : s.host.selection.Nodup) :
    (UpdateSelection s).m_selectedActors =
      s.m_selectedActors.filter (fun p => s.host.IsSelected p.1) ++
        NewlyTracked s.m_selectedActors s.m_actorToObjectMap s.host.selection ∧
    (∀ a, (SelectedFind (UpdateSelection s).m_selectedActors a).isSome = true ↔
      ((SelectedFind s.m_selectedActors a).isSome = true ∧ a ∈ s.host.selection) ∨
      (a ∈ s.host.selection ∧ (s.m_actorToObjectMap a).isSome = true)) ∧
    ∃ extra, (UpdateSelection s).trace = s.trace ++ extra ∧
      LockCalls extra =
        (s.m_selectedActors.filter (fun p => !(s.host.IsSelected p.1))).map
          (fun p => Effect.ReleaseLock p.2) ++
        (NewlyTracked s.m_selectedActors s.m_actorToObjectMap s.host.selection).map
          (fun p => Effect.RequestLock p.2) := by
  obtain ⟨h1, h2, h3, e1, he1, hl1⟩ := UpdateSelectionRelease_foldl s.m_selectedActors s
  have hsel : ∀ a, s.host.IsSelected a = true ↔ a ∈ s.host.selection := by
    intro a
    unfold HostScene.IsSelected
    simp
  have h3b : (s.m_selectedActors.foldl UpdateSelectionRelease s).m_selectedActors =
      s.m_selectedActors.filter (fun p => s.host.IsSelected p.1) := by
    rw [h3]
    apply List.filter_congr
    intro p hp
    by_cases hp2 : s.host.IsSelected p.1 = true
    · rw [hp2]
      simp only [Bool.not_eq_true', List.any_eq_false, Bool.and_eq_true, beq_iff_eq,
        Bool.not_eq_true', not_and, Bool.not_eq_false]
      intro q _ hq
      rw [← hq]
      exact hp2
    · have hp3 : s.host.IsSelected p.1 = false := by simpa using hp2
      rw [hp3]
      simp only [Bool.not_eq_false', List.any_eq_true, Bool.and_eq_true, beq_iff_eq,
        Bool.not_eq_true']
      exact ⟨p, hp, rfl, hp3⟩
  obtain ⟨g1, g2⟩ := UpdateSelectionRequest_foldl
    (s.m_selectedActors.foldl UpdateSelectionRelease s).host.selection (by rw [h1]; exact hS)
    (s.m_selectedActors.foldl UpdateSelectionRelease s)
  rw [h1, h2, h3b] at g1 g2
  have hnew : NewlyTracked (s.m_selectedActors.filter (fun p => s.host.IsSelected p.1))
      s.m_actorToObjectMap s.host.selection =
      NewlyTracked s.m_selectedActors s.m_actorToObjectMap s.host.selection := by
    apply NewlyTracked_congr
    intro b hb
    rw [Bool.eq_iff_iff, SelectedFind_isSome_iff, SelectedFind_isSome_iff]
    constructor
    · rintro ⟨p, hp, rfl⟩
      exact ⟨p, (List.mem_filter.1 hp).1, rfl⟩
    · rintro ⟨p, hp, rfl⟩
      exact ⟨p, List.mem_filter.2 ⟨hp, (hsel _).2 hb⟩, rfl⟩
  rw [hnew] at g1 g2
  have hfinal : (UpdateSelection s).m_selectedActors =
      s.m_selectedActors.filter (fun p => s.host.IsSelected p.1) ++
        NewlyTracked s.m_selectedActors s.m_actorToObjectMap s.host.selection := by
    rw [UpdateSelection_eq, h1]
    exact g1
  refine ⟨hfinal, ?_, ?_⟩
  · intro a
    rw [hfinal, SelectedFind_isSome_iff, SelectedFind_isSome_iff]
    constructor
    · rintro ⟨p, hp, rfl⟩
      rcases List.mem_append.1 hp with hp | hp
      · rw [List.mem_filter] at hp
        exact Or.inl ⟨⟨p, hp.1, rfl⟩, (hsel _).1 hp.2⟩
      · rw [mem_NewlyTracked] at hp
        exact Or.inr ⟨hp.1, by rw [hp.2.2]; rfl⟩
    · rintro (⟨⟨p, hp, rfl⟩, ha⟩ | ⟨ha, hb⟩)
      · exact ⟨p, List.mem_append_left _ (List.mem_filter.2 ⟨hp, (hsel _).2 ha⟩), rfl⟩
      · by_cases ht : (SelectedFind s.m_selectedActors a).isSome = true
        · obtain ⟨p, hp, rfl⟩ := (SelectedFind_isSome_iff _ _).1 ht
          exact ⟨p, List.mem_append_left _ (List.mem_filter.2 ⟨hp, (hsel _).2 ha⟩), rfl⟩
        · obtain ⟨o, ho⟩ := Option.isSome_iff_exists.1 hb
          exact ⟨(a, o), List.mem_append_right _
            ((mem_NewlyTracked _ _ _ _).2 ⟨ha, by simpa using ht, ho⟩), rfl⟩
  · refine ⟨e1 ++ (NewlyTracked s.m_selectedActors s.m_actorToObjectMap s.host.selection).map
      (fun p => Effect.RequestLock p.2), ?_, ?_⟩
    · rw [UpdateSelection_eq, h1, g2, he1, List.append_assoc]
    · have happ : ∀ x y : List Effect, LockCalls (x ++ y) = LockCalls x ++ LockCalls y := by
        intro x y
        unfold LockCalls
        exact List.filter_append _ _
      rw [happ, hl1, LockCalls_requests]

/-- Witness of C15 on `C15_state`: actor 1 is released and dropped, actor 2 stays,
actor 3 is locked and tracked, the unbound actor 4 is ignored. -/
theorem C15_selection_diff_witness :
    C15_state.host.selection.Nodup ∧
    (UpdateSelection C15_state).m_selectedActors = [(2, 6), (3, 7)] ∧
    (UpdateSelection C15_state).trace = [Effect.ReleaseLock 5, Effect.RequestLock 7] :=
  ⟨by decide, (C15_selection_diff C15_state (by decide)).1, rfl⟩

theorem LinkFrame.refl_link (s : ManagerState) : LinkFrame s s :=
  ⟨rfl, fun _ => rfl, fun _ => rfl, rfl, rfl, rfl, [], (List.append_nil _).symm, rfl⟩

theorem StructCalls_append (x y : List Effect) :
    StructCalls (x ++ y) = StructCalls x ++ StructCalls y := by
  unfold StructCalls
  exact List.filter_append _ _

theorem LinkFrame.trans_link {s t u : ManagerState} (h1 : LinkFrame s t) (h2 : LinkFrame t u) :
    LinkFrame s u := by
  obtain ⟨e1, he1, hl1⟩ := h1.trace
  obtain ⟨e2, he2, hl2⟩ := h2.trace
  refine ⟨h2.nextObject.trans h1.nextObject, fun x => (h2.parent x).trans (h1.parent x),
    fun x => (h2.children x).trans (h1.children x), h2.a2o.trans h1.a2o, h2.o2a.trans h1.o2a,
    h2.fault.trans h1.fault, e1 ++ e2, ?_, ?_⟩
  · rw [he2, he1, List.append_assoc]
  · rw [StructCalls_append, hl1, hl2]
    rfl

theorem LinkFrame.PropertySet_link (s : ManagerState) (o : sfObject) (k : sfName)
    (v : sfProperty) : LinkFrame s (s.PropertySet o k v) := by
  refine ⟨rfl, ?_, ?_, rfl, rfl, rfl, [Effect.PropertySet o k], rfl, rfl⟩
  · intro x
    show (Function.update s.objects o _ x).Parent = _
    by_cases hx : x = o
    · subst hx; rw [Function.update_same]
    · rw [Function.update_noteq hx]
  · intro x
    show (Function.update s.objects o _ x).Children = _
    by_cases hx : x = o
    · subst hx; rw [Function.update_same]
    · rw [Function.update_noteq hx]

theorem LinkFrame.SendTransformUpdate_link (s : ManagerState) (a : AActor) (o : sfObject) :
    LinkFrame s (SendTransformUpdate s a o) := by
  unfold SendTransformUpdate
  split
  · exact LinkFrame.refl_link s
  · dsimp only
    have h1 : ∀ (c : Prop) [Decidable c] (x : ManagerState) (k : sfName) (v : sfProperty),
        LinkFrame x (if c then x.PropertySet o k v else x) := by
      intro c _ x k v
      split
      · exact LinkFrame.PropertySet_link x o k v
      · exact LinkFrame.refl_link x
    exact ((h1 _ _ _ _).trans_link (h1 _ _ _ _)).trans_link (h1 _ _ _ _)

theorem LinkFrame.TreeOK_link {s t : ManagerState} (h : LinkFrame s t) (hs : TreeOK s) :
    TreeOK t := by
  unfold TreeOK at hs ⊢
  rw [h.nextObject]
  exact hs.congr_tree h.parent h.children

/-- An existing root that is not `c` can take `c` as a child. -/
theorem CanAttach_root {objs : sfObject → ObjectData} {n : Nat} {parent child : sfObject}
    (hp : parent < n) (hc : child < n) (hroot : (objs parent).Parent = none)
    (hne : child ≠ parent) : CanAttach objs n parent child = true := by
  unfold CanAttach
  have hchain : AncestorChain objs n parent = some [] := by
    cases n with
    | zero => simp [AncestorChain, hroot]
    | succ m => simp [AncestorChain, hroot]
  rw [hchain]
  simp [hp, hc, hne]

theorem AddChild_to_root (s : ManagerState) (L O c : sfObject) (htree : TreeOK s)
    (hL : L < s.nextObject) (hroot : (s.objects L).Parent = none) (hne : O ≠ L)
    (hc : (s.objects c).Parent = some O) :
    ((s.AddChild L c).objects c).Parent = some L ∧
    ((s.AddChild L c).objects O).Children = (s.objects O).Children.erase c ∧
    (∀ x, x ≠ c → ((s.AddChild L c).objects x).Parent = (s.objects x).Parent) := by
  have hcn : c < s.nextObject := by
    by_contra hge
    have := (htree.fresh c (Nat.le_of_not_lt hge)).1
    rw [hc] at this
    cases this
  have hcL : c ≠ L := by
    intro h
    rw [h, hroot] at hc
    cases hc
  have hOc : O ≠ c := by
    intro h
    rw [← h] at hc
    exact htree.acyclic O (Relation.TransGen.single hc)
  have hcan : CanAttach s.objects s.nextObject L c = true := CanAttach_root hL hcn hroot hcL
  have hobj : (s.AddChild L c).objects =
      Function.update
        (Function.update (TreeDetach s.objects c) L
          { TreeDetach s.objects c L with
            Children := (TreeDetach s.objects c L).Children.insertIdx
              (min ((TreeDetach s.objects c L).Children.length)
                (TreeDetach s.objects c L).Children.length) c })
        c
        { Function.update (TreeDetach s.objects c) L
            { TreeDetach s.objects c L with
              Children := (TreeDetach s.objects c L).Children.insertIdx
                (min ((TreeDetach s.objects c L).Children.length)
                  (TreeDetach s.objects c L).Children.length) c } c with
          Parent := some L } := by
    show TreeAddChild s.objects s.nextObject L c = _
    unfold TreeAddChild TreeInsertChild
    rw [if_pos hcan]
  rw [hobj]
  refine ⟨?_, ?_, ?_⟩
  · rw [Function.update_same]
  · rw [Function.update_noteq hOc, Function.update_noteq hne, TreeDetach_Children, if_pos hc]
  · intro x hx
    rw [Function.update_noteq hx]
    by_cases hxL : x = L
    · subst hxL
      rw [Function.update_same]
      show (TreeDetach s.objects c x).Parent = _
      rw [TreeDetach_Parent, if_neg hx]
    · rw [Function.update_noteq hxL, TreeDetach_Parent, if_neg hx]

/-- The loop of `OnActorDeleted` with as many rounds as the object has children:
it ends with no child left, every former child below the level object, and one
`AddChild` per child. -/
theorem ReparentChildrenToLevel_spec (O L : sfObject) (hne : O ≠ L) :
    ∀ (n : Nat) (s : ManagerState), TreeOK s → L < s.nextObject →
      (s.objects L).Parent = none → (s.objects O).Children.length ≤ n →
      TreeOK (ReparentChildrenToLevel n s O L) ∧
      ((ReparentChildrenToLevel n s O L).objects O).Children = [] ∧
      (∀ c ∈ (s.objects O).Children,
        ((ReparentChildrenToLevel n s O L).objects c).Parent = some L) ∧
      (∀ x, x ∉ (s.objects O).Children →
        ((ReparentChildrenToLevel n s O L).objects x).Parent = (s.objects x).Parent) ∧
      (ReparentChildrenToLevel n s O L).nextObject = s.nextObject ∧
      (ReparentChildrenToLevel n s O L).m_actorToObjectMap = s.m_actorToObjectMap ∧
      (ReparentChildrenToLevel n s O L).m_objectToActorMap = s.m_objectToActorMap ∧
      (ReparentChildrenToLevel n s O L).fault = s.fault ∧
      ∃ extra, (ReparentChildrenToLevel n s O L).trace = s.trace ++ extra ∧
        StructCalls extra = (s.objects O).Children.map (Effect.AddChild L) := by
  intro n
  induction n with
  | zero =>
    intro s htree _ _ hlen
    have hnil : (s.objects O).Children = [] := List.length_eq_zero.1 (Nat.le_zero.1 hlen)
    rw [hnil]
    exact ⟨htree, hnil, fun c hc => absurd hc (List.not_mem_nil c), fun _ _ => rfl, rfl, rfl, rfl, rfl, [],
      (List.append_nil _).symm, rfl⟩
  | succ n ih =>
    intro s htree hL hroot hlen
    cases hcs : (s.objects O).Children with
    | nil =>
      have h0 : ReparentChildrenToLevel (n + 1) s O L = s := by
        simp only [ReparentChildrenToLevel, hcs]
      rw [h0]
      exact ⟨htree, hcs, fun c hc => absurd hc (List.not_mem_nil c), fun _ _ => rfl, rfl, rfl, rfl, rfl, [],
        (List.append_nil _).symm, rfl⟩
    | cons c rest =>
      have hc : (s.objects c).Parent = some O :=
        htree.parentOfChild O c (by rw [hcs]; exact List.mem_cons_self _ _)
      have hnd : (c :: rest).Nodup := by rw [← hcs]; exact htree.nodup O
      obtain ⟨a1, a2, a3⟩ := AddChild_to_root s L O c htree hL hroot hne hc
      have hcL : c ≠ L := by
        intro h
        rw [h, hroot] at hc
        cases hc
      obtain ⟨s2, hs2⟩ : ∃ s2, s2 =
          (match (s.AddChild L c).m_objectToActorMap c with
            | some childActor => SendTransformUpdate (s.AddChild L c) childActor c
            | none => s.AddChild L c) := ⟨_, rfl⟩
      have hf : LinkFrame (s.AddChild L c) s2 := by
        rw [hs2]
        split
        · exact LinkFrame.SendTransformUpdate_link _ _ _
        · exact LinkFrame.refl_link _
      have h0 : ReparentChildrenToLevel (n + 1) s O L = ReparentChildrenToLevel n s2 O L := by
        rw [hs2]
        simp only [ReparentChildrenToLevel, hcs]
        first
          | done
          | rfl
      rw [h0]
      clear hs2 h0
      have hchildren : (s2.objects O).Children = rest := by
        rw [hf.children, a2, hcs, List.erase_cons_head]
      obtain ⟨b1, b2, b3, b4, b5, b6, b7, b8, e2, he2, hl2⟩ := ih s2
        (hf.TreeOK_link (TreeOK_AddChild htree L c))
        (by rw [hf.nextObject]; exact hL)
        (by rw [hf.parent, a3 L (Ne.symm hcL)]; exact hroot)
        (by rw [hchildren]; rw [hcs] at hlen; exact Nat.le_of_succ_le_succ hlen)
      obtain ⟨e1, he1, hl1⟩ := hf.trace
      rw [hchildren] at b3 b4 hl2
      refine ⟨b1, b2, ?_, ?_, b5.trans hf.nextObject, b6.trans hf.a2o, b7.trans hf.o2a,
        b8.trans hf.fault, [Effect.AddChild L c] ++ e1 ++ e2, ?_, ?_⟩
      · intro x hx
        rcases List.mem_cons.1 hx with hx | hx
        · subst hx
          rw [b4 x (List.nodup_cons.1 hnd).1, hf.parent, a1]
        · exact b3 x hx
      · intro x hx
        rw [List.mem_cons, not_or] at hx
        rw [b4 x hx.2, hf.parent, a3 x hx.1]
      · rw [he2, he1]
        show (s.trace ++ [Effect.AddChild L c]) ++ e1 ++ e2 = _
        simp
      · rw [StructCalls_append, StructCalls_append, hl1, hl2]
        rfl

theorem OnActorDeleted_unlocked_eq (s : ManagerState) (a : AActor) (O L : sfObject)
    (hbound : s.m_actorToObjectMap a = some O)
    (htransient : (s.host.actor a).InTransientPackage = false)
    (hunlocked : (s.objects O).IsLocked = false)
    (hlevel : s.m_levelToObjectMap (s.host.actor a).Level = some L) :
    ∃ u, u = ReparentChildrenToLevel (s.objects O).Children.length
        { s with
          m_actorToObjectMap := Function.update s.m_actorToObjectMap a none,
          m_objectToActorMap := Function.update s.m_objectToActorMap O none,
          trace := s.trace ++ [Effect.ReleaseLock O] } O L ∧
      (OnActorDeleted s a).objects = (u.SessionDelete O).objects ∧
      (OnActorDeleted s a).trace = u.trace ++ [Effect.Delete O] ∧
      (OnActorDeleted s a).m_actorToObjectMap = u.m_actorToObjectMap ∧
      (OnActorDeleted s a).m_objectToActorMap = u.m_objectToActorMap ∧
      (OnActorDeleted s a).fault = u.fault := by
  refine ⟨_, rfl, ?_⟩
  unfold OnActorDeleted
  rw [htransient]
  simp only [Bool.false_eq_true, if_false, hbound]
  simp only [ManagerState.emit, hunlocked, Bool.false_eq_true, if_false, GetOrCreateLevelObject,
    hlevel]
  cases hcs : (s.objects O).Children with
  | nil =>
    simp only [List.length_nil, ReparentChildrenToLevel]
    exact ⟨trivial, rfl, rfl, rfl, rfl⟩
  | cons c rest =>
    simp only [List.length_cons]
    refine ⟨?_, rfl, rfl, rfl, rfl⟩
    first | trivial | rfl

/-- A store in which every parent has a smaller number than its children, and
whose two kinds of link agree on the objects that exist, meets the tree
invariant. -/
theorem TreeInv.of_rank {objs : sfObject → ObjectData} {n : Nat}
    (hfresh : ∀ o, n ≤ o → (objs o).Parent = none ∧ (objs o).Children = [])
    (h1 : ∀ p, p < n → ∀ c ∈ (objs p).Children, (objs c).Parent = some p)
    (h2 : ∀ c, c < n →
      ((objs c).Parent.all fun p => (objs p).Children.contains c && decide (p < c)) = true)
    (h3 : ∀ p, p < n → (objs p).Children.Nodup) : TreeInv objs n := by
  have hlt : ∀ c p, (objs c).Parent = some p → c ∈ (objs p).Children ∧ p < c := by
    intro c p hcp
    have hc : c < n := by
      by_contra hge
      rw [(hfresh c (Nat.le_of_not_lt hge)).1] at hcp
      cases hcp
    have := h2 c hc
    rw [hcp] at this
    simpa using this
  refine ⟨?_, fun p c hcp => (hlt c p hcp).1, ?_, ?_, hfresh⟩
  · intro p c hmem
    by_cases hp : p < n
    · exact h1 p hp c hmem
    · rw [(hfresh p (Nat.le_of_not_lt hp)).2] at hmem
      cases hmem
  · intro p
    by_cases hp : p < n
    · exact h3 p hp
    · rw [(hfresh p (Nat.le_of_not_lt hp)).2]
      exact List.nodup_nil
  · intro o ho
    have hdesc : ∀ x y, Relation.TransGen (ParentOf objs) x y → y < x := by
      intro x y hxy
      induction hxy with
      | single h => exact (hlt _ _ h).2
      | tail _ h ih => exact Nat.lt_trans (hlt _ _ h).2 ih
    exact Nat.lt_irrefl o (hdesc o o ho)

theorem C16_state_fresh (transient : Bool) (o : sfObject) (ho : 8 ≤ o) :
    ((C16_state transient).objects o).Parent = none ∧
      ((C16_state transient).objects o).Children = [] := by
  have h4 : o ≠ 4 := Nat.ne_of_gt (Nat.lt_of_lt_of_le (by decide) ho)
  have h5 : o ≠ 5 := Nat.ne_of_gt (Nat.lt_of_lt_of_le (by decide) ho)
  have h6 : o ≠ 6 := Nat.ne_of_gt (Nat.lt_of_lt_of_le (by decide) ho)
  have h7 : o ≠ 7 := Nat.ne_of_gt (Nat.lt_of_lt_of_le (by decide) ho)
  simp [C16_state, h4, h5, h6, h7, ObjectData.create]

theorem C16_state_TreeOK (transient : Bool) : TreeOK (C16_state transient) := by
  cases transient
  · exact TreeInv.of_rank (C16_state_fresh false) (by decide) (by decide) (by decide)
  · exact TreeInv.of_rank (C16_state_fresh true) (by decide) (by decide) (by decide)

/-- C16 (local delete while unlocked), for an actor outside the transient
package: let actor `a` be bound to the unlocked object `O`, and let the level
object `L` of the actor's level exist as a root other than `O`.  Then
`OnActorDeleted` unbinds the actor, raises no fault, and there is a state `u`,
reached by one `ReleaseLock` and one `AddChild(L, child)` per child of `O` in
order (with `Set` calls in between only), in which `O` has no children; from `u`
it sends the one `Delete` for `O`.  Afterwards every former child of `O` has `L`
as its parent; the trace holds no `Delete` of a child. -/
theorem C16_unlocked_delete_reparents_children (s : ManagerState) (a : AActor)
    (O L : sfObject) (htree : TreeOK s)
    (hbound : s.m_actorToObjectMap a = some O)
    (htransient : (s.host.actor a).InTransientPackage = false)
    (hunlocked : (s.objects O).IsLocked = false)
    (hlevel : s.m_levelToObjectMap (s.host.actor a).Level = some L)
    (hL : L < s.nextObject) (hroot : (s.objects L).Parent = none) (hne : O ≠ L) :
    (OnActorDeleted s a).m_actorToObjectMap a = none ∧
    (OnActorDeleted s a).m_objectToActorMap O = none ∧
    (OnActorDeleted s a).fault = s.fault ∧
    (∀ c ∈ (s.objects O).Children, ((OnActorDeleted s a).objects c).Parent = some L) ∧
    ∃ (u : ManagerState) (mid : List Effect), (u.objects O).Children = [] ∧
      u.trace = s.trace ++ Effect.ReleaseLock O :: mid ∧
      StructCalls mid = (s.objects O).Children.map (Effect.AddChild L) ∧
      (OnActorDeleted s a).objects = (u.SessionDelete O).objects ∧
      (OnActorDeleted s a).trace = u.trace ++ [Effect.Delete O] := by
  obtain ⟨u, hu, k1, k2, k3, k4, k5⟩ :=
    OnActorDeleted_unlocked_eq s a O L hbound htransient hunlocked hlevel
  obtain ⟨b1, b2, b3, b4, b5, b6, b7, b8, mid, he, hl⟩ :=
    ReparentChildrenToLevel_spec O L hne (s.objects O).Children.length
      { s with
        m_actorToObjectMap := Function.update s.m_actorToObjectMap a none,
        m_objectToActorMap := Function.update s.m_objectToActorMap O none,
        trace := s.trace ++ [Effect.ReleaseLock O] } htree hL hroot (Nat.le_refl _)
  rw [← hu] at b1 b2 b3 b4 b5 b6 b7 b8 he
  refine ⟨?_, ?_, k5.trans b8, ?_, u, mid, b2, ?_, hl, k1, k2⟩
  · rw [k3, b6]
    exact Function.update_same _ _ _
  · rw [k4, b7]
    exact Function.update_same _ _ _
  · intro c hc
    have hcO : c ≠ O := by
      intro h
      rw [h] at hc
      exact htree.acyclic O (Relation.TransGen.single (htree.parentOfChild O O hc))
    rw [k1]
    show (TreeDetach u.objects O c).Parent = some L
    rw [TreeDetach_Parent, if_neg hcO]
    exact b3 c hc
  · rw [he]
    show (s.trace ++ [Effect.ReleaseLock O]) ++ mid = _
    simp

/-- Witness of C16 on `C16_state false`: actor 1 is deleted; its object 5 loses
the children 6 and 7 to the level object 4 and is then deleted. -/
theorem C16_unlocked_delete_reparents_children_witness :
    (C16_state false).m_actorToObjectMap 1 = some 5 ∧
    ((C16_state false).objects 5).Children = [6, 7] ∧
    (∀ c ∈ [6, 7], ((OnActorDeleted (C16_state false) 1).objects c).Parent = some 4) ∧
    (OnActorDeleted (C16_state false) 1).trace =
      [Effect.ReleaseLock 5, Effect.AddChild 4 6, Effect.AddChild 4 7, Effect.Delete 5] :=
  ⟨rfl, rfl,
    (C16_unlocked_delete_reparents_children (C16_state false) 1 5 4 (C16_state_TreeOK false)
      rfl rfl rfl rfl (by decide) rfl (by decide)).2.2.2.1,
    by decide⟩

/-- Counterexample to C16 as stated: the bound actor 1 is in the transient
package and its object 5 is not locked; `OnActorDeleted` returns at its first
guard: no child is moved and no `Delete` is sent. -/
theorem C16_counterexample_transient_actor :
    (C16_state true).m_actorToObjectMap 1 = some 5 ∧
    ((C16_state true).objects 5).IsLocked = false ∧
    ((C16_state true).objects 5).Children = [6, 7] ∧
    (OnActorDeleted (C16_state true) 1).trace = [] ∧
    ((OnActorDeleted (C16_state true) 1).objects 5).Children = [6, 7] ∧
    (OnActorDeleted (C16_state true) 1).m_actorToObjectMap 1 = some 5 :=
  ⟨rfl, rfl, rfl, rfl, rfl, rfl⟩

/-- C17 at the failing input: the parent object of actor 1 is locked fully, so
the loop detaches the actor and asks for the level object of its level, which
does not exist yet; the result is not checked for null.  `UploadActors` makes
object 6 for the actor and binds it, although the actor resolved to no parent
object, and hands it to `Create` with a null parent. -/
theorem C17_object_for_unresolved_parent :
    IsSyncable (C17_state.host.actor 1) = true ∧
    (C17_state.host.actor 1).AttachParentActor = some 2 ∧
    C17_state.m_actorToObjectMap 2 = some 5 ∧
    (C17_state.objects 5).IsFullyLocked = true ∧
    C17_state.m_levelToObjectMap (C17_state.host.actor 1).Level = none ∧
    (UploadActor 2 { s := C17_state, objects := [], parentPtr := none } 1).objects = [6] ∧
    (UploadActor 2 { s := C17_state, objects := [], parentPtr := none } 1).parentPtr = none ∧
    (UploadActors 2 C17_state [1]).m_actorToObjectMap 1 = some 6 ∧
    (UploadActors 2 C17_state [1]).m_levelToObjectMap 1 = none ∧
    (UploadActors 2 C17_state [1]).fault = true := by
  decide

/-- C18 at the failing input: the resolved parent of actor 1 is the level object
4, which is locked fully; the branch for a locked parent reads the name of the
null parent actor, and the object 5 of the actor is created under the same
locked level object. -/
theorem C18_locked_level_object :
    IsSyncable (C18_state.host.actor 1) = true ∧
    (C18_state.host.actor 1).AttachParentActor = none ∧
    C18_state.m_levelToObjectMap (C18_state.host.actor 1).Level = some 4 ∧
    (C18_state.objects 4).IsFullyLocked = true ∧
    (UploadActors 2 C18_state [1]).fault = true ∧
    Effect.Create [5] 4 0 ∈ (UploadActors 2 C18_state [1]).trace ∧
    ((UploadActors 2 C18_state [1]).objects 5).Parent = some 4 ∧
    ((UploadActors 2 C18_state [1]).objects 4).IsFullyLocked = true := by
  decide

theorem LevelFrame.refl_level (s : ManagerState) : LevelFrame s s :=
  ⟨rfl, rfl, rfl, rfl, rfl, le_rfl⟩

theorem LevelFrame.trans_level {s t u : ManagerState} (h1 : LevelFrame s t)
    (h2 : LevelFrame t u) : LevelFrame s u :=
  ⟨h2.host.trans h1.host, h2.levelMap.trans h1.levelMap, h2.toUpload.trans h1.toUpload,
    h2.lockObject.trans h1.lockObject, h2.fault.trans h1.fault,
    le_trans h1.nextObject h2.nextObject⟩

theorem LevelFrame.foldl_level {α : Type} (f : ManagerState → α → ManagerState)
    (hf : ∀ acc c, LevelFrame acc (f acc c)) :
    ∀ (l : List α) (acc : ManagerState), LevelFrame acc (l.foldl f acc) := by
  intro l
  induction l with
  | nil => intro acc; exact LevelFrame.refl_level acc
  | cons c rest ih => intro acc; rw [List.foldl_cons]; exact (hf acc c).trans_level (ih _)

theorem LevelFrame.PropertySet_level (s : ManagerState) (o : sfObject) (k : sfName)
    (v : sfProperty) : LevelFrame s (s.PropertySet o k v) :=
  ⟨rfl, rfl, rfl, rfl, rfl, le_rfl⟩

theorem LevelFrame.AddChild_level (s : ManagerState) (p c : sfObject) :
    LevelFrame s (s.AddChild p c) :=
  ⟨rfl, rfl, rfl, rfl, rfl, le_rfl⟩

theorem LevelFrame.CreateTypeProperties_level (s : ManagerState) (a : AActor) (o : sfObject) :
    LevelFrame s (CreateTypeProperties s a o) := by
  unfold CreateTypeProperties CreateMeshProperties CreateEmitterProperties
  repeat' split
  all_goals first
    | exact LevelFrame.refl_level _
    | exact LevelFrame.PropertySet_level _ _ _ _
    | exact (LevelFrame.PropertySet_level _ _ _ _).trans_level
        (LevelFrame.PropertySet_level _ _ _ _)

theorem CreateObject_LevelFrame : ∀ (fuel : Nat) (s : ManagerState) (a : AActor),
    LevelFrame s (CreateObject fuel s a).1 := by
  intro fuel
  induction fuel with
  | zero => intro s a; exact LevelFrame.refl_level s
  | succ fuel ih =>
    intro s a
    simp only [CreateObject]
    split
    · exact LevelFrame.refl_level s
    · refine LevelFrame.trans_level ?pre (LevelFrame.trans_level
        (LevelFrame.foldl_level _ ?hf _ _) ⟨rfl, rfl, rfl, rfl, rfl, le_rfl⟩)
      case hf =>
        intro acc c
        split
        · exact (ih acc c).trans_level (LevelFrame.AddChild_level _ _ _)
        · exact ih acc c
      case pre =>
        refine LevelFrame.trans_level ?_ (LevelFrame.CreateTypeProperties_level _ _ _)
        have hq : ∀ s1 : ManagerState, LevelFrame s s1 →
            LevelFrame s
              ((((s1.PropertySet s.nextObject sfProp.Name
                (FromString (s1.host.actor a).Name)).PropertySet s.nextObject sfProp.Class
                (FromString (s1.host.actor a).Class)).PropertySet s.nextObject sfProp.Label
                (FromString (s1.host.actor a).ActorLabel)).PropertySet s.nextObject sfProp.Folder
                (FromString (s1.host.actor a).FolderPath)) := fun s1 h1 =>
          h1.trans_level ⟨rfl, rfl, rfl, rfl, rfl, le_rfl⟩
        have h1 : LevelFrame s
            (if s.host.IsSelected a then
              { ((s.CreateSfObject sfType.Actor []).1.emit (Effect.RequestLock s.nextObject)) with
                m_selectedActors :=
                  SelectedSet (s.CreateSfObject sfType.Actor []).1.m_selectedActors a s.nextObject }
            else (s.CreateSfObject sfType.Actor []).1) := by
          split
          · exact ⟨rfl, rfl, rfl, rfl, rfl, Nat.le_succ _⟩
          · exact ⟨rfl, rfl, rfl, rfl, rfl, Nat.le_succ _⟩
        split
        · exact (hq _ h1).trans_level ⟨rfl, rfl, rfl, rfl, rfl, le_rfl⟩
        · exact hq _ h1

theorem GetOrCreateLevelObject_LevelFrame (s : ManagerState) (level : ULevel) (l : sfObject)
    (hlock : s.m_lockObject = some l)
    (h : (s.m_levelToObjectMap level).isSome = true ∨ level ∈ s.m_levelsToUpload) :
    LevelFrame s (GetOrCreateLevelObject s level).1 := by
  unfold GetOrCreateLevelObject
  cases hb : s.m_levelToObjectMap level with
  | some o => exact LevelFrame.refl_level s
  | none =>
    rw [hb] at h
    have hq : level ∈ s.m_levelsToUpload := by
      rcases h with h | h
      · cases h
      · exact h
    have hr : LevelManager_RequestLock s = s.emit (Effect.RequestLock l) := by
      unfold LevelManager_RequestLock
      simp [hlock]
    dsimp only
    rw [hr]
    have hc : (s.emit (Effect.RequestLock l)).m_levelsToUpload.contains level = true := by
      show s.m_levelsToUpload.contains level = true
      simpa using hq
    rw [if_pos hc]
    exact ⟨rfl, rfl, rfl, rfl, rfl, le_rfl⟩

theorem Uploaded_tail {α : Type} (f : ManagerState → α → ManagerState)
    (hf : ∀ acc c, LevelFrame acc (f acc c)) (s s3 : ManagerState) (actors : List α)
    (level : ULevel) (h3 : LevelFrame s s3) :
    Uploaded s level
      (({ (actors.foldl f s3) with
          m_levelToObjectMap :=
            Function.update (actors.foldl f s3).m_levelToObjectMap level (some s.nextObject),
          m_objectToLevelMap :=
            Function.update (actors.foldl f s3).m_objectToLevelMap s.nextObject (some level) } :
        ManagerState).emit (Effect.CreateRoot s.nextObject)) := by
  have h4 := h3.trans_level (LevelFrame.foldl_level f hf actors s3)
  refine ⟨h4.host, ?_, h4.toUpload, h4.lockObject, h4.fault⟩
  show Function.update (actors.foldl f s3).m_levelToObjectMap level (some s.nextObject) = _
  rw [h4.levelMap]

theorem UploadLevel_spec (fuel : Nat) (s : ManagerState) (level : ULevel) (l : sfObject)
    (hnt : (s.host.level level).InTransientPackage = false)
    (hlock : s.m_lockObject = some l)
    (hpers : (s.m_levelToObjectMap s.host.PersistentLevel).isSome = true ∨
      s.host.PersistentLevel ∈ s.m_levelsToUpload) :
    Uploaded s level (UploadLevel fuel s level) := by
  unfold UploadLevel
  rw [hnt]
  simp only [Bool.false_eq_true, if_false]
  refine Uploaded_tail _ ?hf s _ _ level ?h3
  case hf =>
    intro acc c
    split
    · split
      · exact (CreateObject_LevelFrame fuel acc c).trans_level (LevelFrame.AddChild_level _ _ _)
      · exact CreateObject_LevelFrame fuel acc c
    · exact LevelFrame.refl_level acc
  case h3 =>
    have h2 : LevelFrame s
        (((s.CreateSfObject sfType.Level []).1.PropertySet (s.CreateSfObject sfType.Level []).2
          sfProp.Name (FromString (s.host.level level).Path)).PropertySet
          (s.CreateSfObject sfType.Level []).2
          sfProp.IsPersistentLevel (FromBool (level == s.host.PersistentLevel))) :=
      ⟨rfl, rfl, rfl, rfl, rfl, Nat.le_succ _⟩
    generalize (((s.CreateSfObject sfType.Level []).1.PropertySet
      (s.CreateSfObject sfType.Level []).2
      sfProp.Name (FromString (s.host.level level).Path)).PropertySet
      (s.CreateSfObject sfType.Level []).2
      sfProp.IsPersistentLevel (FromBool (level == s.host.PersistentLevel))) = S2 at h2 ⊢
    split
    · have hpers2 : (S2.m_levelToObjectMap S2.host.PersistentLevel).isSome = true ∨
          S2.host.PersistentLevel ∈ S2.m_levelsToUpload := by
        rw [h2.levelMap, h2.toUpload, h2.host]
        exact hpers
      have hg := GetOrCreateLevelObject_LevelFrame S2 S2.host.PersistentLevel l
        (h2.lockObject.trans hlock) hpers2
      have hcond : ((S2.m_levelToObjectMap S2.host.PersistentLevel).isNone &&
          !(S2.m_levelsToUpload.contains S2.host.PersistentLevel)) = false := by
        rcases hpers2 with h | h
        · rw [Option.isSome_iff_exists] at h
          obtain ⟨o, ho⟩ := h
          rw [ho]
          rfl
        · have : S2.m_levelsToUpload.contains S2.host.PersistentLevel = true := by simpa using h
          rw [this]
          simp
      simp only [hcond, Bool.false_eq_true, if_false]
      generalize (GetOrCreateLevelObject S2 S2.host.PersistentLevel).1 = g at hg ⊢
      split
      · exact (h2.trans_level hg).trans_level ⟨rfl, rfl, rfl, rfl, rfl, le_rfl⟩
      · exact h2.trans_level hg
    · exact h2

theorem UploadIfUnbound_step (fuel : Nat) (acc : ManagerState) (level : ULevel) (l : sfObject)
    (hlock : acc.m_lockObject = some l)
    (hpers : (acc.m_levelToObjectMap acc.host.PersistentLevel).isSome = true ∨
      acc.host.PersistentLevel ∈ acc.m_levelsToUpload) :
    (UploadIfUnbound fuel acc level).host = acc.host ∧
    (UploadIfUnbound fuel acc level).m_lockObject = acc.m_lockObject ∧
    (UploadIfUnbound fuel acc level).fault = acc.fault ∧
    (UploadIfUnbound fuel acc level).m_levelsToUpload = acc.m_levelsToUpload ∧
    (∀ x, (acc.m_levelToObjectMap x).isSome = true →
      (UploadIfUnbound fuel acc level).m_levelToObjectMap x = acc.m_levelToObjectMap x) ∧
    ((acc.host.level level).InTransientPackage = false →
      ((UploadIfUnbound fuel acc level).m_levelToObjectMap level).isSome = true) := by
  unfold UploadIfUnbound
  by_cases hb : (acc.m_levelToObjectMap level).isNone = true
  · rw [if_pos hb]
    by_cases hnt : (acc.host.level level).InTransientPackage = true
    · have h0 : UploadLevel fuel acc level = acc := by
        unfold UploadLevel
        rw [if_pos hnt]
      rw [h0]
      refine ⟨rfl, rfl, rfl, rfl, fun _ _ => rfl, fun h => ?_⟩
      rw [h] at hnt
      cases hnt
    · have hnt2 : (acc.host.level level).InTransientPackage = false := by simpa using hnt
      have hu := UploadLevel_spec fuel acc level l hnt2 hlock hpers
      refine ⟨hu.host, hu.lockObject, hu.fault, hu.toUpload, ?_, fun _ => ?_⟩
      · intro x hx
        rw [hu.levelMap]
        have hne : x ≠ level := by
          intro h
          rw [h] at hx
          rw [Option.isNone_iff_eq_none] at hb
          rw [hb] at hx
          cases hx
        rw [Function.update_noteq hne]
      · rw [hu.levelMap, Function.update_same]
        rfl
  · rw [if_neg hb]
    refine ⟨rfl, rfl, rfl, rfl, fun _ _ => rfl, fun _ => ?_⟩
    cases h : acc.m_levelToObjectMap level with
    | none => rw [h] at hb; exact absurd rfl hb
    | some o => rfl

theorem UploadIfUnbound_foldl (fuel : Nat) (l : sfObject) :
    ∀ (q : List ULevel) (acc : ManagerState), acc.m_lockObject = some l →
      ((acc.m_levelToObjectMap acc.host.PersistentLevel).isSome = true ∨
        acc.host.PersistentLevel ∈ acc.m_levelsToUpload) →
      (q.foldl (UploadIfUnbound fuel) acc).host = acc.host ∧
      (q.foldl (UploadIfUnbound fuel) acc).m_lockObject = some l ∧
      (q.foldl (UploadIfUnbound fuel) acc).fault = acc.fault ∧
      (∀ x, (acc.m_levelToObjectMap x).isSome = true →
        (q.foldl (UploadIfUnbound fuel) acc).m_levelToObjectMap x = acc.m_levelToObjectMap x) ∧
      (∀ level ∈ q, (acc.host.level level).InTransientPackage = false →
        ((q.foldl (UploadIfUnbound fuel) acc).m_levelToObjectMap level).isSome = true) := by
  intro q
  induction q with
  | nil =>
    intro acc hlock _
    exact ⟨rfl, hlock, rfl, fun _ _ => rfl, fun level h => absurd h (List.not_mem_nil level)⟩
  | cons level rest ih =>
    intro acc hlock hpers
    obtain ⟨a1, a2, a3, a4, a5, a6⟩ := UploadIfUnbound_step fuel acc level l hlock hpers
    have hpers2 : ((UploadIfUnbound fuel acc level).m_levelToObjectMap
          (UploadIfUnbound fuel acc level).host.PersistentLevel).isSome = true ∨
        (UploadIfUnbound fuel acc level).host.PersistentLevel ∈
          (UploadIfUnbound fuel acc level).m_levelsToUpload := by
      rw [a1, a4]
      rcases hpers with h | h
      · exact Or.inl (by rw [a5 _ h]; exact h)
      · exact Or.inr h
    obtain ⟨b1, b2, b3, b4, b5⟩ := ih (UploadIfUnbound fuel acc level) (a2.trans hlock) hpers2
    rw [List.foldl_cons]
    refine ⟨b1.trans a1, b2, b3.trans a3, ?_, ?_⟩
    · intro x hx
      rw [b4 x (by rw [a5 x hx]; exact hx), a5 x hx]
    · intro x hx hnt
      rcases List.mem_cons.1 hx with hx | hx
      · subst hx
        have := a6 hnt
        rw [b4 x this]
        exact this
      · exact b5 x hx (by rw [a1]; exact hnt)

theorem QueuesOnly.RequestLock_queue (s : ManagerState) :
    QueuesOnly s (LevelManager_RequestLock s) := by
  unfold LevelManager_RequestLock
  by_cases hc : (s.m_lockObject.isNone && s.IsSessionCreator) = true
  · simp only [hc, if_true]
    refine ⟨rfl, rfl, fun _ h => h,
      [Effect.CreateRoot s.nextObject, Effect.RequestLock s.nextObject], ?_, ?_⟩
    · simp [ManagerState.CreateSfObject, ManagerState.emit]
    · intro e he
      simp only [List.mem_cons, List.mem_singleton, List.not_mem_nil, or_false] at he
      rcases he with he | he
      · refine Or.inr ⟨s.nextObject, he, ?_⟩
        simp [ManagerState.CreateSfObject, ManagerState.emit, ObjectData.create]
      · exact Or.inl ⟨_, he⟩
  · simp only [hc, Bool.false_eq_true, if_false]
    cases hl : s.m_lockObject with
    | none => exact ⟨rfl, rfl, fun _ h => h, [], (List.append_nil _).symm, fun e he => by cases he⟩
    | some o =>
      refine ⟨rfl, rfl, fun _ h => h, [Effect.RequestLock o], rfl, ?_⟩
      intro e he
      exact Or.inl ⟨o, List.mem_singleton.1 he⟩

theorem mem_LevelsEmplace (q : List ULevel) (level x : ULevel) :
    x ∈ LevelsEmplace q level ↔ x ∈ q ∨ x = level := by
  unfold LevelsEmplace
  by_cases hc : q.contains level = true
  · rw [if_pos hc]
    constructor
    · exact Or.inl
    · rintro (h | h)
      · exact h
      · rw [h]
        simpa using hc
  · rw [if_neg hc]
    simp

theorem mem_foldl_LevelsEmplace (l : List ULevel) :
    ∀ (q : List ULevel) (x : ULevel), x ∈ q → x ∈ l.foldl LevelsEmplace q := by
  induction l with
  | nil => intro q x h; exact h
  | cons y rest ih =>
    intro q x h
    rw [List.foldl_cons]
    exact ih _ x ((mem_LevelsEmplace q y x).2 (Or.inl h))

theorem QueuesOnly.requeue {s t : ManagerState} (h : QueuesOnly s t) (q : List ULevel)
    (hq : ∀ x ∈ t.m_levelsToUpload, x ∈ q) :
    QueuesOnly s { t with m_levelsToUpload := q } :=
  ⟨h.levelMap, h.objectMap, fun x hx => hq x (h.queue x hx), h.trace⟩

theorem QueuesOnly.GetOrCreateLevelObject_queue (s : ManagerState) (level : ULevel) :
    QueuesOnly s (GetOrCreateLevelObject s level).1 ∧
      ((GetOrCreateLevelObject s level).2 = none →
        level ∈ (GetOrCreateLevelObject s level).1.m_levelsToUpload) := by
  unfold GetOrCreateLevelObject
  cases hb : s.m_levelToObjectMap level with
  | some o =>
    refine ⟨⟨rfl, rfl, fun _ h => h, [], (List.append_nil _).symm,
      fun e he => absurd he (List.not_mem_nil e)⟩, fun h => ?_⟩
    cases h
  | none =>
    dsimp only
    refine ⟨(QueuesOnly.RequestLock_queue s).requeue _ ?_, fun _ => ?_⟩
    · intro x hx
      exact (mem_LevelsEmplace _ level x).2 (Or.inl hx)
    · exact (mem_LevelsEmplace _ level level).2 (Or.inr rfl)

theorem QueuesOnly.OnAddLevelToWorld_queue (s : ManagerState) (level : ULevel) :
    QueuesOnly s (OnAddLevelToWorld s level) ∧
      level ∈ (OnAddLevelToWorld s level).m_levelsToUpload := by
  unfold OnAddLevelToWorld
  dsimp only
  refine ⟨(QueuesOnly.RequestLock_queue s).requeue _ ?_, ?_⟩
  · intro x hx
    exact (mem_LevelsEmplace _ level x).2 (Or.inl hx)
  · exact (mem_LevelsEmplace _ level level).2 (Or.inr rfl)

theorem QueuesOnly.Initialize_queue (s : ManagerState) (m_initialized : Bool) :
    QueuesOnly s (LevelManager_Initialize s m_initialized).1 := by
  have hrefl : QueuesOnly s s := ⟨rfl, rfl, fun _ h => h, [], (List.append_nil _).symm,
    fun e he => absurd he (List.not_mem_nil e)⟩
  unfold LevelManager_Initialize
  split
  · exact hrefl
  · split
    · dsimp only
      refine (QueuesOnly.RequestLock_queue s).requeue _ ?_
      intro x hx
      exact mem_foldl_LevelsEmplace _ _ x ((mem_LevelsEmplace _ _ x).2 (Or.inl hx))
    · exact hrefl

theorem OnDirectLockChange_flush (fuel : Nat) (s : ManagerState) (localUser : Nat)
    (lockObject : sfObject)
    (htype : (s.objects lockObject).Type_ = sfType.LevelLock)
    (howner : (s.objects lockObject).LockOwner = some localUser)
    (hlock : (s.m_levelsToUpload.foldl (UploadIfUnbound fuel) s).m_lockObject = some lockObject) :
    LevelManager_OnDirectLockChange fuel s localUser lockObject =
      ({ (s.m_levelsToUpload.foldl (UploadIfUnbound fuel) s) with
        m_levelsToUpload := [] } : ManagerState).emit (Effect.ReleaseLock lockObject) := by
  unfold LevelManager_OnDirectLockChange
  rw [if_pos ⟨htype, howner⟩]
  dsimp only
  rw [hlock]

/-- C19: a level is uploaded only in `OnDirectLockChange` for an object of type
`LevelLock` whose lock owner is the local user: for any other object the handler
does nothing, and `GetOrCreateLevelObject`, `OnAddLevelToWorld` and `Initialize`
leave the level maps alone, keep the queue and send only lock requests and the
creation of the lock object.  When the flush for the lock object finishes, every
queued level that is not in the transient package is bound to a level object, the
levels bound before keep their object, `m_levelsToUpload` is empty and the last
call is the `ReleaseLock` on the lock object.  The persistent level is taken to
be bound or queued, so that no level enters the queue during the loop. -/
theorem C19_levels_uploaded_on_lock (fuel : Nat) (s : ManagerState) (localUser : Nat)
    (lockObject : sfObject)
    (htype : (s.objects lockObject).Type_ = sfType.LevelLock)
    (howner : (s.objects lockObject).LockOwner = some localUser)
    (hlock : s.m_lockObject = some lockObject)
    (hpers : (s.m_levelToObjectMap s.host.PersistentLevel).isSome = true ∨
      s.host.PersistentLevel ∈ s.m_levelsToUpload) :
    (∀ level ∈ s.m_levelsToUpload, (s.host.level level).InTransientPackage = false →
      ((LevelManager_OnDirectLockChange fuel s localUser lockObject).m_levelToObjectMap
        level).isSome = true) ∧
    (∀ level, (s.m_levelToObjectMap level).isSome = true →
      (LevelManager_OnDirectLockChange fuel s localUser lockObject).m_levelToObjectMap level =
        s.m_levelToObjectMap level) ∧
    (LevelManager_OnDirectLockChange fuel s localUser lockObject).m_levelsToUpload = [] ∧
    (∃ pre, (LevelManager_OnDirectLockChange fuel s localUser lockObject).trace =
      pre ++ [Effect.ReleaseLock lockObject]) ∧
    (LevelManager_OnDirectLockChange fuel s localUser lockObject).fault = s.fault ∧
    (∀ obj, ¬ ((s.objects obj).Type_ = sfType.LevelLock ∧
        (s.objects obj).LockOwner = some localUser) →
      LevelManager_OnDirectLockChange fuel s localUser obj = s) ∧
    (∀ level, QueuesOnly s (GetOrCreateLevelObject s level).1 ∧
      QueuesOnly s (OnAddLevelToWorld s level)) ∧
    (∀ m_initialized, QueuesOnly s (LevelManager_Initialize s m_initialized).1) := by
  obtain ⟨b1, b2, b3, b4, b5⟩ :=
    UploadIfUnbound_foldl fuel lockObject s.m_levelsToUpload s hlock hpers
  rw [OnDirectLockChange_flush fuel s localUser lockObject htype howner b2]
  refine ⟨b5, b4, rfl, ⟨_, rfl⟩, b3, ?_, ?_, ?_⟩
  · intro obj hobj
    unfold LevelManager_OnDirectLockChange
    rw [if_neg hobj]
  · intro level
    exact ⟨(QueuesOnly.GetOrCreateLevelObject_queue s level).1,
      (QueuesOnly.OnAddLevelToWorld_queue s level).1⟩
  · intro m_initialized
    exact QueuesOnly.Initialize_queue s m_initialized

/-- Witness of C19 on `C19_state false`: the flush binds the persistent level 0
to object 10 and the streaming level 2 to object 12, empties the queue and
releases the lock object 9. -/
theorem C19_levels_uploaded_on_lock_witness :
    ((C19_state false).objects 9).Type_ = sfType.LevelLock ∧
    ((C19_state false).objects 9).LockOwner = some 1 ∧
    (C19_state false).m_lockObject = some 9 ∧
    (C19_state false).m_levelsToUpload = [0, 2] ∧
    (∀ level ∈ [0, 2],
      ((LevelManager_OnDirectLockChange 2 (C19_state false) 1 9).m_levelToObjectMap
        level).isSome = true) ∧
    (LevelManager_OnDirectLockChange 2 (C19_state false) 1 9).m_levelToObjectMap 0 = some 10 ∧
    (LevelManager_OnDirectLockChange 2 (C19_state false) 1 9).m_levelToObjectMap 2 = some 12 ∧
    (LevelManager_OnDirectLockChange 2 (C19_state false) 1 9).m_levelsToUpload = [] ∧
    (LevelManager_OnDirectLockChange 2 (C19_state false) 1 9).fault = false :=
  ⟨rfl, rfl, rfl, rfl,
    fun level hl =>
      (C19_levels_uploaded_on_lock 2 (C19_state false) 1 9 rfl rfl rfl
        (Or.inr (by decide))).1 level hl (by
          rcases List.mem_cons.1 hl with h | h
          · rw [h]; rfl
          · rw [List.mem_singleton.1 h]; rfl),
    by decide, by decide, by decide, by decide⟩

/-- Counterexample to C19 as stated: the buffer level 3, which is in the
transient package, is queued; `UploadLevel` returns at its first guard, and
after the flush the level is not bound to a level object although the queue is
empty and the lock is released. -/
theorem C19_counterexample_buffer_level :
    ((C19_state true).objects 9).Type_ = sfType.LevelLock ∧
    ((C19_state true).objects 9).LockOwner = some 1 ∧
    (C19_state true).m_lockObject = some 9 ∧
    3 ∈ (C19_state true).m_levelsToUpload ∧
    (LevelManager_OnDirectLockChange 2 (C19_state true) 1 9).m_levelToObjectMap 3 = none ∧
    (LevelManager_OnDirectLockChange 2 (C19_state true) 1 9).m_levelsToUpload = [] ∧
    (LevelManager_OnDirectLockChange 2 (C19_state true) 1 9).trace.getLast? =
      some (Effect.ReleaseLock 9) := by
  decide

/-- The error message of `LogNoParentErrorAndDisconnect` reads the name of the
object without a test: a create event for an object without a parent and without
a name is a fault. -/
theorem OnCreate_no_parent_no_name (fuel : Nat) (s : ManagerState) (o : sfObject)
    (h : (s.objects o).Parent = none) (hname : TryGet (s.objects o).Property sfProp.Name = none) :
    (OnCreate fuel s o).fault = true := by
  have h1 : ((s.emit (Effect.OnCreate o)).objects o).Parent = none := h
  have h2 : OnCreate fuel s o = LogNoParentErrorAndDisconnect (s.emit (Effect.OnCreate o)) o := by
    unfold OnCreate
    simp only [h1]
  rw [h2]
  unfold LogNoParentErrorAndDisconnect
  rw [DerefGet_of_isNone _ (show TryGet ((s.emit (Effect.OnCreate o)).objects o).Property
    sfProp.Name = none from hname)]
  rfl

/-- C23 (failing input).  In `C23_state` actor 2 was detached from actor 1 by a
redone detach.  `OnRedoDetach` on the parent calls `Detach` on object 2, which
had the parent 1 and now has none: it is a root beside the level object 0.
`SyncParent` on the same actor puts object 2 below the level object instead. -/
theorem C23_OnRedoDetach_leaves_object_without_parent :
    (C23_state.objects 2).Parent = some 1 ∧
      C23_state.m_actorToObjectMap 2 = some 2 ∧
      (C23_state.host.actor 2).AttachParentActor = none ∧
      ((OnRedoDetach C23_state 1 (some 1)).objects 2).Parent = none ∧
      (OnRedoDetach C23_state 1 (some 1)).trace = [Effect.Detach 2] ∧
      ((SyncParent C23_state 2 (some 2)).objects 2).Parent = some 0 ∧
      (SyncParent C23_state 2 (some 2)).trace = [Effect.AddChild 0 2] := by
  refine ⟨rfl, rfl, rfl, ?_, ?_, ?_, ?_⟩
  · decide
  · decide
  · decide
  · decide

/-- C28 (failing input).  In `C28_state` the queued set is iterated with the
streaming level 2 before the persistent level 0.  `OnDirectLockChange` creates
the object 10 of the streaming level first and the object 12 of the persistent
level after it: `GetOrCreateLevelObject` in `UploadLevel` only finds the
persistent level queued and creates nothing. -/
theorem C28_streaming_level_created_first :
    C28_state.host.PersistentLevel = 0 ∧
      ((LevelManager_OnDirectLockChange 1 C28_state 1 9).trace.filter
          (fun e => match e with
            | Effect.CreateRoot _ => true
            | _ => false)) = [Effect.CreateRoot 10, Effect.CreateRoot 12] ∧
      (LevelManager_OnDirectLockChange 1 C28_state 1 9).m_levelToObjectMap 2 = some 10 ∧
      (LevelManager_OnDirectLockChange 1 C28_state 1 9).m_levelToObjectMap 0 = some 12 ∧
      (LevelManager_OnDirectLockChange 1 C28_state 1 9).fault = false := by
  refine ⟨rfl, ?_, ?_, ?_, ?_⟩
  · decide
  · decide
  · decide
  · decide

/-- C29 (failing input).  In `C29_state` every tracked actor is bound.  `OnDelete`
for object 5 destroys actor 1 and removes its binding but leaves its entry in
`m_selectedActors`, so the next selection pass visits actor 1 and releases the
lock of the deleted object.  `OnActorDeleted` erases the entry. -/
theorem C29_OnDelete_leaves_tracked_actor_unbound :
    SelectedBound C29_state ∧
      (OnDelete C29_state 5).m_selectedActors = [(1, 5)] ∧
      (OnDelete C29_state 5).m_actorToObjectMap 1 = none ∧
      ¬ SelectedBound (OnDelete C29_state 5) ∧
      (UpdateSelection (OnDelete C29_state 5)).trace = [Effect.ReleaseLock 5] ∧
      (OnActorDeleted C29_state 1).m_selectedActors = [] := by
  refine ⟨?_, rfl, ?_, ?_, ?_, ?_⟩
  · intro p hp
    have h : p = (1, 5) := List.mem_singleton.1 hp
    subst h
    rfl
  · decide
  · intro h
    have h1 := h (1, 5) (List.mem_singleton.2 rfl)
    revert h1
    decide
  · decide
  · decide

theorem SendPropertyChange_calls (s : ManagerState) (a : AActor) (prop : UProperty) :
    SendPropertyChange s a prop = (QueuedCalls s a prop).foldl QueuedCall.run s := by
  unfold SendPropertyChange QueuedCalls
  cases hb : s.m_actorToObjectMap a with
  | none => rfl
  | some o =>
    cases hr : (s.host.actor a).RootComponent with
    | none =>
      dsimp only
      split <;> rfl
    | some root =>
      dsimp only
      by_cases h1 : prop = "RelativeLocation"
      · simp only [h1, if_true]
        rfl
      · by_cases h2 : prop = "RelativeRotation"
        · simp only [h1, h2, if_true, if_false]
          rfl
        · by_cases h3 : prop = "RelativeScale3D"
          · simp only [h1, h2, h3, if_true, if_false]
            rfl
          · simp only [h1, h2, h3, if_false]
            split <;> rfl

theorem QueuedCall.run_frame (s : ManagerState) (c : QueuedCall) :
    (c.run s).host = s.host ∧ (c.run s).m_actorToObjectMap = s.m_actorToObjectMap ∧
      (c.run s).m_objectToActorMap = s.m_objectToActorMap ∧
      (c.run s).m_propertyChangeMap = s.m_propertyChangeMap ∧ (c.run s).fault = s.fault := by
  cases c <;> exact ⟨rfl, rfl, rfl, rfl, rfl⟩

theorem QueuedCall.foldl_calls_frame (calls : List QueuedCall) :
    ∀ (s : ManagerState), (calls.foldl QueuedCall.run s).host = s.host ∧
      (calls.foldl QueuedCall.run s).m_actorToObjectMap = s.m_actorToObjectMap ∧
      (calls.foldl QueuedCall.run s).m_objectToActorMap = s.m_objectToActorMap ∧
      (calls.foldl QueuedCall.run s).m_propertyChangeMap = s.m_propertyChangeMap ∧
      (calls.foldl QueuedCall.run s).fault = s.fault := by
  induction calls with
  | nil => intro s; exact ⟨rfl, rfl, rfl, rfl, rfl⟩
  | cons c rest ih =>
    intro s
    obtain ⟨h1, h2, h3, h4, h5⟩ := ih (c.run s)
    obtain ⟨g1, g2, g3, g4, g5⟩ := QueuedCall.run_frame s c
    exact ⟨h1.trans g1, h2.trans g2, h3.trans g3, h4.trans g4, h5.trans g5⟩

theorem QueuedCalls_congr {s t : ManagerState} (hh : t.host = s.host)
    (hb : t.m_actorToObjectMap = s.m_actorToObjectMap) (a : AActor) (prop : UProperty) :
    QueuedCalls t a prop = QueuedCalls s a prop := by
  unfold QueuedCalls
  rw [hh, hb]

theorem SendPropertyChange_foldl_calls (s0 : ManagerState) (a : AActor) :
    ∀ (props : List UProperty) (s : ManagerState), s.host = s0.host →
      s.m_actorToObjectMap = s0.m_actorToObjectMap →
      props.foldl (fun acc2 prop => SendPropertyChange acc2 a prop) s =
        ((props.map (QueuedCalls s0 a)).flatten).foldl QueuedCall.run s := by
  intro props
  induction props with
  | nil => intro s _ _; rfl
  | cons p rest ih =>
    intro s hh hb
    rw [List.foldl_cons, List.map_cons, List.flatten_cons, List.foldl_append,
      SendPropertyChange_calls, QueuedCalls_congr hh hb]
    obtain ⟨g1, g2, _⟩ := QueuedCall.foldl_calls_frame (QueuedCalls s0 a p) s
    exact ih _ (g1.trans hh) (g2.trans hb)

theorem AllQueuedCalls_foldl (s0 : ManagerState) :
    ∀ (queue : List (AActor × List UProperty)) (s : ManagerState), s.host = s0.host →
      s.m_actorToObjectMap = s0.m_actorToObjectMap →
      queue.foldl
          (fun acc pair =>
            if (acc.host.actor pair.1).IsPendingKill then acc
            else pair.2.foldl (fun acc2 prop => SendPropertyChange acc2 pair.1 prop) acc)
          s =
        ((queue.map
          (fun pair =>
            if (s0.host.actor pair.1).IsPendingKill then []
            else (pair.2.map (QueuedCalls s0 pair.1)).flatten)).flatten).foldl
          QueuedCall.run s := by
  intro queue
  induction queue with
  | nil => intro s _ _; rfl
  | cons pair rest ih =>
    intro s hh hb
    rw [List.foldl_cons, List.map_cons, List.flatten_cons, List.foldl_append, hh]
    by_cases hk : (s0.host.actor pair.1).IsPendingKill = true
    · rw [if_pos hk, if_pos hk]
      exact ih s hh hb
    · rw [if_neg hk, if_neg hk, SendPropertyChange_foldl_calls s0 pair.1 pair.2 s hh hb]
      obtain ⟨g1, g2, _⟩ := QueuedCall.foldl_calls_frame
        ((pair.2.map (QueuedCalls s0 pair.1)).flatten) s
      exact ih _ (g1.trans hh) (g2.trans hb)

theorem QueuedCall.foldl_trace (calls : List QueuedCall) :
    ∀ (s : ManagerState), (calls.foldl QueuedCall.run s).trace = s.trace ++ TracedSets calls ∧
      (calls.foldl QueuedCall.run s).m_syncLabelQueue =
        s.m_syncLabelQueue ++ EnqueuedActors calls := by
  induction calls with
  | nil => intro s; simp [TracedSets, EnqueuedActors]
  | cons c rest ih =>
    intro s
    obtain ⟨h1, h2⟩ := ih (c.run s)
    rw [List.foldl_cons, h1, h2]
    cases c with
    | Set o key value =>
      refine ⟨?_, ?_⟩
      · show (s.trace ++ [Effect.PropertySet o key]) ++ _ = _
        simp [TracedSets]
      · show s.m_syncLabelQueue ++ _ = _
        simp [EnqueuedActors]
    | Enqueue a =>
      refine ⟨?_, ?_⟩
      · show s.trace ++ _ = _
        simp [TracedSets]
      · show (s.m_syncLabelQueue ++ [a]) ++ _ = _
        simp [EnqueuedActors]

/-- The value that a list of calls leaves under a key: when the list sets the key
of the object, and each time to the same value, the dictionary holds that value
afterwards. -/
theorem QueuedCall.foldl_stored (o : sfObject) (key : sfName) (value : sfProperty) :
    ∀ (calls : List QueuedCall) (s : ManagerState),
      (QueuedCall.Set o key value ∈ calls ∨ TryGet (s.objects o).Property key = some value) →
      (∀ v, QueuedCall.Set o key v ∈ calls → v = value) →
      TryGet ((calls.foldl QueuedCall.run s).objects o).Property key = some value := by
  intro calls
  induction calls with
  | nil =>
    intro s h _
    rcases h with h | h
    · cases h
    · exact h
  | cons c rest ih =>
    intro s h hall
    rw [List.foldl_cons]
    refine ih _ ?_ (fun v hv => hall v (List.mem_cons_of_mem _ hv))
    by_cases hin : QueuedCall.Set o key value ∈ rest
    · exact Or.inl hin
    · right
      cases c with
      | Enqueue a =>
        rcases h with h | h
        · rcases List.mem_cons.1 h with h | h
          · cases h
          · exact absurd h hin
        · exact h
      | Set o2 k2 v2 =>
        show TryGet (Function.update s.objects o2 _ o).Property key = some value
        by_cases ho : o = o2
        · subst ho
          rw [Function.update_same]
          show TryGet (DictSet (s.objects o).Property k2 v2) key = some value
          rw [TryGet_DictSet]
          by_cases hk : k2 = key
          · subst hk
            rw [if_pos rfl, hall v2 (List.mem_cons_self _ _)]
          · rw [if_neg hk]
            rcases h with h | h
            · rcases List.mem_cons.1 h with h | h
              · cases h; exact absurd rfl hk
              · exact absurd h hin
            · exact h
        · rw [Function.update_noteq ho]
          rcases h with h | h
          · rcases List.mem_cons.1 h with h | h
            · cases h; exact absurd rfl ho
            · exact absurd h hin
          · exact h

theorem mem_AllQueuedCalls {s : ManagerState} {a : AActor} {props : List UProperty}
    {prop : UProperty} {c : QueuedCall} (hq : (a, props) ∈ s.m_propertyChangeMap)
    (hp : prop ∈ props) (hk : (s.host.actor a).IsPendingKill = false)
    (hc : c ∈ QueuedCalls s a prop) : c ∈ AllQueuedCalls s := by
  unfold AllQueuedCalls
  refine List.mem_flatten.2 ⟨_, List.mem_map.2 ⟨(a, props), hq, rfl⟩, ?_⟩
  dsimp only
  rw [hk]
  exact List.mem_flatten.2 ⟨_, List.mem_map.2 ⟨prop, hp, rfl⟩, hc⟩

/-- C22 (amended).  `SendPropertyChanges` makes no comparison with the stored
value.  The function is the run of the calls `AllQueuedCalls s`, in queue order,
followed by the emptying of the queue: for every queued transform property
(`RelativeLocation`, `RelativeRotation`, `RelativeScale3D`) of an actor that is
not pending kill, is bound and has a root component, the `Set` of the value that
the actor has; for a queued `ActorLabel` of such a bound actor its entry in the
label queue; for any other queued property no call.  The trace grows by these
`Set` calls, the label queue by these actors, and a key that is set, each time to
the same value, holds that value afterwards. -/
theorem C22_SendPropertyChanges_sets_every_queued_transform (s : ManagerState) :
    SendPropertyChanges s =
        { (AllQueuedCalls s).foldl QueuedCall.run s with m_propertyChangeMap := [] } ∧
      (SendPropertyChanges s).trace = s.trace ++ TracedSets (AllQueuedCalls s) ∧
      (SendPropertyChanges s).m_syncLabelQueue =
        s.m_syncLabelQueue ++ EnqueuedActors (AllQueuedCalls s) ∧
      (SendPropertyChanges s).m_propertyChangeMap = [] ∧
      (∀ a props prop o root, (a, props) ∈ s.m_propertyChangeMap → prop ∈ props →
        (s.host.actor a).IsPendingKill = false → s.m_actorToObjectMap a = some o →
        (s.host.actor a).RootComponent = some root →
        (prop = "RelativeLocation" →
          QueuedCall.Set o sfProp.Location (FromVector root.RelativeLocation) ∈
            AllQueuedCalls s) ∧
        (prop = "RelativeRotation" →
          QueuedCall.Set o sfProp.Rotation (FromVector root.RelativeRotation) ∈
            AllQueuedCalls s) ∧
        (prop = "RelativeScale3D" →
          QueuedCall.Set o sfProp.Scale (FromVector root.RelativeScale3D) ∈
            AllQueuedCalls s)) ∧
      (∀ a props o, (a, props) ∈ s.m_propertyChangeMap → "ActorLabel" ∈ props →
        (s.host.actor a).IsPendingKill = false → s.m_actorToObjectMap a = some o →
        QueuedCall.Enqueue a ∈ AllQueuedCalls s) ∧
      (∀ o key value, QueuedCall.Set o key value ∈ AllQueuedCalls s →
        (∀ v, QueuedCall.Set o key v ∈ AllQueuedCalls s → v = value) →
        TryGet ((SendPropertyChanges s).objects o).Property key = some value) := by
  have hrun : SendPropertyChanges s =
      { (AllQueuedCalls s).foldl QueuedCall.run s with m_propertyChangeMap := [] } := by
    unfold SendPropertyChanges
    dsimp only
    rw [AllQueuedCalls_foldl s s.m_propertyChangeMap s rfl rfl]
    rfl
  refine ⟨hrun, ?_, ?_, ?_, ?_, ?_, ?_⟩
  · rw [hrun]
    exact (QueuedCall.foldl_trace (AllQueuedCalls s) s).1
  · rw [hrun]
    exact (QueuedCall.foldl_trace (AllQueuedCalls s) s).2
  · rfl
  · intro a props prop o root hq hp hk hb hr
    refine ⟨?_, ?_, ?_⟩
    · intro h
      refine mem_AllQueuedCalls hq hp hk ?_
      unfold QueuedCalls
      rw [hb, hr]
      simp [h]
    · intro h
      refine mem_AllQueuedCalls hq hp hk ?_
      unfold QueuedCalls
      rw [hb, hr]
      simp [h]
    · intro h
      refine mem_AllQueuedCalls hq hp hk ?_
      unfold QueuedCalls
      rw [hb, hr]
      simp [h]
  · intro a props o hq hp hk hb
    refine mem_AllQueuedCalls hq hp hk ?_
    unfold QueuedCalls
    rw [hb]
    cases (s.host.actor a).RootComponent with
    | none => simp
    | some root => simp
  · intro o key value hin hall
    rw [hrun]
    exact QueuedCall.foldl_stored o key value (AllQueuedCalls s) s (Or.inl hin) hall

/-- Witness of C22: in `C22_state` the properties `RelativeLocation` and
`ActorLabel` of actor 1 are queued.  `SendPropertyChanges` sets the location of
object 5 to the location of the actor and puts the actor on the label queue. -/
theorem C22_SendPropertyChanges_sets_every_queued_transform_witness :
    AllQueuedCalls C22_state =
        [QueuedCall.Set 5 sfProp.Location (FromVector ⟨1, 0, 0⟩), QueuedCall.Enqueue 1] ∧
      (SendPropertyChanges C22_state).trace = [Effect.PropertySet 5 sfProp.Location] ∧
      (SendPropertyChanges C22_state).m_syncLabelQueue = [1] ∧
      (SendPropertyChanges C22_state).m_propertyChangeMap = [] ∧
      TryGet ((SendPropertyChanges C22_state).objects 5).Property sfProp.Location =
        some (FromVector ⟨1, 0, 0⟩) := by
  have h := C22_SendPropertyChanges_sets_every_queued_transform C22_state
  have hc : AllQueuedCalls C22_state =
      [QueuedCall.Set 5 sfProp.Location (FromVector ⟨1, 0, 0⟩), QueuedCall.Enqueue 1] := rfl
  refine ⟨hc, h.2.1, h.2.2.1, h.2.2.2.1, ?_⟩
  refine h.2.2.2.2.2.2 5 sfProp.Location (FromVector ⟨1, 0, 0⟩) ?_ ?_
  · rw [hc]; exact List.mem_cons_self _ _
  · intro v hv
    rw [hc] at hv
    rcases List.mem_cons.1 hv with h1 | h1
    · cases h1; rfl
    · rcases List.mem_cons.1 h1 with h2 | h2
      · cases h2
      · cases h2

/-- Counterexample to C22 as stated: in `C22_state` the dictionary of object 5
stores the location that actor 1 has, and the properties `RelativeLocation` and
`ActorLabel` of the actor are queued.  `SendPropertyChanges` issues a `Set` of
the location all the same; `SendTransformUpdate`, which does compare, issues
none. -/
theorem C22_counterexample_equal_value_is_set :
    (C22_state.host.actor 1).RootComponent =
        some ⟨⟨1, 0, 0⟩, ⟨0, 0, 0⟩, ⟨1, 1, 1⟩⟩ ∧
      TryGet (C22_state.objects 5).Property sfProp.Location = some (FromVector ⟨1, 0, 0⟩) ∧
      (SendPropertyChanges C22_state).trace = [Effect.PropertySet 5 sfProp.Location] ∧
      (SendTransformUpdate C22_state 1 5).trace = [] := by
  refine ⟨rfl, rfl, ?_, ?_⟩
  · decide
  · decide

theorem eraseIdx_eq_filter_of_unique (p : String → Bool) :
    ∀ (l : List String) (i : Nat), i < l.length → p (l.getD i "") = true →
      (l.filter p).length ≤ 1 → l.eraseIdx i = l.filter (fun q => !(p q)) := by
  intro l
  induction l with
  | nil => intro i hi; simp at hi
  | cons x xs ih =>
    intro i hi hp hlen
    cases i with
    | zero =>
      have hx : p x = true := by simpa using hp
      rw [List.filter_cons_of_pos hx] at hlen
      have hnil : xs.filter p = [] := by
        apply List.eq_nil_of_length_eq_zero
        simp only [List.length_cons] at hlen
        omega
      have hall : ∀ y ∈ xs, ¬ (p y = true) := List.filter_eq_nil_iff.1 hnil
      rw [List.eraseIdx_cons_zero, List.filter_cons_of_neg (by simp [hx])]
      symm
      apply List.filter_eq_self.2
      intro y hy
      simpa using hall y hy
    | succ j =>
      have hj : j < xs.length := by simpa using hi
      have hpj : p (xs.getD j "") = true := by simpa using hp
      have hmem : xs.getD j "" ∈ xs := by
        rw [List.getD_eq_getElem xs "" hj]
        exact List.getElem_mem _
      by_cases hx : p x = true
      · exfalso
        rw [List.filter_cons_of_pos hx] at hlen
        have hnil : xs.filter p = [] := by
          apply List.eq_nil_of_length_eq_zero
          simp only [List.length_cons] at hlen
          omega
        exact List.filter_eq_nil_iff.1 hnil _ hmem hpj
      · rw [List.filter_cons_of_neg hx] at hlen
        rw [List.eraseIdx_cons_succ, ih j hj hpj hlen, List.filter_cons_of_pos (by simp [hx])]

theorem RemoveFirstMatchFromEnd_of_unique (l : List String) (f : String)
    (h : (l.filter (FolderHolds f)).length ≤ 1) :
    RemoveFirstMatchFromEnd l f = l.filter (fun q => !(FolderHolds f q)) := by
  unfold RemoveFirstMatchFromEnd
  cases hf : (List.range l.length).reverse.find?
      (fun i => f == l.getD i "" || PathIsChildOf f (l.getD i "")) with
  | some i =>
    have hp := List.find?_some hf
    have hm := List.mem_of_find?_eq_some hf
    have hi : i < l.length := by simpa using hm
    exact eraseIdx_eq_filter_of_unique (FolderHolds f) l i hi hp h
  | none =>
    have hall := List.find?_eq_none.1 hf
    symm
    apply List.filter_eq_self.2
    intro q hq
    obtain ⟨i, hi, rfl⟩ := List.getElem_of_mem hq
    have := hall i (by simpa using hi)
    rw [List.getD_eq_getElem l "" hi] at this
    simpa [FolderHolds] using this

theorem DeleteEmptyFolders_foldl (folderOf : AActor → String) :
    ∀ (actors : List AActor) (acc : List String),
      (∀ a ∈ actors, (acc.filter (FolderHolds (folderOf a))).length ≤ 1) →
      actors.foldl
          (fun (acc : List String) a =>
            if 0 < acc.length then RemoveFirstMatchFromEnd acc (folderOf a) else acc)
          acc =
        acc.filter (fun q => !(actors.any (fun a => FolderHolds (folderOf a) q))) := by
  intro actors
  induction actors with
  | nil => intro acc _; simp
  | cons a rest ih =>
    intro acc h
    have hstep : (if 0 < acc.length then RemoveFirstMatchFromEnd acc (folderOf a) else acc) =
        acc.filter (fun q => !(FolderHolds (folderOf a) q)) := by
      by_cases hl : 0 < acc.length
      · rw [if_pos hl]
        exact RemoveFirstMatchFromEnd_of_unique acc _ (h a (List.mem_cons_self _ _))
      · rw [if_neg hl]
        have : acc = [] := List.eq_nil_of_length_eq_zero (by omega)
        rw [this]; rfl
    rw [List.foldl_cons, hstep, ih]
    · rw [List.filter_filter]
      congr 1
      funext q
      simp only [List.any_cons, Bool.not_or, Bool.and_comm]
    · intro b hb
      rw [List.filter_filter]
      refine le_trans ?_ (h b (List.mem_cons_of_mem _ hb))
      apply List.Sublist.length_le
      apply List.monotone_filter_right
      intro q hq
      simp only [Bool.and_eq_true] at hq
      exact hq.1

/-- When the folder service of the host is available and the folder of each actor
in the world equals or lies beneath at most one queued folder,
`DeleteEmptyFolders` deletes exactly the queued folders in which no actor lies,
in queue order, and leaves `m_foldersToCheck` empty. -/
theorem DeleteEmptyFolders_of_single_match (s : ManagerState)
    (hav : s.host.foldersAvailable = true)
    (hone : ∀ a ∈ s.host.WorldActors,
      (s.m_foldersToCheck.filter (FolderHolds (s.host.actor a).FolderPath)).length ≤ 1) :
    (DeleteEmptyFolders s).trace = s.trace ++ (EmptyFolders s).map Effect.DeleteFolder ∧
      (∀ q, Effect.DeleteFolder q ∈ (EmptyFolders s).map Effect.DeleteFolder ↔
        q ∈ s.m_foldersToCheck ∧
          ∀ a ∈ s.host.WorldActors, FolderHolds (s.host.actor a).FolderPath q = false) ∧
      (DeleteEmptyFolders s).m_foldersToCheck = [] := by
  have hiff : ∀ q, Effect.DeleteFolder q ∈ (EmptyFolders s).map Effect.DeleteFolder ↔
      q ∈ s.m_foldersToCheck ∧
        ∀ a ∈ s.host.WorldActors, FolderHolds (s.host.actor a).FolderPath q = false := by
    intro q
    unfold EmptyFolders
    simp only [List.mem_map, List.mem_filter, Effect.DeleteFolder.injEq, exists_eq_right,
      Bool.not_eq_true', List.any_eq_false, Bool.not_eq_true]
  unfold DeleteEmptyFolders
  by_cases hl : 0 < s.m_foldersToCheck.length
  · simp only [hl, hav, decide_True, Bool.and_self, if_true]
    refine ⟨?_, hiff, trivial⟩
    rw [DeleteEmptyFolders_foldl (fun a => (s.host.actor a).FolderPath) _ _ hone]
    rfl
  · have hnil : s.m_foldersToCheck = [] := List.eq_nil_of_length_eq_zero (by omega)
    simp only [hl, decide_False, Bool.false_and, Bool.false_eq_true, if_false]
    refine ⟨?_, hiff, hnil⟩
    unfold EmptyFolders
    rw [hnil]
    simp

/-- With `Props` and `Lights` queued and actor 1 in `Lights/Ceiling`, the folder
`Props` is deleted and `Lights` is kept. -/
theorem DeleteEmptyFolders_separate_queue :
    (DeleteEmptyFolders (C27_state true false)).trace = [Effect.DeleteFolder "Props"] ∧
      (DeleteEmptyFolders (C27_state true false)).m_foldersToCheck = [] := by
  have h := DeleteEmptyFolders_of_single_match (C27_state true false) rfl (by decide)
  refine ⟨?_, h.2.2⟩
  rw [h.1]
  decide

/-- The guard of `DeleteEmptyFolders`: when the folder service of the host is not
available the function returns at once; the queued folder `Props`, in which no
actor lies, is not deleted, and the queue is kept for a later tick. -/
theorem DeleteEmptyFolders_folders_unavailable :
    (∀ a ∈ (C27_state false false).host.WorldActors,
        FolderHolds ((C27_state false false).host.actor a).FolderPath "Props" = false) ∧
      (DeleteEmptyFolders (C27_state false false)).trace = [] ∧
      (DeleteEmptyFolders (C27_state false false)).m_foldersToCheck = ["Props", "Lights"] := by
  refine ⟨by decide, ?_, ?_⟩
  · decide
  · decide

/-- C27 (failing input).  The folder service is available, the folders `Lights`
and `Lights/Ceiling` are queued, and actor 1 lies in `Lights/Ceiling`, so it lies
in both queued folders and no queued folder is empty.  The inner loop of
`DeleteEmptyFolders` stops at the first queued folder that the actor lies in:
only `Lights/Ceiling` leaves the queue, and `Lights` is deleted although actor 1
lies beneath it. -/
theorem C27_DeleteEmptyFolders_deletes_folder_with_actor :
    (C27_state true true).host.foldersAvailable = true ∧
      (C27_state true true).m_foldersToCheck = ["Lights", "Lights/Ceiling"] ∧
      (C27_state true true).host.WorldActors = [1] ∧
      FolderHolds ((C27_state true true).host.actor 1).FolderPath "Lights" = true ∧
      FolderHolds ((C27_state true true).host.actor 1).FolderPath "Lights/Ceiling" = true ∧
      EmptyFolders (C27_state true true) = [] ∧
      (DeleteEmptyFolders (C27_state true true)).trace = [Effect.DeleteFolder "Lights"] ∧
      (DeleteEmptyFolders (C27_state true true)).m_foldersToCheck = [] := by
  refine ⟨rfl, rfl, ?_, ?_, ?_, ?_, ?_, ?_⟩
  · decide
  · decide
  · decide
  · decide
  · decide
  · decide

theorem InsertionFound_cons (x a : sfProperty) (post : List sfProperty) :
    InsertionFound x (a :: post) =
      if Equals x a then InsertionFound a post
      else !(match post with
             | b :: _ => Equals x b
             | [] => false) := rfl

theorem Forall₂_Equals_refl_flip (l : List sfProperty) (h : ∀ x ∈ l, WellFormed x = true) :
    List.Forall₂ (fun x y => Equals y x = true) l l := by
  induction l with
  | nil => exact List.Forall₂.nil
  | cons x l ih =>
    exact List.Forall₂.cons (Equals_refl x (h x (List.mem_cons_self _ _)))
      (ih (fun y hy => h y (List.mem_cons_of_mem _ hy)))

/-- The list loop passes a prefix that source and destination share. -/
theorem CopyListLoop_prefix (p : List sfProperty) :
    ∀ (pre d s : List sfProperty), (∀ x ∈ p, WellFormed x = true) →
      CopyListLoop (p ++ s) pre.length (pre ++ (p ++ d)) [] =
        CopyListLoop s (pre ++ p).length ((pre ++ p) ++ d) [] := by
  induction p with
  | nil => intro pre d s _; simp
  | cons x p ih =>
    intro pre d s h
    have hnot : ¬ (pre ++ (x :: p ++ d)).length ≤ pre.length := by simp
    have hx : Equals x x = true := Equals_refl x (h x (List.mem_cons_self _ _))
    rw [List.cons_append, CopyListLoop_cons, if_neg hnot]
    rw [show pre ++ (x :: p ++ d) = pre ++ x :: (p ++ d) from rfl, Get_append_cons, if_pos hx]
    have := ih (pre ++ [x]) d s (fun y hy => h y (List.mem_cons_of_mem _ hy))
    simpa using this

/-- The list loop on a destination that has one element more than the source,
from the index of that element on: one `Remove`, or nothing when the element
and all after it equal their successors, in which case the tail is cut later. -/
theorem CopyListLoop_removed (post : List sfProperty) :
    ∀ (pre : List sfProperty) (a : sfProperty), (∀ x ∈ post, WellFormed x = true) →
      (CopyListLoop post pre.length (pre ++ a :: post) []).toAdd = [] ∧
        (((CopyListLoop post pre.length (pre ++ a :: post) []).log = [Mutation.Remove] ∧
            (CopyListLoop post pre.length (pre ++ a :: post) []).dest.length =
              pre.length + post.length) ∨
          ((CopyListLoop post pre.length (pre ++ a :: post) []).log = [] ∧
            (CopyListLoop post pre.length (pre ++ a :: post) []).dest = pre ++ a :: post)) := by
  induction post with
  | nil => intro pre a _; rw [CopyListLoop_nil]; exact ⟨rfl, Or.inr ⟨rfl, rfl⟩⟩
  | cons b post ih =>
    intro pre a h
    have hnot : ¬ (pre ++ a :: b :: post).length ≤ pre.length := by simp
    have hb : Equals b b = true := Equals_refl b (h b (List.mem_cons_self _ _))
    have hpost : ∀ x ∈ post, WellFormed x = true := fun y hy => h y (List.mem_cons_of_mem _ hy)
    rw [CopyListLoop_cons, if_neg hnot, Get_append_cons]
    by_cases hba : Equals b a = true
    · rw [if_pos hba]
      have := ih (pre ++ [a]) b hpost
      rw [show (pre ++ [a]).length = pre.length + 1 by simp,
        show (pre ++ [a]) ++ b :: post = pre ++ a :: b :: post by simp] at this
      simp only [List.length_cons]
      obtain ⟨h1, h2⟩ := this
      refine ⟨h1, ?_⟩
      rcases h2 with ⟨h3, h4⟩ | ⟨h3, h4⟩
      · exact Or.inl ⟨h3, by omega⟩
      · exact Or.inr ⟨h3, h4⟩
    · have hlen : (pre ++ a :: b :: post).length > pre.length + 1 := by simp
      rw [if_neg hba, Get_append_cons_succ]
      simp only [hlen, decide_True, hb, Bool.and_self, if_true]
      rw [eraseIdx_append_cons]
      have hno := CopyListLoop_noop post (pre ++ [b]) post
        (Forall₂_Equals_refl_flip post hpost)
      simp only [List.length_append, List.length_singleton, List.append_assoc,
        List.singleton_append] at hno
      rw [hno]
      refine ⟨rfl, Or.inl ⟨rfl, ?_⟩⟩
      simp only [List.length_append, List.length_cons]

/-- The list loop on a source that has the element `x` more than the
destination, from the index of `x` on: one `Insert`, or nothing when `x` comes to
lie past the end of the destination, in which case one element is appended
later. -/
theorem CopyListLoop_inserted (post : List sfProperty) :
    ∀ (pre : List sfProperty) (x : sfProperty), (∀ y ∈ post, WellFormed y = true) →
      InsertionFound x post = true →
      ((CopyListLoop (x :: post) pre.length (pre ++ post) []).log = [Mutation.Insert] ∧
          (CopyListLoop (x :: post) pre.length (pre ++ post) []).toAdd = [] ∧
          (CopyListLoop (x :: post) pre.length (pre ++ post) []).dest.length =
            pre.length + post.length + 1) ∨
        ((CopyListLoop (x :: post) pre.length (pre ++ post) []).log = [] ∧
          (CopyListLoop (x :: post) pre.length (pre ++ post) []).toAdd.length = 1 ∧
          (CopyListLoop (x :: post) pre.length (pre ++ post) []).dest = pre ++ post) := by
  induction post with
  | nil =>
    intro pre x _ _
    have hshort : (pre ++ ([] : List sfProperty)).length ≤ pre.length := by simp
    rw [CopyListLoop_cons, if_pos hshort, CopyListLoop_nil]
    exact Or.inr ⟨rfl, rfl, rfl⟩
  | cons a post ih =>
    intro pre x h hfound
    have hnot : ¬ (pre ++ a :: post).length ≤ pre.length := by simp
    have ha : Equals a a = true := Equals_refl a (h a (List.mem_cons_self _ _))
    have hpost : ∀ y ∈ post, WellFormed y = true := fun y hy => h y (List.mem_cons_of_mem _ hy)
    rw [CopyListLoop_cons, if_neg hnot, Get_append_cons]
    by_cases hxa : Equals x a = true
    · rw [if_pos hxa]
      have hf : InsertionFound a post = true := by
        rw [InsertionFound_cons, if_pos hxa] at hfound
        exact hfound
      have := ih (pre ++ [a]) a hpost hf
      rw [show (pre ++ [a]).length = pre.length + 1 by simp,
        show (pre ++ [a]) ++ post = pre ++ a :: post by simp] at this
      simp only [List.length_cons]
      rcases this with ⟨h1, h2, h3⟩ | ⟨h1, h2, h3⟩
      · exact Or.inl ⟨h1, h2, by omega⟩
      · exact Or.inr ⟨h1, h2, h3⟩
    · rw [if_neg hxa]
      have hrem : (decide ((pre ++ a :: post).length > pre.length + 1) &&
          Equals x (Get (pre ++ a :: post) (pre.length + 1))) = false := by
        rw [InsertionFound_cons, if_neg hxa] at hfound
        cases post with
        | nil => simp
        | cons b post2 =>
          rw [Get_append_cons_succ]
          simp only [Bool.not_eq_true'] at hfound
          rw [hfound, Bool.and_false]
      rw [hrem]
      simp only [Bool.false_eq_true, if_false, ha, if_true]
      rw [CopyListSkip_cons, insertIdx_append]
      have hno := CopyListLoop_noop post (pre ++ [x, a]) post
        (Forall₂_Equals_refl_flip post hpost)
      simp only [List.length_append, List.length_cons, List.length_singleton, List.length_nil,
        List.append_assoc, List.cons_append, List.nil_append] at hno
      rw [hno]
      refine Or.inl ⟨rfl, rfl, ?_⟩
      simp only [List.length_append, List.length_cons]
      omega


/-- C26 (amended).  The list diff handles a single-element edit with a single
structural mutation and overwrites no element.  When the source is the
destination with one element removed, `CopyList` makes exactly one `Remove`, or
exactly one `Resize`.  When the source is the destination with one element `x`
inserted, and the loop finds the insertion (`InsertionFound`: at the first
position from the insertion on where source and destination differ, the source
element does not equal the destination element after that position), `CopyList`
makes exactly one `Insert`, or exactly one `AddRange`, of one element. -/
theorem C26_single_edit_single_mutation (pre post : List sfProperty) (x : sfProperty)
    (hpre : ∀ y ∈ pre, WellFormed y = true) (hpost : ∀ y ∈ post, WellFormed y = true) :
    ((Copy (.list (pre ++ x :: post)) (.list (pre ++ post))).log = [Mutation.Remove] ∨
        (Copy (.list (pre ++ x :: post)) (.list (pre ++ post))).log = [Mutation.Resize]) ∧
      (InsertionFound x post = true →
        (Copy (.list (pre ++ post)) (.list (pre ++ x :: post))).log = [Mutation.Insert] ∨
          ((Copy (.list (pre ++ post)) (.list (pre ++ x :: post))).log = [Mutation.AddRange] ∧
            (CopyListLoop (pre ++ x :: post) 0 (pre ++ post) []).toAdd.length = 1)) := by
  constructor
  · rw [Copy_list_list]
    have h1 := CopyListLoop_prefix pre [] (x :: post) post hpre
    have h2 := CopyListLoop_removed post pre x hpost
    simp only [List.length_nil, List.nil_append] at h1
    rw [h1]
    generalize CopyListLoop post pre.length (pre ++ x :: post) [] = r at h2
    obtain ⟨r1, r2, r3⟩ := r
    simp only at h2
    obtain ⟨ht, hcase⟩ := h2
    subst ht
    unfold CopyListFinish
    simp only [List.length_nil, Nat.lt_irrefl, if_false, List.length_append]
    rcases hcase with ⟨hl, hd⟩ | ⟨hl, hd⟩
    · left
      have : ¬ (r1.length > pre.length + post.length) := by omega
      rw [if_neg this]
      exact hl
    · right
      have : r1.length > pre.length + post.length := by rw [hd]; simp
      rw [if_pos this, hl]
      rfl
  · intro hfound
    rw [Copy_list_list]
    have h1 := CopyListLoop_prefix pre [] post (x :: post) hpre
    have h2 := CopyListLoop_inserted post pre x hpost hfound
    simp only [List.length_nil, List.nil_append] at h1
    rw [h1]
    generalize CopyListLoop (x :: post) pre.length (pre ++ post) [] = r at h2
    obtain ⟨r1, r2, r3⟩ := r
    simp only at h2
    unfold CopyListFinish
    simp only [List.length_append, List.length_cons]
    rcases h2 with ⟨hl, ht, hd⟩ | ⟨hl, ht, hd⟩
    · left
      subst ht
      have : ¬ (r1.length > pre.length + (post.length + 1)) := by omega
      simp only [List.length_nil, Nat.lt_irrefl, if_false, if_neg this]
      exact hl
    · right
      have : 0 < r2.length := by omega
      rw [if_pos this, hl]
      exact ⟨rfl, ht⟩

/-- Witness of C26: the element 3 between 1 and 2 is removed, and is inserted. -/
theorem C26_single_edit_single_mutation_witness :
    ((Copy (.list [.value (.int 1), .value (.int 3), .value (.int 2)])
          (.list [.value (.int 1), .value (.int 2)])).log = [Mutation.Remove] ∨
        (Copy (.list [.value (.int 1), .value (.int 3), .value (.int 2)])
          (.list [.value (.int 1), .value (.int 2)])).log = [Mutation.Resize]) ∧
      (InsertionFound (.value (.int 3)) [.value (.int 2)] = true →
        (Copy (.list [.value (.int 1), .value (.int 2)])
            (.list [.value (.int 1), .value (.int 3), .value (.int 2)])).log =
          [Mutation.Insert] ∨
          ((Copy (.list [.value (.int 1), .value (.int 2)])
              (.list [.value (.int 1), .value (.int 3), .value (.int 2)])).log =
              [Mutation.AddRange] ∧
            (CopyListLoop [.value (.int 1), .value (.int 3), .value (.int 2)] 0
              [.value (.int 1), .value (.int 2)] []).toAdd.length = 1)) ∧
      InsertionFound (.value (.int 3)) [.value (.int 2)] = true :=
  ⟨(C26_single_edit_single_mutation [.value (.int 1)] [.value (.int 2)] (.value (.int 3))
      (by intro y hy; rw [List.mem_singleton.1 hy]; rfl)
      (by intro y hy; rw [List.mem_singleton.1 hy]; rfl)).1,
    (C26_single_edit_single_mutation [.value (.int 1)] [.value (.int 2)] (.value (.int 3))
      (by intro y hy; rw [List.mem_singleton.1 hy]; rfl)
      (by intro y hy; rw [List.mem_singleton.1 hy]; rfl)).2,
    by decide⟩

/-- Counterexample to C26 as stated: the source `[2, 1, 2]` is the destination
`[1, 2]` with the element `2` inserted at the front.  At index 0 the loop finds
the source element equal to the next destination element and takes the
difference for a removal: `CopyList` makes a `Remove` and then an `AddRange` of
two elements. -/
theorem C26_counterexample_insert_taken_for_removal :
    [sfProperty.value (.int 2), .value (.int 1), .value (.int 2)] =
        [].append (.value (.int 2) :: [.value (.int 1), .value (.int 2)]) ∧
      (Copy (.list [.value (.int 1), .value (.int 2)])
          (.list [.value (.int 2), .value (.int 1), .value (.int 2)])).log =
        [Mutation.Remove, Mutation.AddRange] ∧
      (CopyListLoop [.value (.int 2), .value (.int 1), .value (.int 2)] 0
          [.value (.int 1), .value (.int 2)] []).toAdd.length = 2 ∧
      InsertionFound (.value (.int 2)) [.value (.int 1), .value (.int 2)] = false := by
  refine ⟨rfl, ?_, ?_, ?_⟩
  · decide
  · decide
  · decide

theorem RepairStep.refl_repair (s : TransactionState) : RepairStep s s :=
  ⟨rfl, fun _ h => h, fun _ _ h => h, rfl, rfl⟩

theorem RepairStep.trans_repair {s t u : TransactionState} (h1 : RepairStep s t)
    (h2 : RepairStep t u) : RepairStep s u :=
  ⟨h2.fault.trans h1.fault, fun q h => h2.sound q (h1.sound q h),
    fun q e h => h1.subset q e (h2.subset q e h),
    h2.toCheck.1.trans h1.toCheck.1, h2.toCheck.2.trans h1.toCheck.2⟩

theorem DestroyComponent_AttachParent (s : TransactionState) (c x : ComponentPtr) (p : ComponentPtr)
    (hc : (s.component c).AttachParent = none) (hp : p ≠ c)
    (hx : (s.component x).AttachParent = some p) :
    ((DestroyComponent s c).component x).AttachParent = some p := by
  show (if x = c then _ else _ : ComponentData).AttachParent = some p
  have hxc : x ≠ c := by
    intro h; rw [h, hc] at hx; cases hx
  rw [if_neg hxc]
  have hne : ¬ ((s.component x).AttachParent = some c ∧
      some x ∈ (s.component c).AttachChildren) := by
    intro h
    rw [hx] at h
    exact hp (Option.some.inj h.1)
  rw [if_neg hne]
  exact hx

theorem DestroyComponent_AttachChildren (s : TransactionState) (c q : ComponentPtr) (hq : q ≠ c) :
    ((DestroyComponent s c).component q).AttachChildren = (s.component q).AttachChildren := by
  show (if q = c then _ else _ : ComponentData).AttachChildren = _
  rw [if_neg hq]
  split <;> rfl

theorem DestroyComponent_self (s : TransactionState) (c : ComponentPtr) :
    ((DestroyComponent s c).component c).AttachChildren = [] := by
  show (if c = c then _ else _ : ComponentData).AttachChildren = _
  rw [if_pos rfl]

theorem RepairStep.DestroyComponent_repair (s : TransactionState) (c : ComponentPtr)
    (hc : (s.component c).AttachParent = none) : RepairStep s (DestroyComponent s c) := by
  refine ⟨rfl, ?_, ?_, rfl, rfl⟩
  · intro q hq e he
    by_cases hqc : q = c
    · subst hqc
      rw [DestroyComponent_self] at he
      cases he
    · rw [DestroyComponent_AttachChildren s c q hqc] at he
      obtain ⟨x, hx1, hx2⟩ := hq e he
      exact ⟨x, hx1, DestroyComponent_AttachParent s c x q hc hqc hx2⟩
  · intro q e he
    by_cases hqc : q = c
    · subst hqc
      rw [DestroyComponent_self] at he
      cases he
    · rw [DestroyComponent_AttachChildren s c q hqc] at he
      exact he


theorem RepairStep.setChildren_repair (s : TransactionState) (p : ComponentPtr)
    (l : List (Option ComponentPtr)) (hl : ∀ e ∈ l, e ∈ (s.component p).AttachChildren) :
    RepairStep s (s.setChildren p l) := by
  have hpar : ∀ x, ((s.setChildren p l).component x).AttachParent = (s.component x).AttachParent := by
    intro x
    show (Function.update s.component p _ x).AttachParent = _
    by_cases hx : x = p
    · subst hx; rw [Function.update_same]
    · rw [Function.update_noteq hx]
  have hlist : ∀ q e, e ∈ ((s.setChildren p l).component q).AttachChildren →
      e ∈ (s.component q).AttachChildren := by
    intro q e he
    by_cases hq : q = p
    · subst hq
      have : ((s.setChildren q l).component q).AttachChildren = l := by
        show (Function.update s.component q _ q).AttachChildren = l
        rw [Function.update_same]
      rw [this] at he
      exact hl e he
    · have : ((s.setChildren p l).component q).AttachChildren =
          (s.component q).AttachChildren := by
        show (Function.update s.component p _ q).AttachChildren = _
        rw [Function.update_noteq hq]
      rw [this] at he
      exact he
  refine ⟨rfl, ?_, hlist, rfl, rfl⟩
  intro q hq e he
  obtain ⟨c, hc1, hc2⟩ := hq e (hlist q e he)
  exact ⟨c, hc1, by rw [hpar]; exact hc2⟩

theorem setChildren_same (s : TransactionState) (p : ComponentPtr)
    (l : List (Option ComponentPtr)) :
    ((s.setChildren p l).component p).AttachChildren = l := by
  show (Function.update s.component p _ p).AttachChildren = l
  rw [Function.update_same]

theorem setChildren_AttachParent (s : TransactionState) (p x : ComponentPtr)
    (l : List (Option ComponentPtr)) :
    ((s.setChildren p l).component x).AttachParent = (s.component x).AttachParent := by
  show (Function.update s.component p _ x).AttachParent = _
  by_cases hx : x = p
  · subst hx; rw [Function.update_same]
  · rw [Function.update_noteq hx]

theorem drop_eraseIdx_self {α : Type} (l : List α) (i : Nat) :
    (l.eraseIdx i).drop i = l.drop (i + 1) := by
  induction l generalizing i with
  | nil => simp
  | cons x xs ih =>
    cases i with
    | zero => simp
    | succ j => simp [ih]

theorem FixChildren_spec (p : ComponentPtr) :
    ∀ (i : Nat) (s : TransactionState), i ≤ (s.component p).AttachChildren.length →
      some p ∉ (s.component p).AttachChildren →
      (∀ e ∈ (s.component p).AttachChildren.drop i,
        ∃ c, e = some c ∧ (s.component c).AttachParent = some p) →
      RepairStep s (FixChildren p i s) ∧ ChildrenSound (FixChildren p i s) p := by
  intro i
  induction i with
  | zero =>
    intro s _ _ h
    exact ⟨RepairStep.refl_repair s, fun e he => h e (by simpa using he)⟩
  | succ i ih =>
    intro s hi hself h
    have hlt : i < (s.component p).AttachChildren.length := hi
    rw [FixChildren, List.getElem?_eq_getElem hlt]
    dsimp only
    have hmem : (s.component p).AttachChildren[i] ∈ (s.component p).AttachChildren :=
      List.getElem_mem hlt
    split
    · -- the entry is removed
      rename_i hbad
      obtain ⟨s1, hs1⟩ : ∃ s1, s1 = s.setChildren p ((s.component p).AttachChildren.eraseIdx i) :=
        ⟨_, rfl⟩
      rw [← hs1]
      have hstep1 : RepairStep s s1 := by
        rw [hs1]
        exact RepairStep.setChildren_repair s p _ (fun e he => List.mem_of_mem_eraseIdx he)
      have hl1 : (s1.component p).AttachChildren = (s.component p).AttachChildren.eraseIdx i := by
        rw [hs1, setChildren_same]
      have hp1 : ∀ x, (s1.component x).AttachParent = (s.component x).AttachParent := by
        intro x; rw [hs1, setChildren_AttachParent]
      -- what the recursive call needs of a state `s2` reached from `s1`
      have hrec : ∀ s2, RepairStep s1 s2 →
          (s2.component p).AttachChildren = (s1.component p).AttachChildren →
          (∀ x, (s1.component x).AttachParent = some p →
            (s2.component x).AttachParent = some p) →
          RepairStep s (FixChildren p i s2) ∧ ChildrenSound (FixChildren p i s2) p := by
        intro s2 hstep2 hl2 hp2
        have hlen : i ≤ (s2.component p).AttachChildren.length := by
          rw [hl2, hl1, List.length_eraseIdx, if_pos hlt]
          omega
        have hself2 : some p ∉ (s2.component p).AttachChildren := by
          intro hm
          rw [hl2, hl1] at hm
          exact hself (List.mem_of_mem_eraseIdx hm)
        have hdrop : ∀ e ∈ (s2.component p).AttachChildren.drop i,
            ∃ c, e = some c ∧ (s2.component c).AttachParent = some p := by
          intro e he
          rw [hl2, hl1, drop_eraseIdx_self] at he
          obtain ⟨c, hc1, hc2⟩ := h e he
          exact ⟨c, hc1, hp2 c (by rw [hp1]; exact hc2)⟩
        obtain ⟨r1, r2⟩ := ih s2 hlen hself2 hdrop
        exact ⟨(hstep1.trans_repair hstep2).trans_repair r1, r2⟩
      cases hch : (s.component p).AttachChildren[i] with
      | none => exact hrec s1 (RepairStep.refl_repair s1) rfl (fun _ hx => hx)
      | some child =>
        dsimp only
        have hcp : child ≠ p := by
          intro hcp
          rw [hch, hcp] at hmem
          exact hself hmem
        split
        · rename_i hcond
          simp only [Bool.and_eq_true, decide_eq_true_eq] at hcond
          have hnone : (s1.component child).AttachParent = none := hcond.1.2
          refine hrec _ (RepairStep.DestroyComponent_repair s1 child hnone) ?_ ?_
          · exact DestroyComponent_AttachChildren s1 child p (Ne.symm hcp)
          · intro x hx
            exact DestroyComponent_AttachParent s1 child x p hnone (Ne.symm hcp) hx
        · exact hrec s1 (RepairStep.refl_repair s1) rfl (fun _ hx => hx)
    · -- the entry stays
      rename_i hgood
      apply ih s (Nat.le_of_lt hlt) hself
      intro e he
      rw [List.drop_eq_getElem_cons hlt] at he
      rcases List.mem_cons.1 he with he1 | he1
      · cases hch : (s.component p).AttachChildren[i] with
        | none => rw [hch] at hgood; simp at hgood
        | some child =>
          rw [hch] at hgood
          simp only [ne_eq, decide_not, Bool.not_eq_true', decide_eq_false_iff_not,
            Decidable.not_not] at hgood
          exact ⟨child, by rw [he1, hch], hgood⟩
      · exact h e he1


theorem FixParent_spec (s : TransactionState) (p : ComponentPtr)
    (hself : some p ∉ (s.component p).AttachChildren) :
    RepairStep s (FixParent s p) ∧ ChildrenSound (FixParent s p) p := by
  unfold FixParent
  refine FixChildren_spec p _ s le_rfl hself ?_
  intro e he
  rw [List.drop_length] at he
  cases he

theorem FixParent_foldl :
    ∀ (parents : List ComponentPtr) (s : TransactionState),
      (∀ p ∈ parents, some p ∉ (s.component p).AttachChildren) →
      RepairStep s (parents.foldl FixParent s) ∧
        ∀ p ∈ parents, ChildrenSound (parents.foldl FixParent s) p := by
  intro parents
  induction parents with
  | nil => intro s _; exact ⟨RepairStep.refl_repair s, fun p hp => by cases hp⟩
  | cons p rest ih =>
    intro s h
    obtain ⟨h1, h2⟩ := FixParent_spec s p (h p (List.mem_cons_self _ _))
    have hrest : ∀ q ∈ rest, some q ∉ ((FixParent s p).component q).AttachChildren :=
      fun q hq hm => h q (List.mem_cons_of_mem _ hq) (h1.subset q _ hm)
    obtain ⟨i1, i2⟩ := ih (FixParent s p) hrest
    rw [List.foldl_cons]
    refine ⟨h1.trans_repair i1, ?_⟩
    intro q hq
    rcases List.mem_cons.1 hq with hq1 | hq1
    · rw [hq1]; exact i1.sound p h2
    · exact i2 q hq1

theorem RestoreChild_spec (s : TransactionState) (c : ComponentPtr) :
    (RestoreChild s c).fault = s.fault ∧
      (∀ x, ((RestoreChild s c).component x).AttachParent = (s.component x).AttachParent) ∧
      (∀ q e, e ∈ (s.component q).AttachChildren →
        e ∈ ((RestoreChild s c).component q).AttachChildren) ∧
      (∀ q, ChildrenSound s q → ChildrenSound (RestoreChild s c) q) ∧
      ListedByParent (RestoreChild s c) c := by
  unfold RestoreChild
  cases hp : (s.component c).AttachParent with
  | none =>
    refine ⟨rfl, fun _ => rfl, fun _ _ h => h, fun _ h => h, ?_⟩
    intro p h
    rw [hp] at h
    cases h
  | some parent =>
    dsimp only
    by_cases hin : (s.component parent).AttachChildren.contains (some c) = true
    · rw [if_neg (by rw [hin]; decide)]
      refine ⟨rfl, fun _ => rfl, fun _ _ h => h, fun _ h => h, ?_⟩
      intro p h
      rw [hp] at h
      cases h
      exact List.elem_iff.1 hin
    · rw [if_pos (by rw [Bool.not_eq_true] at hin; rw [hin]; decide)]
      have hlist : ∀ q e, e ∈ (s.component q).AttachChildren →
          e ∈ ((s.setChildren parent
            ((s.component parent).AttachChildren ++ [some c])).component q).AttachChildren := by
        intro q e he
        by_cases hq : q = parent
        · subst hq
          rw [setChildren_same]
          exact List.mem_append_left _ he
        · show e ∈ (Function.update s.component parent _ q).AttachChildren
          rw [Function.update_noteq hq]
          exact he
      refine ⟨rfl, fun x => setChildren_AttachParent s parent x _, hlist, ?_, ?_⟩
      · intro q hq e he
        by_cases hqp : q = parent
        · subst hqp
          rw [setChildren_same] at he
          rcases List.mem_append.1 he with he1 | he1
          · obtain ⟨x, hx1, hx2⟩ := hq e he1
            exact ⟨x, hx1, by rw [setChildren_AttachParent]; exact hx2⟩
          · rw [List.mem_singleton.1 he1]
            exact ⟨c, rfl, by rw [setChildren_AttachParent]; exact hp⟩
        · have : ((s.setChildren parent
              ((s.component parent).AttachChildren ++ [some c])).component q).AttachChildren =
              (s.component q).AttachChildren := by
            show (Function.update s.component parent _ q).AttachChildren = _
            rw [Function.update_noteq hqp]
          rw [this] at he
          obtain ⟨x, hx1, hx2⟩ := hq e he
          exact ⟨x, hx1, by rw [setChildren_AttachParent]; exact hx2⟩
      · intro p h
        rw [setChildren_AttachParent, hp] at h
        cases h
        rw [setChildren_same]
        exact List.mem_append_right _ (List.mem_singleton.2 rfl)

theorem RestoreChild_foldl :
    ∀ (children : List ComponentPtr) (s : TransactionState),
      (children.foldl RestoreChild s).fault = s.fault ∧
        (∀ x, ((children.foldl RestoreChild s).component x).AttachParent =
          (s.component x).AttachParent) ∧
        (∀ q e, e ∈ (s.component q).AttachChildren →
          e ∈ ((children.foldl RestoreChild s).component q).AttachChildren) ∧
        (∀ q, ChildrenSound s q → ChildrenSound (children.foldl RestoreChild s) q) ∧
        ∀ c ∈ children, ListedByParent (children.foldl RestoreChild s) c := by
  intro children
  induction children with
  | nil =>
    intro s
    exact ⟨rfl, fun _ => rfl, fun _ _ h => h, fun _ h => h, fun c hc => by cases hc⟩
  | cons c rest ih =>
    intro s
    obtain ⟨h1, h2, h3, h4, h5⟩ := RestoreChild_spec s c
    obtain ⟨i1, i2, i3, i4, i5⟩ := ih (RestoreChild s c)
    rw [List.foldl_cons]
    refine ⟨i1.trans h1, fun x => (i2 x).trans (h2 x), fun q e he => i3 q e (h3 q e he),
      fun q hq => i4 q (h4 q hq), ?_⟩
    intro d hd
    rcases List.mem_cons.1 hd with hd1 | hd1
    · rw [hd1]
      intro p hp
      rw [i2] at hp
      exact i3 p _ (h5 p hp)
    · exact i5 d hd1

/-- C25.  After `FixTransactedComponentChildren`, the child list of every
component recorded in `m_parentsToCheck` has no null entry and holds only
components whose attach parent is that component, every component recorded in
`m_childrenToCheck` that has an attach parent is in the child list of that
parent, and both lists are empty; no array is read past its end.  No recorded
parent is taken to be an entry of its own child list. -/
theorem C25_snapshot_repair (s : TransactionState)
    (hself : ∀ p ∈ s.m_parentsToCheck, some p ∉ (s.component p).AttachChildren) :
    (∀ p ∈ s.m_parentsToCheck, ChildrenSound (FixTransactedComponentChildren s) p) ∧
      (∀ c ∈ s.m_childrenToCheck, ListedByParent (FixTransactedComponentChildren s) c) ∧
      (FixTransactedComponentChildren s).m_parentsToCheck = [] ∧
      (FixTransactedComponentChildren s).m_childrenToCheck = [] ∧
      (FixTransactedComponentChildren s).fault = s.fault := by
  obtain ⟨h1, h2⟩ := FixParent_foldl s.m_parentsToCheck s hself
  obtain ⟨i1, _, _, i4, i5⟩ :=
    RestoreChild_foldl s.m_childrenToCheck (s.m_parentsToCheck.foldl FixParent s)
  refine ⟨?_, ?_, rfl, rfl, ?_⟩
  · intro p hp
    exact i4 p (h2 p hp)
  · intro c hc
    exact i5 c hc
  · exact i1.trans h1.fault

/-- Witness of C25: in `C25_state` the null entry and component 3 leave the
child list of component 1, component 3 is destroyed, and component 4 enters the
list. -/
theorem C25_snapshot_repair_witness :
    ((FixTransactedComponentChildren C25_state).component 1).AttachChildren = [some 2, some 4] ∧
      ((FixTransactedComponentChildren C25_state).component 3).IsPendingKill = true ∧
      ChildrenSound (FixTransactedComponentChildren C25_state) 1 ∧
      ListedByParent (FixTransactedComponentChildren C25_state) 4 ∧
      (FixTransactedComponentChildren C25_state).fault = false := by
  have h := C25_snapshot_repair C25_state (by decide)
  exact ⟨by decide, by decide, h.1 1 (by decide), h.2.1 4 (by decide), h.2.2.2.2⟩

/-- C30 (failing input).  The title `Move Actors` is classified `Move`, and the
queue of the delayed BSP rebuild is idle.  `OnUndoRedo` on an empty transaction
sets `m_bspRebuildDelay` to 0 and calls `RebuildAlteredBSP` all the same: the
last operand of its condition is the enumerator `UndoType::MoveToLevel`, which
is 12 and so always true. -/
theorem C30_Move_rebuilds_BSP :
    ClassifyUndo "Move Actors" = UndoType.Move ∧
      ManagerState.empty.m_bspRebuildDelay = -1 ∧
      (OnUndoRedo ManagerState.empty "Move Actors" true (some [])).trace =
        [Effect.RebuildAlteredBSP] ∧
      (OnUndoRedo ManagerState.empty "Move Actors" true (some [])).m_bspRebuildDelay = 0 := by
  refine ⟨by decide, rfl, ?_, ?_⟩
  · decide
  · rfl

/-- The body of the loop of `OnUndoRedo` for a transition classified `Move` or
`Rotate`. -/
theorem OnUndoRedoActor_Move (isUndo : Bool) (s : ManagerState) (x : AActor) :
    OnUndoRedoActor UndoType.Move isUndo s x =
      OnUndoRedoMove s x (s.m_actorToObjectMap x) false := rfl

theorem OnUndoRedoActor_Rotate (isUndo : Bool) (s : ManagerState) (x : AActor) :
    OnUndoRedoActor UndoType.Rotate isUndo s x =
      OnUndoRedoMove s x (s.m_actorToObjectMap x) true := rfl

theorem NoSetOf.weaken_noset {P : Prop} {o : sfObject} {F : TransformField}
    {s t : ManagerState} (h : NoSetOf P o F s t) (P2 : Prop) (hp : P2 → P) :
    NoSetOf P2 o F s t := by
  obtain ⟨e, he, hl⟩ := h
  exact ⟨e, he, fun h2 => hl (hp h2)⟩

theorem Apart.ite_apart {P : Prop} {a : AActor} {o : sfObject} {F : TransformField}
    {s t u : ManagerState} (c : Prop) [Decidable c] (h1 : Apart P a o F s t)
    (h2 : Apart P a o F s u) : Apart P a o F s (if c then t else u) := by
  split
  · exact h1
  · exact h2

/-- The run of the example: the first tick issues the `Set` of the location twice,
for the actor that is being moved and for the queued change, and the `Set` of the
label for each of its two entries in the label queue; the second tick issues
nothing; no null pointer is read. -/
theorem C5_busy_state_run :
    (Tick 2 (OnUPropertyChange C5_busy_state (some 1) (some "RelativeLocation")) 0).trace =
        [Effect.PropertySet 5 sfProp.Location, Effect.PropertySet 5 sfProp.Location,
          Effect.PropertySet 5 sfProp.Label, Effect.PropertySet 5 sfProp.Label] ∧
      (Tick 2 (Tick 2 (OnUPropertyChange C5_busy_state (some 1) (some "RelativeLocation")) 0)
        0).trace =
        [Effect.PropertySet 5 sfProp.Location, Effect.PropertySet 5 sfProp.Location,
          Effect.PropertySet 5 sfProp.Label, Effect.PropertySet 5 sfProp.Label] ∧
      (Tick 2 (Tick 2 (OnUPropertyChange C5_busy_state (some 1) (some "RelativeLocation")) 0)
        0).fault = false := by
  decide

end SceneFusion
